import Mathlib

/-! Session server of the tag game (`Server/Code/GameServer.cpp`).

A shallow embedding of `GameServer` and of the parts of its collaborators that it
calls, followed by theorems about it.

Conventions of the embedding.

* A `float` is a `Float32`: `+` and `*` round to nearest, ties to even, and comparisons with
  a NaN are false. Time stamps, which are only copied, are rationals.
* `unsigned char`, `unsigned short` and `unsigned int` variables are naturals, reduced
  modulo `2^8` or `2^32` at the assignments where the source narrows or increments them;
  the `unsigned short` member `m_itPlayerID` is only ever assigned a session id.
* A `ClientInfo*` is the position of the session in `m_clientList`; `nullptr` is `none`.
* The outside world (socket, clock, random generator) is the `Platform` record, which every
  function that talks to it takes and returns.
* A function that can end the process returns `Except Halt`; a loop whose termination is not
  evident from its shape takes a fuel argument.
-/

set_option autoImplicit false

/-! ## Values of type `float` -/

/-- A value of the type `float`, the 32-bit binary format of IEEE 754: a finite value, given
by the rational it stands for, an infinity or a NaN. The two zeros are one value and all NaNs
are one value; the server never tells them apart. A `finite` value outside the format stands
for no `float`; `Float32.IsValue` tells the values of the format, and every operation returns
one. -/
inductive Float32 where
  | finite (value : ℚ)
  | posInf
  | negInf
  | nan
  deriving DecidableEq

/-- Position of the leading binary digit of `n`, for `n` at most `2 ^ fuel`. -/
def Float32.leadingBit : Nat → Nat → Nat
  | 0, _ => 0
  | fuel + 1, n => if n < 2 then 0 else Float32.leadingBit fuel (n / 2) + 1

/-- The integer nearest to `numerator / denominator`, the even one of two that are equally
near. -/
def Float32.nearestEven (numerator denominator : Nat) : Nat :=
  let quotient := numerator / denominator
  let twice := 2 * (numerator % denominator)
  if twice < denominator then quotient
  else if denominator < twice then quotient + 1
  else if quotient % 2 = 0 then quotient
  else quotient + 1

/-- Rounding of the positive rational `numerator / denominator` to the format, to nearest
with ties to even: the magnitude of the result, `none` when it is beyond the largest finite
value. The significand has 24 binary digits and the least exponent is `-126`, below which
the values are the subnormal ones. -/
def Float32.roundMagnitude (numerator denominator : Nat) : Option ℚ :=
  let estimate : Int :=
    (Float32.leadingBit numerator numerator : Int) - Float32.leadingBit denominator denominator
  let reached : Bool :=
    if 0 ≤ estimate then decide (denominator * 2 ^ estimate.toNat ≤ numerator)
    else decide (denominator ≤ numerator * 2 ^ (-estimate).toNat)
  let exponent : Int := if reached then estimate else estimate - 1
  let unit : Int := max exponent (-126) - 23
  let rounded : ℚ :=
    if 0 ≤ unit then
      ((Float32.nearestEven numerator (denominator * 2 ^ unit.toNat) * 2 ^ unit.toNat : Nat) : ℚ)
    else
      mkRat (Float32.nearestEven (numerator * 2 ^ (-unit).toNat) denominator)
        (2 ^ (-unit).toNat)
  if rounded < 2 ^ 128 then some rounded else none

/-- Rounding of a rational to the format: the result of an operation whose exact result is
`exact`. -/
def Float32.round (exact : ℚ) : Float32 :=
  if exact = 0 then Float32.finite 0
  else
    match Float32.roundMagnitude exact.num.natAbs exact.den with
    | some magnitude => Float32.finite (if exact < 0 then -magnitude else magnitude)
    | none => if exact < 0 then Float32.negInf else Float32.posInf

/-- Operator `+` on `float`. -/
def Float32.add : Float32 → Float32 → Float32
  | Float32.finite a, Float32.finite b => Float32.round (a + b)
  | Float32.nan, _ => Float32.nan
  | _, Float32.nan => Float32.nan
  | Float32.posInf, Float32.negInf => Float32.nan
  | Float32.negInf, Float32.posInf => Float32.nan
  | Float32.posInf, _ => Float32.posInf
  | _, Float32.posInf => Float32.posInf
  | Float32.negInf, _ => Float32.negInf
  | _, Float32.negInf => Float32.negInf

/-- Operator `*` on `float`. -/
def Float32.mul : Float32 → Float32 → Float32
  | Float32.finite a, Float32.finite b => Float32.round (a * b)
  | Float32.nan, _ => Float32.nan
  | _, Float32.nan => Float32.nan
  | Float32.finite a, Float32.posInf =>
    if a = 0 then Float32.nan else if 0 < a then Float32.posInf else Float32.negInf
  | Float32.finite a, Float32.negInf =>
    if a = 0 then Float32.nan else if 0 < a then Float32.negInf else Float32.posInf
  | Float32.posInf, Float32.finite b =>
    if b = 0 then Float32.nan else if 0 < b then Float32.posInf else Float32.negInf
  | Float32.negInf, Float32.finite b =>
    if b = 0 then Float32.nan else if 0 < b then Float32.negInf else Float32.posInf
  | Float32.posInf, Float32.posInf => Float32.posInf
  | Float32.negInf, Float32.negInf => Float32.posInf
  | Float32.posInf, Float32.negInf => Float32.negInf
  | Float32.negInf, Float32.posInf => Float32.negInf

/-- Operator `<` on `float`; a comparison with a NaN is false. -/
def Float32.less : Float32 → Float32 → Bool
  | Float32.finite a, Float32.finite b => decide (a < b)
  | Float32.nan, _ => false
  | _, Float32.nan => false
  | Float32.negInf, Float32.negInf => false
  | Float32.negInf, _ => true
  | _, Float32.negInf => false
  | Float32.posInf, _ => false
  | Float32.finite _, Float32.posInf => true

instance Float32.instAdd : Add Float32 := ⟨Float32.add⟩

instance Float32.instMul : Mul Float32 := ⟨Float32.mul⟩

instance Float32.instLT : LT Float32 := ⟨fun a b => Float32.less a b = true⟩

instance Float32.decidableLT (a b : Float32) : Decidable (a < b) :=
  inferInstanceAs (Decidable (Float32.less a b = true))

instance Float32.instOfNat (n : Nat) : OfNat Float32 n := ⟨Float32.finite n⟩

/-- The value is one of the format: rounding leaves it as it is. -/
def Float32.IsValue : Float32 → Prop
  | Float32.finite value => Float32.round value = Float32.finite value
  | _ => True

instance Float32.decidableIsValue (x : Float32) : Decidable x.IsValue :=
  match x with
  | Float32.finite value =>
    inferInstanceAs (Decidable (Float32.round value = Float32.finite value))
  | Float32.posInf => isTrue trivial
  | Float32.negInf => isTrue trivial
  | Float32.nan => isTrue trivial

/-! ## Wire packet (`Common/Game/MidtermPacket.hpp`) -/

/-- Kind field of a packet. The enumerators are the ones `GameServer.cpp` names; every other
value the field can hold on the wire is `TYPE_Unrecognized`. -/
inductive PacketType where
  | TYPE_Join
  | TYPE_Update
  | TYPE_Acknowledgement
  | TYPE_Touch
  | TYPE_Reset
  | TYPE_Unrecognized (raw : Nat)
  deriving DecidableEq

/-- View `data.updated` of the payload. -/
structure UpdatedData where
  xPosition : Float32
  yPosition : Float32
  xVelocity : Float32
  yVelocity : Float32
  orientationDegrees : Float32
  deriving DecidableEq

/-- View `data.touch` of the payload. -/
structure TouchData where
  instigatorID : Nat
  receiverID : Nat
  deriving DecidableEq

/-- View `data.acknowledged` of the payload. -/
structure AcknowledgedData where
  packetNumber : Nat
  deriving DecidableEq

/-- View `data.reset` of the payload. -/
structure ResetData where
  itPlayerID : Nat
  xPosition : Float32
  yPosition : Float32
  xVelocity : Float32
  yVelocity : Float32
  orientationDegrees : Float32
  deriving DecidableEq

/-- Payload of a packet. The source overlays the four views in one union and reads, for a
packet of a given kind, only the view of that kind; here the views are independent fields,
which covers every byte pattern the union can hold. -/
structure PacketData where
  updated : UpdatedData
  touch : TouchData
  acknowledged : AcknowledgedData
  reset : ResetData
  deriving DecidableEq

/-- Modelled from the spec: the declaration of `MidtermPacket` is in `MidtermPacket.hpp`, which
is not among the sources. The fields are those `GameServer.cpp` reads and writes: kind, session
id, sequence number, send timestamp and payload. -/
structure MidtermPacket where
  type : PacketType
  clientID : Nat
  number : Nat
  timestamp : ℚ
  data : PacketData
  deriving DecidableEq

/-- Payload of a packet object on which no view has been written yet. -/
def PacketData.blank : PacketData :=
  { updated := ⟨0, 0, 0, 0, 0⟩, touch := ⟨0, 0⟩, acknowledged := ⟨0⟩, reset := ⟨0, 0, 0, 0, 0, 0⟩ }

/-- Modelled from the spec: `MidtermPacket::IsGuaranteed` is declared in `MidtermPacket.hpp`.
The classification is a function of the kind alone; Reset is guaranteed, Update and
Acknowledgement are not, and of the kinds a server sends only Reset is guaranteed. -/
def MidtermPacket.IsGuaranteed (packet : MidtermPacket) : Bool :=
  match packet.type with
  | PacketType.TYPE_Reset => true
  | _ => false

/-- Modelled from the spec: `PacketComparer` is declared in `MidtermPacket.hpp`; the in-flight
collection is ordered by sequence number. -/
def PacketComparer (a b : MidtermPacket) : Bool :=
  decide (a.number < b.number)

/-- `std::set< MainPacketType, PacketComparer >::insert` on the set kept as the list of its
elements in comparer order: an element equivalent to one already stored is not inserted. -/
def setInsert (packet : MidtermPacket) : List MidtermPacket → List MidtermPacket
  | [] => [packet]
  | stored :: rest =>
    if PacketComparer packet stored then packet :: stored :: rest
    else if PacketComparer stored packet then stored :: setInsert packet rest
    else stored :: rest

/-- Representation invariant of the set: strictly increasing in comparer order. -/
def IsPacketSet (packets : List MidtermPacket) : Prop :=
  packets.Pairwise (fun a b => a.number < b.number)

instance IsPacketSet.decidable (packets : List MidtermPacket) : Decidable (IsPacketSet packets) :=
  List.instDecidablePairwise packets

/-- Kind, session id, sequence number and payload of a packet: everything but the timestamp. -/
def MidtermPacket.content (packet : MidtermPacket) : PacketType × Nat × Nat × PacketData :=
  (packet.type, packet.clientID, packet.number, packet.data)

/-! ## Sessions and server state (`GameServer.hpp`) -/

/-- Record `ClientInfo`, with the transform members `GameServer.cpp` uses. The room members
(`currentRoom`, `ownsCurrentRoom`, `ownedPlayer`) are never read or written and are left out. -/
structure ClientInfo where
  id : Nat
  ipAddress : String
  portNumber : Nat
  currentPacketNumber : Nat
  unacknowledgedPackets : List MidtermPacket
  secondsSinceLastReceivedPacket : Float32
  xPosition : Float32
  yPosition : Float32
  xVelocity : Float32
  yVelocity : Float32
  orientationDegrees : Float32
  deriving DecidableEq

/-- Data members of `GameServer` other than the socket. -/
structure GameServer where
  m_nextClientID : Nat
  m_clientList : List ClientInfo
  m_itPlayerID : Nat
  deriving DecidableEq

/-- State left by the constructor `GameServer()`. -/
def GameServer.fresh : GameServer :=
  { m_nextClientID := 1, m_clientList := [], m_itPlayerID := 0 }

/-- Constant `SECONDS_BEFORE_CLIENT_TIMES_OUT`. -/
def SECONDS_BEFORE_CLIENT_TIMES_OUT : Float32 := 5

/-! ## The outside world -/

/-- A datagram with the peer address it comes from or goes to. -/
structure Datagram where
  packet : MidtermPacket
  ipAddress : String
  portNumber : Nat
  deriving DecidableEq

/-- Modelled from the spec: `UDPSocket`, `GetCurrentTimeSeconds` and
`GetRandomFloatBetweenZeroandOne` are declared in headers that are not among the sources.
The socket is a queue of pending inbound datagrams and a log of the datagrams handed to
`SendBuffer`; the results of the successive calls to `SendBuffer`, to the clock and to the
random generator are given by three sequences. -/
structure Platform where
  pending : List Datagram
  sent : List Datagram
  sendResults : Nat → Int
  clock : Nat → ℚ
  clockReads : Nat
  randomFloats : Nat → Float32
  randomCalls : Nat

/-- Ways the server process ends: `exit( -42 )` after a failed send, and the use of a null
`ClientInfo*`. -/
inductive Halt where
  | sendFailure
  | nullDereference
  deriving DecidableEq

/-- Outcome of a loop run with fuel. -/
inductive Run (α : Type) where
  | finished (result : α)
  | halted (cause : Halt)
  | outOfFuel

/-- Reads the clock: `GetCurrentTimeSeconds()`. -/
def GetCurrentTimeSeconds (w : Platform) : ℚ × Platform :=
  (w.clock w.clockReads, { w with clockReads := w.clockReads + 1 })

/-- Draws a number: `GetRandomFloatBetweenZeroandOne()`. -/
def GetRandomFloatBetweenZeroandOne (w : Platform) : Float32 × Platform :=
  (w.randomFloats w.randomCalls, { w with randomCalls := w.randomCalls + 1 })

/-- Call `m_serverSocket.SendBuffer`: the datagram is logged and the result of this call is
read off the sequence of results. -/
def SendBuffer (w : Platform) (packet : MidtermPacket) (ipAddress : String) (portNumber : Nat) :
    Int × Platform :=
  (w.sendResults w.sent.length, { w with sent := w.sent ++ [⟨packet, ipAddress, portNumber⟩] })

/-- Call `m_serverSocket.GetNumberOfBytesInNetworkQueue`, in units of one packet: positive
exactly when a datagram is pending. -/
def GetNumberOfBytesInNetworkQueue (w : Platform) : Nat :=
  w.pending.length

/-- Local variables of `ProcessNetworkQueue` that `ReceiveBuffer` writes. -/
structure Received where
  receivedIPAddress : String
  receivedPort : Nat
  receivedPacket : MidtermPacket
  deriving DecidableEq

/-- Call `m_serverSocket.ReceiveBuffer` in non-blocking mode: the oldest pending datagram is
taken off the queue and written to the locals; with nothing pending the call returns no data
and the locals keep what they held. -/
def ReceiveBuffer (w : Platform) (locals : Received) : Platform × Received :=
  match w.pending with
  | [] => (w, locals)
  | d :: rest => ({ w with pending := rest }, ⟨d.ipAddress, d.portNumber, d.packet⟩)

/-- Locals of `ProcessNetworkQueue` before the first receive. -/
def Received.unset : Received :=
  { receivedIPAddress := "", receivedPort := 0,
    receivedPacket := ⟨PacketType.TYPE_Unrecognized 0, 0, 0, 0, PacketData.blank⟩ }

/-! ## Server helper functions (`GameServer.cpp`) -/

/-- Function `GameServer::SendPacketToClient`. The flag `stored` tells that `packet` is a
reference to an element of `client->unacknowledgedPackets` (the resend sweep passes
`*unackedPacket`), so that the timestamp is written into the stored element. -/
def SendPacketToClient (w : Platform) (packet : MidtermPacket) (client : ClientInfo)
    (stored : Bool) : Except Halt (Platform × ClientInfo) :=
  let (now, w1) := GetCurrentTimeSeconds w
  let packet1 := { packet with timestamp := now }
  let client1 :=
    if stored then
      { client with
        unacknowledgedPackets :=
          client.unacknowledgedPackets.map
            (fun element => if element.number = packet.number then packet1 else element) }
    else client
  let (sendResult, w2) := SendBuffer w1 packet1 client1.ipAddress client1.portNumber
  if sendResult < 0 then
    Except.error Halt.sendFailure
  else if packet1.IsGuaranteed then
    Except.ok (w2, { client1 with
      unacknowledgedPackets := setInsert packet1 client1.unacknowledgedPackets })
  else
    Except.ok (w2, client1)

/-- Function `GameServer::AddNewClient`: the new session is appended and its position is
returned. The id is an `unsigned char` assigned from the `unsigned int` counter. The members
the constructor leaves unset are zero here; `ResetClient` overwrites them right after. -/
def AddNewClient (s : GameServer) (ipAddress : String) (portNumber : Nat) : GameServer × Nat :=
  let newClient : ClientInfo :=
    { id := s.m_nextClientID % 2 ^ 8
      ipAddress := ipAddress
      portNumber := portNumber
      currentPacketNumber := 1
      unacknowledgedPackets := []
      secondsSinceLastReceivedPacket := 0
      xPosition := 0
      yPosition := 0
      xVelocity := 0
      yVelocity := 0
      orientationDegrees := 0 }
  ({ s with
      m_clientList := s.m_clientList ++ [newClient]
      m_nextClientID := (s.m_nextClientID + 1) % 2 ^ 32 },
   s.m_clientList.length)

/-- Function `GameServer::FindClientByAddress`: position of the first session with that
address, `none` for `nullptr`. -/
def FindClientByAddress : List ClientInfo → String → Nat → Option Nat
  | [], _, _ => none
  | client :: rest, ipAddress, portNumber =>
    if client.ipAddress = ipAddress ∧ client.portNumber = portNumber then some 0
    else (FindClientByAddress rest ipAddress portNumber).map (· + 1)

/-- Function `GameServer::FindClientByID`: position of the first session with that id, `none`
for `nullptr`. The ids that packets carry are taken to fit the `unsigned short` parameter. -/
def FindClientByID : List ClientInfo → Nat → Option Nat
  | [], _ => none
  | client :: rest, clientID =>
    if client.id = clientID then some 0
    else (FindClientByID rest clientID).map (· + 1)

/-- Function `GameServer::ResetClient` on the session `client` points to; of the server's
members it reads and writes `m_itPlayerID` only, which is passed and returned. -/
def ResetClient (w : Platform) (m_itPlayerID : Nat) (client : ClientInfo) :
    Except Halt (Platform × Nat × ClientInfo) :=
  let itPlayerID := if m_itPlayerID = 0 then client.id else m_itPlayerID
  let (randomX, w1) := GetRandomFloatBetweenZeroandOne w
  let (yPosition, w2) :=
    if client.id = itPlayerID then ((0 : Float32), w1)
    else
      let (randomY, w') := GetRandomFloatBetweenZeroandOne w1
      (randomY * 600, w')
  let client1 :=
    { client with
      xPosition := randomX * 600
      yPosition := yPosition
      xVelocity := 0
      yVelocity := 0
      orientationDegrees := 0 }
  let resetPacket : MidtermPacket :=
    { type := PacketType.TYPE_Reset
      clientID := client1.id
      number := client1.currentPacketNumber
      timestamp := 0
      data :=
        { PacketData.blank with
          reset :=
            { itPlayerID := itPlayerID
              xPosition := client1.xPosition
              yPosition := client1.yPosition
              xVelocity := client1.xVelocity
              yVelocity := client1.yVelocity
              orientationDegrees := client1.orientationDegrees } } }
  let client2 :=
    { client1 with currentPacketNumber := (client1.currentPacketNumber + 1) % 2 ^ 32 }
  match SendPacketToClient w2 resetPacket client2 false with
  | Except.error cause => Except.error cause
  | Except.ok (w3, client3) => Except.ok (w3, itPlayerID, client3)

/-- Loop of `HandleTouchAndResetGame`: `ResetClient( m_clientList[ i ] )` for every position
in turn. -/
def resetEachClient (w : Platform) (m_itPlayerID : Nat) :
    List ClientInfo → Except Halt (Platform × Nat × List ClientInfo)
  | [] => Except.ok (w, m_itPlayerID, [])
  | client :: rest =>
    match ResetClient w m_itPlayerID client with
    | Except.error cause => Except.error cause
    | Except.ok (w1, itPlayerID1, client1) =>
      match resetEachClient w1 itPlayerID1 rest with
      | Except.error cause => Except.error cause
      | Except.ok (w2, itPlayerID2, rest1) => Except.ok (w2, itPlayerID2, client1 :: rest1)

/-- Function `GameServer::HandleTouchAndResetGame`. Both lookups are used by the `printf`
without a null test. -/
def HandleTouchAndResetGame (w : Platform) (s : GameServer) (touchPacket : MidtermPacket) :
    Except Halt (Platform × GameServer) :=
  match FindClientByID s.m_clientList touchPacket.data.touch.receiverID,
        FindClientByID s.m_clientList touchPacket.data.touch.instigatorID with
  | some itPlayer, some touchingPlayer =>
    match s.m_clientList[itPlayer]?, s.m_clientList[touchingPlayer]? with
    | some _, some touching =>
      match resetEachClient w touching.id s.m_clientList with
      | Except.error cause => Except.error cause
      | Except.ok (w1, itPlayerID, clients) =>
        Except.ok (w1, { s with m_clientList := clients, m_itPlayerID := itPlayerID })
    | _, _ => Except.error Halt.nullDereference
  | _, _ => Except.error Halt.nullDereference

/-- Function `GameServer::ReceiveUpdateFromClient` on the session `client` points to. -/
def ReceiveUpdateFromClient (updatePacket : MidtermPacket) (client : ClientInfo) : ClientInfo :=
  { client with
    xPosition := updatePacket.data.updated.xPosition
    yPosition := updatePacket.data.updated.yPosition
    xVelocity := updatePacket.data.updated.xVelocity
    yVelocity := updatePacket.data.updated.yVelocity
    orientationDegrees := updatePacket.data.updated.orientationDegrees }

/-- Loop of `RemoveAcknowledgedPacketFromClientQueue` over the in-flight set: the first
element with the acknowledged number is erased and the function returns. -/
def eraseAcknowledged (packetNumber : Nat) : List MidtermPacket → List MidtermPacket
  | [] => []
  | unackedPacket :: rest =>
    if unackedPacket.number = packetNumber then rest
    else unackedPacket :: eraseAcknowledged packetNumber rest

/-- Function `GameServer::RemoveAcknowledgedPacketFromClientQueue`. The session is looked up
by the id the packet carries, and the result is used without a null test. -/
def RemoveAcknowledgedPacketFromClientQueue (s : GameServer) (ackPacket : MidtermPacket) :
    Except Halt GameServer :=
  match FindClientByID s.m_clientList ackPacket.clientID with
  | none => Except.error Halt.nullDereference
  | some acknowledgingClient =>
    match s.m_clientList[acknowledgingClient]? with
    | none => Except.error Halt.nullDereference
    | some client =>
      Except.ok { s with
        m_clientList := s.m_clientList.set acknowledgingClient
          { client with
            unacknowledgedPackets :=
              eraseAcknowledged ackPacket.data.acknowledged.packetNumber
                client.unacknowledgedPackets } }

/-- Inner loop of `BroadcastGameStateToClients`: the packet is numbered from each receiving
session's counter and sent to it. -/
def sendUpdateToEachClient (w : Platform) (updatePacket : MidtermPacket) :
    List ClientInfo → Except Halt (Platform × List ClientInfo)
  | [] => Except.ok (w, [])
  | receivingClient :: rest =>
    let numbered := { updatePacket with number := receivingClient.currentPacketNumber }
    let receivingClient1 :=
      { receivingClient with
        currentPacketNumber := (receivingClient.currentPacketNumber + 1) % 2 ^ 32 }
    match SendPacketToClient w numbered receivingClient1 false with
    | Except.error cause => Except.error cause
    | Except.ok (w1, receivingClient2) =>
      match sendUpdateToEachClient w1 updatePacket rest with
      | Except.error cause => Except.error cause
      | Except.ok (w2, rest1) => Except.ok (w2, receivingClient2 :: rest1)

/-- Update packet `BroadcastGameStateToClients` builds for a session, before it is numbered. -/
def updatePacketFor (broadcastedClient : ClientInfo) : MidtermPacket :=
  { type := PacketType.TYPE_Update
    clientID := broadcastedClient.id
    number := 0
    timestamp := 0
    data :=
      { PacketData.blank with
        updated :=
          { xPosition := broadcastedClient.xPosition
            yPosition := broadcastedClient.yPosition
            xVelocity := broadcastedClient.xVelocity
            yVelocity := broadcastedClient.yVelocity
            orientationDegrees := broadcastedClient.orientationDegrees } } }

/-- Outer loop of `BroadcastGameStateToClients` from position `i`, with `remaining` positions
to go. -/
def broadcastFrom (w : Platform) (clients : List ClientInfo) (i : Nat) :
    Nat → Except Halt (Platform × List ClientInfo)
  | 0 => Except.ok (w, clients)
  | remaining + 1 =>
    match clients[i]? with
    | none => Except.ok (w, clients)
    | some broadcastedClient =>
      match sendUpdateToEachClient w (updatePacketFor broadcastedClient) clients with
      | Except.error cause => Except.error cause
      | Except.ok (w1, clients1) => broadcastFrom w1 clients1 (i + 1) remaining

/-- Function `GameServer::BroadcastGameStateToClients`. -/
def BroadcastGameStateToClients (w : Platform) (s : GameServer) :
    Except Halt (Platform × GameServer) :=
  match broadcastFrom w s.m_clientList 0 s.m_clientList.length with
  | Except.error cause => Except.error cause
  | Except.ok (w1, clients) => Except.ok (w1, { s with m_clientList := clients })

/-! ## The network phase -/

/-- Body of the `while` loop of `ProcessNetworkQueue` after the receive: the datagram in the
locals is dispatched. The flag returned is `false` when the body leaves by `continue`, which
skips the refresh of `numberOfBytesInNetworkQueue` at its end, and `true` when it runs to
its end. -/
def dispatchReceived (w : Platform) (s : GameServer) (receivedIPAddress : String)
    (receivedPort : Nat) (receivedPacket : MidtermPacket) :
    Except Halt (Platform × GameServer × Bool) :=
  match FindClientByAddress s.m_clientList receivedIPAddress receivedPort with
  | none =>
    if receivedPacket.type ≠ PacketType.TYPE_Join then
      Except.ok (w, s, false)
    else
      let (s1, receivedClient) := AddNewClient s receivedIPAddress receivedPort
      match s1.m_clientList[receivedClient]? with
      | none => Except.error Halt.nullDereference
      | some client =>
        match ResetClient w s1.m_itPlayerID client with
        | Except.error cause => Except.error cause
        | Except.ok (w1, itPlayerID, client1) =>
          Except.ok (w1,
            { s1 with
              m_clientList := s1.m_clientList.set receivedClient client1
              m_itPlayerID := itPlayerID },
            false)
  | some receivedClient =>
    let handled : Except Halt (Platform × GameServer) :=
      match receivedPacket.type with
      | PacketType.TYPE_Acknowledgement =>
        match RemoveAcknowledgedPacketFromClientQueue s receivedPacket with
        | Except.error cause => Except.error cause
        | Except.ok s1 => Except.ok (w, s1)
      | PacketType.TYPE_Update =>
        match s.m_clientList[receivedClient]? with
        | none => Except.error Halt.nullDereference
        | some client =>
          Except.ok (w, { s with
            m_clientList :=
              s.m_clientList.set receivedClient (ReceiveUpdateFromClient receivedPacket client) })
      | PacketType.TYPE_Touch => HandleTouchAndResetGame w s receivedPacket
      | _ => Except.ok (w, s)
    match handled with
    | Except.error cause => Except.error cause
    | Except.ok (w1, s1) =>
      match s1.m_clientList[receivedClient]? with
      | none => Except.error Halt.nullDereference
      | some client =>
        Except.ok (w1,
          { s1 with
            m_clientList :=
              s1.m_clientList.set receivedClient
                { client with secondsSinceLastReceivedPacket := 0 } },
          true)

/-- The `while` loop of `ProcessNetworkQueue`. -/
def processNetworkLoop :
    Nat → Platform → GameServer → Received → Nat → Run (Platform × GameServer)
  | 0, _, _, _, _ => Run.outOfFuel
  | fuel + 1, w, s, locals, numberOfBytesInNetworkQueue =>
    if numberOfBytesInNetworkQueue > 0 then
      let (w1, locals1) := ReceiveBuffer w locals
      match dispatchReceived w1 s locals1.receivedIPAddress locals1.receivedPort
          locals1.receivedPacket with
      | Except.error cause => Run.halted cause
      | Except.ok (w2, s2, false) =>
        processNetworkLoop fuel w2 s2 locals1 numberOfBytesInNetworkQueue
      | Except.ok (w2, s2, true) =>
        processNetworkLoop fuel w2 s2 locals1 (GetNumberOfBytesInNetworkQueue w2)
    else
      Run.finished (w, s)

/-- Function `GameServer::ProcessNetworkQueue`. -/
def ProcessNetworkQueue (fuel : Nat) (w : Platform) (s : GameServer) :
    Run (Platform × GameServer) :=
  processNetworkLoop fuel w s Received.unset (GetNumberOfBytesInNetworkQueue w)

/-! ## The tick -/

/-- First loop of `Update`, the timeout sweep, from index `i`. The index is an `unsigned int`:
the decrement after an erase wraps at zero and the increment of the loop header wraps back. -/
def timeoutLoop (deltaSeconds : Float32) : Nat → Nat → List ClientInfo → Option (List ClientInfo)
  | 0, _, _ => none
  | fuel + 1, i, clients =>
    match clients[i]? with
    | none => some clients
    | some client =>
      let client1 :=
        { client with
          secondsSinceLastReceivedPacket := client.secondsSinceLastReceivedPacket + deltaSeconds }
      let clients1 := clients.set i client1
      if client1.secondsSinceLastReceivedPacket > SECONDS_BEFORE_CLIENT_TIMES_OUT then
        let clients2 := clients1.eraseIdx i
        let i1 := (i + 2 ^ 32 - 1) % 2 ^ 32
        timeoutLoop deltaSeconds fuel ((i1 + 1) % 2 ^ 32) clients2
      else
        timeoutLoop deltaSeconds fuel ((i + 1) % 2 ^ 32) clients1

/-- The timeout sweep of `Update`. -/
def removeTimedOutClients (fuel : Nat) (deltaSeconds : Float32) (clients : List ClientInfo) :
    Option (List ClientInfo) :=
  timeoutLoop deltaSeconds fuel 0 clients

/-- Inner loop of the resend sweep of `Update` for one session: every element of its in-flight
set, in order, is handed to `SendPacketToClient` by reference. -/
def resendEachPacket (w : Platform) (client : ClientInfo) :
    List MidtermPacket → Except Halt (Platform × ClientInfo)
  | [] => Except.ok (w, client)
  | unackedPacket :: rest =>
    match SendPacketToClient w unackedPacket client true with
    | Except.error cause => Except.error cause
    | Except.ok (w1, client1) => resendEachPacket w1 client1 rest

/-- Second loop of `Update`, the resend sweep. -/
def resendUnacknowledgedPackets (w : Platform) :
    List ClientInfo → Except Halt (Platform × List ClientInfo)
  | [] => Except.ok (w, [])
  | client :: rest =>
    match resendEachPacket w client client.unacknowledgedPackets with
    | Except.error cause => Except.error cause
    | Except.ok (w1, client1) =>
      match resendUnacknowledgedPackets w1 rest with
      | Except.error cause => Except.error cause
      | Except.ok (w2, rest1) => Except.ok (w2, client1 :: rest1)

/-- Function `GameServer::Update`. `UpdateGameState` has an empty body, and the periodic
listing of the sessions only prints. -/
def Update (fuel : Nat) (w : Platform) (s : GameServer) (deltaSeconds : Float32) :
    Run (Platform × GameServer) :=
  match ProcessNetworkQueue fuel w s with
  | Run.outOfFuel => Run.outOfFuel
  | Run.halted cause => Run.halted cause
  | Run.finished (w1, s1) =>
    match BroadcastGameStateToClients w1 s1 with
    | Except.error cause => Run.halted cause
    | Except.ok (w2, s2) =>
      match removeTimedOutClients fuel deltaSeconds s2.m_clientList with
      | none => Run.outOfFuel
      | some clients =>
        match resendUnacknowledgedPackets w2 clients with
        | Except.error cause => Run.halted cause
        | Except.ok (w3, clients1) => Run.finished (w3, { s2 with m_clientList := clients1 })

/-- Every call to `SendBuffer` succeeds on this platform. -/
def SendsSucceed (w : Platform) : Prop :=
  ∀ k, 0 ≤ w.sendResults k

/-! ## Runs of the server -/

/-- States the server passes through. `Reachable n w s` says that the server is in state `s`
on platform `w` at some point of a run that started with the constructed server, and that
`n` sessions have been created up to that point. The steps are the statements of `Update`:
an iteration of the network loop on any datagram, the broadcast, the timeout sweep and the
resend sweep; between them the queue of the socket may change in any way. -/
inductive Reachable : Nat → Platform → GameServer → Prop where
  | fresh (w : Platform) : Reachable 0 w GameServer.fresh
  | network {n : Nat} {w : Platform} {s : GameServer} (pending : List Datagram) :
      Reachable n w s → Reachable n { w with pending := pending } s
  | dispatch {n : Nat} {w w' : Platform} {s s' : GameServer} {resample : Bool}
      (ipAddress : String) (portNumber : Nat) (packet : MidtermPacket) :
      Reachable n w s →
      dispatchReceived w s ipAddress portNumber packet = Except.ok (w', s', resample) →
      Reachable (n + (s'.m_clientList.length - s.m_clientList.length)) w' s'
  | broadcast {n : Nat} {w w' : Platform} {s s' : GameServer} :
      Reachable n w s →
      BroadcastGameStateToClients w s = Except.ok (w', s') →
      Reachable n w' s'
  | timeout {n : Nat} {w : Platform} {s : GameServer} (fuel : Nat) (deltaSeconds : Float32)
      {clients : List ClientInfo} :
      Reachable n w s →
      removeTimedOutClients fuel deltaSeconds s.m_clientList = some clients →
      Reachable n w { s with m_clientList := clients }
  | resend {n : Nat} {w w' : Platform} {s : GameServer} {clients : List ClientInfo} :
      Reachable n w s →
      resendUnacknowledgedPackets w s.m_clientList = Except.ok (w', clients) →
      Reachable n w' { s with m_clientList := clients }

/-- A tick of the driving loop: the datagrams that arrive before it, and its `deltaSeconds`. -/
structure Tick where
  arrivals : List Datagram
  deltaSeconds : Float32

/-- Datagrams arrive at the socket: they queue behind the pending ones. -/
def arrive (w : Platform) (arrivals : List Datagram) : Platform :=
  { w with pending := w.pending ++ arrivals }

/-- The server driven through a list of ticks, `Update` being called once per tick. -/
def runTicks (fuel : Nat) : List Tick → Platform → GameServer → Run (Platform × GameServer)
  | [], w, s => Run.finished (w, s)
  | tick :: rest, w, s =>
    match Update fuel (arrive w tick.arrivals) s tick.deltaSeconds with
    | Run.finished (w1, s1) => runTicks fuel rest w1 s1
    | Run.halted cause => Run.halted cause
    | Run.outOfFuel => Run.outOfFuel

/-- Ids of the sessions created during a list of ticks, in order of creation: the sessions
created in a tick are those its network phase appends to `m_clientList`. -/
def createdIDs (fuel : Nat) : List Tick → Platform → GameServer → List Nat
  | [], _, _ => []
  | tick :: rest, w, s =>
    (match ProcessNetworkQueue fuel (arrive w tick.arrivals) s with
      | Run.finished (_, s1) => (s1.m_clientList.drop s.m_clientList.length).map (·.id)
      | _ => []) ++
    (match Update fuel (arrive w tick.arrivals) s tick.deltaSeconds with
      | Run.finished (w1, s1) => createdIDs fuel rest w1 s1
      | _ => [])

/-! ## Concrete inputs -/

/-- A platform with nothing pending, on which every send succeeds, the clock counts its reads
and the random generator returns one half. -/
def quietPlatform : Platform :=
  { pending := []
    sent := []
    sendResults := fun _ => 0
    clock := fun k => k
    clockReads := 0
    randomFloats := fun _ => Float32.finite (1 / 2)
    randomCalls := 0 }

/-- A packet of the given kind with session id zero and a blank payload. -/
def packetOfType (type : PacketType) : MidtermPacket :=
  { type := type, clientID := 0, number := 0, timestamp := 0, data := PacketData.blank }

/-- A Join datagram from the given address. -/
def joinFrom (ipAddress : String) (portNumber : Nat) : Datagram :=
  ⟨packetOfType PacketType.TYPE_Join, ipAddress, portNumber⟩

/-- An Acknowledgement datagram from the given address that carries session id `clientID` and
acknowledges `packetNumber`. -/
def acknowledgementFrom (ipAddress : String) (portNumber clientID packetNumber : Nat) :
    Datagram :=
  ⟨{ packetOfType PacketType.TYPE_Acknowledgement with
      clientID := clientID
      data := { PacketData.blank with acknowledged := ⟨packetNumber⟩ } },
    ipAddress, portNumber⟩

/-- A Touch datagram from the given address. -/
def touchFrom (ipAddress : String) (portNumber instigatorID receiverID : Nat) : Datagram :=
  ⟨{ packetOfType PacketType.TYPE_Touch with
      data := { PacketData.blank with touch := ⟨instigatorID, receiverID⟩ } },
    ipAddress, portNumber⟩

/-- A session record with the given id, port, counter and in-flight set, at address
`"10.0.0.1"`, everything else zero. -/
def sessionAt (id portNumber currentPacketNumber : Nat) (unacknowledged : List MidtermPacket) :
    ClientInfo :=
  { id := id
    ipAddress := "10.0.0.1"
    portNumber := portNumber
    currentPacketNumber := currentPacketNumber
    unacknowledgedPackets := unacknowledged
    secondsSinceLastReceivedPacket := 0
    xPosition := 0
    yPosition := 0
    xVelocity := 0
    yVelocity := 0
    orientationDegrees := 0 }

/-- A Reset packet with the given session id and number and a blank payload. -/
def resetNumbered (clientID number : Nat) : MidtermPacket :=
  { packetOfType PacketType.TYPE_Reset with clientID := clientID, number := number }

/-- Three sessions whose timers are 5, 0 and 9/2 seconds. -/
def threeSessions : List ClientInfo :=
  [{ sessionAt 1 7 2 [] with secondsSinceLastReceivedPacket := 5 },
   sessionAt 2 8 2 [],
   { sessionAt 3 9 2 [] with secondsSinceLastReceivedPacket := Float32.finite (9 / 2) }]

/-- One more packet has been numbered for the session: its counter after
`++receivingClient->currentPacketNumber`. -/
def ClientInfo.numbered (client : ClientInfo) : ClientInfo :=
  { client with currentPacketNumber := (client.currentPacketNumber + 1) % 2 ^ 32 }

/-- A server with sessions 1 and 2, at ports 7 and 8, each with counter 2 and nothing in
flight; session 1 is "it". -/
def twoSessionServer : GameServer :=
  { m_nextClientID := 3, m_clientList := [sessionAt 1 7 2 [], sessionAt 2 8 2 []],
    m_itPlayerID := 1 }

/-- The packets of a list with their timestamps replaced by successive readings of the clock,
starting with reading number `reads`. -/
def restampedFrom (clock : Nat → ℚ) : Nat → List MidtermPacket → List MidtermPacket
  | _, [] => []
  | reads, packet :: rest =>
    { packet with timestamp := clock reads } :: restampedFrom clock (reads + 1) rest

/-- Session `after` is session `before` with nothing changed but the timestamps of its
in-flight packets: same id, address, counter, timer and transform, and in-flight packets of
the same kinds, session ids, numbers and payloads in the same order. -/
def SameButTimestamps (before after : ClientInfo) : Prop :=
  after = { before with unacknowledgedPackets := after.unacknowledgedPackets } ∧
  after.unacknowledgedPackets.map MidtermPacket.content =
    before.unacknowledgedPackets.map MidtermPacket.content

/-- What a resend sweep has to send for a list of sessions: every in-flight packet of every
session, in order, to the address of its session; packets are given by their content. -/
def inFlight (clients : List ClientInfo) :
    List ((PacketType × Nat × Nat × PacketData) × String × Nat) :=
  clients.flatMap (fun c =>
    c.unacknowledgedPackets.map (fun p => (p.content, c.ipAddress, c.portNumber)))

/-- A datagram of the log of sends, by the content of its packet and its destination. -/
def Datagram.contentAndAddress (d : Datagram) :
    (PacketType × Nat × Nat × PacketData) × String × Nat :=
  (d.packet.content, d.ipAddress, d.portNumber)

/-- Identity of a session: its id and its address. -/
def ClientInfo.identity (client : ClientInfo) : Nat × String × Nat :=
  (client.id, client.ipAddress, client.portNumber)

/-- Spawn rule of `ResetClient` for a session, given the "it" id: zero velocity and
orientation, and `y = 0` for the session that is "it". -/
def SpawnRule (itPlayerID : Nat) (client : ClientInfo) : Prop :=
  client.xVelocity = 0 ∧ client.yVelocity = 0 ∧ client.orientationDegrees = 0 ∧
  (client.id = itPlayerID → client.yPosition = 0)

/-- The ids of the sessions are those of an initial stretch of a run in which `n` sessions
were created and no id was assigned twice: they increase along the list and lie between 1
and `n`. -/
def IdsInOrder (n : Nat) (clients : List ClientInfo) : Prop :=
  (clients.map (·.id)).Pairwise (· < ·) ∧ ∀ x ∈ clients.map (·.id), 1 ≤ x ∧ x ≤ n

/-- Identities of the sessions that successive Joins create when the next-id counter stands at
`nextClientID`: the id is the counter truncated to eight bits, the address is the sender's. -/
def newIdentities : Nat → List Datagram → List (Nat × String × Nat)
  | _, [] => []
  | nextClientID, d :: rest =>
    (nextClientID % 2 ^ 8, d.ipAddress, d.portNumber) :: newIdentities (nextClientID + 1) rest

/-- All datagrams that arrive during a list of ticks, in order of arrival. -/
def allArrivals (ticks : List Tick) : List Datagram :=
  ticks.flatMap (·.arrivals)

/-- Sender address of a datagram. -/
def Datagram.address (d : Datagram) : String × Nat :=
  (d.ipAddress, d.portNumber)

/-- Result of a run that finished. -/
def Run.result? {α : Type} : Run α → Option α
  | Run.finished result => some result
  | _ => none

/-- Two ticks: Joins from two addresses, then a Join from a third. -/
def threeJoins : List Tick :=
  [⟨[joinFrom "10.0.0.1" 7, joinFrom "10.0.0.2" 8], 1⟩, ⟨[joinFrom "10.0.0.3" 9], 6⟩]

/-- Ticks in each of which one client joins, from port 1, 2, ..., `count` of `10.0.0.1`, and
is timed out by the same tick, which lasts 6 seconds. -/
def shortLivedJoins (count : Nat) : List Tick :=
  (List.range count).map (fun k => ⟨[joinFrom "10.0.0.1" (k + 1)], 6⟩)

/-- After 254 short-lived sessions, clients join from ports 255 and 256 in a tick of zero
length. -/
def joinsUpTo256 : List Tick :=
  shortLivedJoins 254 ++ [⟨[joinFrom "10.0.0.1" 255, joinFrom "10.0.0.1" 256], 0⟩]

/-- State of the server after the ticks `joinsUpTo256`, run from the constructed server on
the quiet platform. -/
def after256Joins : Platform × GameServer :=
  ((runTicks 4 joinsUpTo256 quietPlatform GameServer.fresh).result?).getD
    (quietPlatform, GameServer.fresh)

/-- State of the server after a Join from `10.0.0.1:7` is dispatched by the constructed
server on the quiet platform. -/
def afterOneJoin : Platform × GameServer :=
  match dispatchReceived quietPlatform GameServer.fresh "10.0.0.1" 7
      (packetOfType PacketType.TYPE_Join) with
  | Except.ok (w, s, _) => (w, s)
  | Except.error _ => (quietPlatform, GameServer.fresh)

/-- Ticks during which nothing arrives: `count` ticks of `deltaSeconds` each. -/
def quietTicks (count : Nat) (deltaSeconds : Float32) : List Tick :=
  List.replicate count ⟨[], deltaSeconds⟩

/-- Two ticks: a client joins from `10.0.0.1:7` and is timed out by that tick, which lasts 6
seconds; then a client joins from `10.0.0.2:8` in a tick of zero length. -/
def joinAfterEviction : List Tick :=
  [⟨[joinFrom "10.0.0.1" 7], 6⟩, ⟨[joinFrom "10.0.0.2" 8], 0⟩]

/-- Address of a session: its ip address and its port. -/
def ClientInfo.address (client : ClientInfo) : String × Nat :=
  (client.ipAddress, client.portNumber)

/-- The platform on which every send succeeds and everything else is as on `w`. -/
def Platform.succeeding (w : Platform) : Platform :=
  { w with sendResults := fun _ => 0 }

/-- Session `after` is session `before` after `ResetClient` has built `packet` for it, with
`itPlayerID` for the "it" id, and has sent it: the packet is a Reset with the id of the
session, numbered with its counter, and it carries the transform assigned to the session;
the velocities and the orientation are zero, the counter has been incremented and the packet
has been inserted into the in-flight set. -/
def ResetOf (itPlayerID : Nat) (before after : ClientInfo) (packet : MidtermPacket) : Prop :=
  packet.type = PacketType.TYPE_Reset ∧ packet.clientID = before.id ∧
  packet.number = before.currentPacketNumber ∧
  packet.data.reset =
    ⟨itPlayerID, after.xPosition, after.yPosition, after.xVelocity, after.yVelocity,
      after.orientationDegrees⟩ ∧
  after =
    { before with
      xPosition := after.xPosition
      yPosition := after.yPosition
      xVelocity := 0
      yVelocity := 0
      orientationDegrees := 0
      currentPacketNumber := (before.currentPacketNumber + 1) % 2 ^ 32
      unacknowledgedPackets := setInsert packet before.unacknowledgedPackets }

/-- The in-flight set of a session, `sent` datagrams having been sent by the server in all:
its packets are ordered by strictly increasing number, each is a Reset with the id of the
session, the counter of the session is at most `sent + 1`, and as long as `sent + 1` is below
`2 ^ 32` every in-flight number is below the counter. -/
def SessionInOrder (sent : Nat) (client : ClientInfo) : Prop :=
  IsPacketSet client.unacknowledgedPackets ∧
  (∀ p ∈ client.unacknowledgedPackets,
    p.type = PacketType.TYPE_Reset ∧ p.clientID = client.id) ∧
  client.currentPacketNumber ≤ sent + 1 ∧
  (sent + 1 < 2 ^ 32 →
    ∀ p ∈ client.unacknowledgedPackets, p.number < client.currentPacketNumber)

/-- The session at position `k` of the list has the given identity and a timer of zero: a
datagram from it has been dispatched and no timeout sweep has run since. -/
def JustHeardFrom (identity : Nat × String × Nat) (k : Nat) (clients : List ClientInfo) :
    Prop :=
  ∃ c, clients[k]? = some c ∧ c.identity = identity ∧ c.secondsSinceLastReceivedPacket = 0

/-- After 255 short-lived sessions a client joins from port 256 in a tick of zero length, and
in the next tick, also of zero length, its Touch packet arrives, with its own id for the
instigator and for the receiver. -/
def wrapThenTouch : List Tick :=
  shortLivedJoins 255 ++
    [⟨[joinFrom "10.0.0.1" 256], 0⟩, ⟨[touchFrom "10.0.0.1" 256 0 0], 0⟩]

/-- A tick of zero length before which a Join from `10.0.0.1:7` arrives. -/
def joinTick : Tick :=
  ⟨[joinFrom "10.0.0.1" 7], 0⟩

/-- State of the server after the tick `joinTick`, run from the constructed server on the
quiet platform. -/
def afterJoinTick : Platform × GameServer :=
  ((runTicks 4 [joinTick] quietPlatform GameServer.fresh).result?).getD
    (quietPlatform, GameServer.fresh)

/-- Destination and number of a datagram of the log of sends. -/
def Datagram.addressAndNumber (d : Datagram) : (String × Nat) × Nat :=
  (d.address, d.packet.number)

/-- Numbers of the datagrams that a step from platform `before` to platform `after` sent to
`address`, in the order of the sends. -/
def sentTo (address : String × Nat) (before after : Platform) : List Nat :=
  ((after.sent.drop before.sent.length).filter (fun d => decide (d.address = address))).map
    (fun d => d.packet.number)

/-- A stretch of a run and the numbers issued during it to the session at an address.
`IssuedSince address w0 s0 w s numbers` says that steps of the server lead from state `s0` on
platform `w0` to state `s` on platform `w`, that a session with the address is live in every
state on the way, and that `numbers` are the numbers of the packets newly issued to that
session on the way, in order: those of the datagrams that the dispatches and the broadcasts
sent to the address. What a resend sweep sends is retransmitted, not newly issued. -/
inductive IssuedSince (address : String × Nat) (w0 : Platform) (s0 : GameServer) :
    Platform → GameServer → List Nat → Prop where
  | start : address ∈ s0.m_clientList.map ClientInfo.address →
      IssuedSince address w0 s0 w0 s0 []
  | network {w : Platform} {s : GameServer} {numbers : List Nat} (pending : List Datagram) :
      IssuedSince address w0 s0 w s numbers →
      IssuedSince address w0 s0 { w with pending := pending } s numbers
  | dispatch {w w' : Platform} {s s' : GameServer} {numbers : List Nat} {resample : Bool}
      (ipAddress : String) (portNumber : Nat) (packet : MidtermPacket) :
      IssuedSince address w0 s0 w s numbers →
      dispatchReceived w s ipAddress portNumber packet = Except.ok (w', s', resample) →
      IssuedSince address w0 s0 w' s' (numbers ++ sentTo address w w')
  | broadcast {w w' : Platform} {s s' : GameServer} {numbers : List Nat} :
      IssuedSince address w0 s0 w s numbers →
      BroadcastGameStateToClients w s = Except.ok (w', s') →
      IssuedSince address w0 s0 w' s' (numbers ++ sentTo address w w')
  | timeout {w : Platform} {s : GameServer} {numbers : List Nat} (fuel : Nat)
      (deltaSeconds : Float32) {clients : List ClientInfo} :
      IssuedSince address w0 s0 w s numbers →
      removeTimedOutClients fuel deltaSeconds s.m_clientList = some clients →
      address ∈ clients.map ClientInfo.address →
      IssuedSince address w0 s0 w { s with m_clientList := clients } numbers
  | resend {w w' : Platform} {s : GameServer} {numbers : List Nat}
      {clients : List ClientInfo} :
      IssuedSince address w0 s0 w s numbers →
      resendUnacknowledgedPackets w s.m_clientList = Except.ok (w', clients) →
      IssuedSince address w0 s0 w' { s with m_clientList := clients } numbers

/-- State of the server after the broadcast that follows the dispatch of the Join of
`afterOneJoin`. -/
def afterOneJoinBroadcast : Platform × GameServer :=
  match BroadcastGameStateToClients afterOneJoin.1 afterOneJoin.2 with
  | Except.ok r => r
  | Except.error _ => afterOneJoin

/-- A server in the middle of a game. Session 1, at port 7, is "it", has counter 4 and the
Reset numbered 1 in flight and was last heard from 4 seconds ago; session 2, at port 8, has
counter 5 and the Reset numbered 2 in flight and was last heard from 3 seconds ago. Both
have moved since their last reset. -/
def midGameServer : GameServer :=
  { m_nextClientID := 3
    m_clientList :=
      [{ sessionAt 1 7 4 [resetNumbered 1 1] with
          secondsSinceLastReceivedPacket := 4
          xPosition := 300
          yPosition := 0
          orientationDegrees := 45 },
       { sessionAt 2 8 5 [resetNumbered 2 2] with
          secondsSinceLastReceivedPacket := 3
          xPosition := 120
          yPosition := 450
          xVelocity := 1
          yVelocity := 2
          orientationDegrees := 180 }]
    m_itPlayerID := 1 }

/-- An Update datagram from the given address that carries session id `clientID` and the
given transform. -/
def updateFrom (ipAddress : String) (portNumber clientID : Nat) (transform : UpdatedData) :
    Datagram :=
  ⟨{ packetOfType PacketType.TYPE_Update with
      clientID := clientID
      data := { PacketData.blank with updated := transform } },
    ipAddress, portNumber⟩

/-- The Update datagram that session 2 of `midGameServer` sends: position (10, 20), velocity
(3, 4), orientation 90 degrees. -/
def movedTo : Datagram :=
  updateFrom "10.0.0.1" 8 2 ⟨10, 20, 3, 4, 90⟩

/-- State of `midGameServer` after the dispatch of `movedTo`. -/
def midGameServerMoved : GameServer :=
  { midGameServer with
    m_clientList :=
      [{ sessionAt 1 7 4 [resetNumbered 1 1] with
          secondsSinceLastReceivedPacket := 4
          xPosition := 300
          yPosition := 0
          orientationDegrees := 45 },
       { sessionAt 2 8 5 [resetNumbered 2 2] with
          secondsSinceLastReceivedPacket := 0
          xPosition := 10
          yPosition := 20
          xVelocity := 3
          yVelocity := 4
          orientationDegrees := 90 }] }

/-- A tick of 2 seconds before which `movedTo` arrives. -/
def movedTick : Tick :=
  ⟨[movedTo], 2⟩

/-- State after the tick `movedTick`, run from `midGameServer` on the quiet platform. -/
def afterMovedTick : Platform × GameServer :=
  ((runTicks 4 [movedTick] quietPlatform midGameServer).result?).getD
    (quietPlatform, midGameServer)

/-- A tick of one second before which Joins from `10.0.0.1:7` and `10.0.0.2:8` arrive. -/
def twoJoins : List Tick :=
  [⟨[joinFrom "10.0.0.1" 7, joinFrom "10.0.0.2" 8], 1⟩]

/-- State of the server after the tick `twoJoins`, run from the constructed server on the
quiet platform. -/
def afterTwoJoins : Platform × GameServer :=
  ((runTicks 4 twoJoins quietPlatform GameServer.fresh).result?).getD
    (quietPlatform, GameServer.fresh)

/-- Value of an `unsigned int` counter that stood at `counter` after `issued` increments. -/
def counterAfter (counter : Nat) : Nat → Nat
  | 0 => counter
  | issued + 1 => (counterAfter counter issued + 1) % 2 ^ 32

/-- Session `after` is session `before` after the packets numbered `numbers` have been
issued to it, in that order: same address and id, each number is the value the counter had
when the packet was issued, the counter has been incremented once per packet, and every
in-flight packet has the number of a packet that was in flight before or one of
`numbers`. -/
def IssuedTo (numbers : List Nat) (before after : ClientInfo) : Prop :=
  after.address = before.address ∧ after.id = before.id ∧
  after.currentPacketNumber = counterAfter before.currentPacketNumber numbers.length ∧
  numbers = (List.range numbers.length).map (counterAfter before.currentPacketNumber) ∧
  ∀ p ∈ after.unacknowledgedPackets,
    (∃ q ∈ before.unacknowledgedPackets, q.number = p.number) ∨ p.number ∈ numbers

/-- The session at `address` in state `s` on platform `w` has a history: a Join created it
in some reachable state, and steps of the server since then lead to `s` on `w`, the session
being live all the way, during which the packets numbered `numbers` were issued to it, after
the Reset of its creation. -/
def CreatedThenIssued (address : String × Nat) (w : Platform) (s : GameServer)
    (numbers : List Nat) : Prop :=
  ∃ (n0 : Nat) (w0 w1 : Platform) (s0 s1 : GameServer) (ipAddress : String) (portNumber : Nat)
    (packet : MidtermPacket) (resample : Bool) (created : ClientInfo),
    Reachable n0 w0 s0 ∧
    dispatchReceived w0 s0 ipAddress portNumber packet = Except.ok (w1, s1, resample) ∧
    s1.m_clientList = s0.m_clientList ++ [created] ∧ created.address = address ∧
    IssuedSince address w1 s1 w s numbers

/-- State after the session of `afterOneJoinBroadcast` has sent a Touch that names itself as
instigator and as receiver. -/
def afterOneJoinTouch : Platform × GameServer :=
  match dispatchReceived afterOneJoinBroadcast.1 afterOneJoinBroadcast.2 "10.0.0.1" 7
      (touchFrom "10.0.0.1" 7 1 1).packet with
  | Except.ok (w, s, _) => (w, s)
  | Except.error _ => afterOneJoinBroadcast

/-- State after the broadcast that follows the Touch of `afterOneJoinTouch`. -/
def afterSecondBroadcast : Platform × GameServer :=
  match BroadcastGameStateToClients afterOneJoinTouch.1 afterOneJoinTouch.2 with
  | Except.ok r => r
  | Except.error _ => afterOneJoinTouch

/-- The datagram is not an Acknowledgement of the number of the packet `x`. -/
def NotAcknowledging (x : (PacketType × Nat × Nat × PacketData) × String × Nat)
    (packet : MidtermPacket) : Prop :=
  ¬ (packet.type = PacketType.TYPE_Acknowledgement ∧
    packet.data.acknowledged.packetNumber = x.1.2.2.1)

instance NotAcknowledging.decidable
    (x : (PacketType × Nat × Nat × PacketData) × String × Nat) (packet : MidtermPacket) :
    Decidable (NotAcknowledging x packet) :=
  instDecidableNot

theorem Float32.zero_add_value {x : Float32} (hvalue : x.IsValue) : 0 + x = x := by
  cases x with
  | finite value =>
    show Float32.round ((0 : Nat) + value) = Float32.finite value
    rw [Nat.cast_zero, zero_add]
    exact hvalue
  | posInf => rfl
  | negInf => rfl
  | nan => rfl

/-! ## Lemmas on the helper functions -/

theorem SendPacketToClient_ok {w : Platform} (h : SendsSucceed w) (packet : MidtermPacket)
    (client : ClientInfo) (stored : Bool) :
    SendPacketToClient w packet client stored =
      Except.ok
        ({ w with
            clockReads := w.clockReads + 1
            sent := w.sent ++
              [⟨{ packet with timestamp := w.clock w.clockReads },
                client.ipAddress, client.portNumber⟩] },
         { client with
            unacknowledgedPackets :=
              (if packet.IsGuaranteed then
                setInsert { packet with timestamp := w.clock w.clockReads }
               else id)
                (if stored then
                  client.unacknowledgedPackets.map
                    (fun element =>
                      if element.number = packet.number then
                        { packet with timestamp := w.clock w.clockReads }
                      else element)
                 else client.unacknowledgedPackets) }) := by
  have h0 : ¬ w.sendResults w.sent.length < 0 := not_lt.mpr (h _)
  cases stored <;> cases hg : packet.IsGuaranteed <;>
    simp [SendPacketToClient, GetCurrentTimeSeconds, SendBuffer, h0, hg,
      MidtermPacket.IsGuaranteed] <;>
    simp [MidtermPacket.IsGuaranteed] at hg ⊢ <;> simp [hg]

theorem SendsSucceed_of_sendResults {w w' : Platform} (h : SendsSucceed w)
    (hres : w'.sendResults = w.sendResults) : SendsSucceed w' := by
  intro k
  rw [hres]
  exact h k

theorem eraseAcknowledged_eq_filter (n : Nat) (packets : List MidtermPacket)
    (hset : IsPacketSet packets) :
    eraseAcknowledged n packets = packets.filter (fun p => decide (p.number ≠ n)) := by
  induction packets with
  | nil => rfl
  | cons p rest ih =>
    have hrest : IsPacketSet rest := (List.pairwise_cons.mp hset).2
    have hlt : ∀ q ∈ rest, p.number < q.number := (List.pairwise_cons.mp hset).1
    by_cases hp : p.number = n
    · have hall : ∀ q ∈ rest, decide (q.number ≠ n) = true := by
        intro q hq
        have := hlt q hq
        simp
        omega
      have hfilter := List.filter_eq_self.mpr hall
      simp only [eraseAcknowledged, hp, if_true, List.filter_cons, ne_eq, not_true_eq_false,
        decide_False, Bool.false_eq_true, if_false]
      exact hfilter.symm
    · simp [eraseAcknowledged, hp, ih hrest]

theorem eraseAcknowledged_of_absent (n : Nat) (packets : List MidtermPacket)
    (habsent : ∀ p ∈ packets, p.number ≠ n) : eraseAcknowledged n packets = packets := by
  induction packets with
  | nil => rfl
  | cons p rest ih =>
    have hp : p.number ≠ n := habsent p (List.mem_cons_self _ _)
    have hrest : ∀ q ∈ rest, q.number ≠ n := fun q hq => habsent q (List.mem_cons_of_mem _ hq)
    simp [eraseAcknowledged, hp, ih hrest]

theorem FindClientByID_lt {clients : List ClientInfo} {clientID i : Nat}
    (h : FindClientByID clients clientID = some i) : i < clients.length := by
  induction clients generalizing i with
  | nil => simp [FindClientByID] at h
  | cons c rest ih =>
    by_cases hc : c.id = clientID
    · simp [FindClientByID, hc] at h
      subst h
      simp
    · simp [FindClientByID, hc] at h
      obtain ⟨j, hj, rfl⟩ := h
      have := ih hj
      simp
      omega

theorem FindClientByID_map_id {clients clients' : List ClientInfo}
    (h : clients'.map (·.id) = clients.map (·.id)) (clientID : Nat) :
    FindClientByID clients' clientID = FindClientByID clients clientID := by
  induction clients generalizing clients' with
  | nil =>
    have : clients' = [] := by simpa using h
    subst this
    rfl
  | cons c rest ih =>
    cases clients' with
    | nil => simp at h
    | cons c' rest' =>
      simp only [List.map_cons, List.cons.injEq] at h
      simp [FindClientByID, h.1, ih h.2]

theorem map_id_set {clients : List ClientInfo} {i : Nat} {client client' : ClientInfo}
    (hclient : clients[i]? = some client) (hid : client'.id = client.id) :
    (clients.set i client').map (·.id) = clients.map (·.id) := by
  induction clients generalizing i with
  | nil => simp
  | cons c rest ih =>
    cases i with
    | zero =>
      simp at hclient
      subst hclient
      simp [hid]
    | succ j =>
      simp at hclient
      simp [ih hclient]

/-! ## Unknown senders -/

theorem dispatchReceived_unknown (w : Platform) (s : GameServer) (ipAddress : String)
    (portNumber : Nat) (packet : MidtermPacket)
    (hkind : packet.type ≠ PacketType.TYPE_Join)
    (hunknown : FindClientByAddress s.m_clientList ipAddress portNumber = none) :
    dispatchReceived w s ipAddress portNumber packet = Except.ok (w, s, false) := by
  simp [dispatchReceived, hunknown, hkind]

/-- C4: a datagram that is not a Join and whose sender address matches no session is dropped:
the dispatch returns the platform (its log of sent datagrams included) and the whole server
state (client list, next-id counter, "it" id) exactly as they were, and leaves the loop body
by `continue`. -/
theorem unknown_sender_changes_nothing (w : Platform) (s : GameServer) (ipAddress : String)
    (portNumber : Nat) (packet : MidtermPacket)
    (hkind : packet.type ≠ PacketType.TYPE_Join)
    (hunknown : FindClientByAddress s.m_clientList ipAddress portNumber = none) :
    dispatchReceived w s ipAddress portNumber packet = Except.ok (w, s, false) := by
  unfold dispatchReceived
  rw [hunknown]
  simp only [ne_eq, hkind, not_false_eq_true, if_true]

theorem unknown_sender_changes_nothing_witness :
    dispatchReceived quietPlatform
        { m_nextClientID := 2, m_clientList := [sessionAt 1 7 2 [resetNumbered 1 1]],
          m_itPlayerID := 1 }
        "10.0.0.9" 9 (packetOfType PacketType.TYPE_Update) =
      Except.ok (quietPlatform,
        { m_nextClientID := 2, m_clientList := [sessionAt 1 7 2 [resetNumbered 1 1]],
          m_itPlayerID := 1 }, false) :=
  unknown_sender_changes_nothing quietPlatform _ "10.0.0.9" 9
    (packetOfType PacketType.TYPE_Update) (by decide) (by decide)

/-! ## The in-flight set -/

theorem set_getElem?_same {α : Type} {l : List α} {i : Nat} {a : α} (h : l[i]? = some a) :
    l.set i a = l := by
  induction l generalizing i with
  | nil => simp
  | cons b rest ih =>
    cases i with
    | zero =>
      simp at h
      simp [h]
    | succ j =>
      simp at h
      simp [ih h]

theorem getElem?_set_same {α : Type} {l : List α} {i : Nat} {a b : α} (h : l[i]? = some a) :
    (l.set i b)[i]? = some b := by
  induction l generalizing i with
  | nil => simp at h
  | cons c rest ih =>
    cases i with
    | zero => simp
    | succ j =>
      simp at h
      simp [ih h]

theorem mem_setInsert {p q : MidtermPacket} {packets : List MidtermPacket}
    (h : q ∈ setInsert p packets) : q = p ∨ q ∈ packets := by
  induction packets with
  | nil => simpa [setInsert] using h
  | cons r rest ih =>
    simp only [setInsert] at h
    split at h
    · simpa using h
    · split at h
      · rcases List.mem_cons.mp h with h1 | h1
        · exact Or.inr (h1 ▸ List.mem_cons_self _ _)
        · rcases ih h1 with h2 | h2
          · exact Or.inl h2
          · exact Or.inr (List.mem_cons_of_mem _ h2)
      · exact Or.inr h

theorem setInsert_has_number (p : MidtermPacket) (packets : List MidtermPacket) :
    ∃ q ∈ setInsert p packets, q.number = p.number := by
  induction packets with
  | nil => exact ⟨p, by simp [setInsert], rfl⟩
  | cons r rest ih =>
    simp only [setInsert, PacketComparer, decide_eq_true_eq]
    split
    · exact ⟨p, List.mem_cons_self _ _, rfl⟩
    · split
      · obtain ⟨q, hq, hn⟩ := ih
        exact ⟨q, List.mem_cons_of_mem _ hq, hn⟩
      · exact ⟨r, List.mem_cons_self _ _, by omega⟩

theorem mem_setInsert_self {p : MidtermPacket} {packets : List MidtermPacket}
    (hfresh : ∀ q ∈ packets, q.number ≠ p.number) : p ∈ setInsert p packets := by
  obtain ⟨q, hq, hn⟩ := setInsert_has_number p packets
  rcases mem_setInsert hq with h | h
  · exact h ▸ hq
  · exact absurd hn (hfresh q h)

theorem setInsert_isPacketSet {p : MidtermPacket} {packets : List MidtermPacket}
    (hset : IsPacketSet packets) : IsPacketSet (setInsert p packets) := by
  induction packets with
  | nil => simp [setInsert, IsPacketSet]
  | cons r rest ih =>
    have hrest : IsPacketSet rest := (List.pairwise_cons.mp hset).2
    have hlt : ∀ q ∈ rest, r.number < q.number := (List.pairwise_cons.mp hset).1
    simp only [setInsert, PacketComparer, decide_eq_true_eq]
    split
    · rename_i hpr
      refine List.pairwise_cons.mpr ⟨?_, hset⟩
      intro q hq
      rcases List.mem_cons.mp hq with h1 | h1
      · exact h1 ▸ hpr
      · exact lt_trans hpr (hlt q h1)
    · split
      · rename_i hrp
        refine List.pairwise_cons.mpr ⟨?_, ih hrest⟩
        intro q hq
        rcases mem_setInsert hq with h1 | h1
        · exact h1 ▸ hrp
        · exact hlt q h1
      · exact hset

theorem setInsert_of_number_mem {p : MidtermPacket} {packets : List MidtermPacket}
    (hset : IsPacketSet packets) (hmem : ∃ q ∈ packets, q.number = p.number) :
    setInsert p packets = packets := by
  induction packets with
  | nil => simp at hmem
  | cons r rest ih =>
    have hrest : IsPacketSet rest := (List.pairwise_cons.mp hset).2
    have hlt : ∀ q ∈ rest, r.number < q.number := (List.pairwise_cons.mp hset).1
    obtain ⟨q, hq, hqn⟩ := hmem
    simp only [setInsert, PacketComparer, decide_eq_true_eq]
    split
    · rename_i hpr
      rcases List.mem_cons.mp hq with h | h
      · subst h
        omega
      · have := hlt q h
        omega
    · split
      · rename_i hrp
        rcases List.mem_cons.mp hq with h | h
        · subst h
          omega
        · rw [ih hrest ⟨q, h, hqn⟩]
      · rfl

/-- C2, as the code has it: when the id carried by an Acknowledgement resolves to a session
whose in-flight collection is a set ordered by sequence number,
`RemoveAcknowledgedPacketFromClientQueue` leaves that session with its in-flight set minus the
packet numbered as acknowledged, and leaves the server as it was when no in-flight packet has
that number. When a guaranteed packet is sent to the session and no in-flight packet has its
number, the packet itself, stamped, is in the in-flight set; when an in-flight packet has its
number already, the in-flight set is left as it was, so that the packet that was sent is not
stored. Either way a packet with that number is in flight afterwards; handling an
Acknowledgement of another number keeps it there, and handling one of exactly its number
leaves no packet with that number. -/
theorem acknowledged_packet_leaves_in_flight_set (s : GameServer) (ackPacket : MidtermPacket)
    (i : Nat) (client : ClientInfo)
    (hfind : FindClientByID s.m_clientList ackPacket.clientID = some i)
    (hclient : s.m_clientList[i]? = some client)
    (hset : IsPacketSet client.unacknowledgedPackets) :
    RemoveAcknowledgedPacketFromClientQueue s ackPacket =
        Except.ok { s with
          m_clientList := s.m_clientList.set i
            { client with
              unacknowledgedPackets :=
                client.unacknowledgedPackets.filter
                  (fun p => decide (p.number ≠ ackPacket.data.acknowledged.packetNumber)) } }
    ∧ ((∀ p ∈ client.unacknowledgedPackets,
          p.number ≠ ackPacket.data.acknowledged.packetNumber) →
        RemoveAcknowledgedPacketFromClientQueue s ackPacket = Except.ok s)
    ∧ ∀ (w : Platform) (packet : MidtermPacket), SendsSucceed w → packet.IsGuaranteed = true →
        ∃ w1 client1,
          SendPacketToClient w packet client false = Except.ok (w1, client1) ∧
          (∃ q ∈ client1.unacknowledgedPackets, q.number = packet.number) ∧
          ((∀ q ∈ client.unacknowledgedPackets, q.number ≠ packet.number) →
            { packet with timestamp := w.clock w.clockReads } ∈
              client1.unacknowledgedPackets) ∧
          ((∃ q ∈ client.unacknowledgedPackets, q.number = packet.number) →
            client1.unacknowledgedPackets = client.unacknowledgedPackets) ∧
          ∃ s2 client2,
            RemoveAcknowledgedPacketFromClientQueue
                { s with m_clientList := s.m_clientList.set i client1 } ackPacket =
              Except.ok s2 ∧
            s2.m_clientList[i]? = some client2 ∧
            (ackPacket.data.acknowledged.packetNumber ≠ packet.number →
              ∀ q ∈ client1.unacknowledgedPackets, q.number = packet.number →
                q ∈ client2.unacknowledgedPackets) ∧
            (ackPacket.data.acknowledged.packetNumber = packet.number →
              ∀ q ∈ client2.unacknowledgedPackets, q.number ≠ packet.number) := by
  have hremove : ∀ (clients : List ClientInfo) (c : ClientInfo),
      FindClientByID clients ackPacket.clientID = some i → clients[i]? = some c →
      IsPacketSet c.unacknowledgedPackets →
      RemoveAcknowledgedPacketFromClientQueue { s with m_clientList := clients } ackPacket =
        Except.ok { s with
          m_clientList := clients.set i
            { c with
              unacknowledgedPackets :=
                c.unacknowledgedPackets.filter
                  (fun p => decide (p.number ≠ ackPacket.data.acknowledged.packetNumber)) } } := by
    intro clients c hf hc hs
    simp only [RemoveAcknowledgedPacketFromClientQueue, hf, hc,
      eraseAcknowledged_eq_filter _ _ hs]
  refine ⟨hremove s.m_clientList client hfind hclient hset, ?_, ?_⟩
  · intro habsent
    have h1 := hremove s.m_clientList client hfind hclient hset
    have hfilter : client.unacknowledgedPackets.filter
        (fun p => decide (p.number ≠ ackPacket.data.acknowledged.packetNumber)) =
        client.unacknowledgedPackets :=
      List.filter_eq_self.mpr (fun p hp => by simpa using habsent p hp)
    rw [hfilter] at h1
    rw [show ({ client with unacknowledgedPackets := client.unacknowledgedPackets } : ClientInfo)
      = client from rfl, set_getElem?_same hclient] at h1
    exact h1
  · intro w packet hw hg
    refine ⟨_, _, SendPacketToClient_ok hw packet client false, ?_⟩
    simp only [hg, if_true, Bool.false_eq_true, if_false]
    refine ⟨setInsert_has_number _ _, fun hfresh => mem_setInsert_self hfresh,
      fun hmem => setInsert_of_number_mem hset hmem, ?_⟩
    have hid : (s.m_clientList.set i
        { client with
          unacknowledgedPackets :=
            setInsert { packet with timestamp := w.clock w.clockReads }
              client.unacknowledgedPackets }).map (·.id) = s.m_clientList.map (·.id) :=
      map_id_set hclient rfl
    have h2 := hremove _ _ ((FindClientByID_map_id hid _).trans hfind)
      (getElem?_set_same hclient) (setInsert_isPacketSet hset)
    refine ⟨_, _, h2, getElem?_set_same (getElem?_set_same hclient), ?_, ?_⟩
    · intro hne q hq hqn
      simp only [List.mem_filter, decide_eq_true_eq]
      exact ⟨hq, by omega⟩
    · intro heq q hq
      simp only [List.mem_filter, decide_eq_true_eq] at hq
      omega

theorem acknowledged_packet_leaves_in_flight_set_witness :
    RemoveAcknowledgedPacketFromClientQueue
        { m_nextClientID := 2,
          m_clientList := [sessionAt 1 7 3 [resetNumbered 1 1, resetNumbered 1 2]],
          m_itPlayerID := 1 }
        (acknowledgementFrom "10.0.0.1" 7 1 2).packet =
      Except.ok
        { m_nextClientID := 2,
          m_clientList := [sessionAt 1 7 3 [resetNumbered 1 1]],
          m_itPlayerID := 1 } ∧
    ∃ w1 client1,
      SendPacketToClient quietPlatform (resetNumbered 1 3)
          (sessionAt 1 7 3 [resetNumbered 1 1, resetNumbered 1 2]) false =
        Except.ok (w1, client1) ∧
      { resetNumbered 1 3 with timestamp := quietPlatform.clock quietPlatform.clockReads } ∈
        client1.unacknowledgedPackets := by
  have h := acknowledged_packet_leaves_in_flight_set
    { m_nextClientID := 2,
      m_clientList := [sessionAt 1 7 3 [resetNumbered 1 1, resetNumbered 1 2]],
      m_itPlayerID := 1 }
    (acknowledgementFrom "10.0.0.1" 7 1 2).packet 0
    (sessionAt 1 7 3 [resetNumbered 1 1, resetNumbered 1 2])
    (by decide) (by decide) (by decide)
  refine ⟨h.1, ?_⟩
  obtain ⟨w1, client1, hsend, _, hfresh, _⟩ :=
    h.2.2 quietPlatform (resetNumbered 1 3) (fun _ => le_refl _) rfl
  exact ⟨w1, client1, hsend, hfresh (by decide)⟩

/-- C2: a guaranteed packet that is sent to a session is not in its in-flight set when an
in-flight packet has its number. The session has the Reset numbered 1 in flight, with "it"
id 0; once its counter has wrapped to 1 a second Reset numbered 1 is built for it, with "it"
id 2 and position (300, 0). The send goes out, the in-flight set is what it was, and the
packet that was sent is not in it, though no Acknowledgement has been handled. -/
theorem sent_packet_is_not_stored_when_its_number_is_in_flight :
    (match SendPacketToClient quietPlatform
        { resetNumbered 1 1 with
          data := { PacketData.blank with reset := ⟨2, 300, 0, 0, 0, 0⟩ } }
        (sessionAt 1 7 1 [resetNumbered 1 1]) false with
      | Except.ok (w, client) =>
        (w.sent.map (fun d => (d.portNumber, d.packet.number, d.packet.data.reset.itPlayerID)),
          client.unacknowledgedPackets.map (fun p => (p.number, p.data.reset.itPlayerID)),
          decide (client.unacknowledgedPackets = [resetNumbered 1 1]))
      | Except.error _ => ([], [], false)) =
      ([(7, 1, 2)], [(1, 0)], true) := by
  decide!

/-! ## The timeout sweep -/

theorem timeoutLoop_from (deltaSeconds : Float32) (rest : List ClientInfo) :
    ∀ (fuel : Nat) (visited : List ClientInfo),
      (visited ++ rest).length < 2 ^ 32 → rest.length < fuel →
      timeoutLoop deltaSeconds fuel visited.length (visited ++ rest) =
        some (visited ++
          (rest.map (fun c =>
            { c with
              secondsSinceLastReceivedPacket :=
                c.secondsSinceLastReceivedPacket + deltaSeconds })).filter
            (fun c => decide
              (¬ c.secondsSinceLastReceivedPacket > SECONDS_BEFORE_CLIENT_TIMES_OUT))) := by
  induction rest with
  | nil =>
    intro fuel visited _ hfuel
    cases fuel with
    | zero => simp at hfuel
    | succ fuel => simp [timeoutLoop]
  | cons c rest ih =>
    intro fuel visited hlen hfuel
    cases fuel with
    | zero => simp at hfuel
    | succ fuel =>
      have hfuel' : rest.length < fuel := by simpa using hfuel
      have hget : (visited ++ c :: rest)[visited.length]? = some c := by
        rw [List.getElem?_append_right (le_refl _)]
        simp
      have hset : ∀ c', (visited ++ c :: rest).set visited.length c' = visited ++ c' :: rest := by
        intro c'
        simp
      have hvis : visited.length < 2 ^ 32 := by
        simp at hlen
        omega
      by_cases hout : c.secondsSinceLastReceivedPacket + deltaSeconds >
          SECONDS_BEFORE_CLIENT_TIMES_OUT
      · have hidx : ((visited.length + 2 ^ 32 - 1) % 2 ^ 32 + 1) % 2 ^ 32 = visited.length := by
          omega
        have herase : (visited ++
            { c with secondsSinceLastReceivedPacket :=
                c.secondsSinceLastReceivedPacket + deltaSeconds } :: rest).eraseIdx
              visited.length = visited ++ rest := by
          rw [List.eraseIdx_append_of_length_le (le_refl _)]
          simp
        have hlen' : (visited ++ rest).length < 2 ^ 32 := by
          simp at hlen ⊢
          omega
        simp only [timeoutLoop, hget, hset, hout, if_true, hidx, herase]
        rw [ih fuel visited hlen' hfuel']
        simp [hout]
      · have hidx : (visited.length + 1) % 2 ^ 32 = (visited ++
            [{ c with secondsSinceLastReceivedPacket :=
                c.secondsSinceLastReceivedPacket + deltaSeconds }]).length := by
          simp at hlen ⊢
          omega
        have hlen' : ((visited ++
            [{ c with secondsSinceLastReceivedPacket :=
                c.secondsSinceLastReceivedPacket + deltaSeconds }]) ++ rest).length < 2 ^ 32 := by
          simp at hlen ⊢
          omega
        simp only [timeoutLoop, hget, hset, hout, if_false, hidx]
        have happ : visited ++
            { c with secondsSinceLastReceivedPacket :=
                c.secondsSinceLastReceivedPacket + deltaSeconds } :: rest =
            (visited ++ [{ c with secondsSinceLastReceivedPacket :=
                c.secondsSinceLastReceivedPacket + deltaSeconds }]) ++ rest := by
          simp
        rw [happ, ih fuel _ hlen' hfuel']
        simp [List.filter_cons, hout]

/-- C5: on a client list shorter than `2^32`, with fuel for one visit per session, the timeout
sweep of `Update` returns the original list, in order, with every timer advanced by
`deltaSeconds` and restricted to exactly the sessions whose advanced timer does not exceed
the 5-second threshold. Every session is visited once, also after a removal and when the
first element is removed. The timer is advanced by the `+=` of the code, the addition of
`float`, which rounds, and "does not exceed" is the negation of its `>`, so that a session
whose advanced timer is a NaN is kept. -/
theorem timeout_sweep_keeps_exactly_live_sessions (fuel : Nat) (deltaSeconds : Float32)
    (clients : List ClientInfo) (hsize : clients.length < 2 ^ 32)
    (hfuel : clients.length < fuel) :
    removeTimedOutClients fuel deltaSeconds clients =
      some ((clients.map (fun c =>
        { c with
          secondsSinceLastReceivedPacket :=
            c.secondsSinceLastReceivedPacket + deltaSeconds })).filter
        (fun c => decide
          (¬ c.secondsSinceLastReceivedPacket > SECONDS_BEFORE_CLIENT_TIMES_OUT))) := by
  have h := timeoutLoop_from deltaSeconds clients fuel [] (by simpa using hsize) hfuel
  simpa [removeTimedOutClients] using h

theorem timeout_sweep_keeps_exactly_live_sessions_witness :
    (threeSessions.length < 2 ^ 32 ∧ threeSessions.length < 4) ∧
    removeTimedOutClients 4 1 threeSessions =
      some ((threeSessions.map (fun c =>
        { c with
          secondsSinceLastReceivedPacket := c.secondsSinceLastReceivedPacket + 1 })).filter
        (fun c => decide
          (¬ c.secondsSinceLastReceivedPacket > SECONDS_BEFORE_CLIENT_TIMES_OUT))) :=
  ⟨⟨by decide, by decide⟩,
    timeout_sweep_keeps_exactly_live_sessions 4 1 threeSessions (by decide) (by decide)⟩

/-- The sum is the rounded one: a timer of 4 advanced by `1 + 2^-23` is 5, which does not
exceed the threshold, and the session is kept. -/
theorem timeout_sweep_rounds_the_sum :
    (Float32.finite (1 + 1 / 2 ^ 23)).IsValue ∧
    removeTimedOutClients 2 (Float32.finite (1 + 1 / 2 ^ 23))
        [{ sessionAt 1 7 2 [] with secondsSinceLastReceivedPacket := 4 }] =
      some [{ sessionAt 1 7 2 [] with secondsSinceLastReceivedPacket := 5 }] := by
  decide!

set_option maxRecDepth 100000 in
/-- Rounding accumulates: a timer advanced 200 times by the `float` nearest to 0.025 exceeds
5, and advanced 199 times it does not. -/
theorem timer_exceeds_five_after_200_fortieths :
    (Float32.round (1 / 40)).IsValue ∧
    (fun t : Float32 => t + Float32.round (1 / 40))^[200] 0 > 5 ∧
    ¬ (fun t : Float32 => t + Float32.round (1 / 40))^[199] 0 > 5 := by
  decide!

theorem timeout_sweep_on_three_sessions :
    removeTimedOutClients 4 1 threeSessions =
      some [{ sessionAt 2 8 2 [] with secondsSinceLastReceivedPacket := 1 }] := by
  decide!

/-! ## Lookups by the id a packet carries -/

/-- C6: an Acknowledgement is matched against the session whose id the packet carries, not
against the session of the sender. After Joins from `10.0.0.1:7` and `10.0.0.2:8` both
sessions have their Reset numbered 1 in flight; an Acknowledgement that arrives from
`10.0.0.1:7` with session id 2 empties the in-flight set of session 2 and leaves the one of
session 1, the sender, as it was. -/
theorem acknowledgement_clears_another_session :
    (match ProcessNetworkQueue 4
        { quietPlatform with pending := [joinFrom "10.0.0.1" 7, joinFrom "10.0.0.2" 8] }
        GameServer.fresh with
      | Run.finished (_, s) =>
        s.m_clientList.map
          (fun c => (c.id, c.ipAddress, c.portNumber, c.unacknowledgedPackets.map (·.number)))
      | _ => []) = [(1, "10.0.0.1", 7, [1]), (2, "10.0.0.2", 8, [1])] ∧
    (match ProcessNetworkQueue 4
        { quietPlatform with
          pending := [joinFrom "10.0.0.1" 7, joinFrom "10.0.0.2" 8,
            acknowledgementFrom "10.0.0.1" 7 2 1] }
        GameServer.fresh with
      | Run.finished (_, s) =>
        s.m_clientList.map
          (fun c => (c.id, c.ipAddress, c.portNumber, c.unacknowledgedPackets.map (·.number)))
      | _ => []) = [(1, "10.0.0.1", 7, [1]), (2, "10.0.0.2", 8, [])] := by
  constructor <;> with_unfolding_all decide

/-- C7: a lookup by id that fails is used. After a Join from `10.0.0.1:7`, an Acknowledgement
from that address carrying session id 9, and likewise a Touch from that address naming
instigator 9 and receiver 1, make the server use the null result of `FindClientByID`. -/
theorem unknown_id_reaches_null_lookup :
    ProcessNetworkQueue 4
        { quietPlatform with
          pending := [joinFrom "10.0.0.1" 7, acknowledgementFrom "10.0.0.1" 7 9 1] }
        GameServer.fresh = Run.halted Halt.nullDereference ∧
    ProcessNetworkQueue 4
        { quietPlatform with
          pending := [joinFrom "10.0.0.1" 7, touchFrom "10.0.0.1" 7 9 1] }
        GameServer.fresh = Run.halted Halt.nullDereference := by
  constructor <;> with_unfolding_all rfl

theorem stale_datagram_loops (fuel : Nat) :
    processNetworkLoop fuel
        { quietPlatform with pending := [] } GameServer.fresh
        { receivedIPAddress := "10.0.0.9", receivedPort := 9,
          receivedPacket := packetOfType PacketType.TYPE_Update } 1 = Run.outOfFuel := by
  induction fuel with
  | zero => rfl
  | succ fuel ih =>
    simp only [processNetworkLoop, ReceiveBuffer]
    rw [dispatchReceived_unknown _ _ _ _ _ (by decide) (by decide)]
    simpa using ih

/-- C8: the network phase does not terminate when the last pending datagram is a non-Join
datagram from an unknown sender. With the single pending datagram an Update from
`10.0.0.9:9` and no session, the loop runs out of every amount of fuel: the body leaves by
`continue` with the byte count still at its stale positive value, the next receive finds
nothing and leaves the locals as they were, and the same datagram is dispatched again. -/
theorem network_phase_never_ends (fuel : Nat) :
    ProcessNetworkQueue fuel
        { quietPlatform with
          pending := [⟨packetOfType PacketType.TYPE_Update, "10.0.0.9", 9⟩] }
        GameServer.fresh = Run.outOfFuel := by
  cases fuel with
  | zero => rfl
  | succ fuel =>
    simp only [ProcessNetworkQueue, processNetworkLoop, GetNumberOfBytesInNetworkQueue,
      ReceiveBuffer]
    rw [dispatchReceived_unknown _ _ _ _ _ (by decide) (by decide)]
    simpa using stale_datagram_loops fuel

/-! ## The broadcast -/

theorem sendUpdateToEachClient_ok (clients : List ClientInfo) :
    ∀ (w : Platform) (updatePacket : MidtermPacket), SendsSucceed w →
      updatePacket.type = PacketType.TYPE_Update →
      ∃ log : List Datagram,
        sendUpdateToEachClient w updatePacket clients =
          Except.ok
            ({ w with clockReads := w.clockReads + clients.length, sent := w.sent ++ log },
              clients.map ClientInfo.numbered) ∧
        log.length = clients.length ∧
        ∀ (j : Nat) (receiver : ClientInfo), clients[j]? = some receiver →
          log[j]? = some
            ⟨{ updatePacket with
                number := receiver.currentPacketNumber
                timestamp := w.clock (w.clockReads + j) },
              receiver.ipAddress, receiver.portNumber⟩ := by
  induction clients with
  | nil =>
    intro w updatePacket _ _
    exact ⟨[], by simp [sendUpdateToEachClient], rfl, by simp⟩
  | cons c rest ih =>
    intro w updatePacket hw hkind
    have hsend := SendPacketToClient_ok hw
      { updatePacket with number := c.currentPacketNumber }
      { c with currentPacketNumber := (c.currentPacketNumber + 1) % 2 ^ 32 } false
    have hw1 : SendsSucceed
        { w with
          clockReads := w.clockReads + 1
          sent := w.sent ++
            [⟨{ updatePacket with
                  number := c.currentPacketNumber
                  timestamp := w.clock w.clockReads },
              c.ipAddress, c.portNumber⟩] } := hw
    obtain ⟨log, hrest, hlen, hget⟩ := ih _ updatePacket hw1 hkind
    refine ⟨⟨{ updatePacket with
                number := c.currentPacketNumber
                timestamp := w.clock w.clockReads },
              c.ipAddress, c.portNumber⟩ :: log, ?_, by simp [hlen], ?_⟩
    · simp only [sendUpdateToEachClient, hsend, hrest]
      simp [MidtermPacket.IsGuaranteed, hkind, ClientInfo.numbered, Nat.add_assoc,
        Nat.add_comm 1]
    · intro j receiver hj
      cases j with
      | zero =>
        simp at hj
        subst hj
        simp
      | succ j =>
        simp at hj
        have := hget j receiver hj
        simp only [List.getElem?_cons_succ, this]
        simp [Nat.add_assoc, Nat.add_comm 1]

theorem numbered_iterate_succ (k : Nat) (c : ClientInfo) :
    ClientInfo.numbered^[k + 1] c =
      { c with currentPacketNumber := (c.currentPacketNumber + (k + 1)) % 2 ^ 32 } := by
  induction k with
  | zero => rfl
  | succ k ih =>
    rw [Function.iterate_succ_apply', ih]
    simp only [ClientInfo.numbered]
    congr 1
    omega

theorem updatePacketFor_numbered (c : ClientInfo) :
    updatePacketFor c.numbered = updatePacketFor c := rfl

theorem broadcastFrom_ok (remaining : Nat) :
    ∀ (i : Nat) (w : Platform) (clients : List ClientInfo), SendsSucceed w →
      i + remaining = clients.length →
      ∃ log : List Datagram,
        broadcastFrom w clients i remaining =
          Except.ok
            ({ w with
                clockReads := w.clockReads + remaining * clients.length
                sent := w.sent ++ log },
              clients.map (ClientInfo.numbered^[remaining])) ∧
        log.length = remaining * clients.length ∧
        ∀ (a j : Nat) (sender receiver : ClientInfo), a < remaining →
          clients[i + a]? = some sender → clients[j]? = some receiver →
          log[a * clients.length + j]? = some
            ⟨{ updatePacketFor sender with
                number := (ClientInfo.numbered^[a] receiver).currentPacketNumber
                timestamp := w.clock (w.clockReads + (a * clients.length + j)) },
              receiver.ipAddress, receiver.portNumber⟩ := by
  induction remaining with
  | zero =>
    intro i w clients _ _
    refine ⟨[], ?_, by simp, ?_⟩
    · simp [broadcastFrom]
    · intro a j sender receiver ha
      omega
  | succ k ih =>
    intro i w clients hw hlen
    have hi : i < clients.length := by omega
    obtain ⟨log0, hinner, hlen0, hget0⟩ :=
      sendUpdateToEachClient_ok clients w (updatePacketFor clients[i]) hw rfl
    have hw1 : SendsSucceed
        { w with clockReads := w.clockReads + clients.length, sent := w.sent ++ log0 } := hw
    obtain ⟨log1, hrest, hlen1, hget1⟩ :=
      ih (i + 1) _ (clients.map ClientInfo.numbered) hw1 (by simp; omega)
    refine ⟨log0 ++ log1, ?_, ?_, ?_⟩
    · simp only [broadcastFrom, List.getElem?_eq_getElem hi, hinner, hrest]
      simp only [List.length_map, List.map_map, List.append_assoc, Nat.succ_mul]
      have hfun : ClientInfo.numbered^[k] ∘ ClientInfo.numbered = ClientInfo.numbered^[k + 1] := by
        funext c
        simp [Function.iterate_succ_apply]
      rw [hfun]
      congr 3
      omega
    · simp [hlen0, hlen1, Nat.succ_mul]
      omega
    · intro a j sender receiver ha hsender hreceiver
      have hj : j < clients.length := by
        rcases Nat.lt_or_ge j clients.length with h | h
        · exact h
        · rw [List.getElem?_eq_none h] at hreceiver
          cases hreceiver
      cases a with
      | zero =>
        have hs : clients[i] = sender := by
          have := hsender
          simp only [Nat.add_zero, List.getElem?_eq_getElem hi, Option.some.injEq] at this
          exact this
        have h0 := hget0 j receiver hreceiver
        rw [hs] at h0
        simp only [Nat.zero_mul, Nat.zero_add, Function.iterate_zero, id_eq]
        rw [List.getElem?_append_left (by omega)]
        exact h0
      | succ a =>
        have hsender' : (clients.map ClientInfo.numbered)[i + 1 + a]? = some sender.numbered := by
          have : i + 1 + a = i + (a + 1) := by omega
          simp [this, hsender]
        have hreceiver' : (clients.map ClientInfo.numbered)[j]? = some receiver.numbered := by
          simp [hreceiver]
        have h1 := hget1 a j sender.numbered receiver.numbered (by omega) hsender' hreceiver'
        have hidx : (a + 1) * clients.length + j = log0.length + (a * clients.length + j) := by
          rw [hlen0, Nat.succ_mul]
          omega
        rw [hidx, List.getElem?_append_right (by omega)]
        simp only [Nat.add_sub_cancel_left]
        simp only [List.length_map] at h1
        rw [h1, updatePacketFor_numbered]
        have hclock : w.clockReads + clients.length + (a * clients.length + j) =
            w.clockReads + (log0.length + (a * clients.length + j)) := by
          rw [hlen0]
          omega
        simp only [hclock, Function.iterate_succ_apply]
        rfl

/-- C9, amended: with `n` live sessions and sends that succeed, the broadcast makes `n * n`
sends, one for every pair of a broadcasted session and a receiving session, the receiving
session being the broadcasted one included. The send number `a * n + j` carries the update
packet of the session at position `a` (its id and transform) to the address of the session
at position `j`, numbered with that session's counter advanced `a` times (modulo `2^32`).
Every session's counter ends advanced by `n`, and nothing else in the server changes. -/
theorem broadcast_sends_every_session_to_every_session (w : Platform) (s : GameServer)
    (hw : SendsSucceed w) :
    ∃ log : List Datagram,
      BroadcastGameStateToClients w s =
        Except.ok
          ({ w with
              clockReads := w.clockReads + s.m_clientList.length * s.m_clientList.length
              sent := w.sent ++ log },
            { s with
              m_clientList := s.m_clientList.map (fun c =>
                { c with
                  currentPacketNumber :=
                    (c.currentPacketNumber + s.m_clientList.length) % 2 ^ 32 }) }) ∧
      log.length = s.m_clientList.length * s.m_clientList.length ∧
      ∀ (a j : Nat) (sender receiver : ClientInfo),
        s.m_clientList[a]? = some sender → s.m_clientList[j]? = some receiver →
        log[a * s.m_clientList.length + j]? = some
          ⟨{ updatePacketFor sender with
              number :=
                if a = 0 then receiver.currentPacketNumber
                else (receiver.currentPacketNumber + a) % 2 ^ 32
              timestamp := w.clock (w.clockReads + (a * s.m_clientList.length + j)) },
            receiver.ipAddress, receiver.portNumber⟩ := by
  obtain ⟨log, hrun, hlen, hget⟩ :=
    broadcastFrom_ok s.m_clientList.length 0 w s.m_clientList hw (by simp)
  refine ⟨log, ?_, hlen, ?_⟩
  · simp only [BroadcastGameStateToClients, hrun]
    congr 3
    cases hn : s.m_clientList.length with
    | zero =>
      have : s.m_clientList = [] := List.length_eq_zero.mp hn
      simp [this]
    | succ k =>
      apply List.map_congr_left
      intro c _
      exact numbered_iterate_succ k c
  · intro a j sender receiver hsender hreceiver
    have ha : a < s.m_clientList.length := by
      rcases Nat.lt_or_ge a s.m_clientList.length with h | h
      · exact h
      · rw [List.getElem?_eq_none h] at hsender
        cases hsender
    rw [hget a j sender receiver ha (by simpa using hsender) hreceiver]
    cases a with
    | zero => simp
    | succ a => simp [numbered_iterate_succ]

theorem broadcast_sends_every_session_to_every_session_witness :
    SendsSucceed quietPlatform ∧
    ∃ log : List Datagram,
      BroadcastGameStateToClients quietPlatform twoSessionServer =
        Except.ok
          ({ quietPlatform with
              clockReads := quietPlatform.clockReads +
                twoSessionServer.m_clientList.length * twoSessionServer.m_clientList.length
              sent := quietPlatform.sent ++ log },
            { twoSessionServer with
              m_clientList := twoSessionServer.m_clientList.map (fun c =>
                { c with
                  currentPacketNumber :=
                    (c.currentPacketNumber + twoSessionServer.m_clientList.length) %
                      2 ^ 32 }) }) ∧
      log.length = 4 :=
  ⟨fun _ => le_refl _,
    (broadcast_sends_every_session_to_every_session quietPlatform twoSessionServer
      (fun _ => le_refl _)).imp (fun _ h => ⟨h.1, h.2.1⟩)⟩

/-- C9, counterexample: with two live sessions, each with counter 2, the broadcast sends four
datagrams, not two. Session 1 at port 7 receives the update packet of session 1, its own, as
well as that of session 2, and so does session 2 at port 8; both counters end at 4, advanced
by 2 and not by 1. -/
theorem broadcast_reaches_the_broadcasted_session :
    (match BroadcastGameStateToClients quietPlatform twoSessionServer with
      | Except.ok (w, s) =>
        (w.sent.map (fun d => (d.portNumber, d.packet.type, d.packet.clientID, d.packet.number)),
          s.m_clientList.map (fun c => (c.id, c.currentPacketNumber)))
      | Except.error _ => ([], [])) =
      ([(7, PacketType.TYPE_Update, 1, 2), (8, PacketType.TYPE_Update, 1, 2),
        (7, PacketType.TYPE_Update, 2, 3), (8, PacketType.TYPE_Update, 2, 3)],
       [(1, 4), (2, 4)]) := by
  with_unfolding_all decide

/-! ## The resend sweep -/

theorem isPacketSet_iff_numbers (packets : List MidtermPacket) :
    IsPacketSet packets ↔ (packets.map (·.number)).Pairwise (· < ·) := by
  simp [IsPacketSet, List.pairwise_map]

theorem restampedFrom_content (clock : Nat → ℚ) (packets : List MidtermPacket) :
    ∀ reads, (restampedFrom clock reads packets).map MidtermPacket.content =
      packets.map MidtermPacket.content := by
  induction packets with
  | nil => intro _; rfl
  | cons p rest ih =>
    intro reads
    simp [restampedFrom, ih, MidtermPacket.content]

theorem restampedFrom_length (clock : Nat → ℚ) (packets : List MidtermPacket) :
    ∀ reads, (restampedFrom clock reads packets).length = packets.length := by
  induction packets with
  | nil => intro _; rfl
  | cons p rest ih =>
    intro reads
    simp [restampedFrom, ih]

theorem stamp_stored_element (visited rest : List MidtermPacket) (p p' : MidtermPacket)
    (hset : IsPacketSet (visited ++ p :: rest)) :
    (visited ++ p :: rest).map (fun element => if element.number = p.number then p' else element)
      = visited ++ p' :: rest := by
  have hpair := List.pairwise_append.mp hset
  have hvisited : ∀ e ∈ visited, e.number ≠ p.number := by
    intro e he
    have := hpair.2.2 e he p (List.mem_cons_self _ _)
    omega
  have hrest : ∀ e ∈ rest, e.number ≠ p.number := by
    intro e he
    have := (List.pairwise_cons.mp hpair.2.1).1 e he
    omega
  have h1 : visited.map (fun element => if element.number = p.number then p' else element)
      = visited := by
    conv_rhs => rw [← List.map_id visited]
    exact List.map_congr_left (fun e he => by simp [hvisited e he])
  have h2 : rest.map (fun element => if element.number = p.number then p' else element)
      = rest := by
    conv_rhs => rw [← List.map_id rest]
    exact List.map_congr_left (fun e he => by simp [hrest e he])
  simp [h1, h2]

theorem resendEachPacket_ok (todo : List MidtermPacket) :
    ∀ (visited : List MidtermPacket) (w : Platform) (client : ClientInfo), SendsSucceed w →
      client.unacknowledgedPackets = visited ++ todo → IsPacketSet (visited ++ todo) →
      resendEachPacket w client todo =
        Except.ok
          ({ w with
              clockReads := w.clockReads + todo.length
              sent := w.sent ++
                (restampedFrom w.clock w.clockReads todo).map
                  (fun p => ⟨p, client.ipAddress, client.portNumber⟩) },
            { client with
              unacknowledgedPackets := visited ++ restampedFrom w.clock w.clockReads todo }) := by
  induction todo with
  | nil =>
    intro visited w client _ hunack _
    simp only [resendEachPacket, restampedFrom, List.length_nil, Nat.add_zero, List.map_nil,
      List.append_nil]
    rw [← (by simpa using hunack : client.unacknowledgedPackets = visited)]
  | cons p rest ih =>
    intro visited w client hw hunack hset
    have hstamp := stamp_stored_element visited rest p
      { p with timestamp := w.clock w.clockReads } hset
    have hset1 : IsPacketSet (visited ++ { p with timestamp := w.clock w.clockReads } :: rest) := by
      rw [isPacketSet_iff_numbers] at hset ⊢
      simpa using hset
    have hinsert : setInsert { p with timestamp := w.clock w.clockReads }
        (visited ++ { p with timestamp := w.clock w.clockReads } :: rest) =
        visited ++ { p with timestamp := w.clock w.clockReads } :: rest :=
      setInsert_of_number_mem hset1 ⟨_, by simp, rfl⟩
    have hsame : (if p.IsGuaranteed = true then
          setInsert { p with timestamp := w.clock w.clockReads }
        else id) (visited ++ { p with timestamp := w.clock w.clockReads } :: rest) =
        visited ++ { p with timestamp := w.clock w.clockReads } :: rest := by
      split
      · exact hinsert
      · rfl
    have hw1 : SendsSucceed
        { w with
          clockReads := w.clockReads + 1
          sent := w.sent ++
            [⟨{ p with timestamp := w.clock w.clockReads },
              client.ipAddress, client.portNumber⟩] } := hw
    have hset2 : IsPacketSet
        ((visited ++ [{ p with timestamp := w.clock w.clockReads }]) ++ rest) := by
      simpa using hset1
    simp only [resendEachPacket, SendPacketToClient_ok hw, if_true, hunack, hstamp, hsame]
    rw [ih (visited ++ [{ p with timestamp := w.clock w.clockReads }]) _ _ hw1 (by simp) hset2]
    simp [restampedFrom, Nat.add_assoc, Nat.add_comm 1]

theorem SameButTimestamps.isPacketSet {before after : ClientInfo}
    (h : SameButTimestamps before after) (hset : IsPacketSet before.unacknowledgedPackets) :
    IsPacketSet after.unacknowledgedPackets := by
  rw [isPacketSet_iff_numbers] at hset ⊢
  have hnum : ∀ l : List MidtermPacket,
      l.map (·.number) = (l.map MidtermPacket.content).map (fun x => x.2.2.1) := by
    intro l
    simp [MidtermPacket.content]
  rw [hnum, h.2, ← hnum]
  exact hset

theorem SameButTimestamps.trans {a b c : ClientInfo} (hab : SameButTimestamps a b)
    (hbc : SameButTimestamps b c) : SameButTimestamps a c := by
  refine ⟨?_, hbc.2.trans hab.2⟩
  rw [hbc.1, hab.1]

theorem forall₂_sameButTimestamps_trans {a b c : List ClientInfo}
    (hab : List.Forall₂ SameButTimestamps a b) (hbc : List.Forall₂ SameButTimestamps b c) :
    List.Forall₂ SameButTimestamps a c := by
  induction hab generalizing c with
  | nil =>
    cases hbc
    exact List.Forall₂.nil
  | cons h _ ih =>
    cases hbc with
    | cons h' t' => exact List.Forall₂.cons (h.trans h') (ih t')

theorem forall₂_sameButTimestamps_isPacketSet {a b : List ClientInfo}
    (hab : List.Forall₂ SameButTimestamps a b)
    (hsets : ∀ c ∈ a, IsPacketSet c.unacknowledgedPackets) :
    ∀ c ∈ b, IsPacketSet c.unacknowledgedPackets := by
  induction hab with
  | nil => simp
  | @cons c c' l l' h _ ih =>
    intro x hx
    rcases List.mem_cons.mp hx with hx | hx
    · subst hx
      exact h.isPacketSet (hsets c (List.mem_cons_self _ _))
    · exact ih (fun y hy => hsets y (List.mem_cons_of_mem _ hy)) x hx

theorem forall₂_sameButTimestamps_refl (clients : List ClientInfo) :
    List.Forall₂ SameButTimestamps clients clients := by
  induction clients with
  | nil => exact List.Forall₂.nil
  | cons c rest ih => exact List.Forall₂.cons ⟨rfl, rfl⟩ ih

theorem resendUnacknowledgedPackets_ok (clients : List ClientInfo) :
    ∀ (w : Platform), SendsSucceed w → (∀ c ∈ clients, IsPacketSet c.unacknowledgedPackets) →
      ∃ (clients' : List ClientInfo) (log : List Datagram) (reads : Nat),
        resendUnacknowledgedPackets w clients =
          Except.ok ({ w with clockReads := reads, sent := w.sent ++ log }, clients') ∧
        log.map Datagram.contentAndAddress = inFlight clients ∧
        List.Forall₂ SameButTimestamps clients clients' := by
  induction clients with
  | nil =>
    intro w _ _
    exact ⟨[], [], w.clockReads, by simp [resendUnacknowledgedPackets], rfl, List.Forall₂.nil⟩
  | cons c rest ih =>
    intro w hw hsets
    have hc : IsPacketSet c.unacknowledgedPackets := hsets c (List.mem_cons_self _ _)
    have hone := resendEachPacket_ok c.unacknowledgedPackets [] w c hw (by simp) (by simpa using hc)
    have hw1 : SendsSucceed
        { w with
          clockReads := w.clockReads + c.unacknowledgedPackets.length
          sent := w.sent ++
            (restampedFrom w.clock w.clockReads c.unacknowledgedPackets).map
              (fun p => ⟨p, c.ipAddress, c.portNumber⟩) } := hw
    obtain ⟨rest', log, reads, hrest, hlog, hsame⟩ :=
      ih _ hw1 (fun c' hc' => hsets c' (List.mem_cons_of_mem _ hc'))
    refine ⟨{ c with
        unacknowledgedPackets := restampedFrom w.clock w.clockReads c.unacknowledgedPackets } ::
        rest',
      (restampedFrom w.clock w.clockReads c.unacknowledgedPackets).map
        (fun p => ⟨p, c.ipAddress, c.portNumber⟩) ++ log, reads, ?_, ?_, ?_⟩
    · simp only [resendUnacknowledgedPackets, hone, hrest, List.nil_append, List.append_assoc]
    · have hhead : ((restampedFrom w.clock w.clockReads c.unacknowledgedPackets).map
          (fun p => (⟨p, c.ipAddress, c.portNumber⟩ : Datagram))).map
            Datagram.contentAndAddress =
          c.unacknowledgedPackets.map (fun p => (p.content, c.ipAddress, c.portNumber)) := by
        have h1 := restampedFrom_content w.clock c.unacknowledgedPackets w.clockReads
        have h2 : ∀ l : List MidtermPacket,
            (l.map (fun p => (⟨p, c.ipAddress, c.portNumber⟩ : Datagram))).map
              Datagram.contentAndAddress =
            (l.map MidtermPacket.content).map (fun x => (x, c.ipAddress, c.portNumber)) := by
          intro l
          simp [Datagram.contentAndAddress]
        rw [h2, h1]
        simp
      simp only [List.map_append, hhead, hlog, inFlight, List.flatMap_cons]
    · exact List.Forall₂.cons ⟨rfl, restampedFrom_content _ _ _⟩ hsame

/-! ## What the helper functions leave unchanged -/

theorem SendPacketToClient_frame {w w' : Platform} {packet : MidtermPacket}
    {client client' : ClientInfo} {stored : Bool}
    (h : SendPacketToClient w packet client stored = Except.ok (w', client')) :
    w'.sendResults = w.sendResults ∧ w'.pending = w.pending ∧
    client' = { client with unacknowledgedPackets := client'.unacknowledgedPackets } := by
  simp only [SendPacketToClient, GetCurrentTimeSeconds, SendBuffer] at h
  split at h
  · cases h
  · split at h
    · simp only [Except.ok.injEq, Prod.mk.injEq] at h
      obtain ⟨rfl, rfl⟩ := h
      cases stored <;> simp
    · simp only [Except.ok.injEq, Prod.mk.injEq] at h
      obtain ⟨rfl, rfl⟩ := h
      cases stored <;> simp

theorem ResetClient_frame {w w' : Platform} {itPlayerID itPlayerID' : Nat}
    {client client' : ClientInfo}
    (h : ResetClient w itPlayerID client = Except.ok (w', itPlayerID', client')) :
    w'.sendResults = w.sendResults ∧ w'.pending = w.pending ∧
    itPlayerID' = (if itPlayerID = 0 then client.id else itPlayerID) ∧
    client'.identity = client.identity ∧
    client'.secondsSinceLastReceivedPacket = client.secondsSinceLastReceivedPacket ∧
    SpawnRule itPlayerID' client' := by
  by_cases hc : client.id = (if itPlayerID = 0 then client.id else itPlayerID)
  · simp only [ResetClient, GetRandomFloatBetweenZeroandOne, if_pos hc] at h
    split at h
    · cases h
    · rename_i w3 client3 hsend
      simp only [Except.ok.injEq, Prod.mk.injEq] at h
      obtain ⟨rfl, rfl, rfl⟩ := h
      obtain ⟨hres, hpend, hclient⟩ := SendPacketToClient_frame hsend
      rw [hclient]
      exact ⟨hres, hpend, rfl, rfl, rfl, rfl, rfl, rfl, fun _ => rfl⟩
  · simp only [ResetClient, GetRandomFloatBetweenZeroandOne, if_neg hc] at h
    split at h
    · cases h
    · rename_i w3 client3 hsend
      simp only [Except.ok.injEq, Prod.mk.injEq] at h
      obtain ⟨rfl, rfl, rfl⟩ := h
      obtain ⟨hres, hpend, hclient⟩ := SendPacketToClient_frame hsend
      rw [hclient]
      exact ⟨hres, hpend, rfl, rfl, rfl, rfl, rfl, rfl, fun hid => absurd hid hc⟩

theorem ResetClient_ok {w : Platform} (hw : SendsSucceed w) (itPlayerID : Nat)
    (client : ClientInfo) :
    ∃ w' client', ResetClient w itPlayerID client =
      Except.ok (w', if itPlayerID = 0 then client.id else itPlayerID, client') := by
  have h1 : SendsSucceed { w with randomCalls := w.randomCalls + 1 } := hw
  have h2 : SendsSucceed { w with randomCalls := w.randomCalls + 1 + 1 } := hw
  by_cases hc : client.id = (if itPlayerID = 0 then client.id else itPlayerID)
  · simp only [ResetClient, GetRandomFloatBetweenZeroandOne, if_pos hc]
    rw [SendPacketToClient_ok h1]
    exact ⟨_, _, rfl⟩
  · simp only [ResetClient, GetRandomFloatBetweenZeroandOne, if_neg hc]
    rw [SendPacketToClient_ok h2]
    exact ⟨_, _, rfl⟩

theorem map_set_of_eq {α β : Type} (f : α → β) {l : List α} {i : Nat} {a b : α}
    (ha : l[i]? = some a) (hb : f b = f a) : (l.set i b).map f = l.map f := by
  induction l generalizing i with
  | nil => simp
  | cons c rest ih =>
    cases i with
    | zero =>
      simp at ha
      subst ha
      simp [hb]
    | succ j =>
      simp at ha
      simp [ih ha]

theorem resetEachClient_frame (clients : List ClientInfo) :
    ∀ {w w' : Platform} {itPlayerID itPlayerID' : Nat} {clients' : List ClientInfo},
      resetEachClient w itPlayerID clients = Except.ok (w', itPlayerID', clients') →
      w'.sendResults = w.sendResults ∧ w'.pending = w.pending ∧
      clients'.map ClientInfo.identity = clients.map ClientInfo.identity ∧
      clients'.map (·.secondsSinceLastReceivedPacket) =
        clients.map (·.secondsSinceLastReceivedPacket) ∧
      (itPlayerID ≠ 0 → itPlayerID' = itPlayerID ∧ ∀ c ∈ clients', SpawnRule itPlayerID c) := by
  induction clients with
  | nil =>
    intro w w' itPlayerID itPlayerID' clients' h
    simp only [resetEachClient, Except.ok.injEq, Prod.mk.injEq] at h
    obtain ⟨rfl, rfl, rfl⟩ := h
    simp
  | cons c rest ih =>
    intro w w' itPlayerID itPlayerID' clients' h
    simp only [resetEachClient] at h
    split at h
    · cases h
    · rename_i w1 it1 c1 hreset
      split at h
      · cases h
      · rename_i w2 it2 rest1 hrest
        simp only [Except.ok.injEq, Prod.mk.injEq] at h
        obtain ⟨rfl, rfl, rfl⟩ := h
        obtain ⟨hres1, hpend1, hit1, hid1, htimer1, hspawn1⟩ := ResetClient_frame hreset
        obtain ⟨hres2, hpend2, hid2, htimer2, hspawn2⟩ := ih hrest
        refine ⟨hres2.trans hres1, hpend2.trans hpend1, by simp [hid1, hid2],
          by simp [htimer1, htimer2], ?_⟩
        intro hne
        have hit1' : it1 = itPlayerID := by simpa [hne] using hit1
        subst hit1'
        obtain ⟨hit2, hall⟩ := hspawn2 hne
        refine ⟨hit2, ?_⟩
        intro x hx
        rcases List.mem_cons.mp hx with hx | hx
        · subst hx
          exact hspawn1
        · exact hall x hx

theorem resetEachClient_ok (clients : List ClientInfo) :
    ∀ {w : Platform}, SendsSucceed w → ∀ (itPlayerID : Nat),
      ∃ w' itPlayerID' clients',
        resetEachClient w itPlayerID clients = Except.ok (w', itPlayerID', clients') := by
  induction clients with
  | nil =>
    intro w _ itPlayerID
    exact ⟨_, _, _, rfl⟩
  | cons c rest ih =>
    intro w hw itPlayerID
    obtain ⟨w1, c1, hreset⟩ := ResetClient_ok hw itPlayerID c
    have hw1 : SendsSucceed w1 := SendsSucceed_of_sendResults hw (ResetClient_frame hreset).1
    obtain ⟨w2, it2, rest1, hrest⟩ := ih hw1 (if itPlayerID = 0 then c.id else itPlayerID)
    exact ⟨w2, it2, c1 :: rest1, by simp only [resetEachClient, hreset, hrest]⟩

theorem FindClientByID_get {clients : List ClientInfo} {clientID i : Nat}
    (h : FindClientByID clients clientID = some i) :
    ∃ c, clients[i]? = some c ∧ c.id = clientID := by
  induction clients generalizing i with
  | nil => simp [FindClientByID] at h
  | cons c rest ih =>
    by_cases hc : c.id = clientID
    · simp [FindClientByID, hc] at h
      subst h
      exact ⟨c, by simp, hc⟩
    · simp [FindClientByID, hc] at h
      obtain ⟨j, hj, rfl⟩ := h
      obtain ⟨c', hc', hid⟩ := ih hj
      exact ⟨c', by simpa using hc', hid⟩

theorem FindClientByAddress_get {clients : List ClientInfo} {ipAddress : String}
    {portNumber i : Nat} (h : FindClientByAddress clients ipAddress portNumber = some i) :
    ∃ c, clients[i]? = some c ∧ c.ipAddress = ipAddress ∧ c.portNumber = portNumber := by
  induction clients generalizing i with
  | nil => simp [FindClientByAddress] at h
  | cons c rest ih =>
    by_cases hc : c.ipAddress = ipAddress ∧ c.portNumber = portNumber
    · simp [FindClientByAddress, hc] at h
      subst h
      exact ⟨c, by simp, hc⟩
    · simp only [FindClientByAddress, hc, if_false, Option.map_eq_some'] at h
      obtain ⟨j, hj, rfl⟩ := h
      obtain ⟨c', hc', hid⟩ := ih hj
      exact ⟨c', by simpa using hc', hid⟩

theorem FindClientByAddress_none {clients : List ClientInfo} {ipAddress : String}
    {portNumber : Nat} :
    FindClientByAddress clients ipAddress portNumber = none ↔
      ∀ c ∈ clients, ¬ (c.ipAddress = ipAddress ∧ c.portNumber = portNumber) := by
  induction clients with
  | nil => simp [FindClientByAddress]
  | cons c rest ih =>
    by_cases hc : c.ipAddress = ipAddress ∧ c.portNumber = portNumber
    · simp [FindClientByAddress, hc]
    · simp only [FindClientByAddress, hc, if_false, Option.map_eq_none', ih, List.mem_cons,
        forall_eq_or_imp, not_false_eq_true, true_and]

/-! ## Dispatch of one datagram -/

theorem getElem?_append_singleton {α : Type} (l : List α) (a : α) :
    (l ++ [a])[l.length]? = some a := by
  rw [List.getElem?_append_right (le_refl _)]
  simp

theorem set_append_singleton {α : Type} (l : List α) (a b : α) :
    (l ++ [a]).set l.length b = l ++ [b] := by
  induction l with
  | nil => rfl
  | cons c rest ih => simp [ih]

theorem dispatchReceived_join_frame {w w' : Platform} {s s' : GameServer} {ipAddress : String}
    {portNumber : Nat} {packet : MidtermPacket} {resample : Bool}
    (hunknown : FindClientByAddress s.m_clientList ipAddress portNumber = none)
    (hkind : packet.type = PacketType.TYPE_Join)
    (h : dispatchReceived w s ipAddress portNumber packet = Except.ok (w', s', resample)) :
    ∃ client : ClientInfo,
      s'.m_clientList = s.m_clientList ++ [client] ∧
      client.identity = (s.m_nextClientID % 2 ^ 8, ipAddress, portNumber) ∧
      client.secondsSinceLastReceivedPacket = 0 ∧
      s'.m_nextClientID = (s.m_nextClientID + 1) % 2 ^ 32 ∧
      s'.m_itPlayerID =
        (if s.m_itPlayerID = 0 then s.m_nextClientID % 2 ^ 8 else s.m_itPlayerID) ∧
      SpawnRule s'.m_itPlayerID client ∧
      w'.sendResults = w.sendResults ∧ w'.pending = w.pending ∧ resample = false := by
  simp only [dispatchReceived, hunknown, hkind, ne_eq, not_true_eq_false, if_false,
    AddNewClient, getElem?_append_singleton, set_append_singleton] at h
  split at h
  · cases h
  · rename_i w1 it1 client1 hreset
    simp only [Except.ok.injEq, Prod.mk.injEq] at h
    obtain ⟨rfl, rfl, rfl⟩ := h
    obtain ⟨hres, hpend, hit, hid, htimer, hspawn⟩ := ResetClient_frame hreset
    exact ⟨client1, rfl, hid, htimer, rfl, hit, hspawn, hres, hpend, rfl⟩

theorem dispatchReceived_join_ok {w : Platform} (hw : SendsSucceed w) {s : GameServer}
    {ipAddress : String} {portNumber : Nat} {packet : MidtermPacket}
    (hunknown : FindClientByAddress s.m_clientList ipAddress portNumber = none)
    (hkind : packet.type = PacketType.TYPE_Join) :
    ∃ w' s', dispatchReceived w s ipAddress portNumber packet = Except.ok (w', s', false) := by
  simp only [dispatchReceived, hunknown, hkind, ne_eq, not_true_eq_false, if_false,
    AddNewClient, getElem?_append_singleton, set_append_singleton]
  obtain ⟨w1, client1, hreset⟩ := ResetClient_ok hw s.m_itPlayerID
    { id := s.m_nextClientID % 2 ^ 8
      ipAddress := ipAddress
      portNumber := portNumber
      currentPacketNumber := 1
      unacknowledgedPackets := []
      secondsSinceLastReceivedPacket := 0
      xPosition := 0
      yPosition := 0
      xVelocity := 0
      yVelocity := 0
      orientationDegrees := 0 }
  rw [hreset]
  exact ⟨_, _, rfl⟩

theorem HandleTouchAndResetGame_frame {w w' : Platform} {s s' : GameServer}
    {touchPacket : MidtermPacket}
    (h : HandleTouchAndResetGame w s touchPacket = Except.ok (w', s')) :
    w'.sendResults = w.sendResults ∧ w'.pending = w.pending ∧
    s'.m_nextClientID = s.m_nextClientID ∧
    s'.m_clientList.map ClientInfo.identity = s.m_clientList.map ClientInfo.identity ∧
    (touchPacket.data.touch.instigatorID ≠ 0 →
      s'.m_itPlayerID = touchPacket.data.touch.instigatorID ∧
      ∀ c ∈ s'.m_clientList, SpawnRule touchPacket.data.touch.instigatorID c) := by
  simp only [HandleTouchAndResetGame] at h
  split at h
  · rename_i itPlayer touchingPlayer hit htouching
    obtain ⟨c, hc, hcid⟩ := FindClientByID_get htouching
    obtain ⟨c0, hc0, _⟩ := FindClientByID_get hit
    simp only [hc, hc0] at h
    split at h
    · cases h
    · rename_i w1 it1 clients1 hreset
      simp only [Except.ok.injEq, Prod.mk.injEq] at h
      obtain ⟨rfl, rfl⟩ := h
      obtain ⟨hres, hpend, hid, _, hspawn⟩ := resetEachClient_frame _ hreset
      refine ⟨hres, hpend, rfl, hid, ?_⟩
      intro hne
      rw [hcid] at hspawn
      exact hspawn hne
  · cases h

theorem RemoveAcknowledgedPacketFromClientQueue_frame {s s' : GameServer}
    {ackPacket : MidtermPacket}
    (h : RemoveAcknowledgedPacketFromClientQueue s ackPacket = Except.ok s') :
    s'.m_nextClientID = s.m_nextClientID ∧ s'.m_itPlayerID = s.m_itPlayerID ∧
    s'.m_clientList.map ClientInfo.identity = s.m_clientList.map ClientInfo.identity := by
  simp only [RemoveAcknowledgedPacketFromClientQueue] at h
  split at h
  · cases h
  · split at h
    · cases h
    · rename_i client hclient
      simp only [Except.ok.injEq] at h
      subst h
      exact ⟨rfl, rfl, map_set_of_eq _ hclient rfl⟩

theorem dispatchReceived_known_frame {w w' : Platform} {s s' : GameServer} {ipAddress : String}
    {portNumber receivedClient : Nat} {packet : MidtermPacket} {resample : Bool}
    (hknown : FindClientByAddress s.m_clientList ipAddress portNumber = some receivedClient)
    (h : dispatchReceived w s ipAddress portNumber packet = Except.ok (w', s', resample)) :
    s'.m_clientList.map ClientInfo.identity = s.m_clientList.map ClientInfo.identity ∧
    s'.m_nextClientID = s.m_nextClientID ∧
    w'.sendResults = w.sendResults ∧ w'.pending = w.pending ∧ resample = true := by
  have hfinish : ∀ (w1 : Platform) (s1 : GameServer),
      (match s1.m_clientList[receivedClient]? with
        | none => (Except.error Halt.nullDereference : Except Halt (Platform × GameServer × Bool))
        | some client =>
          Except.ok (w1,
            { s1 with
              m_clientList :=
                s1.m_clientList.set receivedClient
                  { client with secondsSinceLastReceivedPacket := 0 } },
            true)) = Except.ok (w', s', resample) →
      s'.m_clientList.map ClientInfo.identity = s1.m_clientList.map ClientInfo.identity ∧
      s'.m_nextClientID = s1.m_nextClientID ∧ w' = w1 ∧ resample = true := by
    intro w1 s1 h1
    split at h1
    · cases h1
    · rename_i client hclient
      simp only [Except.ok.injEq, Prod.mk.injEq] at h1
      obtain ⟨rfl, rfl, rfl⟩ := h1
      exact ⟨map_set_of_eq _ hclient rfl, rfl, rfl, rfl⟩
  simp only [dispatchReceived, hknown] at h
  cases hkind : packet.type with
  | TYPE_Acknowledgement =>
    simp only [hkind] at h
    cases hack : RemoveAcknowledgedPacketFromClientQueue s packet with
    | error cause => simp [hack] at h
    | ok s1 =>
      simp only [hack] at h
      obtain ⟨hnext, _, hid⟩ := RemoveAcknowledgedPacketFromClientQueue_frame hack
      obtain ⟨h1, h2, rfl, h4⟩ := hfinish w s1 h
      exact ⟨h1.trans hid, h2.trans hnext, rfl, rfl, h4⟩
  | TYPE_Update =>
    simp only [hkind] at h
    cases hclient : s.m_clientList[receivedClient]? with
    | none => simp [hclient] at h
    | some client =>
      simp only [hclient] at h
      obtain ⟨h1, h2, rfl, h4⟩ := hfinish w
        { s with
          m_clientList :=
            s.m_clientList.set receivedClient (ReceiveUpdateFromClient packet client) } h
      exact ⟨h1.trans (map_set_of_eq _ hclient rfl), h2, rfl, rfl, h4⟩
  | TYPE_Touch =>
    simp only [hkind] at h
    cases htouch : HandleTouchAndResetGame w s packet with
    | error cause => simp [htouch] at h
    | ok r =>
      obtain ⟨w1, s1⟩ := r
      simp only [htouch] at h
      obtain ⟨hres, hpend, hnext, hid, _⟩ := HandleTouchAndResetGame_frame htouch
      obtain ⟨h1, h2, rfl, h4⟩ := hfinish w1 s1 h
      exact ⟨h1.trans hid, h2.trans hnext, hres, hpend, h4⟩
  | TYPE_Join =>
    simp only [hkind] at h
    obtain ⟨h1, h2, rfl, h4⟩ := hfinish w s h
    exact ⟨h1, h2, rfl, rfl, h4⟩
  | TYPE_Reset =>
    simp only [hkind] at h
    obtain ⟨h1, h2, rfl, h4⟩ := hfinish w s h
    exact ⟨h1, h2, rfl, rfl, h4⟩
  | TYPE_Unrecognized raw =>
    simp only [hkind] at h
    obtain ⟨h1, h2, rfl, h4⟩ := hfinish w s h
    exact ⟨h1, h2, rfl, rfl, h4⟩

/-! ## The phases of a tick keep the sessions' identities -/

theorem sendUpdateToEachClient_frame (clients : List ClientInfo) :
    ∀ {w w' : Platform} {updatePacket : MidtermPacket} {clients' : List ClientInfo},
      sendUpdateToEachClient w updatePacket clients = Except.ok (w', clients') →
      w'.sendResults = w.sendResults ∧ w'.pending = w.pending ∧
      clients'.map ClientInfo.identity = clients.map ClientInfo.identity := by
  induction clients with
  | nil =>
    intro w w' updatePacket clients' h
    simp only [sendUpdateToEachClient, Except.ok.injEq, Prod.mk.injEq] at h
    obtain ⟨rfl, rfl⟩ := h
    simp
  | cons c rest ih =>
    intro w w' updatePacket clients' h
    simp only [sendUpdateToEachClient] at h
    split at h
    · cases h
    · rename_i w1 c1 hsend
      split at h
      · cases h
      · rename_i w2 rest1 hrest
        simp only [Except.ok.injEq, Prod.mk.injEq] at h
        obtain ⟨rfl, rfl⟩ := h
        obtain ⟨hres1, hpend1, hc1⟩ := SendPacketToClient_frame hsend
        obtain ⟨hres2, hpend2, hid2⟩ := ih hrest
        refine ⟨hres2.trans hres1, hpend2.trans hpend1, ?_⟩
        rw [List.map_cons, List.map_cons, hid2, hc1]
        rfl

theorem broadcastFrom_frame (remaining : Nat) :
    ∀ {i : Nat} {w w' : Platform} {clients clients' : List ClientInfo},
      broadcastFrom w clients i remaining = Except.ok (w', clients') →
      w'.sendResults = w.sendResults ∧ w'.pending = w.pending ∧
      clients'.map ClientInfo.identity = clients.map ClientInfo.identity := by
  induction remaining with
  | zero =>
    intro i w w' clients clients' h
    simp only [broadcastFrom, Except.ok.injEq, Prod.mk.injEq] at h
    obtain ⟨rfl, rfl⟩ := h
    simp
  | succ k ih =>
    intro i w w' clients clients' h
    simp only [broadcastFrom] at h
    split at h
    · simp only [Except.ok.injEq, Prod.mk.injEq] at h
      obtain ⟨rfl, rfl⟩ := h
      simp
    · split at h
      · cases h
      · rename_i w1 clients1 hinner
        obtain ⟨hres1, hpend1, hid1⟩ := sendUpdateToEachClient_frame _ hinner
        obtain ⟨hres2, hpend2, hid2⟩ := ih h
        exact ⟨hres2.trans hres1, hpend2.trans hpend1, hid2.trans hid1⟩

theorem BroadcastGameStateToClients_frame {w w' : Platform} {s s' : GameServer}
    (h : BroadcastGameStateToClients w s = Except.ok (w', s')) :
    w'.sendResults = w.sendResults ∧ w'.pending = w.pending ∧
    s'.m_nextClientID = s.m_nextClientID ∧ s'.m_itPlayerID = s.m_itPlayerID ∧
    s'.m_clientList.map ClientInfo.identity = s.m_clientList.map ClientInfo.identity := by
  simp only [BroadcastGameStateToClients] at h
  split at h
  · cases h
  · rename_i w1 clients hloop
    simp only [Except.ok.injEq, Prod.mk.injEq] at h
    obtain ⟨rfl, rfl⟩ := h
    obtain ⟨hres, hpend, hid⟩ := broadcastFrom_frame _ hloop
    exact ⟨hres, hpend, rfl, rfl, hid⟩

theorem resendEachPacket_frame (todo : List MidtermPacket) :
    ∀ {w w' : Platform} {client client' : ClientInfo},
      resendEachPacket w client todo = Except.ok (w', client') →
      w'.sendResults = w.sendResults ∧ w'.pending = w.pending ∧
      client' = { client with unacknowledgedPackets := client'.unacknowledgedPackets } := by
  induction todo with
  | nil =>
    intro w w' client client' h
    simp only [resendEachPacket, Except.ok.injEq, Prod.mk.injEq] at h
    obtain ⟨rfl, rfl⟩ := h
    simp
  | cons p rest ih =>
    intro w w' client client' h
    simp only [resendEachPacket] at h
    split at h
    · cases h
    · rename_i w1 client1 hsend
      obtain ⟨hres1, hpend1, hc1⟩ := SendPacketToClient_frame hsend
      obtain ⟨hres2, hpend2, hc2⟩ := ih h
      refine ⟨hres2.trans hres1, hpend2.trans hpend1, ?_⟩
      rw [hc2, hc1]

theorem resendUnacknowledgedPackets_frame (clients : List ClientInfo) :
    ∀ {w w' : Platform} {clients' : List ClientInfo},
      resendUnacknowledgedPackets w clients = Except.ok (w', clients') →
      w'.sendResults = w.sendResults ∧ w'.pending = w.pending ∧
      clients'.map ClientInfo.identity = clients.map ClientInfo.identity := by
  induction clients with
  | nil =>
    intro w w' clients' h
    simp only [resendUnacknowledgedPackets, Except.ok.injEq, Prod.mk.injEq] at h
    obtain ⟨rfl, rfl⟩ := h
    simp
  | cons c rest ih =>
    intro w w' clients' h
    simp only [resendUnacknowledgedPackets] at h
    split at h
    · cases h
    · rename_i w1 c1 hone
      split at h
      · cases h
      · rename_i w2 rest1 hrest
        simp only [Except.ok.injEq, Prod.mk.injEq] at h
        obtain ⟨rfl, rfl⟩ := h
        obtain ⟨hres1, hpend1, hc1⟩ := resendEachPacket_frame _ hone
        obtain ⟨hres2, hpend2, hid2⟩ := ih hrest
        refine ⟨hres2.trans hres1, hpend2.trans hpend1, ?_⟩
        rw [List.map_cons, List.map_cons, hid2, hc1]
        rfl

theorem timeoutLoop_sublist (deltaSeconds : Float32) (fuel : Nat) :
    ∀ {i : Nat} {clients clients' : List ClientInfo},
      timeoutLoop deltaSeconds fuel i clients = some clients' →
      (clients'.map ClientInfo.identity).Sublist (clients.map ClientInfo.identity) := by
  induction fuel with
  | zero =>
    intro i clients clients' h
    simp [timeoutLoop] at h
  | succ fuel ih =>
    intro i clients clients' h
    simp only [timeoutLoop] at h
    split at h
    · simp only [Option.some.injEq] at h
      subst h
      exact List.Sublist.refl _
    · rename_i client hclient
      have hset : (clients.set i
          { client with
            secondsSinceLastReceivedPacket :=
              client.secondsSinceLastReceivedPacket + deltaSeconds }).map ClientInfo.identity =
          clients.map ClientInfo.identity := map_set_of_eq _ hclient rfl
      split at h
      · have h1 := ih h
        refine h1.trans ?_
        rw [← hset]
        exact (List.eraseIdx_sublist _ _).map _
      · have h1 := ih h
        rw [hset] at h1
        exact h1

/-! ## Ids in reachable states -/

theorem ids_of_identity {clients clients' : List ClientInfo}
    (h : clients'.map ClientInfo.identity = clients.map ClientInfo.identity) :
    clients'.map (·.id) = clients.map (·.id) := by
  have h1 := congrArg (List.map Prod.fst) h
  simpa [ClientInfo.identity] using h1

theorem ids_sublist_of_identity {clients clients' : List ClientInfo}
    (h : (clients'.map ClientInfo.identity).Sublist (clients.map ClientInfo.identity)) :
    (clients'.map (·.id)).Sublist (clients.map (·.id)) := by
  have h1 := h.map Prod.fst
  simpa [ClientInfo.identity] using h1

theorem IdsInOrder.of_sublist {n : Nat} {clients clients' : List ClientInfo}
    (h : IdsInOrder n clients)
    (hsub : (clients'.map (·.id)).Sublist (clients.map (·.id))) : IdsInOrder n clients' :=
  ⟨h.1.sublist hsub, fun x hx => h.2 x (hsub.subset hx)⟩

theorem IdsInOrder.of_eq {n : Nat} {clients clients' : List ClientInfo}
    (h : IdsInOrder n clients) (heq : clients'.map (·.id) = clients.map (·.id)) :
    IdsInOrder n clients' := by
  unfold IdsInOrder
  rw [heq]
  exact h

theorem dispatchReceived_cases {w w' : Platform} {s s' : GameServer} {ipAddress : String}
    {portNumber : Nat} {packet : MidtermPacket} {resample : Bool}
    (h : dispatchReceived w s ipAddress portNumber packet = Except.ok (w', s', resample)) :
    (w'.sendResults = w.sendResults ∧ w'.pending = w.pending) ∧
    ((s'.m_clientList.map ClientInfo.identity = s.m_clientList.map ClientInfo.identity ∧
        s'.m_nextClientID = s.m_nextClientID) ∨
      (∃ client : ClientInfo,
        s'.m_clientList = s.m_clientList ++ [client] ∧
        client.identity = (s.m_nextClientID % 2 ^ 8, ipAddress, portNumber) ∧
        s'.m_nextClientID = (s.m_nextClientID + 1) % 2 ^ 32 ∧
        FindClientByAddress s.m_clientList ipAddress portNumber = none ∧
        packet.type = PacketType.TYPE_Join)) := by
  cases hfind : FindClientByAddress s.m_clientList ipAddress portNumber with
  | none =>
    by_cases hkind : packet.type = PacketType.TYPE_Join
    · obtain ⟨client, h1, h2, _, h4, _, _, h7, h8, _⟩ :=
        dispatchReceived_join_frame hfind hkind h
      exact ⟨⟨h7, h8⟩, Or.inr ⟨client, h1, h2, h4, rfl, hkind⟩⟩
    · rw [dispatchReceived_unknown w s ipAddress portNumber packet hkind hfind] at h
      simp only [Except.ok.injEq, Prod.mk.injEq] at h
      obtain ⟨rfl, rfl, _⟩ := h
      exact ⟨⟨rfl, rfl⟩, Or.inl ⟨rfl, rfl⟩⟩
  | some receivedClient =>
    obtain ⟨h1, h2, h3, h4, _⟩ := dispatchReceived_known_frame hfind h
    exact ⟨⟨h3, h4⟩, Or.inl ⟨h1, h2⟩⟩

theorem reachable_ids {n : Nat} {w : Platform} {s : GameServer} (h : Reachable n w s) :
    s.m_nextClientID = (n + 1) % 2 ^ 32 ∧ (n ≤ 255 → IdsInOrder n s.m_clientList) := by
  induction h with
  | fresh w => exact ⟨rfl, fun _ => ⟨by simp [GameServer.fresh], by simp [GameServer.fresh]⟩⟩
  | network pending _ ih => exact ih
  | @dispatch n w w' s s' resample ipAddress portNumber packet _ hstep ih =>
    obtain ⟨hnext, hids⟩ := ih
    rcases (dispatchReceived_cases hstep).2 with ⟨hid, hnext'⟩ | ⟨client, hlist, hident, hnext', _, _⟩
    · have hlen : s'.m_clientList.length = s.m_clientList.length := by
        have := congrArg List.length hid
        simpa using this
      rw [hlen, Nat.sub_self, Nat.add_zero]
      exact ⟨hnext'.trans hnext, fun hn => (hids hn).of_eq (ids_of_identity hid)⟩
    · have hlen : s'.m_clientList.length - s.m_clientList.length = 1 := by
        rw [hlist]
        simp
      rw [hlen]
      refine ⟨?_, ?_⟩
      · rw [hnext', hnext]
        omega
      · intro hn
        have hn' : n ≤ 255 := by omega
        obtain ⟨hpair, hrange⟩ := hids hn'
        have hcid : client.id = n + 1 := by
          have := congrArg Prod.fst hident
          simp only [ClientInfo.identity] at this
          rw [this, hnext]
          omega
        refine ⟨?_, ?_⟩
        · rw [hlist, List.map_append, List.pairwise_append]
          refine ⟨hpair, by simp, ?_⟩
          intro a ha b hb
          simp only [List.map_cons, List.map_nil, List.mem_singleton] at hb
          have := (hrange a ha).2
          omega
        · intro x hx
          rw [hlist, List.map_append, List.mem_append] at hx
          rcases hx with hx | hx
          · have := hrange x hx
            omega
          · simp only [List.map_cons, List.map_nil, List.mem_singleton] at hx
            omega
  | broadcast _ hstep ih =>
    obtain ⟨_, _, hnext, _, hid⟩ := BroadcastGameStateToClients_frame hstep
    exact ⟨hnext.trans ih.1, fun hn => (ih.2 hn).of_eq (ids_of_identity hid)⟩
  | timeout fuel deltaSeconds _ hstep ih =>
    exact ⟨ih.1, fun hn => (ih.2 hn).of_sublist
      (ids_sublist_of_identity (timeoutLoop_sublist _ _ hstep))⟩
  | resend _ hstep ih =>
    obtain ⟨_, _, hid⟩ := resendUnacknowledgedPackets_frame _ hstep
    exact ⟨ih.1, fun hn => (ih.2 hn).of_eq (ids_of_identity hid)⟩

/-! ## The tag transition -/

theorem HandleTouchAndResetGame_ok {w : Platform} (hw : SendsSucceed w) {s : GameServer}
    {touchPacket : MidtermPacket} {i j : Nat}
    (hinstigator : FindClientByID s.m_clientList touchPacket.data.touch.instigatorID = some i)
    (hreceiver : FindClientByID s.m_clientList touchPacket.data.touch.receiverID = some j) :
    ∃ w' s', HandleTouchAndResetGame w s touchPacket = Except.ok (w', s') := by
  obtain ⟨c, hc, _⟩ := FindClientByID_get hinstigator
  obtain ⟨c0, hc0, _⟩ := FindClientByID_get hreceiver
  obtain ⟨w1, it1, clients1, hreset⟩ := resetEachClient_ok s.m_clientList hw c.id
  refine ⟨w1, { s with m_clientList := clients1, m_itPlayerID := it1 }, ?_⟩
  simp only [HandleTouchAndResetGame, hinstigator, hreceiver, hc, hc0, hreset]

theorem count_id_eq_one {clients : List ClientInfo} {x : Nat}
    (hpair : (clients.map (·.id)).Pairwise (· < ·)) (hmem : x ∈ clients.map (·.id)) :
    (clients.filter (fun c => decide (c.id = x))).length = 1 := by
  have hnodup : (clients.map (·.id)).Nodup := hpair.imp (fun h => Nat.ne_of_lt h)
  have hcount := List.count_eq_one_of_mem hnodup hmem
  rw [List.count, List.countP_map, List.countP_eq_length_filter] at hcount
  rw [← hcount]
  congr 1

theorem SpawnRule.of_timer_reset {itPlayerID : Nat} {client : ClientInfo}
    (h : SpawnRule itPlayerID client) :
    SpawnRule itPlayerID { client with secondsSinceLastReceivedPacket := 0 } := h

/-! ## The network phase on a queue of Joins from new addresses -/

theorem resendEachPacket_succeeds (todo : List MidtermPacket) :
    ∀ {w : Platform}, SendsSucceed w → ∀ (client : ClientInfo),
      ∃ w' client', resendEachPacket w client todo = Except.ok (w', client') := by
  induction todo with
  | nil =>
    intro w _ client
    exact ⟨w, client, rfl⟩
  | cons p rest ih =>
    intro w hw client
    have hsend := SendPacketToClient_ok hw p client true
    have hw1 : SendsSucceed
        { w with
          clockReads := w.clockReads + 1
          sent := w.sent ++
            [⟨{ p with timestamp := w.clock w.clockReads },
              client.ipAddress, client.portNumber⟩] } := hw
    obtain ⟨w', client', hrest⟩ := ih hw1 _
    exact ⟨w', client', by simp only [resendEachPacket, hsend]; exact hrest⟩

theorem resendUnacknowledgedPackets_succeeds (clients : List ClientInfo) :
    ∀ {w : Platform}, SendsSucceed w →
      ∃ w' clients', resendUnacknowledgedPackets w clients = Except.ok (w', clients') := by
  induction clients with
  | nil =>
    intro w _
    exact ⟨w, [], rfl⟩
  | cons c rest ih =>
    intro w hw
    obtain ⟨w1, c1, hone⟩ := resendEachPacket_succeeds c.unacknowledgedPackets hw c
    have hw1 : SendsSucceed w1 :=
      SendsSucceed_of_sendResults hw (resendEachPacket_frame _ hone).1
    obtain ⟨w2, rest1, hrest⟩ := ih hw1
    exact ⟨w2, c1 :: rest1, by simp only [resendUnacknowledgedPackets, hone, hrest]⟩

theorem BroadcastGameStateToClients_succeeds {w : Platform} (hw : SendsSucceed w)
    (s : GameServer) : ∃ w' s', BroadcastGameStateToClients w s = Except.ok (w', s') := by
  obtain ⟨log, hrun, _, _⟩ :=
    broadcastFrom_ok s.m_clientList.length 0 w s.m_clientList hw (by simp)
  simp only [BroadcastGameStateToClients, hrun]
  exact ⟨_, _, rfl⟩

theorem Update_after_network {fuel : Nat} {w w1 : Platform} {s s1 : GameServer}
    (deltaSeconds : Float32)
    (hnetwork : ProcessNetworkQueue fuel w s = Run.finished (w1, s1))
    (hw1 : SendsSucceed w1) (hsize : s1.m_clientList.length < 2 ^ 32)
    (hfuel : s1.m_clientList.length < fuel) :
    ∃ w' s', Update fuel w s deltaSeconds = Run.finished (w', s') ∧
      w'.sendResults = w1.sendResults ∧ w'.pending = w1.pending ∧
      s'.m_nextClientID = s1.m_nextClientID ∧ s'.m_itPlayerID = s1.m_itPlayerID ∧
      (s'.m_clientList.map ClientInfo.identity).Sublist
        (s1.m_clientList.map ClientInfo.identity) := by
  obtain ⟨w2, s2, hbroadcast⟩ := BroadcastGameStateToClients_succeeds hw1 s1
  obtain ⟨hres2, hpend2, hnext2, hit2, hid2⟩ := BroadcastGameStateToClients_frame hbroadcast
  have hlen2 : s2.m_clientList.length = s1.m_clientList.length := by
    have := congrArg List.length hid2
    simpa using this
  obtain ⟨clients2, htimeout⟩ :
      ∃ clients2, timeoutLoop deltaSeconds fuel 0 s2.m_clientList = some clients2 := by
    have h := timeoutLoop_from deltaSeconds s2.m_clientList fuel []
      (by simpa [hlen2] using hsize) (by simpa [hlen2] using hfuel)
    simp only [List.nil_append, List.length_nil] at h
    exact ⟨_, h⟩
  have hsub := timeoutLoop_sublist _ _ htimeout
  have hw2 : SendsSucceed w2 := SendsSucceed_of_sendResults hw1 hres2
  obtain ⟨w3, clients3, hresend⟩ := resendUnacknowledgedPackets_succeeds clients2 hw2
  obtain ⟨hres3, hpend3, hid3⟩ := resendUnacknowledgedPackets_frame _ hresend
  refine ⟨w3, { s2 with m_clientList := clients3 }, ?_, hres3.trans hres2, hpend3.trans hpend2,
    hnext2, hit2, ?_⟩
  · simp only [Update, hnetwork, hbroadcast, removeTimedOutClients, htimeout, hresend]
  · simp only [hid3]
    rw [← hid2]
    exact hsub

theorem FindClientByAddress_append_singleton {clients : List ClientInfo} {client : ClientInfo}
    {ipAddress : String} {portNumber : Nat}
    (hnone : ∀ c ∈ clients, ¬ (c.ipAddress = ipAddress ∧ c.portNumber = portNumber))
    (hclient : client.ipAddress = ipAddress ∧ client.portNumber = portNumber) :
    FindClientByAddress (clients ++ [client]) ipAddress portNumber = some clients.length := by
  induction clients with
  | nil => simp [FindClientByAddress, hclient]
  | cons c rest ih =>
    have hc := hnone c (List.mem_cons_self _ _)
    have hrest := ih (fun x hx => hnone x (List.mem_cons_of_mem _ hx))
    rw [List.cons_append, FindClientByAddress, if_neg hc, hrest]
    rfl

theorem dispatchReceived_known_join {w : Platform} {s : GameServer} {ipAddress : String}
    {portNumber receivedClient : Nat} {packet : MidtermPacket} {client : ClientInfo}
    (hknown : FindClientByAddress s.m_clientList ipAddress portNumber = some receivedClient)
    (hkind : packet.type = PacketType.TYPE_Join)
    (hclient : s.m_clientList[receivedClient]? = some client)
    (hzero : client.secondsSinceLastReceivedPacket = 0) :
    dispatchReceived w s ipAddress portNumber packet = Except.ok (w, s, true) := by
  have hsame : ({ client with secondsSinceLastReceivedPacket := 0 } : ClientInfo) = client := by
    cases client
    simp only at hzero
    subst hzero
    rfl
  simp only [dispatchReceived, hknown, hkind, hclient, hsame, set_getElem?_same hclient]

theorem processNetworkLoop_joins (rest : List Datagram) :
    ∀ (d : Datagram) (fuel : Nat) (w : Platform) (s : GameServer) (locals : Received)
      (bytes : Nat),
      SendsSucceed w → w.pending = d :: rest →
      (∀ x ∈ d :: rest, x.packet.type = PacketType.TYPE_Join) →
      ((d :: rest).map Datagram.address).Nodup →
      (∀ x ∈ d :: rest, ∀ c ∈ s.m_clientList,
        ¬ (c.ipAddress = x.ipAddress ∧ c.portNumber = x.portNumber)) →
      0 < bytes → (d :: rest).length + 2 ≤ fuel →
      s.m_nextClientID + (d :: rest).length < 2 ^ 32 →
      ∃ w' s', processNetworkLoop fuel w s locals bytes = Run.finished (w', s') ∧
        w'.sendResults = w.sendResults ∧ w'.pending = [] ∧
        s'.m_nextClientID = s.m_nextClientID + (d :: rest).length ∧
        s'.m_clientList.map ClientInfo.identity =
          s.m_clientList.map ClientInfo.identity ++ newIdentities s.m_nextClientID (d :: rest) := by
  induction rest with
  | nil =>
    intro d fuel w s locals bytes hw hpending hkinds _ hnew hbytes hfuel hnext
    obtain ⟨fuel, rfl⟩ : ∃ f, fuel = f + 3 := ⟨fuel - 3, by simp at hfuel; omega⟩
    have hkind : d.packet.type = PacketType.TYPE_Join := hkinds d (List.mem_cons_self _ _)
    have hunknown : FindClientByAddress s.m_clientList d.ipAddress d.portNumber = none :=
      FindClientByAddress_none.mpr (hnew d (List.mem_cons_self _ _))
    have hw1 : SendsSucceed { w with pending := [] } := hw
    obtain ⟨w2, s2, hjoin⟩ := dispatchReceived_join_ok hw1 hunknown hkind
    obtain ⟨client, hlist, hident, htimer, hnext2, _, _, hres2, hpend2, _⟩ :=
      dispatchReceived_join_frame hunknown hkind hjoin
    have haddr : client.ipAddress = d.ipAddress ∧ client.portNumber = d.portNumber := by
      simp only [ClientInfo.identity, Prod.mk.injEq] at hident
      exact ⟨hident.2.1, hident.2.2⟩
    have hknown : FindClientByAddress s2.m_clientList d.ipAddress d.portNumber =
        some s.m_clientList.length := by
      rw [hlist]
      exact FindClientByAddress_append_singleton (hnew d (List.mem_cons_self _ _)) haddr
    have hget : s2.m_clientList[s.m_clientList.length]? = some client := by
      rw [hlist]
      exact getElem?_append_singleton _ _
    have hstale := dispatchReceived_known_join (w := w2) hknown hkind hget htimer
    have hpend2' : w2.pending = [] := hpend2
    refine ⟨w2, s2, ?_, hres2, hpend2', ?_, ?_⟩
    · simp only [processNetworkLoop, hbytes, if_true, ReceiveBuffer, hpending, hjoin, hpend2',
        hstale, GetNumberOfBytesInNetworkQueue, List.length_nil, gt_iff_lt, lt_self_iff_false,
        if_false]
    · rw [hnext2]
      simp at hnext ⊢
      omega
    · rw [hlist]
      simp [newIdentities, hident]
  | cons d' rest ih =>
    intro d fuel w s locals bytes hw hpending hkinds hnodup hnew hbytes hfuel hnext
    obtain ⟨fuel, rfl⟩ : ∃ f, fuel = f + 1 := ⟨fuel - 1, by simp at hfuel; omega⟩
    have hkind : d.packet.type = PacketType.TYPE_Join := hkinds d (List.mem_cons_self _ _)
    have hunknown : FindClientByAddress s.m_clientList d.ipAddress d.portNumber = none :=
      FindClientByAddress_none.mpr (hnew d (List.mem_cons_self _ _))
    have hw1 : SendsSucceed { w with pending := d' :: rest } := hw
    obtain ⟨w2, s2, hjoin⟩ := dispatchReceived_join_ok hw1 hunknown hkind
    obtain ⟨client, hlist, hident, htimer, hnext2, _, _, hres2, hpend2, _⟩ :=
      dispatchReceived_join_frame hunknown hkind hjoin
    have haddr : client.ipAddress = d.ipAddress ∧ client.portNumber = d.portNumber := by
      simp only [ClientInfo.identity, Prod.mk.injEq] at hident
      exact ⟨hident.2.1, hident.2.2⟩
    have hw2 : SendsSucceed w2 := SendsSucceed_of_sendResults hw1 hres2
    have hnext2' : s2.m_nextClientID = s.m_nextClientID + 1 := by
      rw [hnext2]
      simp at hnext
      omega
    have hnodup' := List.nodup_cons.mp hnodup
    have hnew2 : ∀ x ∈ d' :: rest, ∀ c ∈ s2.m_clientList,
        ¬ (c.ipAddress = x.ipAddress ∧ c.portNumber = x.portNumber) := by
      intro x hx c hc
      rw [hlist, List.mem_append] at hc
      rcases hc with hc | hc
      · exact hnew x (List.mem_cons_of_mem _ hx) c hc
      · simp only [List.mem_singleton] at hc
        subst hc
        intro hmatch
        apply hnodup'.1
        have : d.address = x.address := by
          simp only [Datagram.address, Prod.mk.injEq]
          exact ⟨haddr.1.symm.trans hmatch.1, haddr.2.symm.trans hmatch.2⟩
        rw [this]
        exact List.mem_map_of_mem _ hx
    obtain ⟨w3, s3, hloop, hres3, hpend3, hnext3, hid3⟩ :=
      ih d' fuel w2 s2 ⟨d.ipAddress, d.portNumber, d.packet⟩ bytes hw2 hpend2
        (fun x hx => hkinds x (List.mem_cons_of_mem _ hx)) hnodup'.2 hnew2 hbytes
        (by simp at hfuel ⊢; omega) (by simp at hnext ⊢; omega)
    refine ⟨w3, s3, ?_, hres3.trans hres2, hpend3, ?_, ?_⟩
    · simp only [processNetworkLoop, hbytes, if_true, ReceiveBuffer, hpending, hjoin]
      exact hloop
    · rw [hnext3, hnext2']
      simp
      omega
    · rw [hid3, hlist, hnext2']
      simp [newIdentities, hident]

theorem newIdentities_append (first second : List Datagram) :
    ∀ n, newIdentities n (first ++ second) =
      newIdentities n first ++ newIdentities (n + first.length) second := by
  induction first with
  | nil => intro n; rfl
  | cons d rest ih =>
    intro n
    simp [newIdentities, ih, Nat.add_assoc, Nat.add_comm 1]

theorem newIdentities_ids (arrivals : List Datagram) :
    ∀ n, (newIdentities n arrivals).map (·.1) =
      (List.range' n arrivals.length).map (· % 2 ^ 8) := by
  induction arrivals with
  | nil => intro n; rfl
  | cons d rest ih =>
    intro n
    simp [newIdentities, ih, List.range'_succ]

theorem newIdentities_address (arrivals : List Datagram) :
    ∀ n, (newIdentities n arrivals).map (·.2) = arrivals.map Datagram.address := by
  induction arrivals with
  | nil => intro n; rfl
  | cons d rest ih =>
    intro n
    simp [newIdentities, ih, Datagram.address]

theorem ProcessNetworkQueue_joins {fuel : Nat} {w : Platform} {s : GameServer}
    (arrivals : List Datagram) (hw : SendsSucceed w) (hpending : w.pending = [])
    (hkinds : ∀ x ∈ arrivals, x.packet.type = PacketType.TYPE_Join)
    (hnodup : (arrivals.map Datagram.address).Nodup)
    (hnew : ∀ x ∈ arrivals, ∀ c ∈ s.m_clientList,
      ¬ (c.ipAddress = x.ipAddress ∧ c.portNumber = x.portNumber))
    (hfuel : arrivals.length + 2 ≤ fuel)
    (hnext : s.m_nextClientID + arrivals.length < 2 ^ 32) :
    ∃ w' s', ProcessNetworkQueue fuel (arrive w arrivals) s = Run.finished (w', s') ∧
      w'.sendResults = w.sendResults ∧ w'.pending = [] ∧
      s'.m_nextClientID = s.m_nextClientID + arrivals.length ∧
      s'.m_clientList.map ClientInfo.identity =
        s.m_clientList.map ClientInfo.identity ++ newIdentities s.m_nextClientID arrivals := by
  cases arrivals with
  | nil =>
    obtain ⟨fuel, rfl⟩ : ∃ f, fuel = f + 1 := ⟨fuel - 1, by simp at hfuel; omega⟩
    refine ⟨arrive w [], s, ?_, rfl, by simp [arrive, hpending], by simp, by simp [newIdentities]⟩
    simp [ProcessNetworkQueue, processNetworkLoop, GetNumberOfBytesInNetworkQueue, arrive,
      hpending]
  | cons d rest =>
    have hw' : SendsSucceed (arrive w (d :: rest)) := hw
    have hpend' : (arrive w (d :: rest)).pending = d :: rest := by simp [arrive, hpending]
    exact processNetworkLoop_joins rest d fuel _ s Received.unset _ hw' hpend' hkinds hnodup hnew
      (by simp [GetNumberOfBytesInNetworkQueue, hpend']) hfuel hnext

theorem runTicks_joins (fuel : Nat) (ticks : List Tick) :
    ∀ (w : Platform) (s : GameServer), SendsSucceed w → w.pending = [] →
      (∀ x ∈ allArrivals ticks, x.packet.type = PacketType.TYPE_Join) →
      ((allArrivals ticks).map Datagram.address).Nodup →
      (∀ x ∈ allArrivals ticks, ∀ c ∈ s.m_clientList,
        ¬ (c.ipAddress = x.ipAddress ∧ c.portNumber = x.portNumber)) →
      s.m_clientList.length + (allArrivals ticks).length + 2 ≤ fuel →
      s.m_nextClientID + (allArrivals ticks).length < 2 ^ 32 →
      s.m_clientList.length + (allArrivals ticks).length < 2 ^ 32 →
      (∃ w' s', runTicks fuel ticks w s = Run.finished (w', s')) ∧
      createdIDs fuel ticks w s =
        (List.range' s.m_nextClientID (allArrivals ticks).length).map (· % 2 ^ 8) := by
  induction ticks with
  | nil =>
    intro w s _ _ _ _ _ _ _ _
    exact ⟨⟨w, s, rfl⟩, rfl⟩
  | cons tick rest ih =>
    intro w s hw hpending hkinds hnodup hnew hfuel hnext hsize
    have hall : allArrivals (tick :: rest) = tick.arrivals ++ allArrivals rest := by
      simp [allArrivals]
    rw [hall] at hkinds hnodup hnew hfuel hnext hsize ⊢
    rw [List.map_append, List.nodup_append] at hnodup
    simp only [List.length_append] at hfuel hnext hsize
    obtain ⟨w1, s1, hnetwork, hres1, hpend1, hnext1, hid1⟩ :=
      @ProcessNetworkQueue_joins fuel w s tick.arrivals hw hpending
        (fun x hx => hkinds x (List.mem_append_left _ hx)) hnodup.1
        (fun x hx => hnew x (List.mem_append_left _ hx)) (by omega) (by omega)
    have hlen1 : s1.m_clientList.length = s.m_clientList.length + tick.arrivals.length := by
      have h := congrArg List.length hid1
      have hlen : (newIdentities s.m_nextClientID tick.arrivals).length =
          tick.arrivals.length := by
        have := congrArg List.length (newIdentities_address tick.arrivals s.m_nextClientID)
        simpa using this
      simpa [hlen] using h
    have hw1 : SendsSucceed w1 := SendsSucceed_of_sendResults hw hres1
    obtain ⟨w2, s2, hupdate, hres2, hpend2, hnext2, _, hsub⟩ :=
      Update_after_network tick.deltaSeconds hnetwork hw1 (by omega) (by omega)
    have hw2 : SendsSucceed w2 := SendsSucceed_of_sendResults hw1 hres2
    have hlen2 : s2.m_clientList.length ≤ s1.m_clientList.length := by
      have := hsub.length_le
      simpa using this
    have hnew2 : ∀ x ∈ allArrivals rest, ∀ c ∈ s2.m_clientList,
        ¬ (c.ipAddress = x.ipAddress ∧ c.portNumber = x.portNumber) := by
      intro x hx c hc hmatch
      have hmem : c.identity ∈ s1.m_clientList.map ClientInfo.identity :=
        hsub.subset (List.mem_map_of_mem _ hc)
      rw [hid1, List.mem_append] at hmem
      rcases hmem with hmem | hmem
      · obtain ⟨c0, hc0, hc0id⟩ := List.mem_map.mp hmem
        simp only [ClientInfo.identity, Prod.mk.injEq] at hc0id
        exact hnew x (List.mem_append_right _ hx) c0 hc0
          ⟨hc0id.2.1.trans hmatch.1, hc0id.2.2.trans hmatch.2⟩
      · have haddr : c.identity.2 ∈ tick.arrivals.map Datagram.address := by
          rw [← newIdentities_address tick.arrivals s.m_nextClientID]
          exact List.mem_map_of_mem _ hmem
        have hx' : x.address ∈ (allArrivals rest).map Datagram.address :=
          List.mem_map_of_mem _ hx
        have heq : c.identity.2 = x.address := by
          simp only [ClientInfo.identity, Datagram.address, Prod.mk.injEq]
          exact hmatch
        rw [heq] at haddr
        exact hnodup.2.2 haddr hx'
    obtain ⟨hrun, hids⟩ := ih w2 s2 hw2 (hpend2.trans hpend1)
      (fun x hx => hkinds x (List.mem_append_right _ hx)) hnodup.2.1 hnew2
      (by omega) (by omega) (by omega)
    refine ⟨?_, ?_⟩
    · simpa only [runTicks, hupdate] using hrun
    · have hcreated : (s1.m_clientList.drop s.m_clientList.length).map (·.id) =
          (List.range' s.m_nextClientID tick.arrivals.length).map (· % 2 ^ 8) := by
        rw [← newIdentities_ids]
        have h := congrArg (fun l => (l.drop s.m_clientList.length).map Prod.fst) hid1
        simp only [← List.map_drop, List.map_map] at h
        rw [List.drop_left' (by simp)] at h
        exact h
      simp only [createdIDs, hnetwork, hupdate, hcreated, hids, hnext2, hnext1]
      rw [← List.map_append, List.range'_append_1, List.length_append, Nat.add_comm]

/-! ## Every run of ticks stays within the reachable states -/

theorem processNetworkLoop_reachable (fuel : Nat) :
    ∀ {n : Nat} {w w' : Platform} {s s' : GameServer} {locals : Received} {bytes : Nat},
      Reachable n w s →
      processNetworkLoop fuel w s locals bytes = Run.finished (w', s') →
      w'.sendResults = w.sendResults ∧ ∃ m, Reachable m w' s' := by
  induction fuel with
  | zero =>
    intro n w w' s s' locals bytes _ h
    simp [processNetworkLoop] at h
  | succ fuel ih =>
    intro n w w' s s' locals bytes hreach h
    simp only [processNetworkLoop] at h
    split at h
    · have hreach1 : Reachable n (ReceiveBuffer w locals).1 s := by
        have hw : (ReceiveBuffer w locals).1 =
            { w with pending := (ReceiveBuffer w locals).1.pending } := by
          simp only [ReceiveBuffer]
          split <;> rfl
        rw [hw]
        exact Reachable.network _ hreach
      have hres1 : (ReceiveBuffer w locals).1.sendResults = w.sendResults := by
        simp only [ReceiveBuffer]
        split <;> rfl
      split at h
      · cases h
      · rename_i w2 s2 hstep
        have hres2 := (dispatchReceived_cases hstep).1.1
        obtain ⟨hres3, m, hm⟩ := ih (Reachable.dispatch _ _ _ hreach1 hstep) h
        exact ⟨hres3.trans (hres2.trans hres1), m, hm⟩
      · rename_i w2 s2 hstep
        have hres2 := (dispatchReceived_cases hstep).1.1
        obtain ⟨hres3, m, hm⟩ := ih (Reachable.dispatch _ _ _ hreach1 hstep) h
        exact ⟨hres3.trans (hres2.trans hres1), m, hm⟩
    · simp only [Run.finished.injEq, Prod.mk.injEq] at h
      obtain ⟨rfl, rfl⟩ := h
      exact ⟨rfl, n, hreach⟩

theorem Update_reachable {fuel n : Nat} {w w' : Platform} {s s' : GameServer}
    {deltaSeconds : Float32} (hreach : Reachable n w s)
    (h : Update fuel w s deltaSeconds = Run.finished (w', s')) :
    w'.sendResults = w.sendResults ∧ ∃ m, Reachable m w' s' := by
  simp only [Update, ProcessNetworkQueue] at h
  split at h
  · cases h
  · cases h
  · rename_i w1 s1 hnetwork
    obtain ⟨hres1, m, hm⟩ := processNetworkLoop_reachable fuel hreach hnetwork
    split at h
    · cases h
    · rename_i w2 s2 hbroadcast
      have hres2 := (BroadcastGameStateToClients_frame hbroadcast).1
      split at h
      · cases h
      · rename_i clients htimeout
        split at h
        · cases h
        · rename_i w3 clients1 hresend
          simp only [Run.finished.injEq, Prod.mk.injEq] at h
          obtain ⟨rfl, rfl⟩ := h
          have hres3 := (resendUnacknowledgedPackets_frame _ hresend).1
          have hreach2 := Reachable.broadcast hm hbroadcast
          have hreach3 := Reachable.timeout fuel deltaSeconds hreach2 htimeout
          have hreach4 := @Reachable.resend m w2 w3 { s2 with m_clientList := clients } clients1
            hreach3 hresend
          exact ⟨hres3.trans (hres2.trans hres1), m, hreach4⟩

theorem runTicks_reachable (fuel : Nat) (ticks : List Tick) :
    ∀ {n : Nat} {w w' : Platform} {s s' : GameServer}, Reachable n w s →
      runTicks fuel ticks w s = Run.finished (w', s') →
      w'.sendResults = w.sendResults ∧ ∃ m, Reachable m w' s' := by
  induction ticks with
  | nil =>
    intro n w w' s s' hreach h
    simp only [runTicks, Run.finished.injEq, Prod.mk.injEq] at h
    obtain ⟨rfl, rfl⟩ := h
    exact ⟨rfl, n, hreach⟩
  | cons tick rest ih =>
    intro n w w' s s' hreach h
    simp only [runTicks] at h
    split at h
    · rename_i w1 s1 hupdate
      have hreach0 : Reachable n (arrive w tick.arrivals) s := Reachable.network _ hreach
      obtain ⟨hres1, m, hm⟩ := Update_reachable hreach0 hupdate
      obtain ⟨hres2, k, hk⟩ := ih hm h
      exact ⟨hres2.trans hres1, k, hk⟩
    · cases h
    · cases h

theorem Run.eq_finished_of_result? {α : Type} {run : Run α} {result : α}
    (h : run.result? = some result) : run = Run.finished result := by
  cases run with
  | finished r =>
    simp only [Run.result?, Option.some.injEq] at h
    rw [h]
  | halted cause => simp [Run.result?] at h
  | outOfFuel => simp [Run.result?] at h

/-! ## Claims on ids and on the tag transition -/

/-- While at most 255 sessions have been created the tag transition does what the data model
asks: in every state reached up to then, when a Touch packet arrives from a known sender and
its instigator and receiver ids name live sessions, and sends succeed, the dispatch completes,
the server's "it" id is then the instigator's id, exactly one live session has that id, and
every live session satisfies the spawn rule: zero velocity and orientation, and `y = 0` for
the "it" session. -/
theorem touch_makes_the_instigator_it (n : Nat) (w : Platform) (s : GameServer)
    (hreach : Reachable n w s) (hcreated : n ≤ 255) (hw : SendsSucceed w)
    (ipAddress : String) (portNumber : Nat) (packet : MidtermPacket) (sender i j : Nat)
    (hknown : FindClientByAddress s.m_clientList ipAddress portNumber = some sender)
    (hkind : packet.type = PacketType.TYPE_Touch)
    (hinstigator : FindClientByID s.m_clientList packet.data.touch.instigatorID = some i)
    (hreceiver : FindClientByID s.m_clientList packet.data.touch.receiverID = some j) :
    ∃ w' s', dispatchReceived w s ipAddress portNumber packet = Except.ok (w', s', true) ∧
      s'.m_itPlayerID = packet.data.touch.instigatorID ∧
      (s'.m_clientList.filter (fun c => decide (c.id = s'.m_itPlayerID))).length = 1 ∧
      ∀ c ∈ s'.m_clientList, SpawnRule s'.m_itPlayerID c := by
  obtain ⟨hpair, hrange⟩ := (reachable_ids hreach).2 hcreated
  obtain ⟨c, hc, hcid⟩ := FindClientByID_get hinstigator
  have hmem : packet.data.touch.instigatorID ∈ s.m_clientList.map (·.id) := by
    rw [← hcid]
    obtain ⟨hi, hci⟩ := List.getElem?_eq_some.mp hc
    exact List.mem_map_of_mem _ (hci ▸ List.getElem_mem hi)
  have hne : packet.data.touch.instigatorID ≠ 0 := by
    have := (hrange _ hmem).1
    omega
  obtain ⟨w1, s1, htouch⟩ := HandleTouchAndResetGame_ok hw hinstigator hreceiver
  obtain ⟨_, _, _, hid1, hspawn⟩ := HandleTouchAndResetGame_frame htouch
  obtain ⟨hit, hall⟩ := hspawn hne
  obtain ⟨c0, hc0, _⟩ := FindClientByAddress_get hknown
  have hlen : s1.m_clientList.length = s.m_clientList.length := by
    have := congrArg List.length hid1
    simpa using this
  have hsender : sender < s1.m_clientList.length := by
    rw [hlen]
    exact (List.getElem?_eq_some.mp hc0).1
  have hck : s1.m_clientList[sender]? = some s1.m_clientList[sender] :=
    List.getElem?_eq_getElem hsender
  have hids : (s1.m_clientList.set sender
      { s1.m_clientList[sender] with secondsSinceLastReceivedPacket := 0 }).map (·.id) =
      s.m_clientList.map (·.id) :=
    (map_set_of_eq (b := { s1.m_clientList[sender] with secondsSinceLastReceivedPacket := 0 })
      (·.id) hck rfl).trans (ids_of_identity hid1)
  refine ⟨w1, { s1 with
      m_clientList := s1.m_clientList.set sender
        { s1.m_clientList[sender] with secondsSinceLastReceivedPacket := 0 } }, ?_, hit, ?_, ?_⟩
  · simp only [dispatchReceived, hknown, hkind, htouch, hck]
  · simp only [hit]
    exact count_id_eq_one (by rw [hids]; exact hpair) (by rw [hids]; exact hmem)
  · intro x hx
    simp only [hit]
    rcases List.mem_or_eq_of_mem_set hx with hx | hx
    · exact hall x hx
    · rw [hx]
      exact (hall _ (List.getElem_mem _)).of_timer_reset

theorem afterOneJoin_reachable : Reachable 1 afterOneJoin.1 afterOneJoin.2 := by
  have hstep : dispatchReceived quietPlatform GameServer.fresh "10.0.0.1" 7
      (packetOfType PacketType.TYPE_Join) =
      Except.ok (afterOneJoin.1, afterOneJoin.2, false) := by
    with_unfolding_all rfl
  exact Reachable.dispatch _ _ _ (Reachable.fresh quietPlatform) hstep

theorem touch_makes_the_instigator_it_witness :
    (Reachable 1 afterOneJoin.1 afterOneJoin.2 ∧ SendsSucceed afterOneJoin.1) ∧
    ∃ w' s',
      dispatchReceived afterOneJoin.1 afterOneJoin.2 "10.0.0.1" 7
          (touchFrom "10.0.0.1" 7 1 1).packet = Except.ok (w', s', true) ∧
      s'.m_itPlayerID = 1 ∧
      (s'.m_clientList.filter (fun c => decide (c.id = s'.m_itPlayerID))).length = 1 ∧
      ∀ c ∈ s'.m_clientList, SpawnRule s'.m_itPlayerID c :=
  ⟨⟨afterOneJoin_reachable, fun _ => le_refl _⟩,
    touch_makes_the_instigator_it 1 afterOneJoin.1 afterOneJoin.2 afterOneJoin_reachable
      (by decide) (fun _ => le_refl _) "10.0.0.1" 7 (touchFrom "10.0.0.1" 7 1 1).packet 0 0 0
      (by decide) rfl (by decide) (by decide)⟩

theorem after256Joins_finished :
    runTicks 4 joinsUpTo256 quietPlatform GameServer.fresh = Run.finished after256Joins := by
  apply Run.eq_finished_of_result?
  have hsome : ((runTicks 4 joinsUpTo256 quietPlatform GameServer.fresh).result?).isSome =
      true := by decide!
  cases hrun : (runTicks 4 joinsUpTo256 quietPlatform GameServer.fresh).result? with
  | none => simp [hrun] at hsome
  | some result => simp [after256Joins, hrun]

/-- C3: the tag transition fails once ids have wrapped. The constructed server takes 254
Joins from ports 1 to 254, each session timed out by its own tick, then Joins from ports 255
and 256. The ids are truncated to eight bits, so the two live sessions have ids 255 and 0. A
Touch that the session with id 0 sends, with instigator 0 and receiver 255, both live, sets
the "it" id to 0, which `ResetClient` takes for "no it yet": the first session of the list,
255, becomes "it" and not the instigator. -/
theorem touch_by_session_zero_makes_another_session_it :
    (∃ n, Reachable n after256Joins.1 after256Joins.2) ∧ SendsSucceed after256Joins.1 ∧
    after256Joins.2.m_clientList.map ClientInfo.identity =
      [(255, "10.0.0.1", 255), (0, "10.0.0.1", 256)] ∧
    FindClientByAddress after256Joins.2.m_clientList "10.0.0.1" 256 = some 1 ∧
    FindClientByID after256Joins.2.m_clientList 0 = some 1 ∧
    FindClientByID after256Joins.2.m_clientList 255 = some 0 ∧
    (match dispatchReceived after256Joins.1 after256Joins.2 "10.0.0.1" 256
        (touchFrom "10.0.0.1" 256 0 255).packet with
      | Except.ok (_, s, _) => some s.m_itPlayerID
      | Except.error _ => none) = some 255 := by
  have hrun : after256Joins.1.sendResults = quietPlatform.sendResults ∧
      ∃ n, Reachable n after256Joins.1 after256Joins.2 :=
    runTicks_reachable 4 joinsUpTo256 (Reachable.fresh quietPlatform) after256Joins_finished
  refine ⟨hrun.2, ?_, by decide!⟩
  intro k
  rw [hrun.1]
  exact le_refl _

/-- Ids over a run of Joins. Let Join datagrams from pairwise distinct addresses arrive over
any list of ticks, `N` of them in all, at a constructed server whose sends succeed, with
fuel for every loop. Then every tick completes, whatever its `deltaSeconds` and so whatever
sessions it times out, and the `k`-th session created is assigned id `k` modulo 256. When
`N` is at most 255 the ids are `1, ..., N` in order of arrival and no id is assigned
twice. -/
theorem ids_follow_arrival_order (fuel : Nat) (ticks : List Tick) (w : Platform)
    (hw : SendsSucceed w) (hpending : w.pending = [])
    (hjoins : ∀ d ∈ allArrivals ticks, d.packet.type = PacketType.TYPE_Join)
    (hdistinct : ((allArrivals ticks).map Datagram.address).Nodup)
    (hfuel : (allArrivals ticks).length + 2 ≤ fuel)
    (hcount : (allArrivals ticks).length + 1 < 2 ^ 32) :
    (∃ w' s', runTicks fuel ticks w GameServer.fresh = Run.finished (w', s')) ∧
    createdIDs fuel ticks w GameServer.fresh =
      (List.range' 1 (allArrivals ticks).length).map (· % 2 ^ 8) ∧
    ((allArrivals ticks).length ≤ 255 →
      createdIDs fuel ticks w GameServer.fresh = List.range' 1 (allArrivals ticks).length ∧
      (createdIDs fuel ticks w GameServer.fresh).Nodup) := by
  obtain ⟨hrun, hids⟩ := runTicks_joins fuel ticks w GameServer.fresh hw hpending hjoins
    hdistinct (by simp [GameServer.fresh]) (by simpa [GameServer.fresh] using hfuel)
    (by simp only [GameServer.fresh]; omega) (by simp only [GameServer.fresh, List.length_nil]; omega)
  have hids' : createdIDs fuel ticks w GameServer.fresh =
      (List.range' 1 (allArrivals ticks).length).map (· % 2 ^ 8) := hids
  refine ⟨hrun, hids', ?_⟩
  intro hsmall
  have hsame : (List.range' 1 (allArrivals ticks).length).map (· % 2 ^ 8) =
      List.range' 1 (allArrivals ticks).length := by
    conv_rhs => rw [← List.map_id (List.range' 1 (allArrivals ticks).length)]
    apply List.map_congr_left
    intro x hx
    have := List.mem_range'_1.mp hx
    simp only [id_eq]
    omega
  rw [hids', hsame]
  exact ⟨rfl, List.nodup_range' _ _⟩

theorem ids_follow_arrival_order_witness :
    (SendsSucceed quietPlatform ∧ quietPlatform.pending = [] ∧
      (∀ d ∈ allArrivals threeJoins, d.packet.type = PacketType.TYPE_Join) ∧
      ((allArrivals threeJoins).map Datagram.address).Nodup) ∧
    createdIDs 5 threeJoins quietPlatform GameServer.fresh = [1, 2, 3] :=
  ⟨⟨fun _ => le_refl _, rfl, by decide, by decide⟩,
    ((ids_follow_arrival_order 5 threeJoins quietPlatform (fun _ => le_refl _) rfl
      (by decide) (by decide) (by decide) (by decide)).2.2 (by decide)).1⟩

/-- C1: ids are not `1, ..., N` for `N = 257`. Joins arrive from 257 distinct addresses, one
per tick, and every session is timed out by the tick that created it. The first session is
given id 1, the 255th id 255, the 256th id 0 and the 257th id 1 again: the `unsigned int`
counter is stored in the `unsigned char` id. -/
theorem the_257th_session_reuses_id_one :
    (∀ d ∈ allArrivals (shortLivedJoins 257), d.packet.type = PacketType.TYPE_Join) ∧
    ((allArrivals (shortLivedJoins 257)).map Datagram.address).Nodup ∧
    (createdIDs 3 (shortLivedJoins 257) quietPlatform GameServer.fresh).length = 257 ∧
    (createdIDs 3 (shortLivedJoins 257) quietPlatform GameServer.fresh).take 1 = [1] ∧
    (createdIDs 3 (shortLivedJoins 257) quietPlatform GameServer.fresh).drop 254 = [255, 0, 1] := by
  decide!

/-! ## Ticks during which nothing arrives -/

theorem ProcessNetworkQueue_quiet {fuel : Nat} {w : Platform} (s : GameServer)
    (hpending : w.pending = []) (hfuel : 0 < fuel) :
    ProcessNetworkQueue fuel w s = Run.finished (w, s) := by
  obtain ⟨fuel, rfl⟩ : ∃ f, fuel = f + 1 := ⟨fuel - 1, by omega⟩
  simp [ProcessNetworkQueue, processNetworkLoop, GetNumberOfBytesInNetworkQueue, hpending]

theorem BroadcastGameStateToClients_updates_only {w : Platform} (hw : SendsSucceed w)
    (s : GameServer) :
    ∃ (log : List Datagram) (reads : Nat),
      BroadcastGameStateToClients w s =
        Except.ok ({ w with clockReads := reads, sent := w.sent ++ log },
          { s with
            m_clientList := s.m_clientList.map (ClientInfo.numbered^[s.m_clientList.length]) }) ∧
      ∀ d ∈ log, d.packet.type = PacketType.TYPE_Update := by
  obtain ⟨log, hrun, hlen, hget⟩ :=
    broadcastFrom_ok s.m_clientList.length 0 w s.m_clientList hw (by simp)
  refine ⟨log, w.clockReads + s.m_clientList.length * s.m_clientList.length,
    by simp only [BroadcastGameStateToClients, hrun], ?_⟩
  intro d hd
  obtain ⟨idx, hidx⟩ := List.mem_iff_getElem?.mp hd
  have hlt : idx < s.m_clientList.length * s.m_clientList.length := by
    rw [← hlen]
    exact (List.getElem?_eq_some.mp hidx).1
  have hpos : 0 < s.m_clientList.length := by
    rcases Nat.eq_zero_or_pos s.m_clientList.length with h | h
    · rw [h] at hlt
      simp at hlt
    · exact h
  have ha : idx / s.m_clientList.length < s.m_clientList.length :=
    Nat.div_lt_of_lt_mul hlt
  have hj : idx % s.m_clientList.length < s.m_clientList.length := Nat.mod_lt _ hpos
  have hsplit : idx / s.m_clientList.length * s.m_clientList.length +
      idx % s.m_clientList.length = idx := by
    rw [Nat.mul_comm]
    exact Nat.div_add_mod idx s.m_clientList.length
  have hentry := hget (idx / s.m_clientList.length) (idx % s.m_clientList.length)
    s.m_clientList[idx / s.m_clientList.length] s.m_clientList[idx % s.m_clientList.length] ha
    (by rw [Nat.zero_add]; exact List.getElem?_eq_getElem ha) (List.getElem?_eq_getElem hj)
  rw [hsplit, hidx] at hentry
  simp only [Option.some.injEq] at hentry
  rw [hentry]
  rfl

theorem numbered_iterate_fields (k : Nat) (c : ClientInfo) :
    ClientInfo.numbered^[k] c =
      { c with currentPacketNumber := (ClientInfo.numbered^[k] c).currentPacketNumber } := by
  cases k with
  | zero => rfl
  | succ k => rw [numbered_iterate_succ]

theorem content_numbers {packets packets' : List MidtermPacket}
    (h : packets'.map MidtermPacket.content = packets.map MidtermPacket.content) :
    packets'.map (·.number) = packets.map (·.number) := by
  have h1 := congrArg (List.map (fun x : PacketType × Nat × Nat × PacketData => x.2.2.1)) h
  simpa [MidtermPacket.content] using h1

theorem content_types {packets packets' : List MidtermPacket}
    (h : packets'.map MidtermPacket.content = packets.map MidtermPacket.content) :
    packets'.map (·.type) = packets.map (·.type) := by
  have h1 := congrArg (List.map (fun x : PacketType × Nat × Nat × PacketData => x.1)) h
  simpa [MidtermPacket.content] using h1

theorem arrive_nothing (w : Platform) (hpending : w.pending = []) : arrive w [] = w := by
  cases w
  simp only [arrive, List.append_nil]

/-! ## What `ResetClient` sends -/

theorem ResetClient_sends {w : Platform} (hw : SendsSucceed w) (itPlayerID : Nat)
    (c : ClientInfo) :
    ∃ w' c' packet,
      ResetClient w itPlayerID c =
        Except.ok (w', if itPlayerID = 0 then c.id else itPlayerID, c') ∧
      w'.sent = w.sent ++ [⟨packet, c.ipAddress, c.portNumber⟩] ∧
      w'.sendResults = w.sendResults ∧ w'.pending = w.pending ∧
      packet.type = PacketType.TYPE_Reset ∧ packet.clientID = c.id ∧
      packet.number = c.currentPacketNumber ∧
      packet.data.reset =
        ⟨if itPlayerID = 0 then c.id else itPlayerID, c'.xPosition, c'.yPosition,
          c'.xVelocity, c'.yVelocity, c'.orientationDegrees⟩ ∧
      c' = { c with
        xPosition := c'.xPosition
        yPosition := c'.yPosition
        xVelocity := 0
        yVelocity := 0
        orientationDegrees := 0
        currentPacketNumber := (c.currentPacketNumber + 1) % 2 ^ 32
        unacknowledgedPackets := setInsert packet c.unacknowledgedPackets } := by
  have h1 : SendsSucceed { w with randomCalls := w.randomCalls + 1 } := hw
  have h2 : SendsSucceed { w with randomCalls := w.randomCalls + 1 + 1 } := hw
  by_cases hc : c.id = (if itPlayerID = 0 then c.id else itPlayerID)
  · simp only [ResetClient, GetRandomFloatBetweenZeroandOne, if_pos hc]
    rw [SendPacketToClient_ok h1]
    refine ⟨_, _, _, rfl, rfl, rfl, rfl, rfl, rfl, rfl, rfl, ?_⟩
    simp [MidtermPacket.IsGuaranteed]
  · simp only [ResetClient, GetRandomFloatBetweenZeroandOne, if_neg hc]
    rw [SendPacketToClient_ok h2]
    refine ⟨_, _, _, rfl, rfl, rfl, rfl, rfl, rfl, rfl, rfl, ?_⟩
    simp [MidtermPacket.IsGuaranteed]

theorem dispatchReceived_join_sends {w : Platform} (hw : SendsSucceed w) {s : GameServer}
    {ipAddress : String} {portNumber : Nat} {packet : MidtermPacket}
    (hunknown : FindClientByAddress s.m_clientList ipAddress portNumber = none)
    (hkind : packet.type = PacketType.TYPE_Join) :
    ∃ w' client reset,
      dispatchReceived w s ipAddress portNumber packet =
        Except.ok (w',
          { m_nextClientID := (s.m_nextClientID + 1) % 2 ^ 32
            m_clientList := s.m_clientList ++ [client]
            m_itPlayerID := if s.m_itPlayerID = 0 then s.m_nextClientID % 2 ^ 8
              else s.m_itPlayerID },
          false) ∧
      w'.sent = w.sent ++ [⟨reset, ipAddress, portNumber⟩] ∧
      w'.sendResults = w.sendResults ∧ w'.pending = w.pending ∧
      reset.type = PacketType.TYPE_Reset ∧ reset.clientID = client.id ∧ reset.number = 1 ∧
      reset.data.reset =
        ⟨if s.m_itPlayerID = 0 then s.m_nextClientID % 2 ^ 8 else s.m_itPlayerID,
          client.xPosition, client.yPosition, client.xVelocity, client.yVelocity,
          client.orientationDegrees⟩ ∧
      client.identity = (s.m_nextClientID % 2 ^ 8, ipAddress, portNumber) ∧
      client.currentPacketNumber = 2 ∧ client.unacknowledgedPackets = [reset] ∧
      client.secondsSinceLastReceivedPacket = 0 ∧
      SpawnRule (if s.m_itPlayerID = 0 then s.m_nextClientID % 2 ^ 8 else s.m_itPlayerID)
        client := by
  obtain ⟨w1, client1, reset, hreset, hsent, hres, hpend, htype, hid, hnumber, hdata, hclient⟩ :=
    ResetClient_sends hw s.m_itPlayerID
      { id := s.m_nextClientID % 2 ^ 8
        ipAddress := ipAddress
        portNumber := portNumber
        currentPacketNumber := 1
        unacknowledgedPackets := []
        secondsSinceLastReceivedPacket := 0
        xPosition := 0
        yPosition := 0
        xVelocity := 0
        yVelocity := 0
        orientationDegrees := 0 }
  have hframe := ResetClient_frame hreset
  simp only [dispatchReceived, hunknown, hkind, ne_eq, not_true_eq_false, if_false,
    AddNewClient, getElem?_append_singleton, set_append_singleton, hreset]
  refine ⟨w1, client1, reset, rfl, hsent, hres, hpend, htype, ?_, hnumber, hdata, ?_, ?_, ?_,
    ?_, hframe.2.2.2.2.2⟩
  · rw [hid, hclient]
  · rw [hclient]
    rfl
  · rw [hclient]
    rfl
  · rw [hclient]
    simp [setInsert]
  · rw [hclient]

/-! ## Claims on the dispatch of Joins and Updates -/

/-- C15: an Update datagram from a known sender. The dispatch completes, sends nothing and
reads neither the clock nor the random generator: the platform is unchanged. The session found
by the sender's address has its position, velocity and orientation overwritten with the
payload and its timer set to 0, its id, address, counter and in-flight set staying as they
were; every other session, the next-id counter and the "it" id are unchanged. -/
theorem update_from_known_sender_overwrites_its_transform (w : Platform) (s : GameServer)
    (ipAddress : String) (portNumber receivedClient : Nat) (packet : MidtermPacket)
    (hknown : FindClientByAddress s.m_clientList ipAddress portNumber = some receivedClient)
    (hkind : packet.type = PacketType.TYPE_Update) :
    ∃ client, s.m_clientList[receivedClient]? = some client ∧
      client.ipAddress = ipAddress ∧ client.portNumber = portNumber ∧
      dispatchReceived w s ipAddress portNumber packet =
        Except.ok (w,
          { s with
            m_clientList := s.m_clientList.set receivedClient
              { client with
                xPosition := packet.data.updated.xPosition
                yPosition := packet.data.updated.yPosition
                xVelocity := packet.data.updated.xVelocity
                yVelocity := packet.data.updated.yVelocity
                orientationDegrees := packet.data.updated.orientationDegrees
                secondsSinceLastReceivedPacket := 0 } },
          true) := by
  obtain ⟨client, hclient, hip, hport⟩ := FindClientByAddress_get hknown
  refine ⟨client, hclient, hip, hport, ?_⟩
  simp only [dispatchReceived, hknown, hkind, hclient, getElem?_set_same hclient,
    ReceiveUpdateFromClient, List.set_set]

theorem update_from_known_sender_overwrites_its_transform_witness :
    FindClientByAddress midGameServer.m_clientList "10.0.0.1" 8 = some 1 ∧
    movedTo.packet.type = PacketType.TYPE_Update ∧
    dispatchReceived quietPlatform midGameServer "10.0.0.1" 8 movedTo.packet =
      Except.ok (quietPlatform, midGameServerMoved, true) ∧
    midGameServerMoved ≠ midGameServer := by
  refine ⟨by decide!, rfl, ?_, by decide!⟩
  obtain ⟨client, hclient, _, _, hrun⟩ :=
    update_from_known_sender_overwrites_its_transform quietPlatform midGameServer
      "10.0.0.1" 8 1 movedTo.packet (by decide!) rfl
  have hsecond : midGameServer.m_clientList[1]? = some client := hclient
  simp only [midGameServer, List.getElem?_cons_succ, List.getElem?_cons_zero,
    Option.some.injEq] at hsecond
  rw [hrun, ← hsecond]
  rfl

/-- Positions that `ResetClient` assigns: `x` is 600 times a number drawn from the random
generator, and `y` is 0 for the session whose id is the "it" id and 600 times a second
number drawn for every other session. -/
theorem ResetClient_spawn {w w' : Platform} {itPlayerID itPlayerID' : Nat}
    {client client' : ClientInfo}
    (h : ResetClient w itPlayerID client = Except.ok (w', itPlayerID', client')) :
    client'.xPosition = w.randomFloats w.randomCalls * 600 ∧
    (client.id = itPlayerID' → client'.yPosition = 0) ∧
    (client.id ≠ itPlayerID' →
      client'.yPosition = w.randomFloats (w.randomCalls + 1) * 600) := by
  by_cases hc : client.id = (if itPlayerID = 0 then client.id else itPlayerID)
  · simp only [ResetClient, GetRandomFloatBetweenZeroandOne, if_pos hc] at h
    split at h
    · cases h
    · rename_i w3 client3 hsend
      simp only [Except.ok.injEq, Prod.mk.injEq] at h
      obtain ⟨rfl, rfl, rfl⟩ := h
      obtain ⟨_, _, hclient⟩ := SendPacketToClient_frame hsend
      rw [hclient]
      exact ⟨rfl, fun _ => rfl, fun hne => absurd hc hne⟩
  · simp only [ResetClient, GetRandomFloatBetweenZeroandOne, if_neg hc] at h
    split at h
    · cases h
    · rename_i w3 client3 hsend
      simp only [Except.ok.injEq, Prod.mk.injEq] at h
      obtain ⟨rfl, rfl, rfl⟩ := h
      obtain ⟨_, _, hclient⟩ := SendPacketToClient_frame hsend
      rw [hclient]
      exact ⟨rfl, fun hsame => absurd hsame hc, fun _ => rfl⟩

theorem dispatchReceived_join_spawn {w w' : Platform} {s s' : GameServer} {ipAddress : String}
    {portNumber : Nat} {packet : MidtermPacket} {resample : Bool}
    (hunknown : FindClientByAddress s.m_clientList ipAddress portNumber = none)
    (hkind : packet.type = PacketType.TYPE_Join)
    (h : dispatchReceived w s ipAddress portNumber packet = Except.ok (w', s', resample)) :
    ∃ client : ClientInfo,
      s'.m_clientList = s.m_clientList ++ [client] ∧
      client.xPosition = w.randomFloats w.randomCalls * 600 ∧
      (client.id = s'.m_itPlayerID → client.yPosition = 0) ∧
      (client.id ≠ s'.m_itPlayerID →
        client.yPosition = w.randomFloats (w.randomCalls + 1) * 600) := by
  simp only [dispatchReceived, hunknown, hkind, ne_eq, not_true_eq_false, if_false,
    AddNewClient, getElem?_append_singleton, set_append_singleton] at h
  split at h
  · cases h
  · rename_i w1 it1 client1 hreset
    simp only [Except.ok.injEq, Prod.mk.injEq] at h
    obtain ⟨rfl, rfl, rfl⟩ := h
    obtain ⟨hx, hit, hother⟩ := ResetClient_spawn hreset
    have hid : client1.id = s.m_nextClientID % 2 ^ 8 :=
      congrArg Prod.fst (ResetClient_frame hreset).2.2.2.1
    exact ⟨client1, rfl, hx, fun hsame => hit (hid ▸ hsame),
      fun hne => hother (hid ▸ hne)⟩

/-- During a tick before which nothing arrives the "it" id stays what it is, whichever
sessions the timeout sweep of the tick removes. -/
theorem Update_quiet_it {fuel : Nat} {w w' : Platform} {s s' : GameServer}
    {deltaSeconds : Float32} (hpending : w.pending = [])
    (h : Update fuel w s deltaSeconds = Run.finished (w', s')) :
    s'.m_itPlayerID = s.m_itPlayerID := by
  cases fuel with
  | zero => simp [Update, ProcessNetworkQueue, processNetworkLoop] at h
  | succ fuel =>
    rw [Update, ProcessNetworkQueue_quiet s hpending (Nat.succ_pos fuel)] at h
    simp only at h
    split at h
    · cases h
    · rename_i w2 s2 hbroadcast
      have hit := (BroadcastGameStateToClients_frame hbroadcast).2.2.2.1
      split at h
      · cases h
      · split at h
        · cases h
        · simp only [Run.finished.injEq, Prod.mk.injEq] at h
          obtain ⟨_, rfl⟩ := h
          exact hit

/-- C12, as the code has it: a Join from an unknown address, sends succeeding, creates one
session. When the server's "it" id is 0, as it is in the constructed server and so for the
first session ever created, the created session becomes "it" and spawns with `y = 0`,
whether or not a live session has the id 0. When the "it" id is not 0 it is unchanged,
whether or not a live session has that id; the created session spawns with `y = 0` if its
own id is the "it" id and with `y` 600 times the second number drawn from the random
generator otherwise. The "it" id is not cleared when the session that has it is timed out:
a tick before which nothing arrives leaves the "it" id as it was. -/
theorem join_makes_the_session_it_when_it_is_zero (w : Platform) (hw : SendsSucceed w)
    (s : GameServer) (ipAddress : String) (portNumber : Nat) (packet : MidtermPacket)
    (hunknown : FindClientByAddress s.m_clientList ipAddress portNumber = none)
    (hkind : packet.type = PacketType.TYPE_Join) :
    GameServer.fresh.m_itPlayerID = 0 ∧
    (∃ w' s' client,
      dispatchReceived w s ipAddress portNumber packet = Except.ok (w', s', false) ∧
      s'.m_clientList = s.m_clientList ++ [client] ∧
      client.identity = (s.m_nextClientID % 2 ^ 8, ipAddress, portNumber) ∧
      (s.m_itPlayerID = 0 → s'.m_itPlayerID = client.id ∧ client.yPosition = 0) ∧
      (s.m_itPlayerID ≠ 0 → s'.m_itPlayerID = s.m_itPlayerID ∧
        (client.id = s.m_itPlayerID → client.yPosition = 0) ∧
        (client.id ≠ s.m_itPlayerID →
          client.yPosition = w.randomFloats (w.randomCalls + 1) * 600))) ∧
    ∀ (fuel : Nat) (w0 w1 : Platform) (s1 : GameServer) (deltaSeconds : Float32),
      w0.pending = [] → Update fuel w0 s deltaSeconds = Run.finished (w1, s1) →
      s1.m_itPlayerID = s.m_itPlayerID := by
  refine ⟨rfl, ?_, fun fuel w0 w1 s1 deltaSeconds hpending h => Update_quiet_it hpending h⟩
  obtain ⟨w', client, reset, hdispatch, _, _, _, _, _, _, _, hident, _, _, _, hspawn⟩ :=
    dispatchReceived_join_sends hw hunknown hkind
  have hid : client.id = s.m_nextClientID % 2 ^ 8 := congrArg Prod.fst hident
  obtain ⟨client', hlist, _, hit, hother⟩ := dispatchReceived_join_spawn hunknown hkind hdispatch
  have hsame : client' = client := by
    have := List.append_cancel_left hlist
    simpa using this.symm
  subst hsame
  refine ⟨w', _, client', hdispatch, rfl, hident, ?_, ?_⟩
  · intro hzero
    simp only [hzero, if_true] at hspawn ⊢
    exact ⟨hid.symm, hspawn.2.2.2 hid⟩
  · intro hne
    simp only [hne, if_false] at hit hother ⊢
    exact ⟨trivial, hit, hother⟩

theorem join_makes_the_session_it_when_it_is_zero_witness :
    (SendsSucceed quietPlatform ∧
      FindClientByAddress GameServer.fresh.m_clientList "10.0.0.1" 7 = none ∧
      FindClientByAddress midGameServer.m_clientList "10.0.0.3" 9 = none) ∧
    (∃ w' s' client,
      dispatchReceived quietPlatform GameServer.fresh "10.0.0.1" 7
        (packetOfType PacketType.TYPE_Join) = Except.ok (w', s', false) ∧
      s'.m_clientList = GameServer.fresh.m_clientList ++ [client] ∧
      client.id = 1 ∧ s'.m_itPlayerID = 1 ∧ client.yPosition = 0) ∧
    ∃ w' s' client,
      dispatchReceived quietPlatform midGameServer "10.0.0.3" 9
        (packetOfType PacketType.TYPE_Join) = Except.ok (w', s', false) ∧
      s'.m_clientList = midGameServer.m_clientList ++ [client] ∧
      client.id = 3 ∧ s'.m_itPlayerID = 1 ∧ client.yPosition = 300 := by
  refine ⟨⟨fun _ => le_refl _, by decide, by decide!⟩, ?_, ?_⟩
  · obtain ⟨w', s', client, hdispatch, hlist, hident, hzero, _⟩ :=
      (join_makes_the_session_it_when_it_is_zero quietPlatform (fun _ => le_refl _)
        GameServer.fresh "10.0.0.1" 7 (packetOfType PacketType.TYPE_Join) (by decide) rfl).2.1
    have hid : client.id = 1 := congrArg Prod.fst hident
    exact ⟨w', s', client, hdispatch, hlist, hid, (hzero rfl).1.trans hid, (hzero rfl).2⟩
  · obtain ⟨w', s', client, hdispatch, hlist, hident, _, hnonzero⟩ :=
      (join_makes_the_session_it_when_it_is_zero quietPlatform (fun _ => le_refl _)
        midGameServer "10.0.0.3" 9 (packetOfType PacketType.TYPE_Join) (by decide!) rfl).2.1
    have hid : client.id = 3 := congrArg Prod.fst hident
    obtain ⟨hit, _, hother⟩ := hnonzero (by decide)
    refine ⟨w', s', client, hdispatch, hlist, hid, hit, ?_⟩
    rw [hother (by rw [hid]; decide)]
    decide!

/-- C12: a session created after the "it" session was timed out does not become "it". A
client joins the constructed server from `10.0.0.1:7`, gets id 1 and is "it"; that tick lasts
6 seconds and times the session out, which leaves no session and the "it" id at 1. Then a
client joins from `10.0.0.2:8`: its session, the only live one, gets id 2, the "it" id stays
1, and the session spawns at `y = 300`, half of 600, not at `y = 0`. -/
theorem session_created_after_eviction_is_not_it :
    ((runTicks 4 (joinAfterEviction.take 1) quietPlatform GameServer.fresh).result?).map
        (fun r => (r.2.m_clientList.map ClientInfo.identity, r.2.m_itPlayerID)) =
      some ([], 1) ∧
    ((runTicks 4 joinAfterEviction quietPlatform GameServer.fresh).result?).map
        (fun r => (r.2.m_clientList.map (fun c => (c.identity, c.yPosition)),
          r.2.m_itPlayerID)) =
      some ([((2, "10.0.0.2", 8), 300)], 1) := by
  decide!

/-! ## Addresses in reachable states -/

theorem addresses_of_identity {clients clients' : List ClientInfo}
    (h : clients'.map ClientInfo.identity = clients.map ClientInfo.identity) :
    clients'.map ClientInfo.address = clients.map ClientInfo.address := by
  have h1 := congrArg (List.map Prod.snd) h
  simpa [ClientInfo.identity, ClientInfo.address] using h1

theorem addresses_sublist_of_identity {clients clients' : List ClientInfo}
    (h : (clients'.map ClientInfo.identity).Sublist (clients.map ClientInfo.identity)) :
    (clients'.map ClientInfo.address).Sublist (clients.map ClientInfo.address) := by
  have h1 := h.map Prod.snd
  simpa [ClientInfo.identity, ClientInfo.address] using h1

theorem reachable_addresses {n : Nat} {w : Platform} {s : GameServer} (h : Reachable n w s) :
    (s.m_clientList.map ClientInfo.address).Nodup := by
  induction h with
  | fresh w => simp [GameServer.fresh]
  | network pending _ ih => exact ih
  | @dispatch n w w' s s' resample ipAddress portNumber packet _ hstep ih =>
    rcases (dispatchReceived_cases hstep).2 with
      ⟨hid, _⟩ | ⟨client, hlist, hident, _, hunknown, _⟩
    · rw [addresses_of_identity hid]
      exact ih
    · have haddress : client.address = (ipAddress, portNumber) := congrArg Prod.snd hident
      rw [hlist, List.map_append, List.nodup_append]
      refine ⟨ih, by simp, ?_⟩
      intro a ha hb
      simp only [List.map_cons, List.map_nil, List.mem_singleton] at hb
      obtain ⟨c, hc, hca⟩ := List.mem_map.mp ha
      refine FindClientByAddress_none.mp hunknown c hc ?_
      have hsame : c.address = (ipAddress, portNumber) := by rw [hca, hb, haddress]
      exact ⟨congrArg Prod.fst hsame, congrArg Prod.snd hsame⟩
  | broadcast _ hstep ih =>
    obtain ⟨_, _, _, _, hid⟩ := BroadcastGameStateToClients_frame hstep
    rw [addresses_of_identity hid]
    exact ih
  | timeout fuel deltaSeconds _ hstep ih =>
    exact ih.sublist (addresses_sublist_of_identity (timeoutLoop_sublist _ _ hstep))
  | resend _ hstep ih =>
    obtain ⟨_, _, hid⟩ := resendUnacknowledgedPackets_frame _ hstep
    rw [addresses_of_identity hid]
    exact ih

/-- C20: in every state reachable from the constructed server the addresses (ip address and
port) of the live sessions are pairwise distinct. `FindClientByAddress` so finds every live
session by its own address, and returns `nullptr` exactly for the addresses that no session
has. A Join from an address that has a session creates no session: the dispatch completes,
sends nothing, and leaves the length of the client list, the ids and addresses of the
sessions and the next-id counter unchanged. -/
theorem live_sessions_have_distinct_addresses (n : Nat) (w : Platform) (s : GameServer)
    (hreach : Reachable n w s) :
    (s.m_clientList.map ClientInfo.address).Nodup ∧
    (∀ k c, s.m_clientList[k]? = some c →
      FindClientByAddress s.m_clientList c.ipAddress c.portNumber = some k) ∧
    (∀ ipAddress portNumber,
      FindClientByAddress s.m_clientList ipAddress portNumber = none ↔
        ∀ c ∈ s.m_clientList, c.address ≠ (ipAddress, portNumber)) ∧
    ∀ ipAddress portNumber k (packet : MidtermPacket),
      FindClientByAddress s.m_clientList ipAddress portNumber = some k →
      packet.type = PacketType.TYPE_Join →
      ∃ s', dispatchReceived w s ipAddress portNumber packet = Except.ok (w, s', true) ∧
        s'.m_clientList.length = s.m_clientList.length ∧
        s'.m_clientList.map ClientInfo.identity = s.m_clientList.map ClientInfo.identity ∧
        s'.m_nextClientID = s.m_nextClientID := by
  have hnodup := reachable_addresses hreach
  refine ⟨hnodup, ?_, ?_, ?_⟩
  · intro k c hc
    obtain ⟨hk, hck⟩ := List.getElem?_eq_some.mp hc
    cases hfind : FindClientByAddress s.m_clientList c.ipAddress c.portNumber with
    | none =>
      exact absurd ⟨rfl, rfl⟩
        (FindClientByAddress_none.mp hfind c (hck ▸ List.getElem_mem hk))
    | some j =>
      obtain ⟨c', hc', hip, hport⟩ := FindClientByAddress_get hfind
      have hsame : (s.m_clientList.map ClientInfo.address)[j]? =
          (s.m_clientList.map ClientInfo.address)[k]? := by
        simp only [List.getElem?_map, hc, hc', Option.map_some', ClientInfo.address, hip, hport]
      have hj : j < (s.m_clientList.map ClientInfo.address).length := by
        rw [List.length_map]
        exact (List.getElem?_eq_some.mp hc').1
      rw [List.getElem?_inj hj hnodup hsame]
  · intro ipAddress portNumber
    rw [FindClientByAddress_none]
    constructor
    · intro h c hc hsame
      exact h c hc ⟨congrArg Prod.fst hsame, congrArg Prod.snd hsame⟩
    · intro h c hc hsame
      exact h c hc (by rw [ClientInfo.address, hsame.1, hsame.2])
  · intro ipAddress portNumber k packet hknown hkind
    obtain ⟨c, hc, _, _⟩ := FindClientByAddress_get hknown
    refine ⟨{ s with
      m_clientList := s.m_clientList.set k { c with secondsSinceLastReceivedPacket := 0 } },
      ?_, by simp, map_set_of_eq _ hc rfl, rfl⟩
    simp only [dispatchReceived, hknown, hkind, hc]

theorem afterTwoJoins_finished :
    runTicks 4 twoJoins quietPlatform GameServer.fresh = Run.finished afterTwoJoins := by
  apply Run.eq_finished_of_result?
  have hsome : ((runTicks 4 twoJoins quietPlatform GameServer.fresh).result?).isSome =
      true := by decide!
  cases hrun : (runTicks 4 twoJoins quietPlatform GameServer.fresh).result? with
  | none => simp [hrun] at hsome
  | some result => simp [afterTwoJoins, hrun]

theorem afterTwoJoins_reachable : ∃ n, Reachable n afterTwoJoins.1 afterTwoJoins.2 :=
  (runTicks_reachable 4 twoJoins (Reachable.fresh quietPlatform) afterTwoJoins_finished).2

theorem live_sessions_have_distinct_addresses_witness :
    (∃ n, Reachable n afterTwoJoins.1 afterTwoJoins.2) ∧
    afterTwoJoins.2.m_clientList.map ClientInfo.identity =
      [(1, "10.0.0.1", 7), (2, "10.0.0.2", 8)] ∧
    (afterTwoJoins.2.m_clientList.map ClientInfo.address).Nodup ∧
    FindClientByAddress afterTwoJoins.2.m_clientList "10.0.0.2" 8 = some 1 ∧
    ∃ s',
      dispatchReceived afterTwoJoins.1 afterTwoJoins.2 "10.0.0.2" 8
          (packetOfType PacketType.TYPE_Join) = Except.ok (afterTwoJoins.1, s', true) ∧
      s'.m_clientList.length = 2 ∧ s'.m_nextClientID = 3 := by
  obtain ⟨n, hn⟩ := afterTwoJoins_reachable
  have h := live_sessions_have_distinct_addresses n afterTwoJoins.1 afterTwoJoins.2 hn
  obtain ⟨s', hdispatch, hlength, -, hnext⟩ :=
    h.2.2.2 "10.0.0.2" 8 1 (packetOfType PacketType.TYPE_Join) (by decide!) rfl
  exact ⟨⟨n, hn⟩, by decide!, h.1, by decide!, s', hdispatch,
    hlength.trans (by decide!), hnext.trans (by decide!)⟩

/-! ## Results do not depend on the sends that were not made

A step that completes made only sends that succeeded, so that it completes in the same way,
with the same result, on the platform on which every send succeeds. -/

theorem succeeding_sendsSucceed (w : Platform) : SendsSucceed w.succeeding :=
  fun _ => le_refl _

theorem SendPacketToClient_succeeding {w w' : Platform} {packet : MidtermPacket}
    {client client' : ClientInfo} {stored : Bool}
    (h : SendPacketToClient w packet client stored = Except.ok (w', client')) :
    SendPacketToClient w.succeeding packet client stored =
      Except.ok (w'.succeeding, client') := by
  simp only [SendPacketToClient, GetCurrentTimeSeconds, SendBuffer] at h
  split at h
  · cases h
  · split at h
    · rename_i hg
      simp only [Except.ok.injEq, Prod.mk.injEq] at h
      obtain ⟨rfl, rfl⟩ := h
      simp [SendPacketToClient, GetCurrentTimeSeconds, SendBuffer, Platform.succeeding, hg]
    · rename_i hg
      simp only [Except.ok.injEq, Prod.mk.injEq] at h
      obtain ⟨rfl, rfl⟩ := h
      simp [SendPacketToClient, GetCurrentTimeSeconds, SendBuffer, Platform.succeeding, hg]

theorem ResetClient_succeeding {w w' : Platform} {itPlayerID itPlayerID' : Nat}
    {client client' : ClientInfo}
    (h : ResetClient w itPlayerID client = Except.ok (w', itPlayerID', client')) :
    ResetClient w.succeeding itPlayerID client =
      Except.ok (w'.succeeding, itPlayerID', client') := by
  by_cases hc : client.id = (if itPlayerID = 0 then client.id else itPlayerID)
  · simp only [ResetClient, GetRandomFloatBetweenZeroandOne, if_pos hc] at h ⊢
    split at h
    · cases h
    · rename_i w3 client3 hsend
      simp only [Except.ok.injEq, Prod.mk.injEq] at h
      obtain ⟨rfl, rfl, rfl⟩ := h
      have h1 := SendPacketToClient_succeeding hsend
      simp only [Platform.succeeding] at h1 ⊢
      rw [h1]
  · simp only [ResetClient, GetRandomFloatBetweenZeroandOne, if_neg hc] at h ⊢
    split at h
    · cases h
    · rename_i w3 client3 hsend
      simp only [Except.ok.injEq, Prod.mk.injEq] at h
      obtain ⟨rfl, rfl, rfl⟩ := h
      have h1 := SendPacketToClient_succeeding hsend
      simp only [Platform.succeeding] at h1 ⊢
      rw [h1]

theorem resetEachClient_succeeding (clients : List ClientInfo) :
    ∀ {w w' : Platform} {itPlayerID itPlayerID' : Nat} {clients' : List ClientInfo},
      resetEachClient w itPlayerID clients = Except.ok (w', itPlayerID', clients') →
      resetEachClient w.succeeding itPlayerID clients =
        Except.ok (w'.succeeding, itPlayerID', clients') := by
  induction clients with
  | nil =>
    intro w w' itPlayerID itPlayerID' clients' h
    simp only [resetEachClient, Except.ok.injEq, Prod.mk.injEq] at h
    obtain ⟨rfl, rfl, rfl⟩ := h
    rfl
  | cons c rest ih =>
    intro w w' itPlayerID itPlayerID' clients' h
    simp only [resetEachClient] at h
    split at h
    · cases h
    · rename_i w1 it1 c1 hreset
      split at h
      · cases h
      · rename_i w2 it2 rest1 hrest
        simp only [Except.ok.injEq, Prod.mk.injEq] at h
        obtain ⟨rfl, rfl, rfl⟩ := h
        simp only [resetEachClient, ResetClient_succeeding hreset, ih hrest]

theorem HandleTouchAndResetGame_succeeding {w w' : Platform} {s s' : GameServer}
    {touchPacket : MidtermPacket}
    (h : HandleTouchAndResetGame w s touchPacket = Except.ok (w', s')) :
    HandleTouchAndResetGame w.succeeding s touchPacket = Except.ok (w'.succeeding, s') := by
  simp only [HandleTouchAndResetGame] at h ⊢
  split at h
  · rename_i itPlayer touchingPlayer hit htouching
    split at h
    · rename_i c0 c hc0 hc
      split at h
      · cases h
      · rename_i w1 it1 clients1 hreset
        simp only [Except.ok.injEq, Prod.mk.injEq] at h
        obtain ⟨rfl, rfl⟩ := h
        simp only [hc0, hc, resetEachClient_succeeding _ hreset]
    · cases h
  · cases h

theorem sendUpdateToEachClient_succeeding (clients : List ClientInfo) :
    ∀ {w w' : Platform} {updatePacket : MidtermPacket} {clients' : List ClientInfo},
      sendUpdateToEachClient w updatePacket clients = Except.ok (w', clients') →
      sendUpdateToEachClient w.succeeding updatePacket clients =
        Except.ok (w'.succeeding, clients') := by
  induction clients with
  | nil =>
    intro w w' updatePacket clients' h
    simp only [sendUpdateToEachClient, Except.ok.injEq, Prod.mk.injEq] at h
    obtain ⟨rfl, rfl⟩ := h
    rfl
  | cons c rest ih =>
    intro w w' updatePacket clients' h
    simp only [sendUpdateToEachClient] at h
    split at h
    · cases h
    · rename_i w1 c1 hsend
      split at h
      · cases h
      · rename_i w2 rest1 hrest
        simp only [Except.ok.injEq, Prod.mk.injEq] at h
        obtain ⟨rfl, rfl⟩ := h
        simp only [sendUpdateToEachClient, SendPacketToClient_succeeding hsend, ih hrest]

theorem broadcastFrom_succeeding (remaining : Nat) :
    ∀ {i : Nat} {w w' : Platform} {clients clients' : List ClientInfo},
      broadcastFrom w clients i remaining = Except.ok (w', clients') →
      broadcastFrom w.succeeding clients i remaining = Except.ok (w'.succeeding, clients') := by
  induction remaining with
  | zero =>
    intro i w w' clients clients' h
    simp only [broadcastFrom, Except.ok.injEq, Prod.mk.injEq] at h
    obtain ⟨rfl, rfl⟩ := h
    rfl
  | succ remaining ih =>
    intro i w w' clients clients' h
    simp only [broadcastFrom] at h ⊢
    split at h
    · rename_i hnone
      simp only [Except.ok.injEq, Prod.mk.injEq] at h
      obtain ⟨rfl, rfl⟩ := h
      simp only [hnone]
    · rename_i c hc
      split at h
      · cases h
      · rename_i w1 clients1 hsend
        simp only [hc, sendUpdateToEachClient_succeeding _ hsend]
        exact ih h

theorem BroadcastGameStateToClients_succeeding {w w' : Platform} {s s' : GameServer}
    (h : BroadcastGameStateToClients w s = Except.ok (w', s')) :
    BroadcastGameStateToClients w.succeeding s = Except.ok (w'.succeeding, s') := by
  simp only [BroadcastGameStateToClients] at h ⊢
  split at h
  · cases h
  · rename_i w1 clients hloop
    simp only [Except.ok.injEq, Prod.mk.injEq] at h
    obtain ⟨rfl, rfl⟩ := h
    simp only [broadcastFrom_succeeding _ hloop]

theorem resendEachPacket_succeeding (todo : List MidtermPacket) :
    ∀ {w w' : Platform} {client client' : ClientInfo},
      resendEachPacket w client todo = Except.ok (w', client') →
      resendEachPacket w.succeeding client todo = Except.ok (w'.succeeding, client') := by
  induction todo with
  | nil =>
    intro w w' client client' h
    simp only [resendEachPacket, Except.ok.injEq, Prod.mk.injEq] at h
    obtain ⟨rfl, rfl⟩ := h
    rfl
  | cons p rest ih =>
    intro w w' client client' h
    simp only [resendEachPacket] at h ⊢
    split at h
    · cases h
    · rename_i w1 client1 hsend
      simp only [SendPacketToClient_succeeding hsend]
      exact ih h

theorem resendUnacknowledgedPackets_succeeding (clients : List ClientInfo) :
    ∀ {w w' : Platform} {clients' : List ClientInfo},
      resendUnacknowledgedPackets w clients = Except.ok (w', clients') →
      resendUnacknowledgedPackets w.succeeding clients =
        Except.ok (w'.succeeding, clients') := by
  induction clients with
  | nil =>
    intro w w' clients' h
    simp only [resendUnacknowledgedPackets, Except.ok.injEq, Prod.mk.injEq] at h
    obtain ⟨rfl, rfl⟩ := h
    rfl
  | cons c rest ih =>
    intro w w' clients' h
    simp only [resendUnacknowledgedPackets] at h
    split at h
    · cases h
    · rename_i w1 c1 hone
      split at h
      · cases h
      · rename_i w2 rest1 hrest
        simp only [Except.ok.injEq, Prod.mk.injEq] at h
        obtain ⟨rfl, rfl⟩ := h
        simp only [resendUnacknowledgedPackets, resendEachPacket_succeeding _ hone, ih hrest]

theorem dispatchReceived_succeeding {w w' : Platform} {s s' : GameServer} {ipAddress : String}
    {portNumber : Nat} {packet : MidtermPacket} {resample : Bool}
    (h : dispatchReceived w s ipAddress portNumber packet = Except.ok (w', s', resample)) :
    dispatchReceived w.succeeding s ipAddress portNumber packet =
      Except.ok (w'.succeeding, s', resample) := by
  cases hfind : FindClientByAddress s.m_clientList ipAddress portNumber with
  | none =>
    by_cases hkind : packet.type = PacketType.TYPE_Join
    · simp only [dispatchReceived, hfind, hkind, ne_eq, not_true_eq_false, if_false,
        AddNewClient, getElem?_append_singleton, set_append_singleton] at h ⊢
      split at h
      · cases h
      · rename_i w1 it1 client1 hreset
        simp only [Except.ok.injEq, Prod.mk.injEq] at h
        obtain ⟨rfl, rfl, rfl⟩ := h
        simp only [ResetClient_succeeding hreset]
    · rw [dispatchReceived_unknown w s ipAddress portNumber packet hkind hfind] at h
      simp only [Except.ok.injEq, Prod.mk.injEq] at h
      obtain ⟨rfl, rfl, rfl⟩ := h
      exact dispatchReceived_unknown _ s ipAddress portNumber packet hkind hfind
  | some receivedClient =>
    simp only [dispatchReceived, hfind] at h ⊢
    cases hkind : packet.type with
    | TYPE_Touch =>
      simp only [hkind] at h ⊢
      cases htouch : HandleTouchAndResetGame w s packet with
      | error cause => simp [htouch] at h
      | ok r =>
        obtain ⟨w1, s1⟩ := r
        simp only [htouch] at h
        simp only [HandleTouchAndResetGame_succeeding htouch]
        split at h
        · cases h
        · rename_i client hclient
          simp only [Except.ok.injEq, Prod.mk.injEq] at h
          obtain ⟨rfl, rfl, rfl⟩ := h
          simp only [hclient]
    | TYPE_Acknowledgement =>
      simp only [hkind] at h ⊢
      cases hack : RemoveAcknowledgedPacketFromClientQueue s packet with
      | error cause => simp [hack] at h
      | ok s1 =>
        simp only [hack] at h ⊢
        split at h
        · cases h
        · rename_i client hclient
          simp only [Except.ok.injEq, Prod.mk.injEq] at h
          obtain ⟨rfl, rfl, rfl⟩ := h
          simp only [hclient]
    | TYPE_Update =>
      simp only [hkind] at h ⊢
      cases hclient : s.m_clientList[receivedClient]? with
      | none => simp [hclient] at h
      | some client =>
        simp only [hclient] at h ⊢
        split at h
        · cases h
        · rename_i client1 hclient1
          simp only [Except.ok.injEq, Prod.mk.injEq] at h
          obtain ⟨rfl, rfl, rfl⟩ := h
          simp only [hclient1]
    | TYPE_Join =>
      simp only [hkind] at h ⊢
      split at h
      · cases h
      · rename_i client hclient
        simp only [Except.ok.injEq, Prod.mk.injEq] at h
        obtain ⟨rfl, rfl, rfl⟩ := h
        simp only [hclient]
    | TYPE_Reset =>
      simp only [hkind] at h ⊢
      split at h
      · cases h
      · rename_i client hclient
        simp only [Except.ok.injEq, Prod.mk.injEq] at h
        obtain ⟨rfl, rfl, rfl⟩ := h
        simp only [hclient]
    | TYPE_Unrecognized raw =>
      simp only [hkind] at h ⊢
      split at h
      · cases h
      · rename_i client hclient
        simp only [Except.ok.injEq, Prod.mk.injEq] at h
        obtain ⟨rfl, rfl, rfl⟩ := h
        simp only [hclient]

theorem Reachable.on_succeeding {n : Nat} {w : Platform} {s : GameServer}
    (h : Reachable n w s) : Reachable n w.succeeding s := by
  induction h with
  | fresh w => exact Reachable.fresh _
  | network pending _ ih => exact Reachable.network pending ih
  | dispatch ipAddress portNumber packet _ hstep ih =>
    exact Reachable.dispatch ipAddress portNumber packet ih (dispatchReceived_succeeding hstep)
  | broadcast _ hstep ih =>
    exact Reachable.broadcast ih (BroadcastGameStateToClients_succeeding hstep)
  | timeout fuel deltaSeconds _ hstep ih => exact Reachable.timeout fuel deltaSeconds ih hstep
  | resend _ hstep ih =>
    exact Reachable.resend ih (resendUnacknowledgedPackets_succeeding _ hstep)

/-! ## What the tag transition sends -/

theorem ResetClient_resetOf {w : Platform} (hw : SendsSucceed w) (itPlayerID : Nat)
    (c : ClientInfo) :
    ∃ w' c' packet,
      ResetClient w itPlayerID c =
        Except.ok (w', if itPlayerID = 0 then c.id else itPlayerID, c') ∧
      w'.sent = w.sent ++ [⟨packet, c.ipAddress, c.portNumber⟩] ∧
      w'.sendResults = w.sendResults ∧
      ResetOf (if itPlayerID = 0 then c.id else itPlayerID) c c' packet := by
  obtain ⟨w', c', packet, hreset, hsent, hres, _, htype, hid, hnumber, hdata, hclient⟩ :=
    ResetClient_sends hw itPlayerID c
  exact ⟨w', c', packet, hreset, hsent, hres, htype, hid, hnumber, hdata, hclient⟩

theorem resetEachClient_sends (clients : List ClientInfo) :
    ∀ {w : Platform}, SendsSucceed w → ∀ (itPlayerID : Nat),
      ∃ w' itPlayerID' clients' packets,
        resetEachClient w itPlayerID clients = Except.ok (w', itPlayerID', clients') ∧
        w'.sent = w.sent ++
          List.zipWith (fun c p => (⟨p, c.ipAddress, c.portNumber⟩ : Datagram))
            clients packets ∧
        packets.length = clients.length ∧
        w'.sendResults = w.sendResults ∧
        (itPlayerID ≠ 0 → itPlayerID' = itPlayerID) ∧
        List.Forall₂
          (fun (cp : ClientInfo × MidtermPacket) c' =>
            ∃ it, (itPlayerID ≠ 0 → it = itPlayerID) ∧ ResetOf it cp.1 c' cp.2)
          (clients.zip packets) clients' := by
  induction clients with
  | nil =>
    intro w _ itPlayerID
    exact ⟨w, itPlayerID, [], [], rfl, by simp, rfl, rfl, fun _ => rfl, List.Forall₂.nil⟩
  | cons c rest ih =>
    intro w hw itPlayerID
    obtain ⟨w1, c1, p1, hreset, hsent1, hres1, hof⟩ := ResetClient_resetOf hw itPlayerID c
    have hw1 : SendsSucceed w1 := SendsSucceed_of_sendResults hw hres1
    obtain ⟨w2, it2, rest1, packets, hrest, hsent2, hlen, hres2, hit2, hall⟩ :=
      ih hw1 (if itPlayerID = 0 then c.id else itPlayerID)
    refine ⟨w2, it2, c1 :: rest1, p1 :: packets,
      by simp only [resetEachClient, hreset, hrest], ?_, by simp [hlen], hres2.trans hres1,
      ?_, ?_⟩
    · rw [hsent2, hsent1]
      simp
    · intro hne
      have h1 : (if itPlayerID = 0 then c.id else itPlayerID) = itPlayerID := if_neg hne
      rw [h1] at hit2
      exact hit2 hne
    · rw [List.zip_cons_cons]
      refine List.Forall₂.cons ⟨_, fun hne => if_neg hne, hof⟩ ?_
      refine hall.imp ?_
      rintro cp c' ⟨it, hit, hreset'⟩
      refine ⟨it, ?_, hreset'⟩
      intro hne
      have h1 : (if itPlayerID = 0 then c.id else itPlayerID) = itPlayerID := if_neg hne
      rw [h1] at hit
      exact hit hne

theorem HandleTouchAndResetGame_eq {w w' : Platform} {s s' : GameServer}
    {touchPacket : MidtermPacket}
    (h : HandleTouchAndResetGame w s touchPacket = Except.ok (w', s')) :
    ∃ i j touching itPlayerID,
      FindClientByID s.m_clientList touchPacket.data.touch.instigatorID = some i ∧
      FindClientByID s.m_clientList touchPacket.data.touch.receiverID = some j ∧
      s.m_clientList[i]? = some touching ∧
      touching.id = touchPacket.data.touch.instigatorID ∧
      resetEachClient w touching.id s.m_clientList =
        Except.ok (w', itPlayerID, s'.m_clientList) ∧
      s' = { s with m_clientList := s'.m_clientList, m_itPlayerID := itPlayerID } := by
  simp only [HandleTouchAndResetGame] at h
  split at h
  · rename_i itPlayer touchingPlayer hit htouching
    obtain ⟨c, hc, hcid⟩ := FindClientByID_get htouching
    obtain ⟨c0, hc0, _⟩ := FindClientByID_get hit
    simp only [hc, hc0] at h
    split at h
    · cases h
    · rename_i w1 it1 clients1 hreset
      simp only [Except.ok.injEq, Prod.mk.injEq] at h
      obtain ⟨rfl, rfl⟩ := h
      exact ⟨touchingPlayer, itPlayer, c, it1, htouching, hit, hc, hcid, hreset, rfl⟩
  · cases h

theorem RemoveAcknowledgedPacketFromClientQueue_eq {s s' : GameServer}
    {ackPacket : MidtermPacket}
    (h : RemoveAcknowledgedPacketFromClientQueue s ackPacket = Except.ok s') :
    ∃ i client,
      FindClientByID s.m_clientList ackPacket.clientID = some i ∧
      s.m_clientList[i]? = some client ∧
      s' = { s with
        m_clientList := s.m_clientList.set i
          { client with
            unacknowledgedPackets :=
              eraseAcknowledged ackPacket.data.acknowledged.packetNumber
                client.unacknowledgedPackets } } := by
  simp only [RemoveAcknowledgedPacketFromClientQueue] at h
  split at h
  · cases h
  · rename_i i hfind
    split at h
    · cases h
    · rename_i client hclient
      simp only [Except.ok.injEq] at h
      exact ⟨i, client, hfind, hclient, h.symm⟩

/-- The shapes of a dispatch that completes for a known sender: the handler of the kind of
the packet runs, then the timer of the sender's session is set to zero. -/
theorem dispatchReceived_known_shape {w w' : Platform} {s s' : GameServer}
    {ipAddress : String} {portNumber receivedClient : Nat} {packet : MidtermPacket}
    {resample : Bool}
    (hknown : FindClientByAddress s.m_clientList ipAddress portNumber = some receivedClient)
    (h : dispatchReceived w s ipAddress portNumber packet = Except.ok (w', s', resample)) :
    ∃ s1 c1, s1.m_clientList[receivedClient]? = some c1 ∧
      s' = { s1 with
        m_clientList := s1.m_clientList.set receivedClient
          { c1 with secondsSinceLastReceivedPacket := 0 } } ∧
      resample = true ∧
      ((packet.type = PacketType.TYPE_Acknowledgement ∧ w' = w ∧
          RemoveAcknowledgedPacketFromClientQueue s packet = Except.ok s1) ∨
        (packet.type = PacketType.TYPE_Update ∧ w' = w ∧
          ∃ c, s.m_clientList[receivedClient]? = some c ∧
            s1 = { s with
              m_clientList :=
                s.m_clientList.set receivedClient (ReceiveUpdateFromClient packet c) }) ∨
        (packet.type = PacketType.TYPE_Touch ∧
          HandleTouchAndResetGame w s packet = Except.ok (w', s1)) ∨
        (packet.type ≠ PacketType.TYPE_Acknowledgement ∧
          packet.type ≠ PacketType.TYPE_Update ∧ packet.type ≠ PacketType.TYPE_Touch ∧
          w' = w ∧ s1 = s)) := by
  have hfinish : ∀ (w1 : Platform) (s1 : GameServer),
      (match s1.m_clientList[receivedClient]? with
        | none => (Except.error Halt.nullDereference : Except Halt (Platform × GameServer × Bool))
        | some client =>
          Except.ok (w1,
            { s1 with
              m_clientList :=
                s1.m_clientList.set receivedClient
                  { client with secondsSinceLastReceivedPacket := 0 } },
            true)) = Except.ok (w', s', resample) →
      ∃ c1, s1.m_clientList[receivedClient]? = some c1 ∧
        s' = { s1 with
          m_clientList := s1.m_clientList.set receivedClient
            { c1 with secondsSinceLastReceivedPacket := 0 } } ∧
        resample = true ∧ w' = w1 := by
    intro w1 s1 h1
    split at h1
    · cases h1
    · rename_i client hclient
      simp only [Except.ok.injEq, Prod.mk.injEq] at h1
      obtain ⟨rfl, rfl, rfl⟩ := h1
      exact ⟨client, hclient, rfl, rfl, rfl⟩
  simp only [dispatchReceived, hknown] at h
  cases hkind : packet.type with
  | TYPE_Acknowledgement =>
    simp only [hkind] at h
    cases hack : RemoveAcknowledgedPacketFromClientQueue s packet with
    | error cause => simp [hack] at h
    | ok s1 =>
      simp only [hack] at h
      obtain ⟨c1, hc1, hs', hb, hw'⟩ := hfinish w s1 h
      exact ⟨s1, c1, hc1, hs', hb, Or.inl ⟨rfl, hw', rfl⟩⟩
  | TYPE_Update =>
    simp only [hkind] at h
    cases hclient : s.m_clientList[receivedClient]? with
    | none => simp [hclient] at h
    | some client =>
      simp only [hclient] at h
      obtain ⟨c1, hc1, hs', hb, hw'⟩ := hfinish w
        { s with
          m_clientList :=
            s.m_clientList.set receivedClient (ReceiveUpdateFromClient packet client) } h
      exact ⟨_, c1, hc1, hs', hb, Or.inr (Or.inl ⟨rfl, hw', client, rfl, rfl⟩)⟩
  | TYPE_Touch =>
    simp only [hkind] at h
    cases htouch : HandleTouchAndResetGame w s packet with
    | error cause => simp [htouch] at h
    | ok r =>
      obtain ⟨w1, s1⟩ := r
      simp only [htouch] at h
      obtain ⟨c1, hc1, hs', hb, hw'⟩ := hfinish w1 s1 h
      subst hw'
      exact ⟨s1, c1, hc1, hs', hb, Or.inr (Or.inr (Or.inl ⟨rfl, rfl⟩))⟩
  | TYPE_Join =>
    simp only [hkind] at h
    obtain ⟨c1, hc1, hs', hb, hw'⟩ := hfinish w s h
    exact ⟨s, c1, hc1, hs', hb, Or.inr (Or.inr (Or.inr
      ⟨by simp, by simp, by simp, hw', rfl⟩))⟩
  | TYPE_Reset =>
    simp only [hkind] at h
    obtain ⟨c1, hc1, hs', hb, hw'⟩ := hfinish w s h
    exact ⟨s, c1, hc1, hs', hb, Or.inr (Or.inr (Or.inr
      ⟨by simp, by simp, by simp, hw', rfl⟩))⟩
  | TYPE_Unrecognized raw =>
    simp only [hkind] at h
    obtain ⟨c1, hc1, hs', hb, hw'⟩ := hfinish w s h
    exact ⟨s, c1, hc1, hs', hb, Or.inr (Or.inr (Or.inr
      ⟨by simp, by simp, by simp, hw', rfl⟩))⟩

/-! ## Steps that complete, made explicit -/

theorem BroadcastGameStateToClients_eq {w w' : Platform} {s s' : GameServer}
    (h : BroadcastGameStateToClients w s = Except.ok (w', s')) :
    ∃ log : List Datagram,
      w'.sent = w.sent ++ log ∧
      log.length = s.m_clientList.length * s.m_clientList.length ∧
      s' = { s with
        m_clientList := s.m_clientList.map (ClientInfo.numbered^[s.m_clientList.length]) } ∧
      ∀ (a j : Nat) (sender receiver : ClientInfo), a < s.m_clientList.length →
        s.m_clientList[a]? = some sender → s.m_clientList[j]? = some receiver →
        log[a * s.m_clientList.length + j]? = some
          ⟨{ updatePacketFor sender with
              number := (ClientInfo.numbered^[a] receiver).currentPacketNumber
              timestamp := w.clock (w.clockReads + (a * s.m_clientList.length + j)) },
            receiver.ipAddress, receiver.portNumber⟩ := by
  have h1 := BroadcastGameStateToClients_succeeding h
  obtain ⟨log, hrun, hlen, hget⟩ :=
    broadcastFrom_ok s.m_clientList.length 0 w.succeeding s.m_clientList
      (succeeding_sendsSucceed w) (by simp)
  simp only [BroadcastGameStateToClients, hrun, Except.ok.injEq, Prod.mk.injEq] at h1
  obtain ⟨hw', hs'⟩ := h1
  refine ⟨log, ?_, hlen, hs'.symm, ?_⟩
  · have := congrArg Platform.sent hw'
    simpa [Platform.succeeding] using this.symm
  · intro a j sender receiver ha hsender hreceiver
    have := hget a j sender receiver ha (by rw [Nat.zero_add]; exact hsender) hreceiver
    simpa [Platform.succeeding] using this

theorem resendUnacknowledgedPackets_eq {w w' : Platform} {clients clients' : List ClientInfo}
    (hsets : ∀ c ∈ clients, IsPacketSet c.unacknowledgedPackets)
    (h : resendUnacknowledgedPackets w clients = Except.ok (w', clients')) :
    ∃ log : List Datagram,
      w'.sent = w.sent ++ log ∧
      log.map Datagram.contentAndAddress = inFlight clients ∧
      List.Forall₂ SameButTimestamps clients clients' := by
  have h1 := resendUnacknowledgedPackets_succeeding _ h
  obtain ⟨clients1, log, reads, hrun, hlog, hsame⟩ :=
    resendUnacknowledgedPackets_ok clients w.succeeding (succeeding_sendsSucceed w) hsets
  rw [hrun] at h1
  simp only [Except.ok.injEq, Prod.mk.injEq] at h1
  obtain ⟨hw', rfl⟩ := h1
  refine ⟨log, ?_, hlog, hsame⟩
  have := congrArg Platform.sent hw'
  simpa [Platform.succeeding] using this.symm

theorem resetEachClient_eq {w w' : Platform} {itPlayerID itPlayerID' : Nat}
    {clients clients' : List ClientInfo}
    (h : resetEachClient w itPlayerID clients = Except.ok (w', itPlayerID', clients')) :
    ∃ packets : List MidtermPacket,
      w'.sent = w.sent ++
        List.zipWith (fun c p => (⟨p, c.ipAddress, c.portNumber⟩ : Datagram))
          clients packets ∧
      packets.length = clients.length ∧
      (itPlayerID ≠ 0 → itPlayerID' = itPlayerID) ∧
      List.Forall₂
        (fun (cp : ClientInfo × MidtermPacket) c' =>
          ∃ it, (itPlayerID ≠ 0 → it = itPlayerID) ∧ ResetOf it cp.1 c' cp.2)
        (clients.zip packets) clients' := by
  have h1 := resetEachClient_succeeding _ h
  obtain ⟨w2, it2, clients2, packets, hrun, hsent, hlen, _, hit, hall⟩ :=
    resetEachClient_sends clients (succeeding_sendsSucceed w) itPlayerID
  rw [hrun] at h1
  simp only [Except.ok.injEq, Prod.mk.injEq] at h1
  obtain ⟨hw', rfl, rfl⟩ := h1
  refine ⟨packets, ?_, hlen, hit, hall⟩
  have := congrArg Platform.sent hw'
  rw [hsent] at this
  simpa [Platform.succeeding] using this.symm

theorem dispatchReceived_join_eq {w w' : Platform} {s s' : GameServer} {ipAddress : String}
    {portNumber : Nat} {packet : MidtermPacket} {resample : Bool}
    (hunknown : FindClientByAddress s.m_clientList ipAddress portNumber = none)
    (hkind : packet.type = PacketType.TYPE_Join)
    (h : dispatchReceived w s ipAddress portNumber packet = Except.ok (w', s', resample)) :
    ∃ client reset,
      s' =
        { m_nextClientID := (s.m_nextClientID + 1) % 2 ^ 32
          m_clientList := s.m_clientList ++ [client]
          m_itPlayerID := if s.m_itPlayerID = 0 then s.m_nextClientID % 2 ^ 8
            else s.m_itPlayerID } ∧
      w'.sent = w.sent ++ [⟨reset, ipAddress, portNumber⟩] ∧
      reset.type = PacketType.TYPE_Reset ∧ reset.clientID = client.id ∧ reset.number = 1 ∧
      client.identity = (s.m_nextClientID % 2 ^ 8, ipAddress, portNumber) ∧
      client.currentPacketNumber = 2 ∧ client.unacknowledgedPackets = [reset] ∧
      client.secondsSinceLastReceivedPacket = 0 := by
  have h1 := dispatchReceived_succeeding h
  obtain ⟨w2, client, reset, hrun, hsent, _, _, htype, hid, hnumber, _, hident, hcounter,
    hset, htimer, _⟩ :=
    @dispatchReceived_join_sends w.succeeding (succeeding_sendsSucceed w) s ipAddress
      portNumber packet hunknown hkind
  rw [hrun] at h1
  simp only [Except.ok.injEq, Prod.mk.injEq] at h1
  obtain ⟨hw', hs', _⟩ := h1
  refine ⟨client, reset, hs'.symm, ?_, htype, hid, hnumber, hident, hcounter, hset, htimer⟩
  have := congrArg Platform.sent hw'
  rw [hsent] at this
  simpa [Platform.succeeding] using this.symm

/-! ## Timers over the dispatch of a datagram -/

theorem dispatchReceived_known_timers {w w' : Platform} {s s' : GameServer}
    {ipAddress : String} {portNumber receivedClient : Nat} {packet : MidtermPacket}
    {resample : Bool}
    (hknown : FindClientByAddress s.m_clientList ipAddress portNumber = some receivedClient)
    (h : dispatchReceived w s ipAddress portNumber packet = Except.ok (w', s', resample)) :
    s'.m_clientList.map (·.secondsSinceLastReceivedPacket) =
      (s.m_clientList.map (·.secondsSinceLastReceivedPacket)).set receivedClient 0 := by
  obtain ⟨s1, c1, hc1, hs', _, hcases⟩ := dispatchReceived_known_shape hknown h
  have hs1 : s1.m_clientList.map (·.secondsSinceLastReceivedPacket) =
      s.m_clientList.map (·.secondsSinceLastReceivedPacket) := by
    rcases hcases with ⟨_, _, hack⟩ | ⟨_, _, c, hc, hupdate⟩ | ⟨_, htouch⟩ | ⟨_, _, _, _, hsame⟩
    · obtain ⟨i, client, _, hclient, hs1⟩ := RemoveAcknowledgedPacketFromClientQueue_eq hack
      rw [hs1]
      exact map_set_of_eq _ hclient rfl
    · rw [hupdate]
      exact map_set_of_eq _ hc rfl
    · obtain ⟨i, j, touching, it, _, _, _, _, hreset, _⟩ := HandleTouchAndResetGame_eq htouch
      exact (resetEachClient_frame _ hreset).2.2.2.1
    · rw [hsame]
  rw [hs', ← hs1]
  simp only [List.map_set]

theorem dispatchReceived_positions {w w' : Platform} {s s' : GameServer} {ipAddress : String}
    {portNumber : Nat} {packet : MidtermPacket} {resample : Bool}
    (h : dispatchReceived w s ipAddress portNumber packet = Except.ok (w', s', resample))
    {j : Nat} {c : ClientInfo} (hc : s.m_clientList[j]? = some c) :
    ∃ c', s'.m_clientList[j]? = some c' ∧ c'.identity = c.identity ∧
      (c'.secondsSinceLastReceivedPacket = c.secondsSinceLastReceivedPacket ∨
        c'.secondsSinceLastReceivedPacket = 0) := by
  cases hfind : FindClientByAddress s.m_clientList ipAddress portNumber with
  | none =>
    by_cases hkind : packet.type = PacketType.TYPE_Join
    · obtain ⟨client, hlist, _⟩ := dispatchReceived_join_frame hfind hkind h
      refine ⟨c, ?_, rfl, Or.inl rfl⟩
      rw [hlist, List.getElem?_append_left (List.getElem?_eq_some.mp hc).1]
      exact hc
    · rw [dispatchReceived_unknown w s ipAddress portNumber packet hkind hfind] at h
      simp only [Except.ok.injEq, Prod.mk.injEq] at h
      obtain ⟨_, rfl, _⟩ := h
      exact ⟨c, hc, rfl, Or.inl rfl⟩
  | some receivedClient =>
    have hid := (dispatchReceived_known_frame hfind h).1
    have htimers := dispatchReceived_known_timers hfind h
    have hj : j < s.m_clientList.length := (List.getElem?_eq_some.mp hc).1
    have hlen : s'.m_clientList.length = s.m_clientList.length := by
      have := congrArg List.length hid
      simpa using this
    have hc' : s'.m_clientList[j]? = some (s'.m_clientList[j]) :=
      List.getElem?_eq_getElem (hlen ▸ hj)
    refine ⟨_, hc', ?_, ?_⟩
    · have := congrArg (fun l => l[j]?) hid
      simpa [List.getElem?_map, hc, hc'] using this
    · have := congrArg (fun l => l[j]?) htimers
      simp only [List.getElem?_map, hc', Option.map_some', List.getElem?_set, List.length_map,
        hc] at this
      split at this
      · split at this
        · right
          simpa using this
        · simp at this
      · left
        simpa using this

theorem JustHeardFrom.after_dispatch {w w' : Platform} {s s' : GameServer}
    {ipAddress : String} {portNumber : Nat} {packet : MidtermPacket} {resample : Bool}
    {identity : Nat × String × Nat} {k : Nat}
    (hheard : JustHeardFrom identity k s.m_clientList)
    (h : dispatchReceived w s ipAddress portNumber packet = Except.ok (w', s', resample)) :
    JustHeardFrom identity k s'.m_clientList := by
  obtain ⟨c, hc, hident, hzero⟩ := hheard
  obtain ⟨c', hc', hident', htimer⟩ := dispatchReceived_positions h hc
  refine ⟨c', hc', hident'.trans hident, ?_⟩
  rcases htimer with htimer | htimer
  · rw [htimer, hzero]
  · exact htimer

theorem JustHeardFrom.after_network_loop {identity : Nat × String × Nat} {k : Nat}
    (fuel : Nat) :
    ∀ {w w' : Platform} {s s' : GameServer} {locals : Received} {bytes : Nat},
      JustHeardFrom identity k s.m_clientList →
      processNetworkLoop fuel w s locals bytes = Run.finished (w', s') →
      JustHeardFrom identity k s'.m_clientList := by
  induction fuel with
  | zero =>
    intro w w' s s' locals bytes _ h
    simp [processNetworkLoop] at h
  | succ fuel ih =>
    intro w w' s s' locals bytes hheard h
    simp only [processNetworkLoop] at h
    split at h
    · split at h
      · cases h
      · rename_i w2 s2 hstep
        exact ih (hheard.after_dispatch hstep) h
      · rename_i w2 s2 hstep
        exact ih (hheard.after_dispatch hstep) h
    · simp only [Run.finished.injEq, Prod.mk.injEq] at h
      obtain ⟨rfl, rfl⟩ := h
      exact hheard

theorem JustHeardFrom.after_broadcast {w w' : Platform} {s s' : GameServer}
    {identity : Nat × String × Nat} {k : Nat}
    (hheard : JustHeardFrom identity k s.m_clientList)
    (h : BroadcastGameStateToClients w s = Except.ok (w', s')) :
    JustHeardFrom identity k s'.m_clientList := by
  obtain ⟨c, hc, hident, hzero⟩ := hheard
  obtain ⟨log, _, _, hs', _⟩ := BroadcastGameStateToClients_eq h
  refine ⟨ClientInfo.numbered^[s.m_clientList.length] c, ?_, ?_, ?_⟩
  · rw [hs']
    simp [List.getElem?_map, hc]
  · rw [numbered_iterate_fields]
    exact hident
  · rw [numbered_iterate_fields]
    exact hzero

theorem JustHeardFrom.after_sweep {identity : Nat × String × Nat} {k : Nat}
    {clients : List ClientInfo} (hheard : JustHeardFrom identity k clients)
    (fuel : Nat) (deltaSeconds : Float32) (hvalue : deltaSeconds.IsValue)
    (hdelta : ¬ deltaSeconds > SECONDS_BEFORE_CLIENT_TIMES_OUT)
    (hsize : clients.length < 2 ^ 32) (hfuel : clients.length < fuel) :
    ∃ clients', removeTimedOutClients fuel deltaSeconds clients = some clients' ∧
      ∃ c' ∈ clients', c'.identity = identity ∧
        c'.secondsSinceLastReceivedPacket = deltaSeconds := by
  obtain ⟨c, hc, hident, hzero⟩ := hheard
  have h := timeoutLoop_from deltaSeconds clients fuel [] (by simpa using hsize) hfuel
  refine ⟨_, by simpa [removeTimedOutClients] using h, ?_⟩
  have hsum : c.secondsSinceLastReceivedPacket + deltaSeconds = deltaSeconds := by
    rw [hzero]
    exact Float32.zero_add_value hvalue
  refine ⟨{ c with secondsSinceLastReceivedPacket := c.secondsSinceLastReceivedPacket +
    deltaSeconds }, ?_, hident, hsum⟩
  rw [List.mem_filter]
  refine ⟨List.mem_map_of_mem _ ?_, ?_⟩
  · obtain ⟨hk, hck⟩ := List.getElem?_eq_some.mp hc
    exact hck ▸ List.getElem_mem hk
  · simpa [hsum] using hdelta

theorem dispatchReceived_known_ok {w : Platform} {s : GameServer} {ipAddress : String}
    {portNumber receivedClient : Nat} {packet : MidtermPacket}
    (hknown : FindClientByAddress s.m_clientList ipAddress portNumber = some receivedClient)
    (hack : packet.type = PacketType.TYPE_Acknowledgement →
      ∃ i, FindClientByID s.m_clientList packet.clientID = some i)
    (htouch : packet.type = PacketType.TYPE_Touch →
      SendsSucceed w ∧
      (∃ i, FindClientByID s.m_clientList packet.data.touch.instigatorID = some i) ∧
      ∃ j, FindClientByID s.m_clientList packet.data.touch.receiverID = some j) :
    ∃ w' s', dispatchReceived w s ipAddress portNumber packet = Except.ok (w', s', true) := by
  obtain ⟨c, hc, _, _⟩ := FindClientByAddress_get hknown
  have hk : receivedClient < s.m_clientList.length := (List.getElem?_eq_some.mp hc).1
  cases hkind : packet.type with
  | TYPE_Acknowledgement =>
    obtain ⟨i, hi⟩ := hack hkind
    obtain ⟨ci, hci, _⟩ := FindClientByID_get hi
    obtain ⟨y, hy⟩ : ∃ y, (s.m_clientList.set i
        { ci with
          unacknowledgedPackets :=
            eraseAcknowledged packet.data.acknowledged.packetNumber
              ci.unacknowledgedPackets })[receivedClient]? = some y :=
      ⟨_, List.getElem?_eq_getElem (by simpa using hk)⟩
    simp only [dispatchReceived, hknown, hkind, RemoveAcknowledgedPacketFromClientQueue, hi,
      hci, hy]
    exact ⟨_, _, rfl⟩
  | TYPE_Update =>
    simp only [dispatchReceived, hknown, hkind, hc, getElem?_set_same hc]
    exact ⟨_, _, rfl⟩
  | TYPE_Touch =>
    obtain ⟨hw, ⟨i, hi⟩, ⟨j, hj⟩⟩ := htouch hkind
    obtain ⟨w1, s1, hrun⟩ := HandleTouchAndResetGame_ok hw hi hj
    have hlen : s1.m_clientList.length = s.m_clientList.length := by
      have := congrArg List.length (HandleTouchAndResetGame_frame hrun).2.2.2.1
      simpa using this
    obtain ⟨y, hy⟩ : ∃ y, s1.m_clientList[receivedClient]? = some y :=
      ⟨_, List.getElem?_eq_getElem (hlen ▸ hk)⟩
    simp only [dispatchReceived, hknown, hkind, hrun, hy]
    exact ⟨_, _, rfl⟩
  | TYPE_Join =>
    simp only [dispatchReceived, hknown, hkind, hc]
    exact ⟨_, _, rfl⟩
  | TYPE_Reset =>
    simp only [dispatchReceived, hknown, hkind, hc]
    exact ⟨_, _, rfl⟩
  | TYPE_Unrecognized raw =>
    simp only [dispatchReceived, hknown, hkind, hc]
    exact ⟨_, _, rfl⟩

theorem forall₂_getElem? {α β : Type} {R : α → β → Prop} {l₁ : List α} {l₂ : List β}
    (h : List.Forall₂ R l₁ l₂) {j : Nat} {a : α} (ha : l₁[j]? = some a) :
    ∃ b, l₂[j]? = some b ∧ R a b := by
  induction h generalizing j with
  | nil => simp at ha
  | @cons a' b' l₁ l₂ hab _ ih =>
    cases j with
    | zero =>
      simp only [List.getElem?_cons_zero, Option.some.injEq] at ha
      exact ⟨b', by simp, ha ▸ hab⟩
    | succ j =>
      simp only [List.getElem?_cons_succ] at ha
      obtain ⟨b, hb, hr⟩ := ih ha
      exact ⟨b, by simpa using hb, hr⟩

theorem JustHeardFrom.of_dispatch {w w' : Platform} {s s' : GameServer} {ipAddress : String}
    {portNumber receivedClient : Nat} {packet : MidtermPacket} {resample : Bool}
    {c : ClientInfo}
    (hknown : FindClientByAddress s.m_clientList ipAddress portNumber = some receivedClient)
    (hc : s.m_clientList[receivedClient]? = some c)
    (h : dispatchReceived w s ipAddress portNumber packet = Except.ok (w', s', resample)) :
    JustHeardFrom c.identity receivedClient s'.m_clientList := by
  obtain ⟨c', hc', hident, _⟩ := dispatchReceived_positions h hc
  refine ⟨c', hc', hident, ?_⟩
  have htimers := congrArg (fun l => l[receivedClient]?) (dispatchReceived_known_timers hknown h)
  have hk : receivedClient < s.m_clientList.length := (List.getElem?_eq_some.mp hc).1
  simpa [List.getElem?_map, hc', List.getElem?_set, hk] using htimers

theorem ReceiveBuffer_nil {w : Platform} (locals : Received) (hpending : w.pending = []) :
    ReceiveBuffer w locals = (w, locals) := by
  simp only [ReceiveBuffer, hpending]

theorem ReceiveBuffer_cons {w : Platform} (locals : Received) {d : Datagram}
    {rest : List Datagram} (hpending : w.pending = d :: rest) :
    ReceiveBuffer w locals =
      ({ w with pending := rest }, ⟨d.ipAddress, d.portNumber, d.packet⟩) := by
  simp only [ReceiveBuffer, hpending]

theorem processNetworkLoop_step {fuel : Nat} {w w' : Platform} {s s' : GameServer}
    {locals : Received} {bytes : Nat}
    (h : processNetworkLoop (fuel + 1) w s locals bytes = Run.finished (w', s')) :
    (bytes = 0 ∧ w' = w ∧ s' = s) ∨
    (0 < bytes ∧ ∃ w2 s2 resample,
      dispatchReceived (ReceiveBuffer w locals).1 s
          (ReceiveBuffer w locals).2.receivedIPAddress (ReceiveBuffer w locals).2.receivedPort
          (ReceiveBuffer w locals).2.receivedPacket = Except.ok (w2, s2, resample) ∧
      processNetworkLoop fuel w2 s2 (ReceiveBuffer w locals).2
          (if resample then GetNumberOfBytesInNetworkQueue w2 else bytes) =
        Run.finished (w', s')) := by
  simp only [processNetworkLoop] at h
  split at h
  · rename_i hbytes
    right
    refine ⟨hbytes, ?_⟩
    split at h
    · cases h
    · rename_i w2 s2 hstep
      exact ⟨w2, s2, false, hstep, h⟩
    · rename_i w2 s2 hstep
      exact ⟨w2, s2, true, hstep, h⟩
  · rename_i hbytes
    simp only [Run.finished.injEq, Prod.mk.injEq] at h
    exact Or.inl ⟨by omega, h.1.symm, h.2.symm⟩

theorem FindClientByAddress_of_identities {clients clients' : List ClientInfo}
    (h : clients'.map ClientInfo.identity = clients.map ClientInfo.identity)
    (ipAddress : String) (portNumber : Nat) :
    FindClientByAddress clients' ipAddress portNumber =
      FindClientByAddress clients ipAddress portNumber := by
  induction clients generalizing clients' with
  | nil =>
    rw [List.map_nil, List.map_eq_nil_iff] at h
    rw [h]
  | cons c rest ih =>
    obtain ⟨c', rest', rfl, hc', hrest'⟩ := List.map_eq_cons_iff.mp h
    have hip : c'.ipAddress = c.ipAddress := congrArg (fun t => t.2.1) hc'
    have hport : c'.portNumber = c.portNumber := congrArg (fun t => t.2.2) hc'
    simp only [FindClientByAddress, hip, hport, ih hrest']

theorem FindClientByAddress_append {clients : List ClientInfo} {ipAddress : String}
    {portNumber k : Nat} (extra : List ClientInfo)
    (h : FindClientByAddress clients ipAddress portNumber = some k) :
    FindClientByAddress (clients ++ extra) ipAddress portNumber = some k := by
  induction clients generalizing k with
  | nil => simp [FindClientByAddress] at h
  | cons c rest ih =>
    by_cases hc : c.ipAddress = ipAddress ∧ c.portNumber = portNumber
    · simp only [FindClientByAddress, hc, and_self, if_true, List.cons_append] at h ⊢
      exact h
    · simp only [FindClientByAddress, hc, if_false, List.cons_append,
        Option.map_eq_some'] at h ⊢
      obtain ⟨j, hj, rfl⟩ := h
      exact ⟨j, ih hj, rfl⟩

theorem dispatchReceived_keeps_found {w w' : Platform} {s s' : GameServer}
    {senderAddress : String} {senderPort : Nat} {packet : MidtermPacket} {resample : Bool}
    (h : dispatchReceived w s senderAddress senderPort packet = Except.ok (w', s', resample))
    {ipAddress : String} {portNumber k : Nat}
    (hfound : FindClientByAddress s.m_clientList ipAddress portNumber = some k) :
    FindClientByAddress s'.m_clientList ipAddress portNumber = some k := by
  rcases (dispatchReceived_cases h).2 with ⟨hsame, _⟩ | ⟨client, hlist, _⟩
  · rw [FindClientByAddress_of_identities hsame]
    exact hfound
  · rw [hlist]
    exact FindClientByAddress_append _ hfound

/-- One dispatch lengthens the client list by at most one session, and by one only for a
Join from an address that had no session; after the dispatch of a Join its sender has one. -/
theorem dispatchReceived_length {w w' : Platform} {s s' : GameServer} {ipAddress : String}
    {portNumber : Nat} {packet : MidtermPacket} {resample : Bool}
    (h : dispatchReceived w s ipAddress portNumber packet = Except.ok (w', s', resample)) :
    w'.pending = w.pending ∧
    (s'.m_clientList.length = s.m_clientList.length ∨
      (s'.m_clientList.length = s.m_clientList.length + 1 ∧
        FindClientByAddress s.m_clientList ipAddress portNumber = none ∧
        packet.type = PacketType.TYPE_Join)) ∧
    (packet.type = PacketType.TYPE_Join →
      FindClientByAddress s'.m_clientList ipAddress portNumber ≠ none) := by
  refine ⟨(dispatchReceived_cases h).1.2, ?_, ?_⟩
  · rcases (dispatchReceived_cases h).2 with ⟨hsame, _⟩ | ⟨client, hlist, _, _, hnone, hkind⟩
    · left
      have := congrArg List.length hsame
      simpa using this
    · right
      exact ⟨by rw [hlist]; simp, hnone, hkind⟩
  · intro hkind
    cases hfind : FindClientByAddress s.m_clientList ipAddress portNumber with
    | some k =>
      rw [dispatchReceived_keeps_found h hfind]
      simp
    | none =>
      obtain ⟨client, hlist, hident, _⟩ := dispatchReceived_join_frame hfind hkind h
      rw [hlist, FindClientByAddress_append_singleton (FindClientByAddress_none.mp hfind)
        ⟨congrArg (fun t => t.2.1) hident, congrArg (fun t => t.2.2) hident⟩]
      simp

/-- The network phase creates at most one session per pending datagram. -/
theorem processNetworkLoop_length (fuel : Nat) :
    ∀ {w w' : Platform} {s s' : GameServer} {locals : Received} {bytes : Nat},
      processNetworkLoop fuel w s locals bytes = Run.finished (w', s') →
      (locals.receivedPacket.type = PacketType.TYPE_Join →
        FindClientByAddress s.m_clientList locals.receivedIPAddress locals.receivedPort ≠
          none) →
      s'.m_clientList.length ≤ s.m_clientList.length + w.pending.length := by
  induction fuel with
  | zero =>
    intro w w' s s' locals bytes h
    simp [processNetworkLoop] at h
  | succ fuel ih =>
    intro w w' s s' locals bytes h hlocals
    rcases processNetworkLoop_step h with ⟨_, _, rfl⟩ | ⟨_, w2, s2, resample, hstep, hrest⟩
    · omega
    · cases hpending : w.pending with
      | nil =>
        rw [ReceiveBuffer_nil locals hpending] at hstep hrest
        obtain ⟨hpend2, hlength, hknown2⟩ := dispatchReceived_length hstep
        have hih := ih hrest hknown2
        rw [hpend2, hpending] at hih
        rcases hlength with hsame | ⟨_, hnone, hkind⟩
        · simpa [hsame] using hih
        · exact absurd hnone (hlocals hkind)
      | cons d rest =>
        rw [ReceiveBuffer_cons locals hpending] at hstep hrest
        obtain ⟨hpend2, hlength, hknown2⟩ := dispatchReceived_length hstep
        have hih := ih hrest hknown2
        rw [hpend2] at hih
        simp only [List.length_cons] at hih ⊢
        rcases hlength with hsame | ⟨hmore, _, _⟩ <;> omega

/-- Every datagram that is pending when the network phase starts is dispatched by it: the
session found by the address of its sender has timer 0 when the phase ends. -/
theorem processNetworkLoop_heard (fuel : Nat) :
    ∀ {w w' : Platform} {s s' : GameServer} {locals : Received} {bytes : Nat},
      processNetworkLoop fuel w s locals bytes = Run.finished (w', s') →
      (bytes = 0 → w.pending = []) →
      ∀ d ∈ w.pending, ∀ (k : Nat) (c : ClientInfo),
        FindClientByAddress s.m_clientList d.ipAddress d.portNumber = some k →
        s.m_clientList[k]? = some c →
        JustHeardFrom c.identity k s'.m_clientList := by
  induction fuel with
  | zero =>
    intro w w' s s' locals bytes h
    simp [processNetworkLoop] at h
  | succ fuel ih =>
    intro w w' s s' locals bytes h hbytes d hd k c hknown hc
    rcases processNetworkLoop_step h with ⟨hzero, _, _⟩ | ⟨_, w2, s2, resample, hstep, hrest⟩
    · rw [hbytes hzero] at hd
      simp at hd
    · cases hpending : w.pending with
      | nil =>
        rw [hpending] at hd
        simp at hd
      | cons first rest =>
        rw [ReceiveBuffer_cons locals hpending] at hstep hrest
        have hpend2 : w2.pending = rest := (dispatchReceived_cases hstep).1.2
        rw [hpending] at hd
        rcases List.mem_cons.mp hd with hfirst | hlater
        · subst hfirst
          exact (JustHeardFrom.of_dispatch hknown hc hstep).after_network_loop fuel hrest
        · have hknown2 := dispatchReceived_keeps_found hstep hknown
          obtain ⟨c2, hc2, hident2, _⟩ := dispatchReceived_positions hstep hc
          have hbytes2 : (if resample then GetNumberOfBytesInNetworkQueue w2 else bytes) = 0 →
              w2.pending = [] := by
            cases resample with
            | false =>
              intro hzero
              simp only [Bool.false_eq_true, if_false] at hzero
              omega
            | true =>
              intro hzero
              simp only [if_true, GetNumberOfBytesInNetworkQueue] at hzero
              exact List.length_eq_zero.mp hzero
          have hheard := ih hrest hbytes2 d (hpend2 ▸ hlater) k c2 hknown2 hc2
          rw [hident2] at hheard
          exact hheard

theorem timeoutLoop_succ_of_some (deltaSeconds : Float32) (fuel : Nat) :
    ∀ {i : Nat} {clients result : List ClientInfo},
      timeoutLoop deltaSeconds fuel i clients = some result →
      timeoutLoop deltaSeconds (fuel + 1) i clients = some result := by
  induction fuel with
  | zero =>
    intro i clients result h
    simp [timeoutLoop] at h
  | succ fuel ih =>
    intro i clients result h
    rw [timeoutLoop] at h ⊢
    cases hget : clients[i]? with
    | none => simpa only [hget] using h
    | some client =>
      simp only [hget] at h ⊢
      split at h
      · rename_i hout
        rw [if_pos hout]
        exact ih h
      · rename_i hout
        rw [if_neg hout]
        exact ih h

/-- Whenever the timeout sweep returns, on a list shorter than `2^32`, it returns the list
with every timer advanced and restricted to the sessions whose advanced timer does not
exceed the threshold. -/
theorem removeTimedOutClients_eq {fuel : Nat} {deltaSeconds : Float32}
    {clients result : List ClientInfo} (hsize : clients.length < 2 ^ 32)
    (h : removeTimedOutClients fuel deltaSeconds clients = some result) :
    result =
      (clients.map (fun c =>
        { c with
          secondsSinceLastReceivedPacket :=
            c.secondsSinceLastReceivedPacket + deltaSeconds })).filter
        (fun c => decide
          (¬ c.secondsSinceLastReceivedPacket > SECONDS_BEFORE_CLIENT_TIMES_OUT)) := by
  have hmore : ∀ m, timeoutLoop deltaSeconds (fuel + m) 0 clients = some result := by
    intro m
    induction m with
    | zero => exact h
    | succ m ihm => exact timeoutLoop_succ_of_some deltaSeconds _ ihm
  have hfrom := timeoutLoop_from deltaSeconds clients (fuel + (clients.length + 1)) []
    (by simpa using hsize) (by omega)
  simp only [List.nil_append, List.length_nil] at hfrom
  rw [hmore] at hfrom
  exact Option.some.inj hfrom

theorem resendUnacknowledgedPackets_fields (clients : List ClientInfo) :
    ∀ {w w' : Platform} {clients' : List ClientInfo},
      resendUnacknowledgedPackets w clients = Except.ok (w', clients') →
      List.Forall₂ (fun x y => y = { x with unacknowledgedPackets := y.unacknowledgedPackets })
        clients clients' := by
  induction clients with
  | nil =>
    intro w w' clients' h
    simp only [resendUnacknowledgedPackets, Except.ok.injEq, Prod.mk.injEq] at h
    obtain ⟨rfl, rfl⟩ := h
    exact List.Forall₂.nil
  | cons c rest ih =>
    intro w w' clients' h
    simp only [resendUnacknowledgedPackets] at h
    split at h
    · cases h
    · rename_i w1 c1 hone
      split at h
      · cases h
      · rename_i w2 rest1 hrest
        simp only [Except.ok.injEq, Prod.mk.injEq] at h
        obtain ⟨rfl, rfl⟩ := h
        exact List.Forall₂.cons (resendEachPacket_frame _ hone).2.2 (ih hrest)

/-- A tick keeps the session it has heard from. A datagram is pending from the address of
a live session when `Update` is called with a `deltaSeconds` that does not exceed the
threshold; when the call returns, the session is in the client list, with timer
`deltaSeconds`. -/
theorem Update_keeps_heard {fuel : Nat} {w w' : Platform} {s s' : GameServer}
    {deltaSeconds : Float32} (h : Update fuel w s deltaSeconds = Run.finished (w', s'))
    (hsize : s.m_clientList.length + w.pending.length < 2 ^ 32)
    (hvalue : deltaSeconds.IsValue)
    (hdelta : ¬ deltaSeconds > SECONDS_BEFORE_CLIENT_TIMES_OUT)
    {d : Datagram} (hd : d ∈ w.pending) {k : Nat} {c : ClientInfo}
    (hknown : FindClientByAddress s.m_clientList d.ipAddress d.portNumber = some k)
    (hc : s.m_clientList[k]? = some c) :
    ∃ c' ∈ s'.m_clientList, c'.identity = c.identity ∧
      c'.secondsSinceLastReceivedPacket = deltaSeconds := by
  simp only [Update, ProcessNetworkQueue] at h
  split at h
  · cases h
  · cases h
  · rename_i w1 s1 hnetwork
    have hheard1 := processNetworkLoop_heard fuel hnetwork
      (fun hzero => List.length_eq_zero.mp hzero) d hd k c hknown hc
    have hlength1 := processNetworkLoop_length fuel hnetwork
      (fun hjoin => by simp [Received.unset] at hjoin)
    split at h
    · cases h
    · rename_i w2 s2 hbroadcast
      have hheard2 := hheard1.after_broadcast hbroadcast
      have hlength2 : s2.m_clientList.length = s1.m_clientList.length := by
        have := congrArg List.length (BroadcastGameStateToClients_frame hbroadcast).2.2.2.2
        simpa using this
      split at h
      · cases h
      · rename_i clients3 hsweep
        split at h
        · cases h
        · rename_i w3 clients4 hresend
          simp only [Run.finished.injEq, Prod.mk.injEq] at h
          obtain ⟨_, rfl⟩ := h
          have hresult := removeTimedOutClients_eq (by omega) hsweep
          obtain ⟨c2, hc2, hident2, hzero2⟩ := hheard2
          have hsum : c2.secondsSinceLastReceivedPacket + deltaSeconds = deltaSeconds := by
            rw [hzero2]
            exact Float32.zero_add_value hvalue
          have hkept : { c2 with
              secondsSinceLastReceivedPacket :=
                c2.secondsSinceLastReceivedPacket + deltaSeconds } ∈ clients3 := by
            rw [hresult, List.mem_filter]
            refine ⟨List.mem_map_of_mem _ ?_, ?_⟩
            · obtain ⟨hk, hck⟩ := List.getElem?_eq_some.mp hc2
              exact hck ▸ List.getElem_mem hk
            · simpa [hsum] using hdelta
          obtain ⟨j, hj⟩ := List.mem_iff_getElem?.mp hkept
          obtain ⟨c4, hc4, hfields⟩ :=
            forall₂_getElem? (resendUnacknowledgedPackets_fields clients3 hresend) hj
          refine ⟨c4, List.mem_iff_getElem?.mpr ⟨j, hc4⟩, ?_, ?_⟩
          · rw [hfields]
            exact hident2
          · rw [hfields]
            exact hsum

/-- C13: a datagram of any kind from the address of a live session. The dispatch completes
for every kind but an Acknowledgement whose session id names no live session and a Touch
whose ids name no live session or whose Resets cannot be sent. Whenever the dispatch
completes, the session found by the sender's address has timer 0. Hence the tick: when the
datagram is pending at a call of `Update` with a `deltaSeconds` that does not exceed the
5-second threshold, and the call returns, the session is still in the client list after the
timeout sweep of that call, and its timer is `deltaSeconds`. The client list and the queue
together hold fewer than `2^32` entries, and `deltaSeconds` is a value of the type
`float`. -/
theorem known_sender_timer_is_reset (w : Platform) (s : GameServer) (ipAddress : String)
    (portNumber receivedClient : Nat) (packet : MidtermPacket)
    (hknown : FindClientByAddress s.m_clientList ipAddress portNumber = some receivedClient) :
    ∃ c, s.m_clientList[receivedClient]? = some c ∧
      c.ipAddress = ipAddress ∧ c.portNumber = portNumber ∧
      ((packet.type = PacketType.TYPE_Acknowledgement →
          ∃ i, FindClientByID s.m_clientList packet.clientID = some i) →
        (packet.type = PacketType.TYPE_Touch →
          SendsSucceed w ∧
          (∃ i, FindClientByID s.m_clientList packet.data.touch.instigatorID = some i) ∧
          ∃ j, FindClientByID s.m_clientList packet.data.touch.receiverID = some j) →
        ∃ w' s', dispatchReceived w s ipAddress portNumber packet =
          Except.ok (w', s', true)) ∧
      (∀ w' s' resample,
        dispatchReceived w s ipAddress portNumber packet = Except.ok (w', s', resample) →
        JustHeardFrom c.identity receivedClient s'.m_clientList) ∧
      ∀ (fuel : Nat) (w0 w' : Platform) (s' : GameServer) (deltaSeconds : Float32),
        (⟨packet, ipAddress, portNumber⟩ : Datagram) ∈ w0.pending →
        Update fuel w0 s deltaSeconds = Run.finished (w', s') →
        s.m_clientList.length + w0.pending.length < 2 ^ 32 →
        deltaSeconds.IsValue → ¬ deltaSeconds > SECONDS_BEFORE_CLIENT_TIMES_OUT →
        ∃ c' ∈ s'.m_clientList, c'.identity = c.identity ∧
          c'.secondsSinceLastReceivedPacket = deltaSeconds := by
  obtain ⟨c, hc, hip, hport⟩ := FindClientByAddress_get hknown
  refine ⟨c, hc, hip, hport, dispatchReceived_known_ok hknown, ?_, ?_⟩
  · intro w' s' resample h
    exact JustHeardFrom.of_dispatch hknown hc h
  · intro fuel w0 w' s' deltaSeconds hd h hsize hvalue hdelta
    exact Update_keeps_heard h hsize hvalue hdelta hd hknown hc

theorem afterMovedTick_finished :
    Update 4 (arrive quietPlatform movedTick.arrivals) midGameServer movedTick.deltaSeconds =
      Run.finished afterMovedTick := by
  have hsome : ((runTicks 4 [movedTick] quietPlatform midGameServer).result?).isSome =
      true := by decide!
  cases hupdate : Update 4 (arrive quietPlatform movedTick.arrivals) midGameServer
      movedTick.deltaSeconds with
  | finished r =>
    obtain ⟨w1, s1⟩ := r
    simp [afterMovedTick, runTicks, hupdate, Run.result?]
  | halted cause => simp [runTicks, hupdate, Run.result?] at hsome
  | outOfFuel => simp [runTicks, hupdate, Run.result?] at hsome

theorem known_sender_timer_is_reset_witness :
    FindClientByAddress midGameServer.m_clientList "10.0.0.1" 8 = some 1 ∧
    midGameServer.m_clientList.map
        (fun c => (c.identity, c.secondsSinceLastReceivedPacket)) =
      [((1, "10.0.0.1", 7), 4), ((2, "10.0.0.1", 8), 3)] ∧
    (∃ w' s', dispatchReceived quietPlatform midGameServer "10.0.0.1" 8 movedTo.packet =
        Except.ok (w', s', true) ∧
      JustHeardFrom (2, "10.0.0.1", 8) 1 s'.m_clientList) ∧
    Update 4 (arrive quietPlatform [movedTo]) midGameServer 2 = Run.finished afterMovedTick ∧
    (∃ c' ∈ afterMovedTick.2.m_clientList, c'.identity = (2, "10.0.0.1", 8) ∧
      c'.secondsSinceLastReceivedPacket = 2) ∧
    afterMovedTick.2.m_clientList.map
        (fun c => (c.identity, c.secondsSinceLastReceivedPacket)) =
      [((2, "10.0.0.1", 8), 2)] := by
  obtain ⟨c, hc, -, -, hcompletes, hzero, htick⟩ :=
    known_sender_timer_is_reset quietPlatform midGameServer "10.0.0.1" 8 1 movedTo.packet
      (by decide!)
  have hsecond : midGameServer.m_clientList[1]? = some c := hc
  simp only [midGameServer, List.getElem?_cons_succ, List.getElem?_cons_zero,
    Option.some.injEq] at hsecond
  have hident : c.identity = (2, "10.0.0.1", 8) := by
    rw [← hsecond]
    rfl
  obtain ⟨w', s', h⟩ := hcompletes (fun hkind => by cases hkind) (fun hkind => by cases hkind)
  refine ⟨by decide!, by decide!, ⟨w', s', h, hident ▸ hzero w' s' true h⟩,
    afterMovedTick_finished, ?_, by decide!⟩
  have hkept := htick 4 (arrive quietPlatform [movedTo]) afterMovedTick.1 afterMovedTick.2 2
    (List.mem_singleton.mpr rfl) afterMovedTick_finished (by decide!) (by decide!)
    (by decide!)
  rw [hident] at hkept
  exact hkept

/-! ## The relay of transforms -/

/-- C19: relay round trip. An Update datagram from the address of a live session is
dispatched, and the session `S` found by the address then has the id it had and the
transform of the payload. Whenever a later broadcast runs in a state where that session is
live, unchanged, at some position `k1`, every packet that the broadcast builds for it, one
per receiving session, is an Update with the id of `S` and with exactly the position,
velocity and orientation of the payload. The broadcast completes when its sends succeed,
and it changes nothing of any session but the counter: transform, timer and in-flight set
are as before. -/
theorem relayed_transform_round_trip (w : Platform) (s : GameServer) (ipAddress : String)
    (portNumber receivedClient : Nat) (packet : MidtermPacket)
    (hknown : FindClientByAddress s.m_clientList ipAddress portNumber = some receivedClient)
    (hkind : packet.type = PacketType.TYPE_Update) :
    ∃ c S, s.m_clientList[receivedClient]? = some c ∧
      dispatchReceived w s ipAddress portNumber packet =
        Except.ok (w, { s with m_clientList := s.m_clientList.set receivedClient S }, true) ∧
      S.identity = c.identity ∧
      (updatePacketFor S).type = PacketType.TYPE_Update ∧
      (updatePacketFor S).clientID = c.id ∧
      (updatePacketFor S).data.updated = packet.data.updated ∧
      (∀ (w1 : Platform) (s1 : GameServer), SendsSucceed w1 →
        ∃ w2 s2, BroadcastGameStateToClients w1 s1 = Except.ok (w2, s2)) ∧
      (∀ (w1 w2 : Platform) (s1 s2 : GameServer),
        BroadcastGameStateToClients w1 s1 = Except.ok (w2, s2) →
        s2 = { s1 with
          m_clientList := s1.m_clientList.map (fun session =>
            { session with
              currentPacketNumber :=
                (session.currentPacketNumber + s1.m_clientList.length) % 2 ^ 32 }) }) ∧
      ∀ (w1 w2 : Platform) (s1 s2 : GameServer) (k1 : Nat),
        s1.m_clientList[k1]? = some S →
        BroadcastGameStateToClients w1 s1 = Except.ok (w2, s2) →
        ∃ log : List Datagram, w2.sent = w1.sent ++ log ∧
          ∀ (j : Nat) (receiver : ClientInfo), s1.m_clientList[j]? = some receiver →
            ∃ d, log[k1 * s1.m_clientList.length + j]? = some d ∧
              d.ipAddress = receiver.ipAddress ∧ d.portNumber = receiver.portNumber ∧
              d.packet.type = PacketType.TYPE_Update ∧ d.packet.clientID = c.id ∧
              d.packet.data.updated = packet.data.updated := by
  obtain ⟨c, hc, _, _⟩ := FindClientByAddress_get hknown
  refine ⟨c,
    { c with
      xPosition := packet.data.updated.xPosition
      yPosition := packet.data.updated.yPosition
      xVelocity := packet.data.updated.xVelocity
      yVelocity := packet.data.updated.yVelocity
      orientationDegrees := packet.data.updated.orientationDegrees
      secondsSinceLastReceivedPacket := 0 }, hc, ?_, rfl, rfl, rfl, rfl, ?_, ?_, ?_⟩
  · simp only [dispatchReceived, hknown, hkind, hc, getElem?_set_same hc,
      ReceiveUpdateFromClient, List.set_set]
  · intro w1 s1 hw1
    exact BroadcastGameStateToClients_succeeds hw1 s1
  · intro w1 w2 s1 s2 hrun
    obtain ⟨log, _, _, hs2, _⟩ := BroadcastGameStateToClients_eq hrun
    rw [hs2]
    congr 1
    apply List.map_congr_left
    intro session hsession
    cases hn : s1.m_clientList.length with
    | zero =>
      rw [List.length_eq_zero.mp hn] at hsession
      simp at hsession
    | succ n => rw [numbered_iterate_succ]
  · intro w1 w2 s1 s2 k1 hS hrun
    obtain ⟨log, hsent, _, _, hget⟩ := BroadcastGameStateToClients_eq hrun
    refine ⟨log, hsent, ?_⟩
    intro j receiver hreceiver
    have hk1 : k1 < s1.m_clientList.length := (List.getElem?_eq_some.mp hS).1
    exact ⟨_, hget k1 j _ receiver hk1 hS hreceiver, rfl, rfl, rfl, rfl, rfl⟩

theorem midGameServer_moved :
    dispatchReceived quietPlatform midGameServer "10.0.0.1" 8 movedTo.packet =
      Except.ok (quietPlatform, midGameServerMoved, true) := by
  with_unfolding_all rfl

theorem relayed_transform_round_trip_witness :
    FindClientByAddress midGameServer.m_clientList "10.0.0.1" 8 = some 1 ∧
    movedTo.packet.type = PacketType.TYPE_Update ∧
    dispatchReceived quietPlatform midGameServer "10.0.0.1" 8 movedTo.packet =
      Except.ok (quietPlatform, midGameServerMoved, true) ∧
    ∃ w2 s2 log,
      BroadcastGameStateToClients quietPlatform midGameServerMoved = Except.ok (w2, s2) ∧
      w2.sent = quietPlatform.sent ++ log ∧
      (∃ d, log[2]? = some d ∧ d.portNumber = 7 ∧
        d.packet.type = PacketType.TYPE_Update ∧ d.packet.clientID = 2 ∧
        d.packet.data.updated = ⟨10, 20, 3, 4, 90⟩) ∧
      (∃ d, log[3]? = some d ∧ d.portNumber = 8 ∧
        d.packet.type = PacketType.TYPE_Update ∧ d.packet.clientID = 2 ∧
        d.packet.data.updated = ⟨10, 20, 3, 4, 90⟩) ∧
      s2.m_clientList.map (fun c =>
          (c.xPosition, c.yPosition, c.xVelocity, c.yVelocity, c.orientationDegrees,
            c.secondsSinceLastReceivedPacket, c.unacknowledgedPackets)) =
        midGameServerMoved.m_clientList.map (fun c =>
          (c.xPosition, c.yPosition, c.xVelocity, c.yVelocity, c.orientationDegrees,
            c.secondsSinceLastReceivedPacket, c.unacknowledgedPackets)) := by
  obtain ⟨c, S, hc, hrun, -, -, hid, hdata, hcompletes, hframe, hrelay⟩ :=
    relayed_transform_round_trip quietPlatform midGameServer "10.0.0.1" 8 1 movedTo.packet
      (by decide!) rfl
  have hsecond : midGameServer.m_clientList[1]? = some c := hc
  simp only [midGameServer, List.getElem?_cons_succ, List.getElem?_cons_zero,
    Option.some.injEq] at hsecond
  have hmoved : ({ midGameServer with m_clientList := midGameServer.m_clientList.set 1 S } :
      GameServer) = midGameServerMoved := by
    have h := hrun.symm.trans midGameServer_moved
    simp only [Except.ok.injEq, Prod.mk.injEq] at h
    exact h.2.1
  have hS : midGameServerMoved.m_clientList[1]? = some S := by
    rw [← hmoved]
    rfl
  obtain ⟨w2, s2, hb⟩ := hcompletes quietPlatform midGameServerMoved (fun _ => le_refl _)
  obtain ⟨log, hsent, hget⟩ := hrelay quietPlatform w2 midGameServerMoved s2 1 hS hb
  have hidc : c.id = 2 := by
    rw [← hsecond]
    rfl
  refine ⟨by decide!, rfl, midGameServer_moved, w2, s2, log, hb, hsent, ?_, ?_, ?_⟩
  · obtain ⟨d, hd, -, hport, htype, hclient, hupdated⟩ := hget 0 _ rfl
    exact ⟨d, hd, hport, htype, hclient.trans hidc, hupdated⟩
  · obtain ⟨d, hd, -, hport, htype, hclient, hupdated⟩ := hget 1 _ rfl
    exact ⟨d, hd, hport, htype, hclient.trans hidc, hupdated⟩
  · rw [hframe quietPlatform w2 midGameServerMoved s2 hb]
    rfl

/-! ## Two Joins and a Touch -/

theorem set_timer_forall₂ {clients : List ClientInfo} {k : Nat} {c : ClientInfo}
    (hc : clients[k]? = some c) :
    List.Forall₂ (fun x y => y = { x with
        secondsSinceLastReceivedPacket := y.secondsSinceLastReceivedPacket })
      clients (clients.set k { c with secondsSinceLastReceivedPacket := 0 }) := by
  induction clients generalizing k with
  | nil => simp
  | cons x rest ih =>
    cases k with
    | zero =>
      simp only [List.getElem?_cons_zero, Option.some.injEq] at hc
      subst hc
      exact List.Forall₂.cons rfl (List.forall₂_same.mpr (fun _ _ => rfl))
    | succ k =>
      simp only [List.getElem?_cons_succ] at hc
      exact List.Forall₂.cons rfl (ih hc)

/-- C17: the scenario on the constructed server, sends succeeding. A Join from address `A`
creates the session with id 1, which is "it" and spawns with `y = 0`; a Join from a different
address `B` creates the session with id 2 and leaves the "it" id at 1. A Touch packet from
either address, with instigator 2 and receiver 1, is dispatched: the "it" id is then 2, the
sessions are still those with ids 1 and 2, each has in its in-flight set a Reset packet,
which is guaranteed, that carries the "it" id 2 and was not there before, and session 2 has
`y = 0`. -/
theorem two_joins_then_touch (w : Platform) (hw : SendsSucceed w)
    (ipA : String) (portA : Nat) (ipB : String) (portB : Nat)
    (hdistinct : (ipA, portA) ≠ (ipB, portB)) (joinA joinB touch : MidtermPacket)
    (hjoinA : joinA.type = PacketType.TYPE_Join) (hjoinB : joinB.type = PacketType.TYPE_Join)
    (htouch : touch.type = PacketType.TYPE_Touch)
    (hinstigator : touch.data.touch.instigatorID = 2)
    (hreceiver : touch.data.touch.receiverID = 1)
    (sender : String) (senderPort : Nat)
    (hsender : (sender, senderPort) = (ipA, portA) ∨ (sender, senderPort) = (ipB, portB)) :
    ∃ w1 w2 w3 a b a' b',
      dispatchReceived w GameServer.fresh ipA portA joinA =
        Except.ok (w1, ⟨2, [a], 1⟩, false) ∧
      a.identity = (1, ipA, portA) ∧ a.yPosition = 0 ∧
      dispatchReceived w1 ⟨2, [a], 1⟩ ipB portB joinB =
        Except.ok (w2, ⟨3, [a, b], 1⟩, false) ∧
      b.identity = (2, ipB, portB) ∧
      dispatchReceived w2 ⟨3, [a, b], 1⟩ sender senderPort touch =
        Except.ok (w3, ⟨3, [a', b'], 2⟩, true) ∧
      a'.identity = (1, ipA, portA) ∧ b'.identity = (2, ipB, portB) ∧ b'.yPosition = 0 ∧
      (∃ p ∈ a'.unacknowledgedPackets, p ∉ a.unacknowledgedPackets ∧
        p.type = PacketType.TYPE_Reset ∧ p.IsGuaranteed = true ∧
        p.data.reset.itPlayerID = 2) ∧
      (∃ p ∈ b'.unacknowledgedPackets, p ∉ b.unacknowledgedPackets ∧
        p.type = PacketType.TYPE_Reset ∧ p.IsGuaranteed = true ∧
        p.data.reset.itPlayerID = 2) := by
  -- the Join from `A`
  obtain ⟨w1, a, r1, hrun1, _, hres1, _, _, _, hnum1, _, hident1, hcounter1, hset1, _,
    hspawn1⟩ := @dispatchReceived_join_sends w hw GameServer.fresh ipA portA joinA rfl hjoinA
  have hs1 : ({ m_nextClientID := (GameServer.fresh.m_nextClientID + 1) % 2 ^ 32
                m_clientList := GameServer.fresh.m_clientList ++ [a]
                m_itPlayerID := if GameServer.fresh.m_itPlayerID = 0
                  then GameServer.fresh.m_nextClientID % 2 ^ 8
                  else GameServer.fresh.m_itPlayerID } : GameServer) = ⟨2, [a], 1⟩ := by
    simp [GameServer.fresh]
  rw [hs1] at hrun1
  have hident1' : a.identity = (1, ipA, portA) := by simpa [GameServer.fresh] using hident1
  have haid : a.id = 1 := congrArg Prod.fst hident1'
  have hay : a.yPosition = 0 := by
    have h := hspawn1.2.2.2
    simp only [GameServer.fresh] at h
    exact h haid
  have hw1 : SendsSucceed w1 := SendsSucceed_of_sendResults hw hres1
  -- the Join from `B`
  have hunknown2 : FindClientByAddress (⟨2, [a], 1⟩ : GameServer).m_clientList ipB portB =
      none := by
    rw [FindClientByAddress_none]
    intro c hc hsame
    simp only [List.mem_singleton] at hc
    subst hc
    apply hdistinct
    have h2 : c.ipAddress = ipA := congrArg (fun t => t.2.1) hident1'
    have h3 : c.portNumber = portA := congrArg (fun t => t.2.2) hident1'
    rw [← h2, ← h3, hsame.1, hsame.2]
  obtain ⟨w2, b, r2, hrun2, _, hres2, _, _, _, hnum2, _, hident2, hcounter2, hset2, _, _⟩ :=
    dispatchReceived_join_sends hw1 hunknown2 hjoinB
  have hs2 : ({ m_nextClientID := ((⟨2, [a], 1⟩ : GameServer).m_nextClientID + 1) % 2 ^ 32
                m_clientList := (⟨2, [a], 1⟩ : GameServer).m_clientList ++ [b]
                m_itPlayerID := if (⟨2, [a], 1⟩ : GameServer).m_itPlayerID = 0
                  then (⟨2, [a], 1⟩ : GameServer).m_nextClientID % 2 ^ 8
                  else (⟨2, [a], 1⟩ : GameServer).m_itPlayerID } : GameServer) =
      ⟨3, [a, b], 1⟩ := by
    simp
  rw [hs2] at hrun2
  have hident2' : b.identity = (2, ipB, portB) := by simpa using hident2
  have hbid : b.id = 2 := congrArg Prod.fst hident2'
  have hw2 : SendsSucceed w2 := SendsSucceed_of_sendResults hw1 hres2
  -- the Touch
  have hfind2 : FindClientByID [a, b] 2 = some 1 := by
    simp [FindClientByID, haid, hbid]
  have hfind1 : FindClientByID [a, b] 1 = some 0 := by
    simp [FindClientByID, haid]
  obtain ⟨k, hknown⟩ : ∃ k, FindClientByAddress (⟨3, [a, b], 1⟩ : GameServer).m_clientList
      sender senderPort = some k := by
    cases hfind : FindClientByAddress (⟨3, [a, b], 1⟩ : GameServer).m_clientList
        sender senderPort with
    | some k => exact ⟨k, rfl⟩
    | none =>
      exfalso
      rw [FindClientByAddress_none] at hfind
      rcases hsender with h | h
      · simp only [Prod.mk.injEq] at h
        exact hfind a (by simp)
          ⟨(congrArg (fun t => t.2.1) hident1').trans h.1.symm,
            (congrArg (fun t => t.2.2) hident1').trans h.2.symm⟩
      · simp only [Prod.mk.injEq] at h
        exact hfind b (by simp)
          ⟨(congrArg (fun t => t.2.1) hident2').trans h.1.symm,
            (congrArg (fun t => t.2.2) hident2').trans h.2.symm⟩
  obtain ⟨w3, s3, hrun3⟩ := @dispatchReceived_known_ok w2 ⟨3, [a, b], 1⟩ sender senderPort k
    touch hknown (fun h => by rw [htouch] at h; cases h)
    (fun _ => ⟨hw2, ⟨1, by rw [hinstigator]; exact hfind2⟩,
      ⟨0, by rw [hreceiver]; exact hfind1⟩⟩)
  obtain ⟨s', c1, hc1, hs3, _, hcases⟩ := dispatchReceived_known_shape hknown hrun3
  have hhandled : HandleTouchAndResetGame w2 ⟨3, [a, b], 1⟩ touch = Except.ok (w3, s') := by
    rcases hcases with ⟨h, _⟩ | ⟨h, _⟩ | ⟨_, h⟩ | ⟨_, _, h, _⟩
    · rw [htouch] at h
      cases h
    · rw [htouch] at h
      cases h
    · exact h
    · exact absurd htouch h
  obtain ⟨_, _, hnext', _, hspawn⟩ := HandleTouchAndResetGame_frame hhandled
  obtain ⟨hit', hspawn'⟩ := hspawn (by rw [hinstigator]; decide)
  rw [hinstigator] at hit' hspawn'
  obtain ⟨i, j, touching, it, _, _, _, htid, hreset, _⟩ := HandleTouchAndResetGame_eq hhandled
  rw [hinstigator] at htid
  obtain ⟨packets, _, hlen, _, hall⟩ := resetEachClient_eq hreset
  have hne : touching.id ≠ 0 := by rw [htid]; decide
  obtain ⟨p1, p2, rfl⟩ : ∃ p1 p2, packets = [p1, p2] :=
    List.length_eq_two.mp (by simpa using hlen)
  simp only [List.zip_cons_cons, List.zip_nil_right] at hall
  obtain ⟨a1, rest1, ⟨ita, hita, hofa⟩, hall1, hlist⟩ := List.forall₂_cons_left_iff.mp hall
  obtain ⟨b1, rest2, ⟨itb, hitb, hofb⟩, hall2, hlist2⟩ := List.forall₂_cons_left_iff.mp hall1
  have hnil : rest2 = [] := List.forall₂_nil_left_iff.mp hall2
  subst hnil
  subst hlist2
  have hita' : ita = 2 := (hita hne).trans htid
  have hitb' : itb = 2 := (hitb hne).trans htid
  have hforall := set_timer_forall₂ (c := c1) (k := k) hc1
  rw [hlist] at hforall
  obtain ⟨a', resta, ha', hresta, hset'⟩ := List.forall₂_cons_left_iff.mp hforall
  obtain ⟨b', restb, hb', hrestb, hsetb⟩ := List.forall₂_cons_left_iff.mp hresta
  have hnil' : restb = [] := List.forall₂_nil_left_iff.mp hrestb
  subst hnil'
  subst hsetb
  have hs3' : s3 = ⟨3, [a', b'], 2⟩ := by
    rw [hs3, hlist, hset']
    cases s'
    simp only at hnext' hit'
    subst hnext'
    subst hit'
    rfl
  rw [hs3'] at hrun3
  obtain ⟨htypa, hida, hnuma, hdataa, hrecorda⟩ := hofa
  obtain ⟨htypb, hidb, hnumb, hdatab, hrecordb⟩ := hofb
  simp only at htypa hida hnuma hdataa hrecorda htypb hidb hnumb hdatab hrecordb
  have hb1mem : b1 ∈ s'.m_clientList := by rw [hlist]; simp
  have hb1id : b1.id = 2 := by rw [hrecordb]; exact hbid
  refine ⟨w1, w2, w3, a, b, a', b', hrun1, hident1', hay, hrun2, hident2', hrun3, ?_, ?_, ?_,
    ?_, ?_⟩
  · rw [ha', hrecorda]
    exact hident1'
  · rw [hb', hrecordb]
    exact hident2'
  · rw [hb']
    exact (hspawn' b1 hb1mem).2.2.2 hb1id
  · refine ⟨p1, ?_, ?_, htypa, by simp [MidtermPacket.IsGuaranteed, htypa], ?_⟩
    · rw [ha', hrecorda]
      refine mem_setInsert_self ?_
      intro q hq
      rw [hset1, List.mem_singleton] at hq
      rw [hq, hnum1, hnuma, hcounter1]
      decide
    · rw [hset1, List.mem_singleton]
      intro h
      rw [h, hnum1, hcounter1] at hnuma
      cases hnuma
    · rw [hdataa, hita']
  · refine ⟨p2, ?_, ?_, htypb, by simp [MidtermPacket.IsGuaranteed, htypb], ?_⟩
    · rw [hb', hrecordb]
      refine mem_setInsert_self ?_
      intro q hq
      rw [hset2, List.mem_singleton] at hq
      rw [hq, hnum2, hnumb, hcounter2]
      decide
    · rw [hset2, List.mem_singleton]
      intro h
      rw [h, hnum2, hcounter2] at hnumb
      cases hnumb
    · rw [hdatab, hitb']

theorem two_joins_then_touch_witness :
    (SendsSucceed quietPlatform ∧ (("10.0.0.1", 7) : String × Nat) ≠ ("10.0.0.2", 8)) ∧
    ∃ w1 w2 w3 a b a' b',
      dispatchReceived quietPlatform GameServer.fresh "10.0.0.1" 7
        (packetOfType PacketType.TYPE_Join) = Except.ok (w1, ⟨2, [a], 1⟩, false) ∧
      dispatchReceived w1 ⟨2, [a], 1⟩ "10.0.0.2" 8 (packetOfType PacketType.TYPE_Join) =
        Except.ok (w2, ⟨3, [a, b], 1⟩, false) ∧
      dispatchReceived w2 ⟨3, [a, b], 1⟩ "10.0.0.2" 8 (touchFrom "10.0.0.2" 8 2 1).packet =
        Except.ok (w3, ⟨3, [a', b'], 2⟩, true) ∧
      b'.yPosition = 0 := by
  refine ⟨⟨fun _ => le_refl _, by decide⟩, ?_⟩
  obtain ⟨w1, w2, w3, a, b, a', b', h1, _, _, h2, _, h3, _, _, hy, _⟩ :=
    two_joins_then_touch quietPlatform (fun _ => le_refl _) "10.0.0.1" 7 "10.0.0.2" 8
      (by decide) (packetOfType PacketType.TYPE_Join) (packetOfType PacketType.TYPE_Join)
      (touchFrom "10.0.0.2" 8 2 1).packet rfl rfl rfl rfl rfl "10.0.0.2" 8 (Or.inr rfl)
  exact ⟨w1, w2, w3, a, b, a', b', h1, h2, h3, hy⟩

/-! ## The "it" id in reachable states -/

theorem reachable_it {n : Nat} {w : Platform} {s : GameServer} (h : Reachable n w s) :
    n ≤ 255 → s.m_itPlayerID ≤ n ∧ (1 ≤ n → 1 ≤ s.m_itPlayerID) := by
  induction h with
  | fresh w =>
    intro _
    exact ⟨le_refl _, fun h => absurd h (by decide)⟩
  | network pending _ ih => exact ih
  | @dispatch n w w' s s' resample ipAddress portNumber packet hreach hstep ih =>
    intro hn
    cases hfind : FindClientByAddress s.m_clientList ipAddress portNumber with
    | none =>
      by_cases hkind : packet.type = PacketType.TYPE_Join
      · obtain ⟨client, hlist, _, _, _, hit, _⟩ := dispatchReceived_join_frame hfind hkind hstep
        have hlen : s'.m_clientList.length - s.m_clientList.length = 1 := by
          rw [hlist]
          simp
        rw [hlen] at hn ⊢
        obtain ⟨hle, hge⟩ := ih (by omega)
        have hnext := (reachable_ids hreach).1
        rw [hit, hnext]
        by_cases hzero : s.m_itPlayerID = 0
        · rw [if_pos hzero]
          omega
        · rw [if_neg hzero]
          constructor
          · omega
          · intro _
            omega
      · rw [dispatchReceived_unknown w s ipAddress portNumber packet hkind hfind] at hstep
        simp only [Except.ok.injEq, Prod.mk.injEq] at hstep
        obtain ⟨_, rfl, _⟩ := hstep
        simpa using ih (by simpa using hn)
    | some receivedClient =>
      have hid := (dispatchReceived_known_frame hfind hstep).1
      have hlen : s'.m_clientList.length = s.m_clientList.length := by
        have := congrArg List.length hid
        simpa using this
      rw [hlen, Nat.sub_self, Nat.add_zero] at hn ⊢
      obtain ⟨hle, hge⟩ := ih hn
      obtain ⟨s1, c1, _, hs', _, hcases⟩ := dispatchReceived_known_shape hfind hstep
      have hit : s'.m_itPlayerID = s1.m_itPlayerID := by rw [hs']
      rw [hit]
      rcases hcases with ⟨_, _, hack⟩ | ⟨_, _, c, _, hupdate⟩ | ⟨_, htouch⟩ | ⟨_, _, _, _, hsame⟩
      · rw [(RemoveAcknowledgedPacketFromClientQueue_frame hack).2.1]
        exact ⟨hle, hge⟩
      · rw [hupdate]
        exact ⟨hle, hge⟩
      · obtain ⟨i, j, touching, it, _, _, htouching, htid, _, _⟩ :=
          HandleTouchAndResetGame_eq htouch
        have hmem : touching.id ∈ s.m_clientList.map (·.id) := by
          obtain ⟨hi, hci⟩ := List.getElem?_eq_some.mp htouching
          exact List.mem_map_of_mem _ (hci ▸ List.getElem_mem hi)
        have hrange := ((reachable_ids hreach).2 hn).2 _ hmem
        rw [htid] at hrange
        have hne : packet.data.touch.instigatorID ≠ 0 := by omega
        rw [((HandleTouchAndResetGame_frame htouch).2.2.2.2 hne).1]
        exact ⟨hrange.2, fun _ => hrange.1⟩
      · rw [hsame]
        exact ⟨hle, hge⟩
  | broadcast _ hstep ih =>
    intro hn
    rw [(BroadcastGameStateToClients_frame hstep).2.2.2.1]
    exact ih hn
  | timeout fuel deltaSeconds _ hstep ih => exact ih
  | resend _ hstep ih => exact ih

/-- While at most 255 sessions have been created the "it" id is as the data model has it: in
every state reached up to then no two live sessions have the "it" id, and the "it" id is not
zero when the client list is not empty. -/
theorem it_id_is_unique_while_ids_are (n : Nat) (w : Platform) (s : GameServer)
    (hreach : Reachable n w s) (hcreated : n ≤ 255) :
    (∀ (i j : Nat) (c c' : ClientInfo),
      s.m_clientList[i]? = some c → s.m_clientList[j]? = some c' →
      c.id = s.m_itPlayerID → c'.id = s.m_itPlayerID → i = j) ∧
    (s.m_clientList ≠ [] → s.m_itPlayerID ≠ 0) := by
  obtain ⟨hpair, hrange⟩ := (reachable_ids hreach).2 hcreated
  constructor
  · intro i j c c' hc hc' hid hid'
    have hnodup : (s.m_clientList.map (·.id)).Nodup := hpair.imp (fun h => Nat.ne_of_lt h)
    have hi : i < (s.m_clientList.map (·.id)).length := by
      rw [List.length_map]
      exact (List.getElem?_eq_some.mp hc).1
    refine List.getElem?_inj hi hnodup ?_
    simp only [List.getElem?_map, hc, hc', Option.map_some', hid, hid']
  · intro hne
    obtain ⟨c, rest, hlist⟩ := List.exists_cons_of_ne_nil hne
    have hmem : c.id ∈ s.m_clientList.map (·.id) := by
      rw [hlist]
      simp
    have := hrange _ hmem
    have hit := (reachable_it hreach hcreated).2 (by omega)
    omega

theorem it_id_is_unique_while_ids_are_witness :
    (Reachable 1 afterOneJoin.1 afterOneJoin.2 ∧ 1 ≤ 255) ∧
    (afterOneJoin.2.m_clientList ≠ [] → afterOneJoin.2.m_itPlayerID ≠ 0) :=
  ⟨⟨afterOneJoin_reachable, by decide⟩,
    (it_id_is_unique_while_ids_are 1 afterOneJoin.1 afterOneJoin.2 afterOneJoin_reachable
      (by decide)).2⟩

/-- C11: the "it" id is zero with a live session, once ids have wrapped. The constructed
server takes 255 Joins from ports 1 to 255, each session timed out by its own tick, and a
Join from port 256, whose session is given id 0, the next-id counter 256 being truncated to
eight bits. That session, the only live one, then sends a Touch with instigator 0 and
receiver 0. The run completes, the state it ends in is reachable, the client list holds the
session with id 0, and the "it" id is 0. -/
theorem it_id_is_zero_with_a_live_session :
    ∃ w s, runTicks 4 wrapThenTouch quietPlatform GameServer.fresh = Run.finished (w, s) ∧
      (∃ n, Reachable n w s) ∧
      s.m_clientList.map ClientInfo.identity = [(0, "10.0.0.1", 256)] ∧
      s.m_itPlayerID = 0 := by
  have hvalue : ((runTicks 4 wrapThenTouch quietPlatform GameServer.fresh).result?).map
      (fun r => (r.2.m_clientList.map ClientInfo.identity, r.2.m_itPlayerID)) =
      some ([(0, "10.0.0.1", 256)], 0) := by decide!
  cases hrun : runTicks 4 wrapThenTouch quietPlatform GameServer.fresh with
  | finished r =>
    obtain ⟨w, s⟩ := r
    rw [hrun] at hvalue
    simp only [Run.result?, Option.map_some', Option.some.injEq, Prod.mk.injEq] at hvalue
    exact ⟨w, s, rfl,
      (runTicks_reachable 4 wrapThenTouch (Reachable.fresh quietPlatform) hrun).2,
      hvalue.1, hvalue.2⟩
  | halted cause =>
    rw [hrun] at hvalue
    simp [Run.result?] at hvalue
  | outOfFuel =>
    rw [hrun] at hvalue
    simp [Run.result?] at hvalue

/-! ## In-flight sets in reachable states -/

theorem SessionInOrder.mono {sent sent' : Nat} {c : ClientInfo} (hle : sent ≤ sent')
    (h : SessionInOrder sent c) : SessionInOrder sent' c := by
  obtain ⟨hset, hkind, hcounter, hbelow⟩ := h
  exact ⟨hset, hkind, by omega, fun hsmall => hbelow (by omega)⟩

theorem SessionInOrder.of_fields {sent : Nat} {c c' : ClientInfo} (hid : c'.id = c.id)
    (hcounter : c'.currentPacketNumber = c.currentPacketNumber)
    (hunack : c'.unacknowledgedPackets = c.unacknowledgedPackets)
    (h : SessionInOrder sent c) : SessionInOrder sent c' := by
  unfold SessionInOrder
  rw [hid, hcounter, hunack]
  exact h

theorem SessionInOrder.numbered {sent : Nat} {c : ClientInfo} (h : SessionInOrder sent c) :
    SessionInOrder (sent + 1) c.numbered := by
  obtain ⟨hset, hkind, hcounter, hbelow⟩ := h
  refine ⟨hset, hkind, ?_, ?_⟩
  · have := Nat.mod_le (c.currentPacketNumber + 1) (2 ^ 32)
    simp only [ClientInfo.numbered]
    omega
  · intro hsmall p hp
    have h1 := hbelow (by omega) p hp
    simp only [ClientInfo.numbered]
    rw [Nat.mod_eq_of_lt (by omega)]
    omega

theorem SessionInOrder.numbered_iterate {sent : Nat} {c : ClientInfo}
    (h : SessionInOrder sent c) (k : Nat) :
    SessionInOrder (sent + k) (ClientInfo.numbered^[k] c) := by
  induction k with
  | zero => exact h
  | succ k ih =>
    rw [Function.iterate_succ_apply']
    exact ih.numbered

theorem SessionInOrder.resetOf {sent itPlayerID : Nat} {c c' : ClientInfo}
    {packet : MidtermPacket} (hreset : ResetOf itPlayerID c c' packet)
    (h : SessionInOrder sent c) : SessionInOrder (sent + 1) c' := by
  obtain ⟨hset, hkind, hcounter, hbelow⟩ := h
  obtain ⟨htype, hid, hnumber, _, hrecord⟩ := hreset
  have hunack : c'.unacknowledgedPackets = setInsert packet c.unacknowledgedPackets := by
    rw [hrecord]
  have hcounter' : c'.currentPacketNumber = (c.currentPacketNumber + 1) % 2 ^ 32 := by
    rw [hrecord]
  have hid' : c'.id = c.id := by rw [hrecord]
  refine ⟨?_, ?_, ?_, ?_⟩
  · rw [hunack]
    exact setInsert_isPacketSet hset
  · intro p hp
    rw [hunack] at hp
    rw [hid']
    rcases mem_setInsert hp with hp | hp
    · rw [hp]
      exact ⟨htype, hid⟩
    · exact hkind p hp
  · have := Nat.mod_le (c.currentPacketNumber + 1) (2 ^ 32)
    omega
  · intro hsmall p hp
    rw [hunack] at hp
    rw [hcounter', Nat.mod_eq_of_lt (by omega)]
    rcases mem_setInsert hp with hp | hp
    · rw [hp, hnumber]
      omega
    · have := hbelow (by omega) p hp
      omega

theorem eraseAcknowledged_sublist (n : Nat) (packets : List MidtermPacket) :
    (eraseAcknowledged n packets).Sublist packets := by
  induction packets with
  | nil => exact List.Sublist.refl _
  | cons p rest ih =>
    simp only [eraseAcknowledged]
    split
    · exact List.sublist_cons_self _ _
    · exact ih.cons₂ _

theorem SessionInOrder.erase {sent : Nat} {c : ClientInfo} (n : Nat)
    (h : SessionInOrder sent c) :
    SessionInOrder sent
      { c with unacknowledgedPackets := eraseAcknowledged n c.unacknowledgedPackets } := by
  obtain ⟨hset, hkind, hcounter, hbelow⟩ := h
  have hsub := eraseAcknowledged_sublist n c.unacknowledgedPackets
  exact ⟨List.Pairwise.sublist hsub hset, fun p hp => hkind p (hsub.subset hp), hcounter,
    fun hsmall p hp => hbelow hsmall p (hsub.subset hp)⟩

theorem SessionInOrder.sameButTimestamps {sent : Nat} {c c' : ClientInfo}
    (hsame : SameButTimestamps c c') (h : SessionInOrder sent c) : SessionInOrder sent c' := by
  obtain ⟨hset, hkind, hcounter, hbelow⟩ := h
  have hid : c'.id = c.id := by rw [hsame.1]
  have hcounter' : c'.currentPacketNumber = c.currentPacketNumber := by rw [hsame.1]
  have hfrom : ∀ p' ∈ c'.unacknowledgedPackets,
      ∃ p ∈ c.unacknowledgedPackets, p.content = p'.content := by
    intro p' hp'
    have hmem : p'.content ∈ c'.unacknowledgedPackets.map MidtermPacket.content :=
      List.mem_map_of_mem _ hp'
    rw [hsame.2] at hmem
    exact List.mem_map.mp hmem
  refine ⟨hsame.isPacketSet hset, ?_, ?_, ?_⟩
  · intro p' hp'
    obtain ⟨p, hp, hcontent⟩ := hfrom p' hp'
    have htype : p.type = p'.type := congrArg (fun x => x.1) hcontent
    have hclient : p.clientID = p'.clientID := congrArg (fun x => x.2.1) hcontent
    rw [← htype, ← hclient, hid]
    exact hkind p hp
  · rw [hcounter']
    exact hcounter
  · intro hsmall p' hp'
    obtain ⟨p, hp, hcontent⟩ := hfrom p' hp'
    have hnumber : p.number = p'.number := congrArg (fun x => x.2.2.1) hcontent
    rw [← hnumber, hcounter']
    exact hbelow hsmall p hp

theorem timeoutLoop_forall (P : ClientInfo → Prop)
    (htimer : ∀ (c : ClientInfo) (t : Float32), P c → P { c with secondsSinceLastReceivedPacket := t })
    (deltaSeconds : Float32) (fuel : Nat) :
    ∀ {i : Nat} {clients clients' : List ClientInfo},
      timeoutLoop deltaSeconds fuel i clients = some clients' →
      (∀ c ∈ clients, P c) → ∀ c ∈ clients', P c := by
  induction fuel with
  | zero =>
    intro i clients clients' h
    simp [timeoutLoop] at h
  | succ fuel ih =>
    intro i clients clients' h hall
    simp only [timeoutLoop] at h
    split at h
    · simp only [Option.some.injEq] at h
      subst h
      exact hall
    · rename_i client hclient
      have hmem : client ∈ clients := by
        obtain ⟨hi, hci⟩ := List.getElem?_eq_some.mp hclient
        exact hci ▸ List.getElem_mem hi
      have hset : ∀ c ∈ clients.set i
          { client with
            secondsSinceLastReceivedPacket :=
              client.secondsSinceLastReceivedPacket + deltaSeconds }, P c := by
        intro c hc
        rcases List.mem_or_eq_of_mem_set hc with hc | hc
        · exact hall c hc
        · rw [hc]
          exact htimer client _ (hall client hmem)
      split at h
      · exact ih h (fun c hc => hset c ((List.eraseIdx_sublist _ _).subset hc))
      · exact ih h hset

theorem forall₂_mem_right {α β : Type} {R : α → β → Prop} {l₁ : List α} {l₂ : List β}
    (h : List.Forall₂ R l₁ l₂) {b : β} (hb : b ∈ l₂) : ∃ a ∈ l₁, R a b := by
  induction h with
  | nil => simp at hb
  | @cons a b' l₁ l₂ hab _ ih =>
    rcases List.mem_cons.mp hb with hb | hb
    · exact ⟨a, List.mem_cons_self _ _, hb ▸ hab⟩
    · obtain ⟨a', ha', hr⟩ := ih hb
      exact ⟨a', List.mem_cons_of_mem _ ha', hr⟩

theorem resetEachClient_keeps_order {w w' : Platform} {itPlayerID itPlayerID' : Nat}
    {clients clients' : List ClientInfo}
    (h : resetEachClient w itPlayerID clients = Except.ok (w', itPlayerID', clients'))
    (hall : ∀ c ∈ clients, SessionInOrder w.sent.length c) :
    w.sent.length ≤ w'.sent.length ∧ ∀ c ∈ clients', SessionInOrder w'.sent.length c := by
  obtain ⟨packets, hsent, hlen, _, hforall⟩ := resetEachClient_eq h
  have hlength : w'.sent.length = w.sent.length + clients.length := by
    rw [hsent]
    simp [hlen]
  refine ⟨by omega, ?_⟩
  intro c' hc'
  obtain ⟨cp, hcp, it, _, hreset⟩ := forall₂_mem_right hforall hc'
  have hmem : cp.1 ∈ clients := (List.of_mem_zip (a := cp.1) (b := cp.2) hcp).1
  have hpos : 1 ≤ clients.length := List.length_pos_of_mem hmem
  exact ((hall cp.1 hmem).resetOf hreset).mono (by omega)

theorem dispatchReceived_keeps_order {w w' : Platform} {s s' : GameServer}
    {ipAddress : String} {portNumber : Nat} {packet : MidtermPacket} {resample : Bool}
    (h : dispatchReceived w s ipAddress portNumber packet = Except.ok (w', s', resample))
    (hall : ∀ c ∈ s.m_clientList, SessionInOrder w.sent.length c) :
    w.sent.length ≤ w'.sent.length ∧
      ∀ c ∈ s'.m_clientList, SessionInOrder w'.sent.length c := by
  cases hfind : FindClientByAddress s.m_clientList ipAddress portNumber with
  | none =>
    by_cases hkind : packet.type = PacketType.TYPE_Join
    · obtain ⟨client, reset, hs', hsent, htype, hid, hnumber, _, hcounter, hset, _⟩ :=
        dispatchReceived_join_eq hfind hkind h
      have hlength : w'.sent.length = w.sent.length + 1 := by
        rw [hsent]
        simp
      refine ⟨by omega, ?_⟩
      intro c hc
      rw [hs'] at hc
      simp only [List.mem_append, List.mem_singleton] at hc
      rcases hc with hc | hc
      · exact (hall c hc).mono (by omega)
      · subst hc
        refine ⟨?_, ?_, ?_, ?_⟩
        · rw [hset]
          simp [IsPacketSet]
        · intro p hp
          rw [hset, List.mem_singleton] at hp
          rw [hp]
          exact ⟨htype, hid⟩
        · omega
        · intro _ p hp
          rw [hset, List.mem_singleton] at hp
          rw [hp, hnumber, hcounter]
          decide
    · rw [dispatchReceived_unknown w s ipAddress portNumber packet hkind hfind] at h
      simp only [Except.ok.injEq, Prod.mk.injEq] at h
      obtain ⟨rfl, rfl, _⟩ := h
      exact ⟨le_refl _, hall⟩
  | some receivedClient =>
    obtain ⟨s1, c1, hc1, hs', _, hcases⟩ := dispatchReceived_known_shape hfind h
    have hs1 : w.sent.length ≤ w'.sent.length ∧
        ∀ c ∈ s1.m_clientList, SessionInOrder w'.sent.length c := by
      rcases hcases with ⟨_, hw', hack⟩ | ⟨_, hw', c, hc, hupdate⟩ | ⟨_, htouch⟩ |
        ⟨_, _, _, hw', hsame⟩
      · obtain ⟨i, client, _, hclient, hs1⟩ := RemoveAcknowledgedPacketFromClientQueue_eq hack
        subst hw'
        refine ⟨le_refl _, ?_⟩
        intro c hc
        rw [hs1] at hc
        rcases List.mem_or_eq_of_mem_set hc with hc | hc
        · exact hall c hc
        · rw [hc]
          obtain ⟨hi, hci⟩ := List.getElem?_eq_some.mp hclient
          exact (hall client (hci ▸ List.getElem_mem hi)).erase _
      · subst hw'
        refine ⟨le_refl _, ?_⟩
        intro x hx
        rw [hupdate] at hx
        rcases List.mem_or_eq_of_mem_set hx with hx | hx
        · exact hall x hx
        · rw [hx]
          obtain ⟨hi, hci⟩ := List.getElem?_eq_some.mp hc
          exact (hall c (hci ▸ List.getElem_mem hi)).of_fields rfl rfl rfl
      · obtain ⟨i, j, touching, it, _, _, _, _, hreset, _⟩ := HandleTouchAndResetGame_eq htouch
        exact resetEachClient_keeps_order hreset hall
      · subst hw'
        subst hsame
        exact ⟨le_refl _, hall⟩
    refine ⟨hs1.1, ?_⟩
    intro c hc
    rw [hs'] at hc
    rcases List.mem_or_eq_of_mem_set hc with hc | hc
    · exact hs1.2 c hc
    · rw [hc]
      obtain ⟨hi, hci⟩ := List.getElem?_eq_some.mp hc1
      exact (hs1.2 c1 (hci ▸ List.getElem_mem hi)).of_fields rfl rfl rfl

theorem BroadcastGameStateToClients_keeps_order {w w' : Platform} {s s' : GameServer}
    (h : BroadcastGameStateToClients w s = Except.ok (w', s'))
    (hall : ∀ c ∈ s.m_clientList, SessionInOrder w.sent.length c) :
    w.sent.length ≤ w'.sent.length ∧
      ∀ c ∈ s'.m_clientList, SessionInOrder w'.sent.length c := by
  obtain ⟨log, hsent, hlen, hs', _⟩ := BroadcastGameStateToClients_eq h
  have hlength : w'.sent.length =
      w.sent.length + s.m_clientList.length * s.m_clientList.length := by
    rw [hsent]
    simp [hlen]
  refine ⟨by omega, ?_⟩
  intro c' hc'
  rw [hs'] at hc'
  obtain ⟨c, hc, rfl⟩ := List.mem_map.mp hc'
  have hle : s.m_clientList.length ≤ s.m_clientList.length * s.m_clientList.length :=
    Nat.le_mul_self _
  exact ((hall c hc).numbered_iterate s.m_clientList.length).mono (by omega)

theorem resendUnacknowledgedPackets_keeps_order {w w' : Platform}
    {clients clients' : List ClientInfo}
    (h : resendUnacknowledgedPackets w clients = Except.ok (w', clients'))
    (hall : ∀ c ∈ clients, SessionInOrder w.sent.length c) :
    w.sent.length ≤ w'.sent.length ∧ ∀ c ∈ clients', SessionInOrder w'.sent.length c := by
  obtain ⟨log, hsent, _, hsame⟩ := resendUnacknowledgedPackets_eq (fun c hc => (hall c hc).1) h
  have hlength : w.sent.length ≤ w'.sent.length := by
    rw [hsent]
    simp
  refine ⟨hlength, ?_⟩
  intro c' hc'
  obtain ⟨c, hc, hrel⟩ := forall₂_mem_right hsame hc'
  exact ((hall c hc).sameButTimestamps hrel).mono hlength

theorem reachable_sessions_in_order {n : Nat} {w : Platform} {s : GameServer}
    (h : Reachable n w s) : ∀ c ∈ s.m_clientList, SessionInOrder w.sent.length c := by
  induction h with
  | fresh w => simp [GameServer.fresh]
  | network pending _ ih => exact ih
  | dispatch ipAddress portNumber packet _ hstep ih =>
    exact (dispatchReceived_keeps_order hstep ih).2
  | broadcast _ hstep ih => exact (BroadcastGameStateToClients_keeps_order hstep ih).2
  | timeout fuel deltaSeconds _ hstep ih =>
    exact timeoutLoop_forall _ (fun c t hc => hc.of_fields rfl rfl rfl) deltaSeconds fuel
      hstep ih
  | resend _ hstep ih => exact (resendUnacknowledgedPackets_keeps_order hstep ih).2

/-! ## Counters over the steps of the server -/

theorem getElem?_set_rel {α : Type} {R : α → α → Prop} (hrefl : ∀ x, R x x) {l : List α}
    {k : Nat} {a b : α} (ha : l[k]? = some a) (hab : R a b) {j : Nat} {x : α}
    (hx : l[j]? = some x) : ∃ y, (l.set k b)[j]? = some y ∧ R x y := by
  by_cases hkj : k = j
  · subst hkj
    rw [ha] at hx
    cases hx
    exact ⟨b, getElem?_set_same ha, hab⟩
  · exact ⟨x, by rw [List.getElem?_set_ne hkj]; exact hx, hrefl x⟩

theorem ResetClient_eq {w w' : Platform} {itPlayerID itPlayerID' : Nat} {c c' : ClientInfo}
    (h : ResetClient w itPlayerID c = Except.ok (w', itPlayerID', c')) :
    ∃ packet, w'.sent = w.sent ++ [⟨packet, c.ipAddress, c.portNumber⟩] ∧
      itPlayerID' = (if itPlayerID = 0 then c.id else itPlayerID) ∧
      ResetOf itPlayerID' c c' packet := by
  have h1 := ResetClient_succeeding h
  obtain ⟨w2, c2, packet, hrun, hsent, _, hreset⟩ :=
    ResetClient_resetOf (succeeding_sendsSucceed w) itPlayerID c
  rw [hrun] at h1
  simp only [Except.ok.injEq, Prod.mk.injEq] at h1
  obtain ⟨hw', rfl, rfl⟩ := h1
  refine ⟨packet, ?_, rfl, hreset⟩
  have := congrArg Platform.sent hw'
  rw [hsent] at this
  simpa [Platform.succeeding] using this.symm

theorem resetEachClient_positions {w w' : Platform} {itPlayerID itPlayerID' : Nat}
    {clients clients' : List ClientInfo}
    (h : resetEachClient w itPlayerID clients = Except.ok (w', itPlayerID', clients'))
    {j : Nat} {c : ClientInfo} (hc : clients[j]? = some c) :
    w'.sent.length = w.sent.length + clients.length ∧
    ∃ c' packet it, clients'[j]? = some c' ∧ ResetOf it c c' packet ∧
      w'.sent[w.sent.length + j]? = some ⟨packet, c.ipAddress, c.portNumber⟩ := by
  obtain ⟨packets, hsent, hlen, _, hforall⟩ := resetEachClient_eq h
  have hj : j < clients.length := (List.getElem?_eq_some.mp hc).1
  have hp : packets[j]? = some (packets[j]) := List.getElem?_eq_getElem (hlen ▸ hj)
  have hzip : (clients.zip packets)[j]? = some (c, packets[j]) :=
    List.getElem?_zip_eq_some.mpr ⟨hc, hp⟩
  obtain ⟨c', hc', it, _, hreset⟩ := forall₂_getElem? hforall hzip
  refine ⟨by rw [hsent]; simp [hlen], c', packets[j], it, hc', hreset, ?_⟩
  rw [hsent, List.getElem?_append_right (Nat.le_add_right _ _), Nat.add_sub_cancel_left]
  exact List.getElem?_zipWith_eq_some.mpr ⟨c, packets[j], hc, hp, rfl⟩

theorem dispatchReceived_counters {w w' : Platform} {s s' : GameServer} {ipAddress : String}
    {portNumber : Nat} {packet : MidtermPacket} {resample : Bool}
    (h : dispatchReceived w s ipAddress portNumber packet = Except.ok (w', s', resample))
    {j : Nat} {c : ClientInfo} (hc : s.m_clientList[j]? = some c) :
    ∃ c', s'.m_clientList[j]? = some c' ∧
      (c'.currentPacketNumber = c.currentPacketNumber ∨
        (c'.currentPacketNumber = (c.currentPacketNumber + 1) % 2 ^ 32 ∧
          j < w'.sent.length - w.sent.length ∧
          ∃ reset, w'.sent[w.sent.length + j]? = some ⟨reset, c.ipAddress, c.portNumber⟩ ∧
            reset.type = PacketType.TYPE_Reset ∧
            reset.number = c.currentPacketNumber)) := by
  cases hfind : FindClientByAddress s.m_clientList ipAddress portNumber with
  | none =>
    by_cases hkind : packet.type = PacketType.TYPE_Join
    · obtain ⟨client, hlist, _⟩ := dispatchReceived_join_frame hfind hkind h
      refine ⟨c, ?_, Or.inl rfl⟩
      rw [hlist, List.getElem?_append_left (List.getElem?_eq_some.mp hc).1]
      exact hc
    · rw [dispatchReceived_unknown w s ipAddress portNumber packet hkind hfind] at h
      simp only [Except.ok.injEq, Prod.mk.injEq] at h
      obtain ⟨_, rfl, _⟩ := h
      exact ⟨c, hc, Or.inl rfl⟩
  | some receivedClient =>
    obtain ⟨s1, c1, hc1, hs', _, hcases⟩ := dispatchReceived_known_shape hfind h
    have hs1 : ∃ x, s1.m_clientList[j]? = some x ∧
        (x.currentPacketNumber = c.currentPacketNumber ∨
          (x.currentPacketNumber = (c.currentPacketNumber + 1) % 2 ^ 32 ∧
            j < w'.sent.length - w.sent.length ∧
            ∃ reset, w'.sent[w.sent.length + j]? = some ⟨reset, c.ipAddress, c.portNumber⟩ ∧
              reset.type = PacketType.TYPE_Reset ∧
              reset.number = c.currentPacketNumber)) := by
      rcases hcases with ⟨_, _, hack⟩ | ⟨_, _, c0, hc0, hupdate⟩ | ⟨_, htouch⟩ |
        ⟨_, _, _, _, hsame⟩
      · obtain ⟨i, client, _, hclient, hs1⟩ := RemoveAcknowledgedPacketFromClientQueue_eq hack
        rw [hs1]
        obtain ⟨y, hy, hr⟩ := getElem?_set_rel
          (R := fun x y : ClientInfo => y.currentPacketNumber = x.currentPacketNumber)
          (fun _ => rfl) hclient (b := { client with
            unacknowledgedPackets :=
              eraseAcknowledged packet.data.acknowledged.packetNumber
                client.unacknowledgedPackets }) rfl hc
        exact ⟨y, hy, Or.inl hr⟩
      · rw [hupdate]
        obtain ⟨y, hy, hr⟩ := getElem?_set_rel
          (R := fun x y : ClientInfo => y.currentPacketNumber = x.currentPacketNumber)
          (fun _ => rfl) hc0 (b := ReceiveUpdateFromClient packet c0) rfl hc
        exact ⟨y, hy, Or.inl hr⟩
      · obtain ⟨i, k, touching, it, _, _, _, _, hreset, _⟩ := HandleTouchAndResetGame_eq htouch
        obtain ⟨hlength, c', reset, it', hc', hof, hlog⟩ := resetEachClient_positions hreset hc
        have hj : j < s.m_clientList.length := (List.getElem?_eq_some.mp hc).1
        refine ⟨c', hc', Or.inr ⟨?_, by omega, reset, hlog, hof.1, hof.2.2.1⟩⟩
        rw [hof.2.2.2.2]
      · rw [hsame]
        exact ⟨c, hc, Or.inl rfl⟩
    obtain ⟨x, hx, hcounter⟩ := hs1
    rw [hs']
    obtain ⟨y, hy, hr⟩ := getElem?_set_rel
      (R := fun x y : ClientInfo => y.currentPacketNumber = x.currentPacketNumber)
      (fun _ => rfl) hc1 (b := { c1 with secondsSinceLastReceivedPacket := 0 }) rfl hx
    refine ⟨y, hy, ?_⟩
    rw [hr]
    exact hcounter

theorem numbered_iterate_counter {c : ClientInfo} {k : Nat}
    (hsmall : c.currentPacketNumber + k < 2 ^ 32) :
    (ClientInfo.numbered^[k] c).currentPacketNumber = c.currentPacketNumber + k := by
  cases k with
  | zero => rfl
  | succ k =>
    rw [numbered_iterate_succ]
    exact Nat.mod_eq_of_lt hsmall

/-- Counters over each step of the server. In every reachable state every counter is at most
one more than the number of datagrams the server has sent, and as long as fewer than
`2 ^ 32 - 1` datagrams have been sent in all, so that no counter has wrapped, no step makes a
counter decrease and every newly issued packet carries the value the counter had when it was
issued, the counter then being one more. The dispatch of a datagram leaves the counter of a session as it was, or
adds one and sends the session a Reset numbered with the old value; a session that a Join
creates is sent the Reset numbered 1 and has counter 2. The broadcast over `n` sessions sends
each session `n` Updates, numbered with its counter and the `n - 1` numbers that follow, and
adds `n` to its counter. The resend sweep leaves every counter as it was and sends in-flight
packets only. -/
theorem counters_over_each_step (n : Nat) (w : Platform) (s : GameServer)
    (hreach : Reachable n w s) :
    (∀ c ∈ s.m_clientList, c.currentPacketNumber ≤ w.sent.length + 1) ∧
    (∀ (ipAddress : String) (portNumber : Nat) (packet : MidtermPacket) (w' : Platform)
        (s' : GameServer) (resample : Bool),
      dispatchReceived w s ipAddress portNumber packet = Except.ok (w', s', resample) →
      w'.sent.length + 1 < 2 ^ 32 →
      (∀ (j : Nat) (c : ClientInfo), s.m_clientList[j]? = some c →
        ∃ c', s'.m_clientList[j]? = some c' ∧
          (c'.currentPacketNumber = c.currentPacketNumber ∨
            (c'.currentPacketNumber = c.currentPacketNumber + 1 ∧
              ∃ reset, w'.sent[w.sent.length + j]? =
                  some ⟨reset, c.ipAddress, c.portNumber⟩ ∧
                reset.type = PacketType.TYPE_Reset ∧
                reset.number = c.currentPacketNumber))) ∧
      ∀ created : ClientInfo, s'.m_clientList = s.m_clientList ++ [created] →
        created.currentPacketNumber = 2 ∧
        ∃ reset, w'.sent = w.sent ++ [⟨reset, created.ipAddress, created.portNumber⟩] ∧
          reset.type = PacketType.TYPE_Reset ∧ reset.number = 1) ∧
    (∀ (w' : Platform) (s' : GameServer),
      BroadcastGameStateToClients w s = Except.ok (w', s') →
      w'.sent.length + 1 < 2 ^ 32 →
      ∀ (j : Nat) (c : ClientInfo), s.m_clientList[j]? = some c →
        ∃ c', s'.m_clientList[j]? = some c' ∧
          c'.currentPacketNumber = c.currentPacketNumber + s.m_clientList.length ∧
          ∀ a, a < s.m_clientList.length →
            ∃ d, w'.sent[w.sent.length + (a * s.m_clientList.length + j)]? = some d ∧
              d.ipAddress = c.ipAddress ∧ d.portNumber = c.portNumber ∧
              d.packet.type = PacketType.TYPE_Update ∧
              d.packet.number = c.currentPacketNumber + a) ∧
    ∀ (w' : Platform) (clients' : List ClientInfo),
      resendUnacknowledgedPackets w s.m_clientList = Except.ok (w', clients') →
      (∀ (j : Nat) (c : ClientInfo), s.m_clientList[j]? = some c →
        ∃ c', clients'[j]? = some c' ∧ c'.currentPacketNumber = c.currentPacketNumber) ∧
      (w'.sent.drop w.sent.length).map Datagram.contentAndAddress =
        inFlight s.m_clientList := by
  have horder := reachable_sessions_in_order hreach
  have hbound : ∀ {j : Nat} {c : ClientInfo}, s.m_clientList[j]? = some c →
      c.currentPacketNumber ≤ w.sent.length + 1 := by
    intro j c hc
    obtain ⟨hj, hcj⟩ := List.getElem?_eq_some.mp hc
    exact (horder c (hcj ▸ List.getElem_mem hj)).2.2.1
  refine ⟨fun c hc => (horder c hc).2.2.1, ?_, ?_, ?_⟩
  · intro ipAddress portNumber packet w' s' resample hstep hsmall
    constructor
    · intro j c hc
      obtain ⟨c', hc', hcounter⟩ := dispatchReceived_counters hstep hc
      refine ⟨c', hc', ?_⟩
      rcases hcounter with hsame | ⟨hnext, hgrow, reset, hlog, htype, hnumber⟩
      · exact Or.inl hsame
      · have := hbound hc
        refine Or.inr ⟨?_, reset, hlog, htype, hnumber⟩
        rw [hnext]
        exact Nat.mod_eq_of_lt (by omega)
    · intro created hcreated
      have hlen : s'.m_clientList.length ≠ s.m_clientList.length := by
        rw [hcreated]
        simp
      cases hfind : FindClientByAddress s.m_clientList ipAddress portNumber with
      | some receivedClient =>
        exact absurd (by
          have := congrArg List.length (dispatchReceived_known_frame hfind hstep).1
          simpa using this) hlen
      | none =>
        by_cases hkind : packet.type = PacketType.TYPE_Join
        · obtain ⟨client, reset, hs', hsent, htype, _, hnumber, hident, hcounter, _, _⟩ :=
            dispatchReceived_join_eq hfind hkind hstep
          have hsame : created = client := by
            rw [hs'] at hcreated
            simpa using hcreated.symm
          subst hsame
          have hip : created.ipAddress = ipAddress := congrArg (fun t => t.2.1) hident
          have hport : created.portNumber = portNumber := congrArg (fun t => t.2.2) hident
          exact ⟨hcounter, reset, by rw [hip, hport]; exact hsent, htype, hnumber⟩
        · rw [dispatchReceived_unknown w s ipAddress portNumber packet hkind hfind] at hstep
          simp only [Except.ok.injEq, Prod.mk.injEq] at hstep
          exact absurd (by rw [← hstep.2.1]) hlen
  · intro w' s' hstep hsmall j c hc
    obtain ⟨log, hsent, hlen, hs', hget⟩ := BroadcastGameStateToClients_eq hstep
    have hlength : w'.sent.length =
        w.sent.length + s.m_clientList.length * s.m_clientList.length := by
      rw [hsent]
      simp [hlen]
    have hle : s.m_clientList.length ≤ s.m_clientList.length * s.m_clientList.length :=
      Nat.le_mul_self _
    have hc0 := hbound hc
    refine ⟨ClientInfo.numbered^[s.m_clientList.length] c, ?_, ?_, ?_⟩
    · rw [hs']
      simp [List.getElem?_map, hc]
    · exact numbered_iterate_counter (by omega)
    · intro a ha
      have hsender : s.m_clientList[a]? = some (s.m_clientList[a]) :=
        List.getElem?_eq_getElem ha
      have hentry := hget a j _ c ha hsender hc
      rw [← Nat.add_sub_cancel_left (n := w.sent.length)
        (m := a * s.m_clientList.length + j),
        ← List.getElem?_append_right (Nat.le_add_right _ _), ← hsent] at hentry
      exact ⟨_, hentry, rfl, rfl, rfl, numbered_iterate_counter (by omega)⟩
  · intro w' clients' hstep
    obtain ⟨log, hsent, hlog, hsame⟩ :=
      resendUnacknowledgedPackets_eq (fun c hc => (horder c hc).1) hstep
    constructor
    · intro j c hc
      obtain ⟨c', hc', hrel⟩ := forall₂_getElem? hsame hc
      exact ⟨c', hc', by rw [hrel.1]⟩
    · rw [hsent, List.drop_left]
      exact hlog

theorem counters_over_each_step_witness :
    Reachable 1 afterOneJoin.1 afterOneJoin.2 ∧
    ∀ c ∈ afterOneJoin.2.m_clientList,
      c.currentPacketNumber ≤ afterOneJoin.1.sent.length + 1 :=
  ⟨afterOneJoin_reachable,
    (counters_over_each_step 1 afterOneJoin.1 afterOneJoin.2
      afterOneJoin_reachable).1⟩

/-! ## A counter that wraps -/

theorem Update_single_quiet {fuel : Nat} {w : Platform} (hw : SendsSucceed w)
    (hpending : w.pending = []) (nextClientID itPlayerID : Nat) (c : ClientInfo)
    (hset : IsPacketSet c.unacknowledgedPackets)
    (htimer : c.secondsSinceLastReceivedPacket = 0) (hfuel : 2 ≤ fuel) :
    ∃ w' c',
      Update fuel w ⟨nextClientID, [c], itPlayerID⟩ 0 =
        Run.finished (w', ⟨nextClientID, [c'], itPlayerID⟩) ∧
      SendsSucceed w' ∧ w'.pending = [] ∧ SameButTimestamps c.numbered c' := by
  have hnetwork : ProcessNetworkQueue fuel w ⟨nextClientID, [c], itPlayerID⟩ =
      Run.finished (w, ⟨nextClientID, [c], itPlayerID⟩) :=
    ProcessNetworkQueue_quiet _ hpending (by omega)
  obtain ⟨w2, s2, hbroadcast⟩ :=
    BroadcastGameStateToClients_succeeds hw ⟨nextClientID, [c], itPlayerID⟩
  obtain ⟨hres2, hpend2, _, _, _⟩ := BroadcastGameStateToClients_frame hbroadcast
  obtain ⟨_, _, _, hs2, _⟩ := BroadcastGameStateToClients_eq hbroadcast
  have hstate2 : s2 = ⟨nextClientID, [c.numbered], itPlayerID⟩ := by
    rw [hs2]
    rfl
  subst hstate2
  have hw2 : SendsSucceed w2 := SendsSucceed_of_sendResults hw hres2
  have htimeout : timeoutLoop 0 fuel 0 [c.numbered] = some [c.numbered] := by
    have h := timeoutLoop_from 0 [c.numbered] fuel [] (by simp) (by simpa using hfuel)
    simp only [List.nil_append, List.length_nil] at h
    rw [h]
    have h0 : c.numbered.secondsSinceLastReceivedPacket = 0 := htimer
    have hsame : ({ c.numbered with
        secondsSinceLastReceivedPacket :=
          c.numbered.secondsSinceLastReceivedPacket + 0 } : ClientInfo) = c.numbered := by
      have hsum : c.numbered.secondsSinceLastReceivedPacket + 0 =
          c.numbered.secondsSinceLastReceivedPacket := by
        rw [h0]
        decide!
      rw [hsum]
    simp only [List.map_cons, List.map_nil, hsame]
    have hkeep : ¬ c.numbered.secondsSinceLastReceivedPacket >
        SECONDS_BEFORE_CLIENT_TIMES_OUT := by
      rw [h0]
      decide!
    simp [List.filter_cons, hkeep]
  obtain ⟨clients4, log, reads, hresend, _, hsame⟩ :=
    resendUnacknowledgedPackets_ok [c.numbered] w2 hw2 (by
      intro x hx
      rw [List.mem_singleton] at hx
      rw [hx]
      exact hset)
  obtain ⟨c', rest, hc', hrest, hlist⟩ := List.forall₂_cons_left_iff.mp hsame
  have hnil : rest = [] := List.forall₂_nil_left_iff.mp hrest
  subst hnil
  subst hlist
  refine ⟨{ w2 with clockReads := reads, sent := w2.sent ++ log }, c', ?_, ?_, ?_, hc'⟩
  · simp only [Update, hnetwork, hbroadcast, removeTimedOutClients, htimeout, hresend]
  · exact hw2
  · exact hpend2.trans hpending

theorem quiet_ticks_single {fuel : Nat} (hfuel : 2 ≤ fuel) (nextClientID itPlayerID : Nat)
    (k : Nat) :
    ∀ (w : Platform) (c : ClientInfo), SendsSucceed w → w.pending = [] →
      IsPacketSet c.unacknowledgedPackets → c.secondsSinceLastReceivedPacket = 0 →
      c.currentPacketNumber < 2 ^ 32 →
      ∃ w' c',
        runTicks fuel (quietTicks k 0) w ⟨nextClientID, [c], itPlayerID⟩ =
          Run.finished (w', ⟨nextClientID, [c'], itPlayerID⟩) ∧
        SendsSucceed w' ∧
        c'.currentPacketNumber = (c.currentPacketNumber + k) % 2 ^ 32 ∧
        c'.unacknowledgedPackets.map MidtermPacket.content =
          c.unacknowledgedPackets.map MidtermPacket.content := by
  induction k with
  | zero =>
    intro w c hw _ _ _ hsmall
    exact ⟨w, c, rfl, hw, by rw [Nat.add_zero, Nat.mod_eq_of_lt hsmall], rfl⟩
  | succ k ih =>
    intro w c hw hpending hset htimer hsmall
    obtain ⟨w1, c1, hupdate, hw1, hpending1, hsame⟩ :=
      Update_single_quiet hw hpending nextClientID itPlayerID c hset htimer hfuel
    have hc1 : c1 = { c.numbered with unacknowledgedPackets := c1.unacknowledgedPackets } :=
      hsame.1
    have hcounter1 : c1.currentPacketNumber = (c.currentPacketNumber + 1) % 2 ^ 32 := by
      rw [hc1]
      rfl
    have htimer1 : c1.secondsSinceLastReceivedPacket = 0 := by
      rw [hc1]
      exact htimer
    obtain ⟨w', c', hrun, hw', hcounter, hcontent⟩ := ih w1 c1 hw1 hpending1
      (hsame.isPacketSet hset) htimer1 (by rw [hcounter1]; exact Nat.mod_lt _ (by norm_num))
    refine ⟨w', c', ?_, hw', ?_, hcontent.trans hsame.2⟩
    · have hticks : quietTicks (k + 1) 0 = ⟨[], 0⟩ :: quietTicks k 0 := by
        simp [quietTicks, List.replicate_succ]
      rw [hticks]
      simp only [runTicks, arrive_nothing w hpending, hupdate]
      exact hrun
    · rw [hcounter, hcounter1]
      omega

theorem afterJoinTick_finished :
    Update 4 (arrive quietPlatform joinTick.arrivals) GameServer.fresh joinTick.deltaSeconds =
      Run.finished afterJoinTick := by
  have hsome : ((runTicks 4 [joinTick] quietPlatform GameServer.fresh).result?).isSome =
      true := by decide!
  cases hupdate : Update 4 (arrive quietPlatform joinTick.arrivals) GameServer.fresh
      joinTick.deltaSeconds with
  | finished r =>
    obtain ⟨w1, s1⟩ := r
    simp [afterJoinTick, runTicks, hupdate, Run.result?]
  | halted cause => simp [runTicks, hupdate, Run.result?] at hsome
  | outOfFuel => simp [runTicks, hupdate, Run.result?] at hsome

theorem afterJoinTick_state :
    afterJoinTick.1.pending = [] ∧ afterJoinTick.2.m_nextClientID = 2 ∧
    afterJoinTick.2.m_itPlayerID = 1 ∧
    afterJoinTick.2.m_clientList.map (fun c =>
        (c.currentPacketNumber, c.secondsSinceLastReceivedPacket,
          c.unacknowledgedPackets.map (fun p => (p.number, p.type)))) =
      [(3, 0, [(1, PacketType.TYPE_Reset)])] := by
  decide!

/-- A client joins the constructed server and never acknowledges its Reset; `k` further
ticks of zero length pass in which nothing arrives. The run completes, the session is still
live with its Reset numbered 1 in flight, and its counter, 3 after the first tick, has been
incremented as an `unsigned int` once per further tick. -/
theorem join_then_quiet_ticks (k : Nat) :
    ∃ w c p,
      runTicks 4 (joinTick :: quietTicks k 0) quietPlatform GameServer.fresh =
        Run.finished (w, ⟨2, [c], 1⟩) ∧
      SendsSucceed w ∧ (∃ n, Reachable n w ⟨2, [c], 1⟩) ∧
      c.currentPacketNumber = (3 + k) % 2 ^ 32 ∧
      c.unacknowledgedPackets = [p] ∧ p.number = 1 ∧ p.type = PacketType.TYPE_Reset := by
  obtain ⟨hpending, hnext, hit, hclients⟩ := afterJoinTick_state
  have hfirst := afterJoinTick_finished
  have hres1 : afterJoinTick.1.sendResults = quietPlatform.sendResults := by
    have hrun : runTicks 4 [joinTick] quietPlatform GameServer.fresh =
        Run.finished (afterJoinTick.1, afterJoinTick.2) := by
      simp only [runTicks, hfirst]
    exact (runTicks_reachable 4 [joinTick] (Reachable.fresh quietPlatform) hrun).1
  rcases hstate : afterJoinTick with ⟨w1, ⟨nextClientID, clients, itPlayerID⟩⟩
  rw [hstate] at hpending hnext hit hclients hfirst hres1
  simp only at hpending hnext hit hclients hres1
  subst hnext
  subst hit
  obtain ⟨c1, rest, rfl, hc1, hrest⟩ := List.map_eq_cons_iff.mp hclients
  have hnil : rest = [] := List.map_eq_nil_iff.mp hrest
  subst hnil
  simp only [Prod.mk.injEq] at hc1
  obtain ⟨hcounter1, htimer1, hunack1⟩ := hc1
  obtain ⟨p1, rest1, hset1, hp1, hrest1⟩ := List.map_eq_cons_iff.mp hunack1
  have hnil1 : rest1 = [] := List.map_eq_nil_iff.mp hrest1
  subst hnil1
  simp only [Prod.mk.injEq] at hp1
  have hw1 : SendsSucceed w1 := fun i => by
    rw [hres1]
    exact le_refl _
  obtain ⟨w, c, hrun, hw, hcounter, hcontent⟩ :=
    quiet_ticks_single (le_of_lt (by decide : 2 < 4)) 2 1 k w1 c1 hw1 hpending
      (by rw [hset1]; simp [IsPacketSet]) htimer1 (by rw [hcounter1]; norm_num)
  have hwhole : runTicks 4 (joinTick :: quietTicks k 0) quietPlatform GameServer.fresh =
      Run.finished (w, ⟨2, [c], 1⟩) := by
    simp only [runTicks, hfirst]
    exact hrun
  rw [hset1] at hcontent
  obtain ⟨p, rest2, hset, hp, hrest2⟩ := List.map_eq_cons_iff.mp hcontent
  have hnil2 : rest2 = [] := List.map_eq_nil_iff.mp hrest2
  subst hnil2
  have hnumber : p.number = p1.number := congrArg (fun x => x.2.2.1) hp
  have htype : p.type = p1.type := congrArg (fun x => x.1) hp
  refine ⟨w, c, p, hwhole, hw,
    (runTicks_reachable 4 _ (Reachable.fresh quietPlatform) hwhole).2, ?_, hset,
    hnumber.trans hp1.1, htype.trans hp1.2⟩
  rw [hcounter, hcounter1]

/-- C18: an in-flight number is not below the counter once the counter has wrapped. A client
joins the constructed server and never acknowledges its Reset, numbered 1; after the tick of
the Join the session's counter is 3. After `2 ^ 32 - 3` further ticks of zero length, the
broadcast of each of which sends the session one Update and adds one to the counter, the
run has completed and the counter, an `unsigned int`, stands at 0, which is not above the
number of the Reset that is still in flight. -/
theorem in_flight_number_not_below_wrapped_counter :
    ∃ w c p,
      runTicks 4 (joinTick :: quietTicks 4294967293 0) quietPlatform GameServer.fresh =
        Run.finished (w, ⟨2, [c], 1⟩) ∧
      (∃ n, Reachable n w ⟨2, [c], 1⟩) ∧
      c.unacknowledgedPackets = [p] ∧ p.type = PacketType.TYPE_Reset ∧ p.number = 1 ∧
      c.currentPacketNumber = 0 ∧ ¬ p.number < c.currentPacketNumber := by
  obtain ⟨w, c, p, hrun, _, hreach, hcounter, hset, hnumber, htype⟩ :=
    join_then_quiet_ticks 4294967293
  have hzero : c.currentPacketNumber = 0 := by
    rw [hcounter]
    norm_num
  exact ⟨w, c, p, hrun, hreach, hset, htype, hnumber, hzero,
    by rw [hzero]; exact Nat.not_lt_zero _⟩

/-- C16: a counter decreases and numbers are issued again once the counter has wrapped. A
client joins the constructed server; `2 ^ 32 - 4` further ticks of zero length pass, and the
counter of its session stands at `2 ^ 32 - 1`. The broadcast of the next tick sends the
session an Update with that number and leaves the counter at 0, and the broadcast after that
sends an Update numbered 0, which is below the number issued before it. -/
theorem counter_decreases_when_it_wraps :
    ∃ w w' w'' c c' c'' d d',
      runTicks 4 (joinTick :: quietTicks 4294967292 0) quietPlatform GameServer.fresh =
        Run.finished (w, ⟨2, [c], 1⟩) ∧
      (∃ n, Reachable n w ⟨2, [c], 1⟩) ∧
      BroadcastGameStateToClients w ⟨2, [c], 1⟩ = Except.ok (w', ⟨2, [c'], 1⟩) ∧
      BroadcastGameStateToClients w' ⟨2, [c'], 1⟩ = Except.ok (w'', ⟨2, [c''], 1⟩) ∧
      c'.identity = c.identity ∧
      c.currentPacketNumber = 4294967295 ∧ c'.currentPacketNumber = 0 ∧
      w'.sent = w.sent ++ [d] ∧ d.packet.number = 4294967295 ∧
      w''.sent = w'.sent ++ [d'] ∧ d'.packet.number = 0 := by
  obtain ⟨w, c, p, hrun, hw, hreach, hcounter, _, _, _⟩ := join_then_quiet_ticks 4294967292
  have hmax : c.currentPacketNumber = 4294967295 := by
    rw [hcounter]
    norm_num
  obtain ⟨w', s', hbroadcast⟩ := BroadcastGameStateToClients_succeeds hw ⟨2, [c], 1⟩
  have hw' : SendsSucceed w' :=
    SendsSucceed_of_sendResults hw (BroadcastGameStateToClients_frame hbroadcast).1
  obtain ⟨log, hsent, hlen, hs', hget⟩ := BroadcastGameStateToClients_eq hbroadcast
  have hstate' : s' = ⟨2, [c.numbered], 1⟩ := by
    rw [hs']
    rfl
  rw [hstate'] at hbroadcast
  obtain ⟨d, rfl⟩ : ∃ d, log = [d] := List.length_eq_one.mp (by simpa using hlen)
  have hd := hget 0 0 c c Nat.zero_lt_one rfl rfl
  simp only [List.length_singleton, Nat.mul_one, Nat.add_zero, List.getElem?_cons_zero,
    Option.some.injEq, Function.iterate_zero, id_eq] at hd
  obtain ⟨w'', s'', hbroadcast'⟩ :=
    BroadcastGameStateToClients_succeeds hw' ⟨2, [c.numbered], 1⟩
  obtain ⟨log', hsent', hlen', hs'', hget'⟩ := BroadcastGameStateToClients_eq hbroadcast'
  have hstate'' : s'' = ⟨2, [c.numbered.numbered], 1⟩ := by
    rw [hs'']
    rfl
  rw [hstate''] at hbroadcast'
  obtain ⟨d', rfl⟩ : ∃ d', log' = [d'] := List.length_eq_one.mp (by simpa using hlen')
  have hd' := hget' 0 0 c.numbered c.numbered Nat.zero_lt_one rfl rfl
  simp only [List.length_singleton, Nat.mul_one, Nat.add_zero, List.getElem?_cons_zero,
    Option.some.injEq, Function.iterate_zero, id_eq] at hd'
  have hzero : c.numbered.currentPacketNumber = 0 := by
    simp only [ClientInfo.numbered, hmax]
    norm_num
  refine ⟨w, w', w'', c, c.numbered, c.numbered.numbered, d, d', hrun, hreach, hbroadcast,
    hbroadcast', rfl, hmax, hzero, hsent, ?_, hsent', ?_⟩
  · rw [hd]
    exact hmax
  · rw [hd']
    exact hzero

/-! ## The numbers issued to a session -/

theorem sentTo_of_append {address : String × Nat} {w w' : Platform} {log : List Datagram}
    (hsent : w'.sent = w.sent ++ log) :
    sentTo address w w' =
      (((log.map Datagram.addressAndNumber).filter (fun x => decide (x.1 = address))).map
        Prod.snd) := by
  simp only [sentTo, hsent, List.drop_left, List.filter_map, List.map_map]
  rfl

theorem sentTo_nothing {address : String × Nat} (w : Platform) : sentTo address w w = [] := by
  simp [sentTo]

theorem filter_address_none {l : List ClientInfo} {address : String × Nat} (g : ClientInfo → Nat)
    (hnone : ∀ r ∈ l, r.address ≠ address) :
    (l.map (fun r => (r.address, g r))).filter (fun x => decide (x.1 = address)) = [] := by
  apply List.filter_eq_nil_iff.mpr
  intro x hx
  obtain ⟨r, hr, rfl⟩ := List.mem_map.mp hx
  simpa using hnone r hr

theorem filter_address_unique {l : List ClientInfo}
    (hnodup : (l.map ClientInfo.address).Nodup) {c : ClientInfo} (hc : c ∈ l)
    (g : ClientInfo → Nat) :
    ((l.map (fun r => (r.address, g r))).filter (fun x => decide (x.1 = c.address))).map
      Prod.snd = [g c] := by
  induction l with
  | nil => simp at hc
  | cons r rest ih =>
    rw [List.map_cons, List.nodup_cons] at hnodup
    obtain ⟨hfresh, hrest⟩ := hnodup
    rcases List.mem_cons.mp hc with hc | hc
    · subst hc
      have hnone : ∀ x ∈ rest, x.address ≠ c.address := by
        intro x hx hsame
        exact hfresh (hsame ▸ List.mem_map_of_mem _ hx)
      rw [List.map_cons, List.filter_cons_of_pos (by simp), filter_address_none g hnone]
      rfl
    · have hne : r.address ≠ c.address := by
        intro hsame
        exact hfresh (hsame ▸ List.mem_map_of_mem _ hc)
      rw [List.map_cons, List.filter_cons_of_neg (by simpa using hne)]
      exact ih hrest hc

theorem sendUpdateToEachClient_eq {w w' : Platform} {updatePacket : MidtermPacket}
    {clients clients' : List ClientInfo}
    (hkind : updatePacket.type = PacketType.TYPE_Update)
    (h : sendUpdateToEachClient w updatePacket clients = Except.ok (w', clients')) :
    ∃ log : List Datagram, w'.sent = w.sent ++ log ∧
      clients' = clients.map ClientInfo.numbered ∧
      log.map Datagram.addressAndNumber =
        clients.map (fun r => (r.address, r.currentPacketNumber)) := by
  have h1 := sendUpdateToEachClient_succeeding _ h
  obtain ⟨log, hrun, hlen, hget⟩ :=
    sendUpdateToEachClient_ok clients w.succeeding updatePacket (succeeding_sendsSucceed w) hkind
  rw [hrun] at h1
  simp only [Except.ok.injEq, Prod.mk.injEq] at h1
  obtain ⟨hw', hclients'⟩ := h1
  refine ⟨log, ?_, hclients'.symm, ?_⟩
  · have := congrArg Platform.sent hw'
    simpa [Platform.succeeding] using this.symm
  · apply List.ext_getElem?
    intro j
    rw [List.getElem?_map, List.getElem?_map]
    cases hj : clients[j]? with
    | none =>
      have : log[j]? = none := by
        rw [List.getElem?_eq_none_iff] at hj ⊢
        omega
      rw [this]
      rfl
    | some receiver =>
      rw [hget j receiver hj]
      rfl

theorem filter_numbers_of_map {log : List Datagram} {clients : List ClientInfo}
    {g : ClientInfo → Nat}
    (hlog : log.map Datagram.addressAndNumber = clients.map (fun r => (r.address, g r)))
    (hnodup : (clients.map ClientInfo.address).Nodup) {c : ClientInfo} (hc : c ∈ clients) :
    (log.filter (fun d => decide (d.address = c.address))).map (fun d => d.packet.number) =
      [g c] := by
  have h := filter_address_unique hnodup hc g
  rw [← hlog, List.filter_map, List.map_map] at h
  exact h

theorem resetEachClient_log {w w' : Platform} {itPlayerID itPlayerID' : Nat}
    {clients clients' : List ClientInfo}
    (h : resetEachClient w itPlayerID clients = Except.ok (w', itPlayerID', clients')) :
    ∃ log : List Datagram, w'.sent = w.sent ++ log ∧
      log.map Datagram.addressAndNumber =
        clients.map (fun r => (r.address, r.currentPacketNumber)) := by
  obtain ⟨packets, hsent, hlen, _, hforall⟩ := resetEachClient_eq h
  refine ⟨_, hsent, ?_⟩
  apply List.ext_getElem?
  intro j
  rw [List.getElem?_map, List.getElem?_map]
  cases hj : clients[j]? with
  | none =>
    have : (List.zipWith (fun c p => (⟨p, c.ipAddress, c.portNumber⟩ : Datagram))
        clients packets)[j]? = none := by
      rw [List.getElem?_eq_none_iff] at hj ⊢
      simp only [List.length_zipWith]
      omega
    rw [this]
    rfl
  | some c =>
    have hjlt : j < clients.length := (List.getElem?_eq_some.mp hj).1
    have hp : packets[j]? = some (packets[j]) := List.getElem?_eq_getElem (hlen ▸ hjlt)
    have hzip : (clients.zip packets)[j]? = some (c, packets[j]) :=
      List.getElem?_zip_eq_some.mpr ⟨hj, hp⟩
    obtain ⟨c', _, it, _, hreset⟩ := forall₂_getElem? hforall hzip
    have hentry : (List.zipWith (fun c p => (⟨p, c.ipAddress, c.portNumber⟩ : Datagram))
        clients packets)[j]? = some ⟨packets[j], c.ipAddress, c.portNumber⟩ :=
      List.getElem?_zipWith_eq_some.mpr ⟨c, packets[j], hj, hp, rfl⟩
    rw [hentry]
    simp only [Option.map_some', Datagram.addressAndNumber, Datagram.address,
      ClientInfo.address]
    rw [hreset.2.2.1]

theorem counterAfter_add (counter a b : Nat) :
    counterAfter counter (a + b) = counterAfter (counterAfter counter a) b := by
  induction b with
  | zero => rfl
  | succ b ih =>
    show (counterAfter counter (a + b) + 1) % 2 ^ 32 =
      (counterAfter (counterAfter counter a) b + 1) % 2 ^ 32
    rw [ih]

theorem counterAfter_small {counter issued : Nat} (h : counter + issued < 2 ^ 32) :
    counterAfter counter issued = counter + issued := by
  induction issued with
  | zero => rfl
  | succ k ih =>
    show (counterAfter counter k + 1) % 2 ^ 32 = counter + (k + 1)
    rw [ih (by omega)]
    exact Nat.mod_eq_of_lt (by omega)

theorem counterAfter_numbered (c : ClientInfo) (k : Nat) :
    (ClientInfo.numbered^[k] c).currentPacketNumber =
      counterAfter c.currentPacketNumber k := by
  induction k with
  | zero => rfl
  | succ k ih =>
    rw [Function.iterate_succ_apply']
    show ((ClientInfo.numbered^[k] c).currentPacketNumber + 1) % 2 ^ 32 = _
    rw [ih]
    rfl

theorem range_map_counterAfter (counter a b : Nat) :
    (List.range (a + b)).map (counterAfter counter) =
      (List.range a).map (counterAfter counter) ++
        (List.range b).map (counterAfter (counterAfter counter a)) := by
  rw [List.range_add, List.map_append, List.map_map]
  congr 1
  apply List.map_congr_left
  intro i _
  exact counterAfter_add counter a i

theorem range_map_counterAfter_small {counter issued : Nat} (h : counter + issued < 2 ^ 32) :
    (List.range issued).map (counterAfter counter) = List.range' counter issued := by
  rw [List.range'_eq_map_range]
  apply List.map_congr_left
  intro i hi
  rw [List.mem_range] at hi
  exact counterAfter_small (by omega)

theorem IssuedTo.nothing {before after : ClientInfo}
    (haddress : after.address = before.address) (hid : after.id = before.id)
    (hcounter : after.currentPacketNumber = before.currentPacketNumber)
    (hunack : ∀ p ∈ after.unacknowledgedPackets,
      ∃ q ∈ before.unacknowledgedPackets, q.number = p.number) :
    IssuedTo [] before after :=
  ⟨haddress, hid, hcounter, rfl, fun p hp => Or.inl (hunack p hp)⟩

theorem IssuedTo.refl (c : ClientInfo) : IssuedTo [] c c :=
  IssuedTo.nothing rfl rfl rfl (fun p hp => ⟨p, hp, rfl⟩)

theorem IssuedTo.followedBy {first second : List Nat} {a b c : ClientInfo}
    (hab : IssuedTo first a b) (hbc : IssuedTo second b c) :
    IssuedTo (first ++ second) a c := by
  obtain ⟨haddress1, hid1, hcounter1, hnumbers1, hflight1⟩ := hab
  obtain ⟨haddress2, hid2, hcounter2, hnumbers2, hflight2⟩ := hbc
  refine ⟨haddress2.trans haddress1, hid2.trans hid1, ?_, ?_, ?_⟩
  · rw [hcounter2, hcounter1, List.length_append, counterAfter_add]
  · rw [List.length_append, range_map_counterAfter, ← hnumbers1, ← hcounter1, ← hnumbers2]
  · intro p hp
    rcases hflight2 p hp with ⟨q, hq, hqp⟩ | hsecond
    · rcases hflight1 q hq with ⟨r, hr, hrq⟩ | hfirst
      · exact Or.inl ⟨r, hr, hrq.trans hqp⟩
      · exact Or.inr (List.mem_append_left _ (hqp ▸ hfirst))
    · exact Or.inr (List.mem_append_right _ hsecond)

theorem broadcastFrom_numbers (remaining : Nat) :
    ∀ {i : Nat} {w w' : Platform} {clients clients' : List ClientInfo},
      broadcastFrom w clients i remaining = Except.ok (w', clients') →
      i + remaining = clients.length →
      (clients.map ClientInfo.address).Nodup →
      ∀ c ∈ clients,
        ∃ log : List Datagram, w'.sent = w.sent ++ log ∧
          (log.filter (fun d => decide (d.address = c.address))).map
            (fun d => d.packet.number) =
            (List.range remaining).map (counterAfter c.currentPacketNumber) := by
  induction remaining with
  | zero =>
    intro i w w' clients clients' h _ _ c _
    simp only [broadcastFrom, Except.ok.injEq, Prod.mk.injEq] at h
    obtain ⟨rfl, rfl⟩ := h
    exact ⟨[], by simp, rfl⟩
  | succ remaining ih =>
    intro i w w' clients clients' h hlen hnodup c hc
    simp only [broadcastFrom] at h
    have hi : i < clients.length := by omega
    rw [List.getElem?_eq_getElem hi] at h
    simp only at h
    split at h
    · cases h
    · rename_i w1 clients1 hsend
      obtain ⟨log1, hsent1, hclients1, hlog1⟩ := sendUpdateToEachClient_eq rfl hsend
      subst hclients1
      have hfirst := filter_numbers_of_map (g := fun r => r.currentPacketNumber) hlog1 hnodup hc
      have hnodup1 : ((clients.map ClientInfo.numbered).map ClientInfo.address).Nodup := by
        rw [List.map_map]
        exact hnodup
      have hc1 : c.numbered ∈ clients.map ClientInfo.numbered := List.mem_map_of_mem _ hc
      obtain ⟨log2, hsent2, hrest⟩ := ih h (by simp only [List.length_map]; omega) hnodup1
        c.numbered hc1
      refine ⟨log1 ++ log2, by rw [hsent2, hsent1, List.append_assoc], ?_⟩
      rw [List.filter_append, List.map_append, hfirst]
      have hrest' : (log2.filter (fun d => decide (d.address = c.address))).map
          (fun d => d.packet.number) =
          (List.range remaining).map
            (counterAfter (counterAfter c.currentPacketNumber 1)) := hrest
      rw [hrest', Nat.add_comm remaining 1, range_map_counterAfter]
      rfl

theorem BroadcastGameStateToClients_issuedTo {w w' : Platform} {s s' : GameServer}
    (h : BroadcastGameStateToClients w s = Except.ok (w', s'))
    (hnodup : (s.m_clientList.map ClientInfo.address).Nodup) {c : ClientInfo}
    (hc : c ∈ s.m_clientList) :
    ∃ c' ∈ s'.m_clientList, IssuedTo (sentTo c.address w w') c c' := by
  obtain ⟨_, _, _, hs', _⟩ := BroadcastGameStateToClients_eq h
  simp only [BroadcastGameStateToClients] at h
  split at h
  · cases h
  · rename_i w1 clients hloop
    simp only [Except.ok.injEq, Prod.mk.injEq] at h
    obtain ⟨rfl, _⟩ := h
    obtain ⟨log, hsent, hnumbers⟩ :=
      broadcastFrom_numbers _ hloop (Nat.zero_add _) hnodup c hc
    have hissued : sentTo c.address w w1 =
        (List.range s.m_clientList.length).map (counterAfter c.currentPacketNumber) := by
      simp only [sentTo, hsent, List.drop_left]
      exact hnumbers
    have hlength : (sentTo c.address w w1).length = s.m_clientList.length := by
      rw [hissued]
      simp
    refine ⟨ClientInfo.numbered^[s.m_clientList.length] c, ?_, ?_, ?_, ?_, ?_, ?_⟩
    · rw [hs']
      exact List.mem_map_of_mem _ hc
    · rw [numbered_iterate_fields]
      rfl
    · rw [numbered_iterate_fields]
    · rw [hlength]
      exact counterAfter_numbered c _
    · rw [hlength]
      exact hissued
    · intro p hp
      rw [numbered_iterate_fields] at hp
      exact Or.inl ⟨p, hp, rfl⟩

theorem dispatchReceived_issuedTo {w w' : Platform} {s s' : GameServer} {ipAddress : String}
    {portNumber : Nat} {packet : MidtermPacket} {resample : Bool}
    (h : dispatchReceived w s ipAddress portNumber packet = Except.ok (w', s', resample))
    (hnodup : (s.m_clientList.map ClientInfo.address).Nodup) {c : ClientInfo}
    (hc : c ∈ s.m_clientList) :
    ∃ c' ∈ s'.m_clientList, IssuedTo (sentTo c.address w w') c c' := by
  obtain ⟨j, hj⟩ := List.mem_iff_getElem?.mp hc
  cases hfind : FindClientByAddress s.m_clientList ipAddress portNumber with
  | none =>
    by_cases hkind : packet.type = PacketType.TYPE_Join
    · obtain ⟨client, reset, hs', hsent, _⟩ := dispatchReceived_join_eq hfind hkind h
      have hother : ¬ (c.ipAddress = ipAddress ∧ c.portNumber = portNumber) :=
        FindClientByAddress_none.mp hfind c hc
      have hnothing : sentTo c.address w w' = [] := by
        rw [sentTo_of_append hsent]
        simp only [List.map_cons, List.map_nil, Datagram.addressAndNumber, Datagram.address,
          ClientInfo.address]
        rw [List.filter_cons_of_neg]
        · rfl
        · simp only [decide_eq_true_eq, Prod.mk.injEq]
          intro hsame
          exact hother ⟨hsame.1.symm, hsame.2.symm⟩
      refine ⟨c, ?_, ?_⟩
      · rw [hs']
        exact List.mem_append_left _ hc
      · rw [hnothing]
        exact IssuedTo.refl c
    · rw [dispatchReceived_unknown w s ipAddress portNumber packet hkind hfind] at h
      simp only [Except.ok.injEq, Prod.mk.injEq] at h
      obtain ⟨rfl, rfl, _⟩ := h
      refine ⟨c, hc, ?_⟩
      rw [sentTo_nothing]
      exact IssuedTo.refl c
  | some receivedClient =>
    obtain ⟨s1, c1, hc1, hs', _, hcases⟩ := dispatchReceived_known_shape hfind h
    have hs1 : ∃ x, s1.m_clientList[j]? = some x ∧ IssuedTo (sentTo c.address w w') c x := by
      rcases hcases with ⟨_, hw', hack⟩ | ⟨_, hw', c0, hc0, hupdate⟩ | ⟨_, htouch⟩ |
        ⟨_, _, _, hw', hsame⟩
      · obtain ⟨i, client, _, hclient, hs1⟩ := RemoveAcknowledgedPacketFromClientQueue_eq hack
        subst hw'
        rw [hs1, sentTo_nothing]
        exact getElem?_set_rel (R := IssuedTo []) IssuedTo.refl hclient
          (b := { client with
            unacknowledgedPackets :=
              eraseAcknowledged packet.data.acknowledged.packetNumber
                client.unacknowledgedPackets })
          (IssuedTo.nothing rfl rfl rfl (fun p hp =>
            ⟨p, (eraseAcknowledged_sublist _ _).subset hp, rfl⟩)) hj
      · subst hw'
        rw [hupdate, sentTo_nothing]
        exact getElem?_set_rel (R := IssuedTo []) IssuedTo.refl hc0
          (b := ReceiveUpdateFromClient packet c0)
          (IssuedTo.nothing rfl rfl rfl (fun p hp => ⟨p, hp, rfl⟩)) hj
      · obtain ⟨i, k, touching, it, _, _, _, _, hreset, _⟩ := HandleTouchAndResetGame_eq htouch
        obtain ⟨log, hsent, hlog⟩ := resetEachClient_log hreset
        have hnumbers : sentTo c.address w w' = [c.currentPacketNumber] := by
          simp only [sentTo, hsent, List.drop_left]
          exact filter_numbers_of_map (g := fun r => r.currentPacketNumber) hlog hnodup hc
        obtain ⟨_, c', reset, it', hc', hof, _⟩ := resetEachClient_positions hreset hj
        refine ⟨c', hc', ?_⟩
        rw [hnumbers]
        refine ⟨?_, ?_, ?_, rfl, ?_⟩
        · rw [hof.2.2.2.2]
          rfl
        · rw [hof.2.2.2.2]
        · rw [hof.2.2.2.2]
          rfl
        · intro p hp
          rw [hof.2.2.2.2] at hp
          rcases mem_setInsert hp with hnew | hold
          · right
            rw [hnew, hof.2.2.1]
            exact List.mem_singleton.mpr rfl
          · exact Or.inl ⟨p, hold, rfl⟩
      · subst hw'
        subst hsame
        rw [sentTo_nothing]
        exact ⟨c, hj, IssuedTo.refl c⟩
    obtain ⟨x, hx, hissued⟩ := hs1
    obtain ⟨y, hy, hr⟩ := getElem?_set_rel (R := IssuedTo []) IssuedTo.refl hc1
      (b := { c1 with secondsSinceLastReceivedPacket := 0 })
      (IssuedTo.nothing rfl rfl rfl (fun p hp => ⟨p, hp, rfl⟩)) hx
    refine ⟨y, ?_, ?_⟩
    · rw [hs']
      exact List.mem_iff_getElem?.mpr ⟨j, hy⟩
    · have := hissued.followedBy hr
      rwa [List.append_nil] at this

theorem timeout_issuedTo {fuel : Nat} {deltaSeconds : Float32}
    {clients clients' : List ClientInfo}
    (h : removeTimedOutClients fuel deltaSeconds clients = some clients')
    (hnodup : (clients.map ClientInfo.address).Nodup) {c : ClientInfo} (hc : c ∈ clients)
    (hlive : c.address ∈ clients'.map ClientInfo.address) :
    ∃ c' ∈ clients', IssuedTo [] c c' := by
  obtain ⟨c', hc', haddress⟩ := List.mem_map.mp hlive
  obtain ⟨y, hy, hissued⟩ := timeoutLoop_forall
    (fun x => ∃ y ∈ clients, IssuedTo [] y x)
    (fun x t hx => by
      obtain ⟨y, hy, haddress, hid, hcounter, hnumbers, hflight⟩ := hx
      exact ⟨y, hy, haddress, hid, hcounter, hnumbers, hflight⟩)
    deltaSeconds fuel h (fun x hx => ⟨x, hx, IssuedTo.refl x⟩) c' hc'
  have hyc : y = c :=
    List.inj_on_of_nodup_map hnodup hy hc (hissued.1.symm.trans haddress)
  subst hyc
  exact ⟨c', hc', hissued⟩

theorem resend_issuedTo {w w' : Platform} {clients clients' : List ClientInfo}
    (h : resendUnacknowledgedPackets w clients = Except.ok (w', clients'))
    (hsets : ∀ c ∈ clients, IsPacketSet c.unacknowledgedPackets) {c : ClientInfo}
    (hc : c ∈ clients) :
    ∃ c' ∈ clients', IssuedTo [] c c' := by
  obtain ⟨j, hj⟩ := List.mem_iff_getElem?.mp hc
  obtain ⟨log, _, _, hsame⟩ := resendUnacknowledgedPackets_eq hsets h
  obtain ⟨c', hc', hrel⟩ := forall₂_getElem? hsame hj
  refine ⟨c', List.mem_iff_getElem?.mpr ⟨j, hc'⟩, IssuedTo.nothing ?_ ?_ ?_ ?_⟩
  · rw [hrel.1]
    rfl
  · rw [hrel.1]
  · rw [hrel.1]
  · intro p hp
    have hmem : p.number ∈ c'.unacknowledgedPackets.map (·.number) :=
      List.mem_map_of_mem _ hp
    rw [content_numbers hrel.2] at hmem
    obtain ⟨q, hq, hqp⟩ := List.mem_map.mp hmem
    exact ⟨q, hq, hqp⟩

/-- The history of a session over a stretch of a run: the session is live at its end, and
what has been issued to it are the numbers collected along the stretch. -/
theorem issuedSince_issuedTo {n : Nat} {w0 : Platform} {s0 : GameServer}
    (hreach : Reachable n w0 s0) {c0 : ClientInfo} (hc0 : c0 ∈ s0.m_clientList)
    {w : Platform} {s : GameServer} {numbers : List Nat}
    (hrun : IssuedSince c0.address w0 s0 w s numbers) :
    (∃ m, Reachable m w s) ∧ ∃ c ∈ s.m_clientList, IssuedTo numbers c0 c := by
  induction hrun with
  | start _ => exact ⟨⟨n, hreach⟩, c0, hc0, IssuedTo.refl c0⟩
  | network pending _ ih =>
    obtain ⟨⟨m, hm⟩, hinv⟩ := ih
    exact ⟨⟨m, Reachable.network pending hm⟩, hinv⟩
  | @dispatch w w' s s' numbers resample ipAddress portNumber packet _ hstep ih =>
    obtain ⟨⟨m, hm⟩, c, hc, hissued⟩ := ih
    refine ⟨⟨_, Reachable.dispatch ipAddress portNumber packet hm hstep⟩, ?_⟩
    obtain ⟨c', hc', hstepTo⟩ := dispatchReceived_issuedTo hstep (reachable_addresses hm) hc
    rw [hissued.1] at hstepTo
    exact ⟨c', hc', hissued.followedBy hstepTo⟩
  | @broadcast w w' s s' numbers _ hstep ih =>
    obtain ⟨⟨m, hm⟩, c, hc, hissued⟩ := ih
    refine ⟨⟨_, Reachable.broadcast hm hstep⟩, ?_⟩
    obtain ⟨c', hc', hstepTo⟩ :=
      BroadcastGameStateToClients_issuedTo hstep (reachable_addresses hm) hc
    rw [hissued.1] at hstepTo
    exact ⟨c', hc', hissued.followedBy hstepTo⟩
  | @timeout w s numbers fuel deltaSeconds clients _ hstep hlive ih =>
    obtain ⟨⟨m, hm⟩, c, hc, hissued⟩ := ih
    refine ⟨⟨_, Reachable.timeout fuel deltaSeconds hm hstep⟩, ?_⟩
    obtain ⟨c', hc', hstepTo⟩ :=
      timeout_issuedTo hstep (reachable_addresses hm) hc (hissued.1 ▸ hlive)
    have := hissued.followedBy hstepTo
    rw [List.append_nil] at this
    exact ⟨c', hc', this⟩
  | @resend w w' s numbers clients _ hstep ih =>
    obtain ⟨⟨m, hm⟩, c, hc, hissued⟩ := ih
    refine ⟨⟨_, Reachable.resend hm hstep⟩, ?_⟩
    obtain ⟨c', hc', hstepTo⟩ :=
      resend_issuedTo hstep (fun x hx => (reachable_sessions_in_order hm x hx).1) hc
    have := hissued.followedBy hstepTo
    rw [List.append_nil] at this
    exact ⟨c', hc', this⟩

theorem IssuedTo.small {numbers : List Nat} {before after : ClientInfo}
    (h : IssuedTo numbers before after)
    (hsmall : before.currentPacketNumber + numbers.length < 2 ^ 32) :
    after.currentPacketNumber = before.currentPacketNumber + numbers.length ∧
    numbers = List.range' before.currentPacketNumber numbers.length ∧
    ∀ p ∈ after.unacknowledgedPackets,
      (∃ q ∈ before.unacknowledgedPackets, q.number = p.number) ∨
        (before.currentPacketNumber ≤ p.number ∧ p.number < after.currentPacketNumber) := by
  obtain ⟨_, _, hcounter, hnumbers, hflight⟩ := h
  have hcounter' : after.currentPacketNumber =
      before.currentPacketNumber + numbers.length := by
    rw [hcounter]
    exact counterAfter_small hsmall
  have hnumbers' : numbers = List.range' before.currentPacketNumber numbers.length := by
    conv_lhs => rw [hnumbers]
    exact range_map_counterAfter_small hsmall
  refine ⟨hcounter', hnumbers', ?_⟩
  intro p hp
  rcases hflight p hp with hold | hnew
  · exact Or.inl hold
  · right
    rw [hnumbers', List.mem_range'_1] at hnew
    omega

theorem sentTo_join {w0 w1 : Platform} {created : ClientInfo} {reset : MidtermPacket}
    (hsent : w1.sent = w0.sent ++ [⟨reset, created.ipAddress, created.portNumber⟩])
    (hnumber : reset.number = 1) : sentTo created.address w0 w1 = [1] := by
  simp [sentTo, hsent, Datagram.address, ClientInfo.address, hnumber]

/-- The session that a dispatch appends is the one a Join creates: it has counter 2 and the
Reset numbered 1, which the dispatch sent to it, in flight. -/
theorem created_session {w0 w1 : Platform} {s0 s1 : GameServer} {ipAddress : String}
    {portNumber : Nat} {packet : MidtermPacket} {resample : Bool} {created : ClientInfo}
    (hstep : dispatchReceived w0 s0 ipAddress portNumber packet = Except.ok (w1, s1, resample))
    (hcreated : s1.m_clientList = s0.m_clientList ++ [created]) :
    created.currentPacketNumber = 2 ∧ sentTo created.address w0 w1 = [1] ∧
    ∃ reset, created.unacknowledgedPackets = [reset] ∧ reset.number = 1 ∧
      reset.type = PacketType.TYPE_Reset ∧ reset.clientID = created.id := by
  have hlen : s1.m_clientList.length ≠ s0.m_clientList.length := by
    rw [hcreated]
    simp
  cases hfind : FindClientByAddress s0.m_clientList ipAddress portNumber with
  | some receivedClient =>
    exact absurd (by
      have := congrArg List.length (dispatchReceived_known_frame hfind hstep).1
      simpa using this) hlen
  | none =>
    by_cases hkind : packet.type = PacketType.TYPE_Join
    · obtain ⟨client, reset, hs1, hsent, htype, hid, hnumber, hident, hcounter, hset, _⟩ :=
        dispatchReceived_join_eq hfind hkind hstep
      have hsame : created = client := by
        rw [hs1] at hcreated
        simpa using hcreated.symm
      subst hsame
      have hip : created.ipAddress = ipAddress := congrArg (fun t => t.2.1) hident
      have hport : created.portNumber = portNumber := congrArg (fun t => t.2.2) hident
      exact ⟨hcounter, sentTo_join (by rw [hip, hport]; exact hsent) hnumber,
        reset, hset, hnumber, htype, hid⟩
    · rw [dispatchReceived_unknown w0 s0 ipAddress portNumber packet hkind hfind] at hstep
      simp only [Except.ok.injEq, Prod.mk.injEq] at hstep
      exact absurd (by rw [← hstep.2.1]) hlen

/-- Every session of a reachable state has a history from its creation. -/
theorem reachable_session_has_history {n : Nat} {w : Platform} {s : GameServer}
    (h : Reachable n w s) :
    ∀ c ∈ s.m_clientList, ∃ numbers, CreatedThenIssued c.address w s numbers := by
  induction h with
  | fresh w =>
    intro c hc
    simp [GameServer.fresh] at hc
  | network pending _ ih =>
    intro c hc
    obtain ⟨numbers, n0, w0, w1, s0, s1, ip, port, packet, resample, created, h0, hjoin,
      hlist, haddress, hrun⟩ := ih c hc
    exact ⟨numbers, n0, w0, w1, s0, s1, ip, port, packet, resample, created, h0, hjoin,
      hlist, haddress, IssuedSince.network pending hrun⟩
  | @dispatch n w w' s s' resample ipAddress portNumber packet hprev hstep ih =>
    intro c' hc'
    have hold : ∀ c ∈ s.m_clientList, c.address = c'.address →
        ∃ numbers, CreatedThenIssued c'.address w' s' numbers := by
      intro c hc hsame
      obtain ⟨numbers, n0, w0, w1, s0, s1, ip, port, join, r, created, h0, hjoin,
        hlist, haddress, hrun⟩ := ih c hc
      rw [hsame] at haddress hrun
      exact ⟨_, n0, w0, w1, s0, s1, ip, port, join, r, created, h0, hjoin, hlist, haddress,
        IssuedSince.dispatch ipAddress portNumber packet hrun hstep⟩
    rcases (dispatchReceived_cases hstep).2 with ⟨hsame, _⟩ | ⟨client, hlist, _⟩
    · have hmem : c'.address ∈ s.m_clientList.map ClientInfo.address := by
        rw [← addresses_of_identity hsame]
        exact List.mem_map_of_mem _ hc'
      obtain ⟨c, hc, hca⟩ := List.mem_map.mp hmem
      exact hold c hc hca
    · rw [hlist] at hc'
      rcases List.mem_append.mp hc' with hc | hnew
      · exact hold c' hc rfl
      · rw [List.mem_singleton] at hnew
        subst hnew
        exact ⟨[], n, w, w', s, s', ipAddress, portNumber, packet, resample, c', hprev, hstep,
          hlist, rfl, IssuedSince.start (by rw [hlist]; simp)⟩
  | @broadcast n w w' s s' hprev hstep ih =>
    intro c' hc'
    have hsame := (BroadcastGameStateToClients_frame hstep).2.2.2.2
    have hmem : c'.address ∈ s.m_clientList.map ClientInfo.address := by
      rw [← addresses_of_identity hsame]
      exact List.mem_map_of_mem _ hc'
    obtain ⟨c, hc, hca⟩ := List.mem_map.mp hmem
    obtain ⟨numbers, n0, w0, w1, s0, s1, ip, port, join, r, created, h0, hjoin,
      hlist, haddress, hrun⟩ := ih c hc
    rw [hca] at haddress hrun
    exact ⟨_, n0, w0, w1, s0, s1, ip, port, join, r, created, h0, hjoin, hlist, haddress,
      IssuedSince.broadcast hrun hstep⟩
  | @timeout n w s fuel deltaSeconds clients hprev hstep ih =>
    intro c' hc'
    have hlive : c'.address ∈ clients.map ClientInfo.address := List.mem_map_of_mem _ hc'
    have hmem : c'.address ∈ s.m_clientList.map ClientInfo.address :=
      (addresses_sublist_of_identity (timeoutLoop_sublist _ _ hstep)).subset hlive
    obtain ⟨c, hc, hca⟩ := List.mem_map.mp hmem
    obtain ⟨numbers, n0, w0, w1, s0, s1, ip, port, join, r, created, h0, hjoin,
      hlist, haddress, hrun⟩ := ih c hc
    rw [hca] at haddress hrun
    exact ⟨_, n0, w0, w1, s0, s1, ip, port, join, r, created, h0, hjoin, hlist, haddress,
      IssuedSince.timeout fuel deltaSeconds hrun hstep hlive⟩
  | @resend n w w' s clients hprev hstep ih =>
    intro c' hc'
    have hsame := (resendUnacknowledgedPackets_frame _ hstep).2.2
    have hmem : c'.address ∈ s.m_clientList.map ClientInfo.address := by
      rw [← addresses_of_identity hsame]
      exact List.mem_map_of_mem _ hc'
    obtain ⟨c, hc, hca⟩ := List.mem_map.mp hmem
    obtain ⟨numbers, n0, w0, w1, s0, s1, ip, port, join, r, created, h0, hjoin,
      hlist, haddress, hrun⟩ := ih c hc
    rw [hca] at haddress hrun
    exact ⟨_, n0, w0, w1, s0, s1, ip, port, join, r, created, h0, hjoin, hlist, haddress,
      IssuedSince.resend hrun hstep⟩

/-- What the history of a session says of it: its counter is 2 incremented once per number
issued, the numbers are the values the counter went through, and every in-flight number is
1 or one of the numbers issued. -/
theorem history_of_session {w : Platform} {s : GameServer} {c : ClientInfo}
    {numbers : List Nat} (hc : c ∈ s.m_clientList)
    (hhistory : CreatedThenIssued c.address w s numbers) :
    (∃ m, Reachable m w s) ∧
    c.currentPacketNumber = counterAfter 2 numbers.length ∧
    numbers = (List.range numbers.length).map (counterAfter 2) ∧
    ∀ p ∈ c.unacknowledgedPackets, p.number = 1 ∨ p.number ∈ numbers := by
  obtain ⟨n0, w0, w1, s0, s1, ip, port, join, r, created, h0, hjoin, hlist, haddress,
    hrun⟩ := hhistory
  obtain ⟨hcounter, _, reset, hflight, hnumber, _⟩ := created_session hjoin hlist
  have hcreated : created ∈ s1.m_clientList := by
    rw [hlist]
    simp
  rw [← haddress] at hrun
  obtain ⟨⟨m, hm⟩, c', hc', hissued⟩ :=
    issuedSince_issuedTo (Reachable.dispatch ip port join h0 hjoin) hcreated hrun
  have hsame : c' = c :=
    List.inj_on_of_nodup_map (reachable_addresses hm) hc' hc (hissued.1.trans haddress)
  subst hsame
  obtain ⟨_, _, hcounter', hnumbers', hflight'⟩ := hissued
  rw [hcounter] at hcounter' hnumbers'
  refine ⟨⟨m, hm⟩, hcounter', hnumbers', ?_⟩
  intro p hp
  rcases hflight' p hp with ⟨q, hq, hqp⟩ | hnew
  · left
    rw [hflight, List.mem_singleton] at hq
    rw [← hqp, hq, hnumber]
  · exact Or.inr hnew

/-! ## Claims on counters and in-flight sets -/

theorem afterOneJoin_step :
    dispatchReceived quietPlatform GameServer.fresh "10.0.0.1" 7
        (packetOfType PacketType.TYPE_Join) =
      Except.ok (afterOneJoin.1, afterOneJoin.2, false) := by
  with_unfolding_all rfl

theorem afterOneJoinBroadcast_step :
    BroadcastGameStateToClients afterOneJoin.1 afterOneJoin.2 =
      Except.ok (afterOneJoinBroadcast.1, afterOneJoinBroadcast.2) := by
  with_unfolding_all rfl

theorem afterOneJoinTouch_step :
    dispatchReceived afterOneJoinBroadcast.1 afterOneJoinBroadcast.2 "10.0.0.1" 7
        (touchFrom "10.0.0.1" 7 1 1).packet =
      Except.ok (afterOneJoinTouch.1, afterOneJoinTouch.2, true) := by
  with_unfolding_all rfl

theorem afterSecondBroadcast_step :
    BroadcastGameStateToClients afterOneJoinTouch.1 afterOneJoinTouch.2 =
      Except.ok (afterSecondBroadcast.1, afterSecondBroadcast.2) := by
  with_unfolding_all rfl

theorem afterOneJoin_created :
    ∃ created, afterOneJoin.2.m_clientList = GameServer.fresh.m_clientList ++ [created] ∧
      created.address = ("10.0.0.1", 7) := by
  obtain ⟨created, hlist, hident, _⟩ :=
    dispatchReceived_join_frame (by decide) rfl afterOneJoin_step
  exact ⟨created, hlist, congrArg Prod.snd hident⟩

theorem afterSecondBroadcast_issued :
    IssuedSince ("10.0.0.1", 7) afterOneJoin.1 afterOneJoin.2 afterSecondBroadcast.1
      afterSecondBroadcast.2 [2, 3, 4] := by
  obtain ⟨created, hlist, haddress⟩ := afterOneJoin_created
  have hstart : IssuedSince ("10.0.0.1", 7) afterOneJoin.1 afterOneJoin.2 afterOneJoin.1
      afterOneJoin.2 [] :=
    IssuedSince.start (by rw [hlist, ← haddress]; simp)
  have hrun := IssuedSince.broadcast
    (IssuedSince.dispatch "10.0.0.1" 7 (touchFrom "10.0.0.1" 7 1 1).packet
      (IssuedSince.broadcast hstart afterOneJoinBroadcast_step) afterOneJoinTouch_step)
    afterSecondBroadcast_step
  have hnumbers : ([] ++ sentTo ("10.0.0.1", 7) afterOneJoin.1 afterOneJoinBroadcast.1 ++
      sentTo ("10.0.0.1", 7) afterOneJoinBroadcast.1 afterOneJoinTouch.1 ++
      sentTo ("10.0.0.1", 7) afterOneJoinTouch.1 afterSecondBroadcast.1) = [2, 3, 4] := by
    decide!
  rw [hnumbers] at hrun
  exact hrun

theorem afterSecondBroadcast_reachable :
    ∃ m, Reachable m afterSecondBroadcast.1 afterSecondBroadcast.2 :=
  ⟨_, Reachable.broadcast
    (Reachable.dispatch _ _ _ (Reachable.broadcast afterOneJoin_reachable
      afterOneJoinBroadcast_step) afterOneJoinTouch_step) afterSecondBroadcast_step⟩

theorem afterSecondBroadcast_history :
    CreatedThenIssued ("10.0.0.1", 7) afterSecondBroadcast.1 afterSecondBroadcast.2
      [2, 3, 4] := by
  obtain ⟨created, hlist, haddress⟩ := afterOneJoin_created
  exact ⟨0, quietPlatform, afterOneJoin.1, GameServer.fresh, afterOneJoin.2, "10.0.0.1", 7,
    packetOfType PacketType.TYPE_Join, false, created, Reachable.fresh quietPlatform,
    afterOneJoin_step, hlist, haddress, afterSecondBroadcast_issued⟩

/-- C16, as the code has it: while the counter of a session has not wrapped, the numbers
newly issued to it are consecutive and its counter does not decrease. Take any reachable
state, a session `c0` live in it, and any stretch of steps from there (datagrams arriving,
dispatches of any datagram, broadcasts, timeout sweeps that keep the session, resend sweeps)
during which the packets newly issued to the session, Resets and broadcast Updates but not
retransmissions, carry the numbers `numbers`, in order. When the counter of `c0` plus the
count of `numbers` is below `2 ^ 32`, the session is still live, `numbers` are the value the
counter of `c0` had and the values that follow it, one by one, the counter has advanced by
the count of `numbers` and so has not decreased, each number is greater than those before
it, no number occurs twice, and each is at least the old and below the new counter. A
session that the dispatch of a Join creates is sent the Reset numbered 1 and has counter 2,
and as long as fewer than `2 ^ 32 - 2` further packets have been issued to it the numbers
issued to it from its creation on are 1, 2, 3 and so on, its counter being the next one.
Every session of a reachable state has such a history. -/
theorem numbers_issued_to_a_session_are_consecutive (n : Nat) (w0 : Platform)
    (s0 : GameServer) (hreach : Reachable n w0 s0) :
    (∀ c0 ∈ s0.m_clientList, ∀ (w : Platform) (s : GameServer) (numbers : List Nat),
      IssuedSince c0.address w0 s0 w s numbers →
      c0.currentPacketNumber + numbers.length < 2 ^ 32 →
      ∃ c ∈ s.m_clientList, c.address = c0.address ∧
        c.currentPacketNumber = c0.currentPacketNumber + numbers.length ∧
        c0.currentPacketNumber ≤ c.currentPacketNumber ∧
        numbers = List.range' c0.currentPacketNumber numbers.length ∧
        numbers.Pairwise (· < ·) ∧ numbers.Nodup ∧
        ∀ x ∈ numbers, c0.currentPacketNumber ≤ x ∧ x < c.currentPacketNumber) ∧
    (∀ (ipAddress : String) (portNumber : Nat) (packet : MidtermPacket) (w1 : Platform)
        (s1 : GameServer) (resample : Bool) (created : ClientInfo),
      dispatchReceived w0 s0 ipAddress portNumber packet = Except.ok (w1, s1, resample) →
      s1.m_clientList = s0.m_clientList ++ [created] →
      created.currentPacketNumber = 2 ∧ sentTo created.address w0 w1 = [1] ∧
      ∀ (w : Platform) (s : GameServer) (numbers : List Nat),
        IssuedSince created.address w1 s1 w s numbers → numbers.length + 2 < 2 ^ 32 →
        ∃ c ∈ s.m_clientList, c.address = created.address ∧
          c.currentPacketNumber = numbers.length + 2 ∧
          sentTo created.address w0 w1 ++ numbers = List.range' 1 (numbers.length + 1)) ∧
    ∀ c ∈ s0.m_clientList, ∃ numbers, CreatedThenIssued c.address w0 s0 numbers ∧
      (numbers.length + 2 < 2 ^ 32 →
        c.currentPacketNumber = numbers.length + 2 ∧
        1 :: numbers = List.range' 1 (numbers.length + 1)) := by
  refine ⟨?_, ?_, ?_⟩
  · intro c0 hc0 w s numbers hrun hsmall
    obtain ⟨_, c, hc, hissued⟩ := issuedSince_issuedTo hreach hc0 hrun
    obtain ⟨hcounter, hnumbers, _⟩ := hissued.small hsmall
    refine ⟨c, hc, hissued.1, hcounter, by omega, hnumbers, ?_, ?_, ?_⟩
    · rw [hnumbers]
      exact List.pairwise_lt_range' _ _
    · rw [hnumbers]
      exact List.nodup_range' _ _
    · intro x hx
      rw [hnumbers, List.mem_range'_1] at hx
      omega
  · intro ipAddress portNumber packet w1 s1 resample created hstep hcreated
    obtain ⟨hcounter, hfirst, _⟩ := created_session hstep hcreated
    refine ⟨hcounter, hfirst, ?_⟩
    intro w s numbers hrun hsmall
    have hmem : created ∈ s1.m_clientList := by
      rw [hcreated]
      simp
    obtain ⟨_, c, hc, hissued⟩ :=
      issuedSince_issuedTo (Reachable.dispatch ipAddress portNumber packet hreach hstep)
        hmem hrun
    obtain ⟨hcounter', hnumbers, _⟩ := hissued.small (by rw [hcounter]; omega)
    refine ⟨c, hc, hissued.1, by omega, ?_⟩
    rw [hfirst]
    conv_lhs => rw [hnumbers, hcounter]
    rfl
  · intro c hc
    obtain ⟨numbers, hhistory⟩ := reachable_session_has_history hreach c hc
    refine ⟨numbers, hhistory, ?_⟩
    intro hsmall
    obtain ⟨_, hcounter, hnumbers, _⟩ := history_of_session hc hhistory
    constructor
    · rw [hcounter, counterAfter_small (by omega)]
      omega
    · conv_lhs => rw [hnumbers, range_map_counterAfter_small (by omega)]
      rfl

theorem numbers_issued_to_a_session_are_consecutive_witness :
    Reachable 0 quietPlatform GameServer.fresh ∧
    ∃ created, afterOneJoin.2.m_clientList = GameServer.fresh.m_clientList ++ [created] ∧
      created.currentPacketNumber = 2 ∧
      sentTo created.address quietPlatform afterOneJoin.1 = [1] ∧
      IssuedSince created.address afterOneJoin.1 afterOneJoin.2 afterSecondBroadcast.1
        afterSecondBroadcast.2 [2, 3, 4] ∧
      ∃ c ∈ afterSecondBroadcast.2.m_clientList, c.address = created.address ∧
        c.currentPacketNumber = 5 ∧
        sentTo created.address quietPlatform afterOneJoin.1 ++ [2, 3, 4] =
          List.range' 1 4 := by
  obtain ⟨created, hlist, haddress⟩ := afterOneJoin_created
  obtain ⟨hcounter, hfirst, hlater⟩ :=
    (numbers_issued_to_a_session_are_consecutive 0 quietPlatform GameServer.fresh
      (Reachable.fresh quietPlatform)).2.1 "10.0.0.1" 7 (packetOfType PacketType.TYPE_Join)
      afterOneJoin.1 afterOneJoin.2 false created afterOneJoin_step hlist
  have hrun : IssuedSince created.address afterOneJoin.1 afterOneJoin.2
      afterSecondBroadcast.1 afterSecondBroadcast.2 [2, 3, 4] := by
    rw [haddress]
    exact afterSecondBroadcast_issued
  obtain ⟨c, hc, hca, hcc, hall⟩ :=
    hlater afterSecondBroadcast.1 afterSecondBroadcast.2 [2, 3, 4] hrun (by decide)
  exact ⟨Reachable.fresh quietPlatform, created, hlist, hcounter, hfirst, hrun,
    c, hc, hca, hcc, hall⟩

/-- C18, as the code has it: in every reachable state every packet in the in-flight set of a
session is a Reset packet with the id of that session, and no two packets of the set have
the same number. The session was created by a Join and has had packets issued to it since;
as long as these are fewer than `2 ^ 32 - 2`, so that its counter has not wrapped, the
counter is their count plus 2 and every in-flight number is at least 1 and below the
counter. -/
theorem in_flight_packets_are_resets_of_the_session (n : Nat) (w : Platform) (s : GameServer)
    (hreach : Reachable n w s) (c : ClientInfo) (hc : c ∈ s.m_clientList) :
    (∀ p ∈ c.unacknowledgedPackets,
      p.type = PacketType.TYPE_Reset ∧ p.clientID = c.id) ∧
    c.unacknowledgedPackets.Pairwise (fun a b => a.number ≠ b.number) ∧
    (∃ numbers, CreatedThenIssued c.address w s numbers) ∧
    ∀ numbers, CreatedThenIssued c.address w s numbers → numbers.length + 2 < 2 ^ 32 →
      c.currentPacketNumber = numbers.length + 2 ∧
      ∀ p ∈ c.unacknowledgedPackets, 1 ≤ p.number ∧ p.number < c.currentPacketNumber := by
  obtain ⟨hset, hkind, _, _⟩ := reachable_sessions_in_order hreach c hc
  refine ⟨hkind, hset.imp (fun h => Nat.ne_of_lt h),
    reachable_session_has_history hreach c hc, ?_⟩
  intro numbers hhistory hsmall
  obtain ⟨_, hcounter, hnumbers, hflight⟩ := history_of_session hc hhistory
  have hcounter' : c.currentPacketNumber = numbers.length + 2 := by
    rw [hcounter, counterAfter_small (by omega)]
    omega
  refine ⟨hcounter', ?_⟩
  intro p hp
  rcases hflight p hp with hone | hnew
  · omega
  · rw [hnumbers, range_map_counterAfter_small (by omega), List.mem_range'_1] at hnew
    omega

theorem in_flight_packets_are_resets_of_the_session_witness :
    (∃ m, Reachable m afterSecondBroadcast.1 afterSecondBroadcast.2) ∧
    afterSecondBroadcast.2.m_clientList.map
        (fun c => (c.address, c.currentPacketNumber,
          c.unacknowledgedPackets.map (fun p => p.number))) =
      [(("10.0.0.1", 7), 5, [1, 3])] ∧
    ∀ c ∈ afterSecondBroadcast.2.m_clientList,
      CreatedThenIssued c.address afterSecondBroadcast.1 afterSecondBroadcast.2 [2, 3, 4] ∧
      c.currentPacketNumber = 3 + 2 ∧
      ∀ p ∈ c.unacknowledgedPackets,
        p.type = PacketType.TYPE_Reset ∧ p.clientID = c.id ∧
        1 ≤ p.number ∧ p.number < c.currentPacketNumber := by
  obtain ⟨m, hm⟩ := afterSecondBroadcast_reachable
  have hstate : afterSecondBroadcast.2.m_clientList.map
      (fun c => (c.address, c.currentPacketNumber,
        c.unacknowledgedPackets.map (fun p => p.number))) =
      [(("10.0.0.1", 7), 5, [1, 3])] := by decide!
  refine ⟨⟨m, hm⟩, hstate, ?_⟩
  intro c hc
  have haddress : c.address = ("10.0.0.1", 7) := by
    have hmem := List.mem_map_of_mem
      (fun c : ClientInfo => (c.address, c.currentPacketNumber,
        c.unacknowledgedPackets.map (fun p => p.number))) hc
    rw [hstate, List.mem_singleton] at hmem
    exact congrArg Prod.fst hmem
  have hhistory : CreatedThenIssued c.address afterSecondBroadcast.1 afterSecondBroadcast.2
      [2, 3, 4] := by
    rw [haddress]
    exact afterSecondBroadcast_history
  obtain ⟨hkind, _, _, hbelow⟩ :=
    in_flight_packets_are_resets_of_the_session m afterSecondBroadcast.1
      afterSecondBroadcast.2 hm c hc
  obtain ⟨hcounter, hnumbers⟩ := hbelow [2, 3, 4] hhistory (by decide)
  exact ⟨hhistory, hcounter, fun p hp => ⟨(hkind p hp).1, (hkind p hp).2, hnumbers p hp⟩⟩

/-! ## Claim on `ResetClient` -/

/-- C14, as the code has it: `ResetClient` on any session `c`, when the send succeeds, sends
exactly one packet, to the address of `c`: a Reset packet, which is guaranteed, with the id
of `c`, numbered with the counter of `c` before the call, carrying the server's "it" id
after the call and the position, velocity and orientation of `c` after the call. The counter
of `c` is incremented once as an `unsigned int`: it is its value plus one when that is below
`2 ^ 32`, and 0 otherwise. The packet is inserted into the in-flight set of `c`, which is a
set ordered by number: it is an element of the set afterwards when no in-flight packet had
its number, and the set is left as it was when one had. For a live session of a reachable
state to which fewer than `2 ^ 32 - 3` packets have been issued since the Reset of its
creation, so that its counter has not wrapped, the counter is its value plus one and the
packet is an element of the set. A Join from an unknown address so leaves the session it
creates with counter 2 and with the in-flight set that holds exactly the Reset numbered 1. -/
theorem reset_client_sends_one_numbered_reset (w : Platform) (hw : SendsSucceed w)
    (itPlayerID : Nat) (c : ClientInfo) :
    (∃ w' itPlayerID' c' packet,
      ResetClient w itPlayerID c = Except.ok (w', itPlayerID', c') ∧
      w'.sent = w.sent ++ [⟨packet, c.ipAddress, c.portNumber⟩] ∧
      packet.type = PacketType.TYPE_Reset ∧ packet.IsGuaranteed = true ∧
      packet.clientID = c.id ∧ packet.number = c.currentPacketNumber ∧
      packet.data.reset =
        ⟨itPlayerID', c'.xPosition, c'.yPosition, c'.xVelocity, c'.yVelocity,
          c'.orientationDegrees⟩ ∧
      c'.identity = c.identity ∧
      c'.currentPacketNumber = (c.currentPacketNumber + 1) % 2 ^ 32 ∧
      (c.currentPacketNumber + 1 < 2 ^ 32 →
        c'.currentPacketNumber = c.currentPacketNumber + 1) ∧
      c'.unacknowledgedPackets = setInsert packet c.unacknowledgedPackets ∧
      ((∀ q ∈ c.unacknowledgedPackets, q.number ≠ c.currentPacketNumber) →
        packet ∈ c'.unacknowledgedPackets) ∧
      (IsPacketSet c.unacknowledgedPackets →
        (∃ q ∈ c.unacknowledgedPackets, q.number = c.currentPacketNumber) →
        c'.unacknowledgedPackets = c.unacknowledgedPackets) ∧
      ∀ (s : GameServer) (numbers : List Nat), c ∈ s.m_clientList →
        CreatedThenIssued c.address w s numbers → numbers.length + 3 < 2 ^ 32 →
        c'.currentPacketNumber = c.currentPacketNumber + 1 ∧
        packet ∈ c'.unacknowledgedPackets) ∧
    ∀ (s : GameServer) (ipAddress : String) (portNumber : Nat) (join : MidtermPacket),
      FindClientByAddress s.m_clientList ipAddress portNumber = none →
      join.type = PacketType.TYPE_Join →
      ∃ w' s' client packet,
        dispatchReceived w s ipAddress portNumber join = Except.ok (w', s', false) ∧
        s'.m_clientList = s.m_clientList ++ [client] ∧
        w'.sent = w.sent ++ [⟨packet, ipAddress, portNumber⟩] ∧
        client.currentPacketNumber = 2 ∧ client.unacknowledgedPackets = [packet] ∧
        packet.type = PacketType.TYPE_Reset ∧ packet.number = 1 ∧
        packet.clientID = client.id := by
  constructor
  · obtain ⟨w', c', packet, hreset, hsent, _, _, htype, hid, hnumber, hdata, hclient⟩ :=
      ResetClient_sends hw itPlayerID c
    have hcounter : c'.currentPacketNumber = (c.currentPacketNumber + 1) % 2 ^ 32 := by
      rw [hclient]
    have hset : c'.unacknowledgedPackets = setInsert packet c.unacknowledgedPackets := by
      rw [hclient]
    refine ⟨w', _, c', packet, hreset, hsent, htype, ?_, hid, hnumber, hdata, ?_, hcounter, ?_,
      hset, ?_, ?_, ?_⟩
    · simp [MidtermPacket.IsGuaranteed, htype]
    · rw [hclient]
      rfl
    · intro hsmall
      rw [hcounter, Nat.mod_eq_of_lt hsmall]
    · intro hfresh
      rw [hset]
      exact mem_setInsert_self (fun q hq => hnumber ▸ hfresh q hq)
    · intro hpackets hmem
      rw [hset]
      exact setInsert_of_number_mem hpackets (hnumber ▸ hmem)
    · intro s numbers hmem hhistory hsmall
      obtain ⟨_, hvalue, hnumbers, hflight⟩ := history_of_session hmem hhistory
      have hvalue' : c.currentPacketNumber = numbers.length + 2 := by
        rw [hvalue, counterAfter_small (by omega)]
        omega
      constructor
      · rw [hcounter]
        exact Nat.mod_eq_of_lt (by omega)
      · rw [hset]
        refine mem_setInsert_self ?_
        intro q hq
        rw [hnumber]
        rcases hflight q hq with hone | hnew
        · omega
        · rw [hnumbers, range_map_counterAfter_small (by omega), List.mem_range'_1] at hnew
          omega
  · intro s ipAddress portNumber join hunknown hkind
    obtain ⟨w', client, reset, hdispatch, hsent, _, _, htype, hid, hnumber, _, _, hcounter,
      hset, _, _⟩ := dispatchReceived_join_sends hw hunknown hkind
    exact ⟨w', _, client, reset, hdispatch, rfl, hsent, hcounter, hset, htype, hnumber, hid⟩

theorem reset_client_sends_one_numbered_reset_witness :
    SendsSucceed afterSecondBroadcast.1 ∧
    afterSecondBroadcast.2.m_clientList.map
        (fun c => (c.currentPacketNumber, c.unacknowledgedPackets.map (fun p => p.number))) =
      [(5, [1, 3])] ∧
    ∀ c ∈ afterSecondBroadcast.2.m_clientList,
      ∃ w' itPlayerID' c' packet,
        ResetClient afterSecondBroadcast.1 afterSecondBroadcast.2.m_itPlayerID c =
          Except.ok (w', itPlayerID', c') ∧
        w'.sent = afterSecondBroadcast.1.sent ++ [⟨packet, c.ipAddress, c.portNumber⟩] ∧
        packet.type = PacketType.TYPE_Reset ∧ packet.number = 5 ∧
        c'.currentPacketNumber = 6 ∧ packet ∈ c'.unacknowledgedPackets := by
  have hstate : afterSecondBroadcast.2.m_clientList.map
      (fun c => (c.currentPacketNumber, c.unacknowledgedPackets.map (fun p => p.number))) =
      [(5, [1, 3])] := by decide!
  have haddresses : afterSecondBroadcast.2.m_clientList.map ClientInfo.address =
      [("10.0.0.1", 7)] := by decide!
  refine ⟨fun _ => le_refl _, hstate, ?_⟩
  intro c hc
  have hfive : c.currentPacketNumber = 5 := by
    have hmem := List.mem_map_of_mem
      (fun c : ClientInfo =>
        (c.currentPacketNumber, c.unacknowledgedPackets.map (fun p => p.number))) hc
    rw [hstate, List.mem_singleton] at hmem
    exact congrArg Prod.fst hmem
  have haddress : c.address = ("10.0.0.1", 7) := by
    have hmem := List.mem_map_of_mem ClientInfo.address hc
    rw [haddresses, List.mem_singleton] at hmem
    exact hmem
  obtain ⟨w', it', c', packet, hreset, hsent, htype, _, _, hnumber, _, _, _, _, _, _, _,
    hlive⟩ :=
    (reset_client_sends_one_numbered_reset afterSecondBroadcast.1 (fun _ => le_refl _)
      afterSecondBroadcast.2.m_itPlayerID c).1
  obtain ⟨hnext, hstored⟩ := hlive afterSecondBroadcast.2 [2, 3, 4] hc
    (haddress ▸ afterSecondBroadcast_history) (by decide)
  exact ⟨w', it', c', packet, hreset, hsent, htype, hnumber.trans hfive,
    by rw [hnext, hfive], hstored⟩

/-- C14: the counter does not increase by one, and the packet is not added. A client joins
the constructed server and never acknowledges; after `2 ^ 32 - 4` further ticks of zero
length the counter of its session stands at `2 ^ 32 - 1`, and `ResetClient` on the session
sends the Reset with that number and leaves the counter at 0. And once the counter of a
session has wrapped to 1 while its Reset numbered 1 is still in flight, `ResetClient` sends a
second Reset numbered 1, here with "it" id 2 and position (300, 300), and the in-flight set
is what it was: the packet that was sent is not in it. -/
theorem reset_client_wraps_the_counter_and_drops_the_packet :
    (∃ w c w' itPlayerID' c',
      runTicks 4 (joinTick :: quietTicks 4294967292 0) quietPlatform GameServer.fresh =
        Run.finished (w, ⟨2, [c], 1⟩) ∧
      c.currentPacketNumber = 4294967295 ∧
      ResetClient w 1 c = Except.ok (w', itPlayerID', c') ∧
      c'.currentPacketNumber = 0) ∧
    (match ResetClient quietPlatform 2 (sessionAt 1 7 1 [resetNumbered 1 1]) with
      | Except.ok (w, _, client) =>
        (w.sent.map (fun d =>
            (d.portNumber, d.packet.type, d.packet.number, d.packet.data.reset)),
          client.currentPacketNumber,
          client.unacknowledgedPackets.map (fun p => (p.number, p.data.reset)))
      | Except.error _ => ([], 0, [])) =
      ([(7, PacketType.TYPE_Reset, 1, ⟨2, 300, 300, 0, 0, 0⟩)], 2,
        [(1, ⟨0, 0, 0, 0, 0, 0⟩)]) := by
  constructor
  · obtain ⟨w, c, p, hrun, hw, _, hcounter, _, _, _⟩ := join_then_quiet_ticks 4294967292
    have hmax : c.currentPacketNumber = 4294967295 := by
      rw [hcounter]
      norm_num
    obtain ⟨w', c', packet, hreset, _, _, _, _, _, _, _, hclient⟩ :=
      ResetClient_sends hw 1 c
    refine ⟨w, c, w', _, c', hrun, hmax, hreset, ?_⟩
    rw [hclient]
    show (c.currentPacketNumber + 1) % 2 ^ 32 = 0
    rw [hmax]
    norm_num
  · decide!

/-! ## Retransmissions over ticks -/

